import Mathlib

/-!
# PropWare: the `PWEdit` terminal editor

A shallow embedding of `PropWare/hmi/pwedit.h` and of the pieces of
`PropWare/PropWare.h` it relies on.  The configuration of `PropWare/uart.h`,
the cursor addressing and `put_char` of `PropWare/hmi/output/hd44780.h` and
`puts` of `PropWare/spi.h` follow the editor, each with its own conventions.

Conventions of the embedding.

* `unsigned int` and `size_t` are the 32-bit words of the Propeller target:
  natural numbers, with every addition and subtraction reduced modulo `2^32`
  (`uadd`, `usub`).
* `char` is `Char`; a `StringBuilder` is the list of the characters it holds.
* The `std::list` iterator `m_selectedLine` is the signed distance from
  `m_lines.cbegin()`.  Dereferencing an iterator that does not designate an
  element is undefined in C++; the embedding reads the field `stray` there, a
  function about which nothing is assumed.
* The `Printer` is the list of characters written so far, the `Scanner` the
  list of keystrokes still to come; `get_char` on an exhausted scanner blocks
  for ever, which the embedding renders as `none`.
* The optional `m_debugger` printer is absent (`NULL`, the constructor default).
* The characters `read_command_input` stores are kept as a list, the terminator
  last.  A command that does not fit `_buffer[64]` overruns the array, which
  C++ leaves undefined: statements about `command` on an arbitrary command
  carry the hypothesis that it fits.
* Loops whose end depends on a collaborator take a `fuel` argument and return
  `none` when it runs out.
* `FileReader`, `FileWriter`, `Scanner`, `Printer` and `StringBuilder` are not
  among the sources; they are modelled from the way `pwedit.h` uses them and
  from the words of the specification.
-/

namespace PropWare

/-! ## `PropWare.h` -/

/-- `typedef int ErrorCode`. -/
abbrev ErrorCode := Int

/-- Value of `PWEdit::NO_ERROR`, the first enumerator. -/
def NO_ERROR : ErrorCode := 0

def NULL_TERMINATOR : Char := Char.ofNat 0
def BELL : Char := Char.ofNat 7
def BACKSPACE : Char := Char.ofNat 8
def NEWLINE : Char := Char.ofNat 10
def CARRIAGE_RETURN : Char := Char.ofNat 13
def ESCAPE : Char := Char.ofNat 27
def DELETE : Char := Char.ofNat 127

/-- Number of values of an `unsigned int`. -/
def UINT_RANGE : Nat := 4294967296

/-- Sum of two `unsigned int`. -/
def uadd (a b : Nat) : Nat := (a + b) % 4294967296

/-- Difference of two `unsigned int`, wrapping below zero. -/
def usub (a b : Nat) : Nat := (4294967296 + a % 4294967296 - b % 4294967296) % 4294967296

/-! ## Collaborators -/

/-- Seek origin of `File::open`; `save` only uses `File::BEG`. -/
inductive SeekDir where
  | BEG
  | CUR
  | END
  deriving DecidableEq, Repr

/-- One call received by the `FileWriter` collaborator. -/
inductive WriterCall where
  | openAt (offset : Int) (way : SeekDir)
  | trim
  | safe_puts (string : List Char)
  | close
  deriving DecidableEq, Repr

/-- Modelled from the spec: the `FileWriter` collaborator (`filewriter.h` is not
among the sources), "a writer exposing open-at-byte-offset /
truncate-from-current-position / append-line / close with propagated error
codes".  It is the record of the calls received so far, oldest first, and
`respond`, the error code with which it answers the latest call of a history. -/
structure FileWriter where
  calls : List WriterCall
  respond : List WriterCall → ErrorCode

/-- Perform one call on the writer: the call is recorded and answered. -/
def FileWriter.call (w : FileWriter) (c : WriterCall) : ErrorCode × FileWriter :=
  (w.respond (w.calls ++ [c]), { w with calls := w.calls ++ [c] })

/-- Modelled from the spec: the `FileReader` collaborator (`filereader.h` is not
among the sources), "a reader exposing open / close / end-of-input /
peek-next-character / get-character with propagated error codes".  `content`
holds the characters between the read position and the end of the input.  What
the reader does when asked for a character at the end of the input is not
fixed by the spec, so it is left free: `pastEndCode` is the code
`safe_get_char` returns there, `pastEndChar` the character it stores, and
`pastEndPeek` the character `peek` returns. -/
structure FileReader where
  content : List Char
  openCode : ErrorCode
  pastEndCode : ErrorCode
  pastEndChar : Char
  pastEndPeek : Char

def FileReader.eof (r : FileReader) : Bool := r.content.isEmpty

def FileReader.peek (r : FileReader) : Char :=
  match r.content with
  | [] => r.pastEndPeek
  | c :: _ => c

def FileReader.safe_get_char (r : FileReader) : ErrorCode × Char × FileReader :=
  match r.content with
  | [] => (r.pastEndCode, r.pastEndChar, r)
  | c :: rest => (NO_ERROR, c, { r with content := rest })

/-! ## The editor state -/

/-- `PWEdit::Direction`. -/
inductive Direction where
  | UP
  | DOWN
  | LEFT
  | RIGHT
  deriving DecidableEq, Repr

def CURSOR : Char := '#'
def SAVE_CHAR : Char := 'w'
def EXIT_CHAR : Char := 'q'
def EXIT_NO_SAVE : Char := '!'
def COMMAND_START : Char := ':'
def TO_LINE_START : Char := '0'
def TO_LINE_END : Char := '$'
def TO_FILE_START : Char := 'g'
def TO_FILE_END : Char := 'G'
def PADDING : Nat := 3

/-- Capacity of `char _buffer[64]` in `command`. -/
def COMMAND_BUFFER_SIZE : Nat := 64

/-- Data members of `class PWEdit`, with the printer output and scanner input
made explicit. -/
structure PWEdit where
  inFile : FileReader
  outFile : FileWriter
  printer : List Char
  scanner : List Char
  lines : List (List Char)
  stray : Int → List Char
  columns : Nat
  rows : Nat
  termRow : Nat
  termColumn : Nat
  selectedLine : Int
  selectedLineNumber : Nat
  selectedColumnInLine : Nat
  desiredColumnInLine : Nat
  firstLineDisplayed : Nat
  firstColumnDisplayed : Nat
  modified : Bool

namespace PWEdit

/-- `StringBuilder::get_size`. -/
def get_size (line : List Char) : Nat := line.length

/-- `*iterator` for a line iterator at distance `it` from `cbegin()`. -/
def deref (s : PWEdit) (it : Int) : List Char :=
  if 0 ≤ it ∧ it < s.lines.length then s.lines.getD it.toNat [] else s.stray it

/-- `m_lines.size()`. -/
def size (s : PWEdit) : Nat := s.lines.length % 4294967296

/-- `*m_printer << c` for a character. -/
def put (s : PWEdit) (c : Char) : PWEdit := { s with printer := s.printer ++ [c] }

/-- `*m_printer << string`. -/
def puts (s : PWEdit) (string : List Char) : PWEdit := { s with printer := s.printer ++ string }

/-- `*m_printer << n` for an unsigned number: its decimal digits. -/
def put_uint (s : PWEdit) (n : Nat) : PWEdit := { s with printer := s.printer ++ Nat.toDigits 10 n }

/-- The editor after the calls made on `m_inFile` have left the reader as `r`. -/
def set_inFile (s : PWEdit) (r : FileReader) : PWEdit := { s with inFile := r }

/-- `m_lines.push_back(line)`. -/
def push_back (s : PWEdit) (line : List Char) : PWEdit := { s with lines := s.lines ++ [line] }

/-- The editor after `m_scanner->get_char()` has delivered a keystroke: `rest`
are the keystrokes still to come. -/
def set_scanner (s : PWEdit) (rest : List Char) : PWEdit := { s with scanner := rest }

/-- `static bool not_enter_key (const char c)`. -/
def not_enter_key (c : Char) : Bool :=
  c != CARRIAGE_RETURN && c != NEWLINE && c != NULL_TERMINATOR

/-- Characters of `ESCAPE << '[' << row << ';' << column << 'H'`. -/
def cursor_sequence (row column : Nat) : List Char :=
  ESCAPE :: '[' :: (Nat.toDigits 10 row ++ ';' :: (Nat.toDigits 10 column ++ ['H']))

/-- `void move_cursor (row, column)`. -/
def move_cursor (s : PWEdit) (row column : Nat) : PWEdit :=
  puts s (cursor_sequence row column)

/-- First loop of `print_line_at_row`, entered with `column` and at most `n`
rounds left (`n = m_columns - column`): the characters written and the value
of `column` when the loop is left. -/
def print_line_chars (line : List Char) (startingColumnNumber charactersInLine : Nat) :
    Nat → Nat → List Char × Nat
  | 0, column => ([], column)
  | n + 1, column =>
    if uadd column startingColumnNumber < charactersInLine then
      let r := print_line_chars line startingColumnNumber charactersInLine n (column + 1)
      (line.getD (uadd column startingColumnNumber) NULL_TERMINATOR :: r.1, r.2)
    else ([], column)

/-- `void print_line_at_row (startingColumnNumber, lineIterator, row)`. -/
def print_line_at_row (s : PWEdit) (startingColumnNumber : Nat) (lineIterator : Int)
    (row : Nat) : PWEdit :=
  let charactersInLine := get_size (s.deref lineIterator) % 65536
  let s1 := move_cursor s row 1
  let r := print_line_chars (s.deref lineIterator) startingColumnNumber charactersInLine
    s.columns 0
  -- `while (column++ < m_columns) << ' '`
  puts (puts s1 r.1) (List.replicate (s.columns - r.2) ' ')

/-- Row loop of `display_file_from`: `n` rows left, the next one being `row`. -/
def display_rows (startingColumnNumber : Nat) : Nat → PWEdit → Int → Nat → PWEdit
  | 0, s, _, _ => s
  | n + 1, s, lineIterator, row =>
    display_rows startingColumnNumber n
      (print_line_at_row s startingColumnNumber lineIterator row) (lineIterator + 1) (row + 1)

/-- `void display_file_from (startingLineNumber, startingColumnNumber)`. -/
def display_file_from (s : PWEdit) (startingLineNumber startingColumnNumber : Nat) : PWEdit :=
  let s1 := display_rows startingColumnNumber s.rows s (startingLineNumber : Int) 1
  { s1 with firstLineDisplayed := startingLineNumber }

/-- Column loop of `clear_row`: `col` runs from `0` to `m_columns` inclusive. -/
def clear_row (s : PWEdit) (row : Nat) : PWEdit :=
  puts (move_cursor s row 1) (List.replicate (s.columns + 1) ' ')

/-- `bool cursor_at_end () const`. -/
def cursor_at_end (s : PWEdit) : Bool :=
  decide (usub (get_size (s.deref s.selectedLine)) 1 ≤ s.selectedColumnInLine)

/-! ### Jumps -/

/-- `void to_file_start ()`. -/
def to_file_start (s : PWEdit) : PWEdit :=
  let redrawNecessary := s.firstLineDisplayed != 0 || s.firstColumnDisplayed != 0
  let s1 := { s with
    firstLineDisplayed := 0
    firstColumnDisplayed := 0
    selectedLineNumber := 0
    selectedLine := 0
    desiredColumnInLine := 0
    selectedColumnInLine := 0
    termRow := 1
    termColumn := 1 }
  let s2 := if redrawNecessary then display_file_from s1 0 0 else s1
  move_cursor s2 s2.termRow s2.termColumn

/-- `void to_file_end ()`.  `m_lines.back()` is the element before `cend()`. -/
def to_file_end (s : PWEdit) : PWEdit :=
  let back := s.deref ((s.lines.length : Int) - 1)
  let lastLineNotShown := s.firstLineDisplayed != usub s.size s.rows
  let lastColumnNotShown := decide (s.firstColumnDisplayed > usub (get_size back) 1)
  let redrawNecessary := lastLineNotShown || lastColumnNotShown
  let firstColumnDisplayed :=
    if get_size back > s.columns then usub (get_size back) s.columns else 0
  let lastColumn :=
    if get_size back > s.columns then usub s.columns 1 else get_size back % 4294967296
  let s1 := { s with
    firstLineDisplayed := usub s.size s.rows
    firstColumnDisplayed := firstColumnDisplayed
    selectedLine := (s.lines.length : Int) - 1
    selectedLineNumber := usub s.size 1
    selectedColumnInLine := usub (get_size back) 1
    desiredColumnInLine := usub (get_size back) 1
    termRow := s.rows
    termColumn := lastColumn }
  let s2 :=
    if redrawNecessary then display_file_from s1 s1.firstLineDisplayed s1.firstColumnDisplayed
    else s1
  move_cursor s2 s2.termRow s2.termColumn

/-- `void to_line_start ()`. -/
def to_line_start (s : PWEdit) : PWEdit :=
  let s3 :=
    if s.selectedColumnInLine != 0 then
      let s1 :=
        if s.firstColumnDisplayed != 0 then
          display_file_from { s with firstColumnDisplayed := 0 } s.firstLineDisplayed 0
        else s
      let s2 := { s1 with termColumn := 1 }
      { move_cursor s2 s2.termRow s2.termColumn with selectedColumnInLine := 0 }
    else s
  { s3 with desiredColumnInLine := s3.selectedColumnInLine }

/-- `void to_line_end ()`. -/
def to_line_end (s : PWEdit) : PWEdit :=
  let s3 :=
    if !s.cursor_at_end then
      let lastColumnOfLineVisibleOnScreen := uadd s.firstColumnDisplayed s.columns
      let lineLength := get_size (s.deref s.selectedLine) % 65536
      let lineScrollsPastVisibleColumns := decide (lineLength > lastColumnOfLineVisibleOnScreen)
      let s1 :=
        if lineScrollsPastVisibleColumns then
          display_file_from
            { s with firstColumnDisplayed := usub lineLength s.columns, termColumn := s.columns }
            s.firstLineDisplayed (usub lineLength s.columns)
        else { s with termColumn := usub lineLength s.firstColumnDisplayed }
      { move_cursor s1 s1.termRow s1.termColumn with selectedColumnInLine := usub lineLength 1 }
    else s
  { s3 with desiredColumnInLine := s3.selectedColumnInLine }

/-! ### Column selection on a vertical move -/

/-- `bool trim_column_selection_to_fit (const Direction direction)`: the flag
returned and the state left. -/
def trim_column_selection_to_fit (s : PWEdit) (direction : Direction) : Bool × PWEdit :=
  match direction with
  | Direction.LEFT => (false, s)
  | Direction.RIGHT => (false, s)
  | _ =>
    let tempIterator :=
      if direction = Direction.UP then s.selectedLine - 1 else s.selectedLine + 1
    let lineLength := get_size (s.deref tempIterator) % 4294967296
    let lineShorterThanSelection := decide (lineLength ≤ s.selectedColumnInLine)
    if lineShorterThanSelection then
      let s1 := { s with selectedColumnInLine := usub lineLength 1 }
      if s1.firstColumnDisplayed > s1.selectedColumnInLine then
        (true, { s1 with firstColumnDisplayed := s1.selectedColumnInLine, termColumn := 1 })
      else
        (false, { s1 with
          termColumn := uadd (usub s1.selectedColumnInLine s1.firstColumnDisplayed) 1 })
    else (false, s)

/-- `bool expand_column_selection_to_desired (direction, previousColumnSelected)`:
the flag returned and the state left. -/
def expand_column_selection_to_desired (s : PWEdit) (direction : Direction)
    (previousColumnSelected : Nat) : Bool × PWEdit :=
  match direction with
  | Direction.LEFT => (false, s)
  | Direction.RIGHT => (false, s)
  | _ =>
    let tempIterator :=
      if direction = Direction.UP then s.selectedLine - 1 else s.selectedLine + 1
    let lineLength := get_size (s.deref tempIterator) % 4294967296
    let expansionIsPossible := decide (usub lineLength 1 > previousColumnSelected)
    if expansionIsPossible then
      let expansionIsDesired := s.desiredColumnInLine != previousColumnSelected
      if expansionIsDesired then
        let s1 :=
          if lineLength ≥ s.desiredColumnInLine then
            { s with selectedColumnInLine := s.desiredColumnInLine }
          else { s with selectedColumnInLine := usub lineLength 1 }
        let lastColumnDisplayed := uadd s1.firstColumnDisplayed s1.columns
        if lastColumnDisplayed < s1.selectedColumnInLine then
          (true, { s1 with
            firstColumnDisplayed := usub s1.selectedColumnInLine s1.columns
            termColumn := s1.columns })
        else
          (false, { s1 with
            termColumn := uadd (usub s1.selectedColumnInLine s1.firstColumnDisplayed) 1 })
      else (false, s)
    else (false, s)

/-! ### The four moves -/

/-- The statement `if (PADDING > (m_rows - m_termRow) && m_lines.size() >
lastLineDisplayed) ... else ...` of `move_down`, entered with the value of
`redrawNecessary`. -/
def move_down_scroll (s : PWEdit) (redrawNecessary : Bool) : PWEdit :=
  let lastLineDisplayed := uadd s.firstLineDisplayed s.rows
  if PADDING > usub s.rows s.termRow ∧ s.size > lastLineDisplayed then
    let s3 := display_file_from s (uadd s.firstLineDisplayed 1) s.firstColumnDisplayed
    move_cursor s3 s3.termRow s3.termColumn
  else
    let s3 :=
      if redrawNecessary then display_file_from s s.firstLineDisplayed s.firstColumnDisplayed
      else s
    let s4 := { s3 with termRow := uadd s3.termRow 1 }
    move_cursor s4 s4.termRow s4.termColumn

/-- `void move_down ()`. -/
def move_down (s : PWEdit) : PWEdit :=
  if usub s.size 1 ≤ s.selectedLineNumber then
    if usub (get_size (s.deref s.selectedLine)) 1 = s.selectedColumnInLine then put s BELL
    else to_file_end s
  else
    let startingColumnSelection := s.selectedColumnInLine
    let t := trim_column_selection_to_fit s Direction.DOWN
    let e := expand_column_selection_to_desired t.2 Direction.DOWN startingColumnSelection
    let redrawNecessary := t.1 || e.1
    let s5 := move_down_scroll e.2 redrawNecessary
    { s5 with
      selectedLineNumber := uadd s5.selectedLineNumber 1
      selectedLine := s5.selectedLine + 1 }

/-- The statement `if (PADDING >= m_termRow && m_firstLineDisplayed) ... else
...` of `move_up`, entered with the value of `redrawNecessary`. -/
def move_up_scroll (s : PWEdit) (redrawNecessary : Bool) : PWEdit :=
  if PADDING ≥ s.termRow ∧ s.firstLineDisplayed ≠ 0 then
    let s3 := display_file_from s (usub s.firstLineDisplayed 1) s.firstColumnDisplayed
    move_cursor s3 s3.termRow s3.termColumn
  else
    let s3 :=
      if redrawNecessary then display_file_from s s.firstLineDisplayed s.firstColumnDisplayed
      else s
    let s4 := { s3 with termRow := usub s3.termRow 1 }
    move_cursor s4 s4.termRow s4.termColumn

/-- `void move_up ()`. -/
def move_up (s : PWEdit) : PWEdit :=
  if s.selectedLineNumber = 0 then
    if s.selectedColumnInLine ≠ 0 then to_file_start s
    else put s BELL
  else
    let startingColumnSelection := s.selectedColumnInLine
    let t := trim_column_selection_to_fit s Direction.UP
    let e := expand_column_selection_to_desired t.2 Direction.UP startingColumnSelection
    let redrawNecessary := t.1 || e.1
    let s5 := move_up_scroll e.2 redrawNecessary
    { s5 with
      selectedLineNumber := usub s5.selectedLineNumber 1
      selectedLine := s5.selectedLine - 1 }

/-- `void move_right ()`. -/
def move_right (s : PWEdit) : PWEdit :=
  let s3 :=
    if s.cursor_at_end then put s BELL
    else
      let lastVisibleColumnOfLine := uadd s.firstColumnDisplayed s.columns
      let s2 :=
        if PADDING > usub s.columns s.termColumn
            ∧ get_size (s.deref s.selectedLine) > lastVisibleColumnOfLine then
          let s1 := display_file_from { s with firstColumnDisplayed := uadd s.firstColumnDisplayed 1 }
            s.firstLineDisplayed (uadd s.firstColumnDisplayed 1)
          move_cursor s1 s1.termRow s1.termColumn
        else
          let s1 := { s with termColumn := uadd s.termColumn 1 }
          move_cursor s1 s1.termRow s1.termColumn
      { s2 with selectedColumnInLine := uadd s2.selectedColumnInLine 1 }
  { s3 with desiredColumnInLine := s3.selectedColumnInLine }

/-- `void move_left ()`. -/
def move_left (s : PWEdit) : PWEdit :=
  let s3 :=
    if s.selectedColumnInLine = 0 then put s BELL
    else
      let s2 :=
        if PADDING ≥ s.termColumn ∧ s.firstColumnDisplayed ≠ 0 then
          let s1 := display_file_from { s with firstColumnDisplayed := usub s.firstColumnDisplayed 1 }
            s.firstLineDisplayed (usub s.firstColumnDisplayed 1)
          move_cursor s1 s1.termRow s1.termColumn
        else
          let s1 := { s with termColumn := usub s.termColumn 1 }
          move_cursor s1 s1.termRow s1.termColumn
      { s2 with selectedColumnInLine := usub s2.selectedColumnInLine 1 }
  { s3 with desiredColumnInLine := s3.selectedColumnInLine }

/-- `void move_selection (const Direction direction)`. -/
def move_selection (s : PWEdit) (direction : Direction) : PWEdit :=
  match direction with
  | Direction.DOWN => move_down s
  | Direction.UP => move_up s
  | Direction.RIGHT => move_right s
  | Direction.LEFT => move_left s

/-! ### Saving -/

def trimmingMessage : List Char := "Trimming...".toList

def savingMessage : List Char := "Saving...  ".toList

/-- `sizeof(savingMessage + 1)`: the operand is a `const char *`, whose size is
four bytes on the Propeller. -/
def SIZEOF_SAVING_MESSAGE_PLUS_1 : Nat := 4

/-- Loop `for (auto line : this->m_lines)` of `save`, over the lines still to
be written; `check_errors` leaves at the first non-zero code. -/
def save_lines : List (List Char) → Nat → PWEdit → ErrorCode × PWEdit
  | [], _, s => (NO_ERROR, s)
  | line :: rest, lineNumber, s =>
    let s1 := put_uint (move_cursor s s.rows SIZEOF_SAVING_MESSAGE_PLUS_1) lineNumber
    let r := s1.outFile.call (WriterCall.safe_puts line)
    let s2 := { s1 with outFile := r.2 }
    if r.1 ≠ 0 then (r.1, s2) else save_lines rest (uadd lineNumber 1) s2

/-- `PropWare::ErrorCode save ()`. -/
def save (s : PWEdit) : ErrorCode × PWEdit :=
  if s.modified then
    let r1 := s.outFile.call (WriterCall.openAt 0 SeekDir.BEG)
    let s1 := { s with outFile := r1.2 }
    if r1.1 ≠ 0 then (r1.1, s1)
    else
      let s2 := puts (move_cursor s1 s1.rows 1) trimmingMessage
      let r2 := s2.outFile.call WriterCall.trim
      let s3 := { s2 with outFile := r2.2 }
      if r2.1 ≠ 0 then (r2.1, s3)
      else
        let s4 := puts (move_cursor s3 s3.rows 1) savingMessage
        let r3 := save_lines s4.lines 1 s4
        if r3.1 ≠ 0 then r3
        else
          let r4 := r3.2.outFile.call WriterCall.close
          let s5 := { r3.2 with outFile := r4.2 }
          if r4.1 ≠ 0 then (r4.1, s5)
          else (NO_ERROR, { s5 with modified := false })
  else (NO_ERROR, s)

/-! ### Command mode -/

/-- `void read_command_input (char _buffer[])`, by recursion on the keystrokes
to come: the characters stored from `_buffer[0]` on (the terminator is the
last of them) and the state left.  `none` when the keystrokes run out before a
terminator. -/
def read_command_input : List Char → PWEdit → Option (List Char × PWEdit)
  | [], _ => none
  | c :: rest, s =>
    if not_enter_key c then
      (read_command_input rest (put (set_scanner s rest) c)).map (fun r => (c :: r.1, r.2))
    else some ([c], set_scanner s rest)

/-- Loop `do c = get_char(); while (not_enter_key(c))` of `command`. -/
def wait_for_enter_key : List Char → PWEdit → Option PWEdit
  | [], _ => none
  | c :: rest, s =>
    if not_enter_key c then wait_for_enter_key rest (set_scanner s rest)
    else some (set_scanner s rest)

/-- `void rewrite_last_line () const`. -/
def rewrite_last_line (s : PWEdit) : PWEdit :=
  let lastLineNumberDisplayed := usub (uadd s.firstLineDisplayed s.rows) 1
  -- `for (i = m_selectedLineNumber; i < lastLineNumberDisplayed; ++i) ++iterator`
  let iterator := s.selectedLine + ((lastLineNumberDisplayed - s.selectedLineNumber : Nat) : Int)
  print_line_at_row s s.firstColumnDisplayed iterator s.rows

def unsavedChangesMessage : List Char := "UNSAVED CHANGES".toList

/-- Part of `command` from `if (EXIT_CHAR == nextCharacter[0])` to the end;
`next` is the offset of `nextCharacter` in `_buffer`.  The result is the code
returned, the value left in `exit`, and the state. -/
def command_exit (buffer : List Char) (next : Nat) (exit : Bool) (s : PWEdit) :
    Option (ErrorCode × Bool × PWEdit) :=
  let r : Option (Bool × PWEdit) :=
    if buffer.getD next NULL_TERMINATOR = EXIT_CHAR then
      if s.modified then
        if buffer.getD (next + 1) NULL_TERMINATOR = EXIT_NO_SAVE then some (true, s)
        else
          let s1 := puts (move_cursor (clear_row s s.rows) s.rows 1) unsavedChangesMessage
          (wait_for_enter_key s1.scanner s1).map (fun s2 => (exit, s2))
      else some (true, s)
    else some (exit, s)
  r.map (fun r =>
    let s3 := rewrite_last_line r.2
    (NO_ERROR, r.1, move_cursor s3 s3.termRow s3.termColumn))

/-- `PropWare::ErrorCode command (bool &exit)`: the code returned, the value
left in `exit`, and the state; `none` when the scanner runs dry first. -/
def command (s : PWEdit) (exit : Bool) : Option (ErrorCode × Bool × PWEdit) :=
  let s1 := put (move_cursor (clear_row s s.rows) s.rows 1) COMMAND_START
  match read_command_input s1.scanner s1 with
  | none => none
  | some (buffer, s2) =>
    if buffer.getD 0 NULL_TERMINATOR = SAVE_CHAR then
      let r := save s2
      if r.1 ≠ 0 then some (r.1, exit, r.2)
      else command_exit buffer 1 exit r.2
    else command_exit buffer 0 exit s2

/-! ### Loading -/

/-- The test `32 <= c && c <= 127` under which `read_in_file` keeps a character. -/
def accepted (c : Char) : Bool := decide (32 ≤ c.toNat ∧ c.toNat ≤ 127)

/-- Loop `do ... while ('\r' != c && '\n' != c)` of `read_in_file` with `fuel`
rounds allowed: the code of the failed `safe_get_char` or `NO_ERROR`, the
reader, and the line built.  `none` when the fuel does not suffice. -/
def read_line : Nat → FileReader → List Char → Option (ErrorCode × FileReader × List Char)
  | 0, _, _ => none
  | fuel + 1, r, line =>
    let g := r.safe_get_char
    if g.1 ≠ 0 then some (g.1, g.2.2, line)
    else
      let c := g.2.1
      let line1 := if accepted c then line ++ [c] else line
      if c ≠ CARRIAGE_RETURN ∧ c ≠ NEWLINE then read_line fuel g.2.2 line1
      else some (NO_ERROR, g.2.2, line1)

/-- Loop `while (!this->m_inFile->eof())` of `read_in_file` with `fuel` rounds
allowed, each round giving the same fuel to the inner loop. -/
def read_lines : Nat → PWEdit → Option (ErrorCode × PWEdit)
  | 0, _ => none
  | fuel + 1, s =>
    if s.inFile.eof then some (NO_ERROR, s)
    else
      match read_line fuel s.inFile [] with
      | none => none
      | some (err, r, line) =>
        if err ≠ 0 then some (err, set_inFile s r)
        else
          -- Munch the \n following a \r
          let g := if r.peek = NEWLINE then r.safe_get_char
            else (NO_ERROR, NEWLINE, r)
          if g.1 ≠ 0 then some (g.1, set_inFile s g.2.2)
          else
            let s1 := push_back (set_inFile s g.2.2) line
            read_lines fuel (put_uint (puts (move_cursor s1 2 1) "Line: ".toList) s1.size)

/-- `PropWare::ErrorCode read_in_file ()`, with `fuel` bounding each loop. -/
def read_in_file (fuel : Nat) (s : PWEdit) : Option (ErrorCode × PWEdit) :=
  if s.inFile.openCode ≠ 0 then some (s.inFile.openCode, s)
  else read_lines fuel s

/-! ### The key loop of `run` -/

/-- The `switch (c)` in the loop of `run`, entered with the value of `exit`:
the code seen by `check_errors` (`NO_ERROR` for every key but the command
key), the value left in `exit`, and the state.  `none` when `command` waits
for keystrokes that never come. -/
def dispatch (s : PWEdit) (exit : Bool) (c : Char) : Option (ErrorCode × Bool × PWEdit) :=
  if c = 'a' ∨ c = 'h' then some (NO_ERROR, exit, move_selection s Direction.LEFT)
  else if c = 's' ∨ c = 'j' then some (NO_ERROR, exit, move_selection s Direction.DOWN)
  else if c = 'd' ∨ c = 'l' then some (NO_ERROR, exit, move_selection s Direction.RIGHT)
  else if c = 'w' ∨ c = 'k' then some (NO_ERROR, exit, move_selection s Direction.UP)
  else if c = TO_FILE_START then some (NO_ERROR, exit, to_file_start s)
  else if c = TO_FILE_END then some (NO_ERROR, exit, to_file_end s)
  else if c = TO_LINE_START then some (NO_ERROR, exit, to_line_start s)
  else if c = TO_LINE_END then some (NO_ERROR, exit, to_line_end s)
  else if c = COMMAND_START then command s exit
  else some (NO_ERROR, exit, s)

/-- One round of the loop of `run`: `c = this->m_scanner->get_char()`, then the
switch.  The loop is entered with `exit` false and every further round is run
only while it still is. -/
def loop_round (s : PWEdit) : Option (ErrorCode × Bool × PWEdit) :=
  match s.scanner with
  | [] => none
  | c :: rest => dispatch (set_scanner s rest) false c

/-- The state after `n` rounds of the loop `do ... while (!exit)`, each of
which returned no error and left `exit` false; `none` when one of them did
not. -/
def loop_rounds : Nat → PWEdit → Option PWEdit
  | 0, s => some s
  | n + 1, s =>
    match loop_round s with
    | none => none
    | some (err, exit, s1) => if err = 0 ∧ exit = false then loop_rounds n s1 else none

/-- The statements of `run` between the load and the loop:
`m_firstLineDisplayed = m_firstColumnDisplayed = (unsigned int) -1` and
`to_file_start()`. -/
def run_start (s : PWEdit) : PWEdit :=
  to_file_start { s with firstLineDisplayed := 4294967295, firstColumnDisplayed := 4294967295 }

/-- The part of the state that command mode has no statement to assign: the
document and where out-of-range iterators lead, the window size, and the eight
cursor members. -/
def document_and_cursor (s : PWEdit) :
    List (List Char) × (Int → List Char) × Nat × Nat × Nat × Nat × Int × Nat × Nat × Nat ×
      Nat × Nat :=
  (s.lines, s.stray, s.columns, s.rows, s.termRow, s.termColumn, s.selectedLine,
    s.selectedLineNumber, s.selectedColumnInLine, s.desiredColumnInLine, s.firstLineDisplayed,
    s.firstColumnDisplayed)

/-- The states in which the loop of `run` reads a key, for the document `doc`:
`run_start` of a state holding `doc` (its other members are whatever the load
left), followed by any number of rounds. -/
def Reachable (doc : List (List Char)) (s : PWEdit) : Prop :=
  ∃ (s0 : PWEdit) (n : Nat), s0.lines = doc ∧ loop_rounds n (run_start s0) = some s

end PWEdit

end PropWare
namespace PropWare

/-! ## Sample collaborators and states -/

/-- A writer that has received no call yet and answers every call with `NO_ERROR`. -/
def FileWriter.willing : FileWriter := { calls := [], respond := fun _ => NO_ERROR }

/-- A reader over `content` which answers a read at the end of the input with
the code `code` and the character `c`, and a peek there with `c`. -/
def FileReader.over (content : List Char) (code : ErrorCode) (c : Char) : FileReader :=
  { content := content, openCode := NO_ERROR, pastEndCode := code, pastEndChar := c,
    pastEndPeek := c }

/-- An editor showing `lines` in a window of `rows` by `columns`, as
`to_file_start` leaves it; nothing written, no keystroke pending. -/
def PWEdit.showing (lines : List (List Char)) (rows columns : Nat) : PWEdit :=
  { inFile := FileReader.over [] 1 NULL_TERMINATOR
    outFile := FileWriter.willing
    printer := []
    scanner := []
    lines := lines
    stray := fun _ => []
    columns := columns
    rows := rows
    termRow := 1
    termColumn := 1
    selectedLine := 0
    selectedLineNumber := 0
    selectedColumnInLine := 0
    desiredColumnInLine := 0
    firstLineDisplayed := 0
    firstColumnDisplayed := 0
    modified := false }

/-- The document `["ab", "abcdefghij"]` in a 2 by 10 window, the cursor on the
last character of line 1. -/
def PWEdit.twoLines : PWEdit :=
  { PWEdit.showing [['a', 'b'], ['a', 'b', 'c', 'd', 'e', 'f', 'g', 'h', 'i', 'j']] 2 10 with
    termRow := 2
    termColumn := 10
    selectedLine := 1
    selectedLineNumber := 1
    selectedColumnInLine := 9
    desiredColumnInLine := 9 }

/-- The state `twoLines` with unsaved changes and the keystrokes `keys` pending. -/
def PWEdit.unsaved (keys : List Char) : PWEdit :=
  { PWEdit.twoLines with modified := true, scanner := keys }

/-- An editor about to load the stream `content`, nothing loaded yet, whose
reader answers a read at the end of the input with code `code` and character
`c`, and a peek there with `p`. -/
def PWEdit.reading (content : List Char) (code : ErrorCode) (c p : Char) : PWEdit :=
  { PWEdit.showing [] 1 1 with
    inFile := { content := content, openCode := NO_ERROR, pastEndCode := code,
                pastEndChar := c, pastEndPeek := p } }

/-- An editor that has loaded `lines`, calibrated to `rows` by `columns`, with
the keystrokes `keys` to come: a state in which `run` reaches the statements
before its loop. -/
def PWEdit.loaded (lines : List (List Char)) (rows columns : Nat) (keys : List Char) : PWEdit :=
  { PWEdit.showing lines rows columns with scanner := keys }

/-- The document `a`, `b`, `c`, `d`, `e` in a 3 by 10 window showing lines 0 to
2, the cursor on line 1. -/
def PWEdit.fiveLines : PWEdit :=
  { PWEdit.showing [['a'], ['b'], ['c'], ['d'], ['e']] 3 10 with
    termRow := 2
    selectedLine := 1
    selectedLineNumber := 1 }

/-- The one-line document `a` in a window of 2 rows by 3 columns, with the line
`z` wherever an iterator leaves the document. -/
def PWEdit.shortDocument : PWEdit :=
  { PWEdit.showing [['a']] 2 3 with stray := fun _ => ['z'] }

/-- A writer that has received no call yet and answers call number `k`
(counted from 0) with the code `e`, every other call with `NO_ERROR`. -/
def FileWriter.failingAt (k : Nat) (e : ErrorCode) : FileWriter :=
  { calls := [], respond := fun h => if h.length = k + 1 then e else NO_ERROR }

end PropWare

namespace PropWare

/-! ## Call sequences on the writer -/

/-- Make the calls of a list on the writer one after the other, stopping after
the first that is answered with a non-zero code: the last code received
(`NO_ERROR` for no call) and the writer. -/
def FileWriter.run (w : FileWriter) : List WriterCall → ErrorCode × FileWriter
  | [] => (NO_ERROR, w)
  | c :: cs => if (w.call c).1 ≠ 0 then w.call c else (w.call c).2.run cs

/-- Modelled from the spec: what one call does to the destination file, given
as its characters and the write position ("open-at-byte-offset /
truncate-from-current-position / append-line / close"; `filewriter.h` is not
among the sources).  `lineEnd` is what `safe_puts` writes after the characters
of its argument: nothing for a `puts` that writes its argument only, as
`SPI::puts` and `HD44780::puts` of this repository do. -/
def FileWriter.store (lineEnd : List Char) (file : List Char × Nat) :
    WriterCall → List Char × Nat
  | WriterCall.openAt offset SeekDir.BEG => (file.1, offset.toNat)
  | WriterCall.openAt offset SeekDir.CUR => (file.1, ((file.2 : Int) + offset).toNat)
  | WriterCall.openAt offset SeekDir.END => (file.1, ((file.1.length : Int) + offset).toNat)
  | WriterCall.trim => (file.1.take file.2, file.2)
  | WriterCall.safe_puts string =>
    (file.1.take file.2 ++ (string ++ lineEnd) ++ file.1.drop (file.2 + (string ++ lineEnd).length),
      file.2 + (string ++ lineEnd).length)
  | WriterCall.close => file

/-- Modelled from the spec: the characters of the destination file after the
calls `calls`, when it held `old` before. -/
def FileWriter.stored (lineEnd old : List Char) (calls : List WriterCall) : List Char :=
  (calls.foldl (FileWriter.store lineEnd) (old, 0)).1

/-- The document `["a", "", "b"]` with unsaved changes. -/
def PWEdit.blankLineUnsaved : PWEdit :=
  { PWEdit.showing [['a'], [], ['b']] 3 10 with modified := true }

/-- The calls a complete `save` of the document `lines` makes, in order:
open at offset 0 from the beginning, trim, one `safe_puts` per line, close. -/
def save_calls (lines : List (List Char)) : List WriterCall :=
  WriterCall.openAt 0 SeekDir.BEG :: WriterCall.trim ::
    (lines.map WriterCall.safe_puts ++ [WriterCall.close])

end PropWare

/-! ## The key map in the words of the specification -/

namespace PropWare

/-- What a keystroke in the main loop stands for: one of the four directional
commands, one of the four jumps, the command-mode trigger, or nothing. -/
inductive KeyCommand where
  | directional (direction : Direction)
  | jump_to_document_start
  | jump_to_document_end
  | jump_to_line_start
  | jump_to_line_end
  | command_mode
  | ignored

/-- The key map as the specification words it: two alternate keysets for the
four directional commands, four jump keys, one command-mode trigger; every
other character stands for nothing. -/
def spec_key_command (c : Char) : KeyCommand :=
  match c with
  | 'a' => KeyCommand.directional Direction.LEFT
  | 'h' => KeyCommand.directional Direction.LEFT
  | 's' => KeyCommand.directional Direction.DOWN
  | 'j' => KeyCommand.directional Direction.DOWN
  | 'd' => KeyCommand.directional Direction.RIGHT
  | 'l' => KeyCommand.directional Direction.RIGHT
  | 'w' => KeyCommand.directional Direction.UP
  | 'k' => KeyCommand.directional Direction.UP
  | 'g' => KeyCommand.jump_to_document_start
  | 'G' => KeyCommand.jump_to_document_end
  | '0' => KeyCommand.jump_to_line_start
  | '$' => KeyCommand.jump_to_line_end
  | ':' => KeyCommand.command_mode
  | _ => KeyCommand.ignored

/-- The input dispatcher of the specification: resolve the keystroke to a
command, then run it on the editor. -/
def spec_dispatch (s : PWEdit) (exit : Bool) (c : Char) : Option (ErrorCode × Bool × PWEdit) :=
  match spec_key_command c with
  | KeyCommand.directional direction => some (NO_ERROR, exit, PWEdit.move_selection s direction)
  | KeyCommand.jump_to_document_start => some (NO_ERROR, exit, PWEdit.to_file_start s)
  | KeyCommand.jump_to_document_end => some (NO_ERROR, exit, PWEdit.to_file_end s)
  | KeyCommand.jump_to_line_start => some (NO_ERROR, exit, PWEdit.to_line_start s)
  | KeyCommand.jump_to_line_end => some (NO_ERROR, exit, PWEdit.to_line_end s)
  | KeyCommand.command_mode => PWEdit.command s exit
  | KeyCommand.ignored => some (NO_ERROR, exit, s)

/-- A screen row in the words of the specification: up to `columns` characters
of `line` starting at index `firstColumn`, right-padded with spaces to fill
the row. -/
def spec_row (line : List Char) (firstColumn columns : Nat) : List Char :=
  (line.drop firstColumn).take columns ++
    List.replicate (columns - ((line.drop firstColumn).take columns).length) ' '

/-- The redraw in the words of the specification, for a window of `rows` rows
whose first row shows line `firstLine`: for each row in order, the cursor
sequence to its first column, then the row of the corresponding line, a row
of spaces when the document has no such line. -/
def spec_redraw (lines : List (List Char)) (firstLine firstColumn columns : Nat) :
    Nat → Nat → List Char
  | 0, _ => []
  | rows + 1, row =>
    PWEdit.cursor_sequence row 1 ++
      spec_row (lines.getD (firstLine + row - 1) []) firstColumn columns ++
      spec_redraw lines firstLine firstColumn columns rows (row + 1)

end PropWare

/-! # `PropWare/uart.h`: the configuration of a UART

`uint8_t`, `uint16_t` and `uint32_t` members are natural numbers, every
assignment reduced modulo `2^8`, `2^16` or `2^32`.  The pin `m_tx` plays no
part in the configuration and is left out. -/

namespace PropWare

/-- `PropWare::UART::Parity`. -/
inductive UART.Parity where
  | NO_PARITY
  | EVEN_PARITY
  | ODD_PARITY
  deriving DecidableEq

/-- The configuration members of `class UART`. -/
structure UART where
  dataWidth : Nat
  dataMask : Nat
  parity : UART.Parity
  parityMask : Nat
  stopBitWidth : Nat
  stopBitMask : Nat
  bitCycles : Nat
  totalBits : Nat

namespace UART

/-- `PropWare::UART::ErrorCode`: `BEG_ERROR = UART_ERRORS_BASE = 64`. -/
def NO_ERROR : ErrorCode := 0
def BAUD_TOO_HIGH : ErrorCode := 64
def INVALID_DATA_WIDTH : ErrorCode := 65
def INVALID_STOP_BIT_WIDTH : ErrorCode := 66

/-- Loop `for (uint8_t i = 0; i < m_dataWidth; ++i) m_dataMask |= 1 << i` of
`set_data_width`, with `n` rounds left, entered with `i` and the mask. -/
def data_mask_loop : Nat → Nat → Nat → Nat
  | 0, _, mask => mask
  | n + 1, i, mask => data_mask_loop n (i + 1) ((mask ||| (1 <<< i)) % 65536)

/-- `void set_parity_mask ()`: `m_parityMask`, a `uint16_t`, takes
`1 << m_dataWidth`. -/
def set_parity_mask (u : UART) : UART :=
  { u with parityMask := (1 <<< u.dataWidth) % 65536 }

/-- `void set_total_bits ()`. -/
def set_total_bits (u : UART) : UART :=
  let u1 := { u with totalBits := (1 + u.dataWidth + u.stopBitWidth) % 256 }
  if u1.parity ≠ Parity.NO_PARITY then { u1 with totalBits := (u1.totalBits + 1) % 256 }
  else u1

/-- `virtual PropWare::ErrorCode set_data_width (const uint8_t dataWidth)` of
`class UART`: the code returned and the configuration left. -/
def set_data_width (u : UART) (dataWidth : Nat) : ErrorCode × UART :=
  if 1 > dataWidth ∨ dataWidth > 16 then (INVALID_DATA_WIDTH, u)
  else
    let u1 := { u with dataWidth := dataWidth }
    let u2 := { u1 with dataMask := data_mask_loop u1.dataWidth 0 0 }
    (NO_ERROR, set_total_bits (set_parity_mask u2))

/-- `uint8_t get_data_width () const`. -/
def get_data_width (u : UART) : Nat := u.dataWidth

/-- A configuration as the constructor of `UART` leaves it at the default
baud rate on an 80 MHz clock: 8 data bits, no parity, one stop bit. -/
def constructed : UART :=
  { dataWidth := 8, dataMask := 255, parity := Parity.NO_PARITY, parityMask := 256,
    stopBitWidth := 1, stopBitMask := 256, bitCycles := 694, totalBits := 10 }

end UART

end PropWare

/-! # `PropWare/hmi/output/hd44780.h`: cursor addressing

The bytes sent with `RS` cleared (`cmd`) are kept in the list `commands`,
those sent with `RS` set in the list `characters`; the pins and the timing are
left out. -/

namespace PropWare

/-- `HD44780::Dimensions`. -/
inductive HD44780.Dimensions where
  | DIM_8x1
  | DIM_8x2
  | DIM_8x4
  | DIM_16x1_1
  | DIM_16x1_2
  | DIM_16x2
  | DIM_16x4
  | DIM_20x1
  | DIM_20x2
  | DIM_20x4
  | DIM_24x1
  | DIM_24x2
  | DIM_40x1
  | DIM_40x2

/-- `HD44780::MemMap`. -/
structure HD44780.MemMap where
  charRows : Nat
  charColumns : Nat
  ddramCharRowBreak : Nat
  ddramLineEnd : Nat

/-- The members of `class HD44780` that cursor addressing and `put_char` read
and write, the command bytes sent so far (`RS` cleared) and the character
bytes written so far (`RS` set).  `escapeSequence` is the string held in
`m_escapeSequence`, the characters before its terminator. -/
structure HD44780 where
  memMap : HD44780.MemMap
  dimensions : HD44780.Dimensions
  curPosRow : Nat
  curPosCol : Nat
  showCursor : Bool
  commands : List Nat
  characters : List Nat
  inEscapeSequence : Bool
  escapeSequence : List Char

namespace HD44780

/-- `static const uint8_t SET_DDRAM_ADDR = BIT_7`. -/
def SET_DDRAM_ADDR : Nat := 128

/-- `void generate_mem_map ()`: the map stored for `m_dimensions`. -/
def generate_mem_map (dimensions : Dimensions) : MemMap :=
  match dimensions with
  | Dimensions.DIM_8x1 =>
    { charRows := 1, charColumns := 8, ddramCharRowBreak := 8, ddramLineEnd := 8 }
  | Dimensions.DIM_8x2 =>
    { charRows := 2, charColumns := 8, ddramCharRowBreak := 8, ddramLineEnd := 8 }
  | Dimensions.DIM_8x4 =>
    { charRows := 4, charColumns := 8, ddramCharRowBreak := 8, ddramLineEnd := 16 }
  | Dimensions.DIM_16x1_1 =>
    { charRows := 1, charColumns := 16, ddramCharRowBreak := 8, ddramLineEnd := 8 }
  | Dimensions.DIM_16x1_2 =>
    { charRows := 1, charColumns := 16, ddramCharRowBreak := 16, ddramLineEnd := 16 }
  | Dimensions.DIM_16x2 =>
    { charRows := 2, charColumns := 16, ddramCharRowBreak := 16, ddramLineEnd := 16 }
  | Dimensions.DIM_16x4 =>
    { charRows := 4, charColumns := 16, ddramCharRowBreak := 16, ddramLineEnd := 32 }
  | Dimensions.DIM_20x1 =>
    { charRows := 1, charColumns := 20, ddramCharRowBreak := 20, ddramLineEnd := 20 }
  | Dimensions.DIM_20x2 =>
    { charRows := 2, charColumns := 20, ddramCharRowBreak := 20, ddramLineEnd := 20 }
  | Dimensions.DIM_20x4 =>
    { charRows := 4, charColumns := 20, ddramCharRowBreak := 20, ddramLineEnd := 40 }
  | Dimensions.DIM_24x1 =>
    { charRows := 1, charColumns := 24, ddramCharRowBreak := 24, ddramLineEnd := 24 }
  | Dimensions.DIM_24x2 =>
    { charRows := 2, charColumns := 24, ddramCharRowBreak := 24, ddramLineEnd := 24 }
  | Dimensions.DIM_40x1 =>
    { charRows := 1, charColumns := 40, ddramCharRowBreak := 40, ddramLineEnd := 40 }
  | Dimensions.DIM_40x2 =>
    { charRows := 2, charColumns := 40, ddramCharRowBreak := 40, ddramLineEnd := 40 }

/-- The constructor `HD44780 (lsbDataPin, rs, rw, en, bitMode, dimensions,
showCursor)`: cursor at the origin, the memory map generated, nothing sent,
`m_inEscapeSequence(false)`.  It leaves `m_escapeSequence` uninitialised; the
array is read only after `start_escape_sequence` has written it. -/
def construct (dimensions : Dimensions) (showCursor : Bool) : HD44780 :=
  { memMap := generate_mem_map dimensions
    dimensions := dimensions
    curPosRow := 0
    curPosCol := 0
    showCursor := showCursor
    commands := []
    characters := []
    inEscapeSequence := false
    escapeSequence := [] }

/-- `void cmd (const uint8_t command) const`. -/
def cmd (lcd : HD44780) (command : Nat) : HD44780 :=
  { lcd with commands := lcd.commands ++ [command % 256] }

/-- The local `addr` of `move` when `cmd` is called; `addr` is a `uint8_t`. -/
def move_addr (lcd : HD44780) (row col : Nat) : Nat :=
  -- Handle weird special case where a single row LCD is split across
  -- multiple DDRAM lines (i.e., 16x1 type 1)
  if lcd.memMap.ddramCharRowBreak > lcd.memMap.ddramLineEnd then
    let ddramLine := (col / lcd.memMap.ddramLineEnd) % 256
    let addr := if ddramLine ≠ 0 then 64 else 0
    (addr ||| (col % lcd.memMap.ddramLineEnd)) % 256
  else if 4 = lcd.memMap.charRows then
    let addr := if row % 2 ≠ 0 then 64 else 0
    let addr1 := if row / 2 ≠ 0 then (addr + lcd.memMap.ddramCharRowBreak) % 256 else addr
    (addr1 + col % lcd.memMap.ddramCharRowBreak) % 256
  else
    let addr := if row ≠ 0 then 64 else 0
    (addr ||| col) % 256

/-- `void move (const uint8_t row, const uint8_t col)`. -/
def move (lcd : HD44780) (row col : Nat) : HD44780 :=
  { cmd lcd (move_addr lcd row col ||| SET_DDRAM_ADDR) with curPosRow := row, curPosCol := col }

end HD44780

end PropWare
/-! ## `PWEdit`: construction, calibration and the whole of `run` -/

namespace PropWare

namespace PWEdit

/-- The constructor `PWEdit (inFile, outFile, scanner, printer)`: no line yet,
`m_columns(0)`, `m_rows(1)`, `m_modified(false)`.  The members it leaves
uninitialised (the cursor and the window origin) are those of `junk`. -/
def construct (inFile : FileReader) (outFile : FileWriter) (scanner printer : List Char)
    (junk : PWEdit) : PWEdit :=
  { junk with
    inFile := inFile
    outFile := outFile
    printer := printer
    scanner := scanner
    lines := []
    columns := 0
    rows := 1
    modified := false }

/-- `void hide_cursor ()`. -/
def hide_cursor (s : PWEdit) : PWEdit := puts s (ESCAPE :: '[' :: "?25l".toList)

/-- `void show_cursor ()`. -/
def show_cursor (s : PWEdit) : PWEdit := puts s (ESCAPE :: '[' :: "?25h".toList)

/-- Row loop of `clear`: `n` rows left, the next one being `row`. -/
def clear_rows : Nat → PWEdit → Nat → PWEdit
  | 0, s, _ => s
  | n + 1, s, row => clear_rows n (clear_row s row) (row + 1)

/-- `void clear (const bool writeSpaces = true) const`. -/
def clear (s : PWEdit) (writeSpaces : Bool) : PWEdit :=
  let s1 := if writeSpaces then clear_rows s.rows s 1 else s
  move_cursor s1 1 1

def calibrationString : List Char := "Calibration...#".toList

/-- `strlen(calibrationString)`. -/
def calibrationStringLength : Nat := 15

/-- What `calibrate` writes to open a further row: `BACKSPACE << " \n"`,
`m_columns - 1` spaces and the cursor mark. -/
def calibrate_row (s : PWEdit) : PWEdit :=
  put (puts (puts s [BACKSPACE, ' ', NEWLINE]) (List.replicate (usub s.columns 1) ' ')) CURSOR

/-- Loop `for (i = 1; i < m_rows; ++i)` of the `Move up` case, `n` rounds left. -/
def calibrate_rows : Nat → PWEdit → PWEdit
  | 0, s => s
  | n + 1, s => calibrate_rows n (calibrate_row s)

/-- The `switch (input)` in the loop of `calibrate`. -/
def calibrate_key (s : PWEdit) (input : Char) : PWEdit :=
  if input = 'a' ∨ input = 'h' then
    -- Move left
    if 1 < s.columns then
      puts { s with columns := usub s.columns 1 } [BACKSPACE, ' ', BACKSPACE, BACKSPACE, CURSOR]
    else s
  else if input = 'w' ∨ input = 'k' then
    -- Move up
    if 1 < s.rows then
      let s1 := puts { s with rows := usub s.rows 1 } [BACKSPACE, ' ']
      let s2 := puts (puts (clear s1 false) calibrationString) [BACKSPACE, ' ']
      -- Handle columns
      let s3 :=
        if calibrationStringLength ≥ s2.columns then
          let charactersToDelete := uadd (usub calibrationStringLength s2.columns) 1
          put (puts s2 (List.replicate charactersToDelete [BACKSPACE, ' ', BACKSPACE]).flatten) CURSOR
        else
          put (puts s2 (List.replicate (s2.columns - calibrationStringLength) ' ')) CURSOR
      -- Handle rows
      calibrate_rows (s3.rows - 1) s3
    else s
  else if input = 's' ∨ input = 'j' then
    -- Move down
    calibrate_row { s with rows := uadd s.rows 1 }
  else if input = 'd' ∨ input = 'l' then
    -- Move right
    puts { s with columns := uadd s.columns 1 } [BACKSPACE, ' ', '#']
  else s

/-- Loop `do input = get_char(); switch (input) ... while (not_enter_key(input))`
of `calibrate`, by recursion on the keystrokes to come; `none` when they run
out before a terminator. -/
def calibrate_loop : List Char → PWEdit → Option PWEdit
  | [], _ => none
  | input :: rest, s =>
    let s1 := calibrate_key (set_scanner s rest) input
    if not_enter_key input then calibrate_loop rest s1 else some s1

/-- `void calibrate ()`. -/
def calibrate (s : PWEdit) : Option PWEdit :=
  let s1 := puts (clear (hide_cursor s) false) calibrationString
  let s2 := { s1 with columns := calibrationStringLength, rows := 1 }
  (calibrate_loop s2.scanner s2).map (fun s3 =>
    let s4 := clear (show_cursor s3) true
    puts (put_uint (put (put_uint s4 s4.columns) 'x') s4.rows) [' '])

/-- The characters `print_line_at_row` writes after the cursor sequence: those
of the line from `startingColumnNumber` on, as its first loop writes them, then
the spaces of its second loop. -/
def row_text (s : PWEdit) (startingColumnNumber : Nat) (lineIterator : Int) : List Char :=
  let r := print_line_chars (s.deref lineIterator) startingColumnNumber
    (get_size (s.deref lineIterator) % 65536) s.columns 0
  r.1 ++ List.replicate (s.columns - r.2) ' '

/-- What the loop of `save` writes while no call fails, for the lines still to
be written: for each the cursor sequence and the line number. -/
def save_progress (rows : Nat) : List (List Char) → Nat → List Char
  | [], _ => []
  | _ :: rest, lineNumber =>
    cursor_sequence rows SIZEOF_SAVING_MESSAGE_PLUS_1 ++ Nat.toDigits 10 lineNumber ++
      save_progress rows rest (uadd lineNumber 1)

/-- The loop `do ... while (!exit)` of `run` and the `clear(true)` after it,
with `fuel` rounds allowed: the code `run` returns and the state it leaves. -/
def run_loop : Nat → PWEdit → Option (ErrorCode × PWEdit)
  | 0, _ => none
  | fuel + 1, s =>
    match loop_round s with
    | none => none
    | some (err, exit, s1) =>
      if err ≠ 0 then some (err, s1)
      else if exit then some (NO_ERROR, clear s1 true)
      else run_loop fuel s1

/-- `PropWare::ErrorCode run ()`, with `fuel` bounding each loop; `closeCode`
is what `m_inFile->close()` returns. -/
def run (fuel : Nat) (closeCode : ErrorCode) (s : PWEdit) : Option (ErrorCode × PWEdit) :=
  match calibrate s with
  | none => none
  | some s1 =>
    match read_in_file fuel s1 with
    | none => none
    | some (err, s2) =>
      if err ≠ 0 then some (err, s2)
      else if closeCode ≠ 0 then some (closeCode, s2)
      else run_loop fuel (run_start s2)

/-- The state in which `run` reads key number `n` of its loop (counted from
0): calibration, the load and the close without error, then `n` rounds that
returned no error and left `exit` false. -/
def run_rounds (fuel n : Nat) (closeCode : ErrorCode) (s : PWEdit) : Option PWEdit :=
  match calibrate s with
  | none => none
  | some s1 =>
    match read_in_file fuel s1 with
    | none => none
    | some (err, s2) =>
      if err = 0 ∧ closeCode = 0 then loop_rounds n (run_start s2) else none

end PWEdit

end PropWare

/-! ## `PropWare/uart.h`: parity and stop bits -/

namespace PropWare

namespace UART

/-- Loop `for (uint8_t i = 0; i < m_stopBitWidth - 1; ++i)
m_stopBitMask |= m_stopBitMask << 1` of `set_stop_bit_mask`, with `n` rounds
left; `m_stopBitMask` is a `uint32_t`. -/
def stop_bit_mask_loop : Nat → Nat → Nat
  | 0, mask => mask
  | n + 1, mask => stop_bit_mask_loop n ((mask ||| (mask <<< 1)) % 4294967296)

/-- `void set_stop_bit_mask ()`. -/
def set_stop_bit_mask (u : UART) : UART :=
  -- Create the mask to the far right
  let mask := stop_bit_mask_loop (u.stopBitWidth - 1) 1
  -- Shift the mask into position
  let mask1 := (mask <<< u.dataWidth) % 4294967296
  { u with
    stopBitMask := if u.parity ≠ Parity.NO_PARITY then (mask1 <<< 1) % 4294967296 else mask1 }

/-- `virtual void set_parity (const PropWare::UART::Parity parity)` of
`class UART`. -/
def set_parity (u : UART) (parity : Parity) : UART :=
  set_total_bits (set_stop_bit_mask (set_parity_mask { u with parity := parity }))

/-- `PropWare::ErrorCode set_stop_bit_width (const uint8_t stopBitWidth)`. -/
def set_stop_bit_width (u : UART) (stopBitWidth : Nat) : ErrorCode × UART :=
  if 0 = stopBitWidth ∨ stopBitWidth > 14 then (INVALID_STOP_BIT_WIDTH, u)
  else (NO_ERROR, set_total_bits (set_stop_bit_mask { u with stopBitWidth := stopBitWidth }))

/-- The number of parity bits of a word: one for even or odd parity, none
without parity. -/
def parity_bits (parity : Parity) : Nat :=
  match parity with
  | Parity.NO_PARITY => 0
  | Parity.EVEN_PARITY => 1
  | Parity.ODD_PARITY => 1

end UART

end PropWare

/-! ## `PropWare/spi.h`: writing a string

Memory is a function from addresses to characters and a `char *` is an
address, a 32-bit word; the null pointer is the address 0. -/

namespace PropWare

/-- The calls of `put_char` an `SPI` object has received, oldest first, each
with its argument; each call is one `shift_out(8, (uint32_t) c)`. -/
structure SPI where
  sent : List Char

namespace SPI

/-- `void put_char (const char c)`. -/
def put_char (spi : SPI) (c : Char) : SPI := { spi with sent := spi.sent ++ [c] }

/-- Loop `while (sPtr) this->put_char(*sPtr++)` of `puts`, entered with the
pointer `sPtr`, with `fuel` rounds allowed; `none` when the loop has not been
left after that many. -/
def puts_loop (memory : Nat → Char) : Nat → Nat → SPI → Option SPI
  | 0, _, _ => none
  | fuel + 1, sPtr, spi =>
    if sPtr ≠ 0 then puts_loop memory fuel ((sPtr + 1) % 4294967296) (put_char spi (memory sPtr))
    else some spi

/-- `void puts (const char string[])`, `string` being the address of its first
character. -/
def puts (memory : Nat → Char) (fuel : Nat) (string : Nat) (spi : SPI) : Option SPI :=
  puts_loop memory fuel string spi

/-- A memory holding the characters `content` from the address `base` on and
the character `filler` everywhere else. -/
def holding (base : Nat) (content : List Char) (filler : Char) : Nat → Char :=
  fun address => if base ≤ address then content.getD (address - base) filler else filler

end SPI

end PropWare

/-! ## `PropWare/hmi/output/hd44780.h`: `put_char` -/

namespace PropWare

/-- `#define TAB '\t'` of `PropWare.h`. -/
def TAB : Char := Char.ofNat 9

namespace HD44780

/-- `static const uint8_t TAB_WIDTH = 4`. -/
def TAB_WIDTH : Nat := 4

/-- `static const uint_fast8_t ESCAPE_SEQUENCE_BUFFER_LENGTH = 32`. -/
def ESCAPE_SEQUENCE_BUFFER_LENGTH : Nat := 32

def DISPLAY_CTRL : Nat := 8
def DISPLAY_PWR : Nat := 4
def BLINK : Nat := 1

/-- `this->m_rs.set(); this->write((const uint8_t) c)`: a character byte. -/
def write_character (lcd : HD44780) (c : Char) : HD44780 :=
  { lcd with characters := lcd.characters ++ [c.toNat % 256] }

/-- `void show_cursor ()`. -/
def show_cursor (lcd : HD44780) : HD44780 := cmd lcd (DISPLAY_CTRL ||| DISPLAY_PWR ||| BLINK)

/-- `void hide_cursor ()`. -/
def hide_cursor (lcd : HD44780) : HD44780 := cmd lcd (DISPLAY_CTRL ||| DISPLAY_PWR)

/-- `void newline ()`. -/
def newline (lcd : HD44780) : HD44780 :=
  let row := (lcd.curPosRow + 1) % 256
  let row1 := if row = lcd.memMap.charRows then 0 else row
  move { lcd with curPosRow := row1, curPosCol := 0 } row1 0

/-- `void carriage_return ()`. -/
def carriage_return (lcd : HD44780) : HD44780 := move lcd lcd.curPosRow 0

/-- `void backspace ()`. -/
def backspace (lcd : HD44780) : HD44780 :=
  if lcd.curPosCol ≠ 0 then move lcd lcd.curPosRow ((lcd.curPosCol - 1) % 256)
  else
    let nextColumn := lcd.memMap.charColumns
    let nextRow := if lcd.curPosRow ≠ 0 then (lcd.curPosRow - 1) % 256 else lcd.memMap.charRows
    move lcd nextRow nextColumn

/-- The `default` case of the switch in `put_char`.  It is entered with
`m_inEscapeSequence` false, so that its `put_char('\n')` is `newline()`. -/
def put_printable (lcd : HD44780) (c : Char) : HD44780 :=
  let lcd1 := write_character lcd c
  let lcd2 := { lcd1 with curPosCol := (lcd1.curPosCol + 1) % 256 }
  -- Insert a line wrap if necessary
  let lcd3 := if lcd2.memMap.charColumns = lcd2.curPosCol then newline lcd2 else lcd2
  -- Handle weird special case where a single row LCD is split across
  -- multiple DDRAM lines (i.e., 16x1 type 1)
  if lcd3.memMap.ddramCharRowBreak > lcd3.memMap.ddramLineEnd then
    move lcd3 lcd3.curPosRow lcd3.curPosCol
  else lcd3

/-- Loop `do put_char(' ') while (m_curPos.col % TAB_WIDTH)` of `tab`, with
`fuel` rounds allowed; the space goes to the `default` case. -/
def tab_loop : Nat → HD44780 → Option HD44780
  | 0, _ => none
  | fuel + 1, lcd =>
    let lcd1 := put_printable lcd ' '
    if lcd1.curPosCol % TAB_WIDTH ≠ 0 then tab_loop fuel lcd1 else some lcd1

/-- `void tab ()`: four rounds always suffice (`tab_loop_returns`). -/
def tab (lcd : HD44780) : Option HD44780 := tab_loop TAB_WIDTH lcd

/-- `void start_escape_sequence ()`. -/
def start_escape_sequence (lcd : HD44780) : HD44780 :=
  { lcd with inEscapeSequence := true, escapeSequence := [ESCAPE] }

/-- `static bool final_escape_sequence_character (const char c)`. -/
def final_escape_sequence_character (c : Char) : Bool :=
  decide ('@'.toNat ≤ c.toNat ∧ c.toNat ≤ '~'.toNat)

/-- The digits `atoi` reads, `value` being the number read so far. -/
def atoi_digits : List Char → Nat → Nat
  | [], value => value
  | c :: rest, value =>
    if '0'.toNat ≤ c.toNat ∧ c.toNat ≤ '9'.toNat then
      atoi_digits rest (value * 10 + (c.toNat - '0'.toNat))
    else value

/-- Modelled from the spec: the row and the column of the escape sequence
`ESC [ <row> ; <col> H` are decimal numbers, which `move_via_command_sequence`
reads with `atoi` of the C library (not among the sources): white space is
skipped, a sign is taken, then the digits up to the first other character. -/
def atoi (string : List Char) : Int :=
  let rest := string.dropWhile (fun c => c = ' ' ∨ (9 ≤ c.toNat ∧ c.toNat ≤ 13))
  if rest.head? = some '-' then - (atoi_digits rest.tail 0 : Int)
  else if rest.head? = some '+' then (atoi_digits rest.tail 0 : Int)
  else (atoi_digits rest 0 : Int)

/-- Loop `while (m_escapeSequence[index++] != ';')`: what follows the first
semicolon; `none` when the string holds none, the loop then running past the
terminator. -/
def after_semicolon : List Char → Option (List Char)
  | [] => none
  | c :: rest => if c ≠ ';' then after_semicolon rest else some rest

/-- `void move_via_command_sequence ()`. -/
def move_via_command_sequence (lcd : HD44780) : Option HD44780 :=
  let row := ((atoi (lcd.escapeSequence.drop 2) - 1) % 256).toNat
  -- Find start of second number
  (after_semicolon (lcd.escapeSequence.drop 3)).map (fun second =>
    let column := ((atoi second - 1) % 256).toNat
    move lcd row column)

/-- `void perform_escape_sequence_command (const size_t length)`. -/
def perform_escape_sequence_command (lcd : HD44780) (length : Nat) : Option HD44780 :=
  let command := lcd.escapeSequence.getD (length - 1) NULL_TERMINATOR
  let r :=
    if command = 'H' then move_via_command_sequence lcd
    else if command = 'h' then some (show_cursor lcd)
    else if command = 'l' then some (hide_cursor lcd)
    else some lcd
  r.map (fun lcd1 => { lcd1 with inEscapeSequence := false })

/-- `void handle_escape_sequence_character (const char c)`. -/
def handle_escape_sequence_character (lcd : HD44780) (c : Char) : Option HD44780 :=
  let sequenceLength := lcd.escapeSequence.length
  if ESCAPE_SEQUENCE_BUFFER_LENGTH - 1 > sequenceLength then
    -- storing the terminator itself leaves the string as it was
    let lcd1 := { lcd with
      escapeSequence := if c = NULL_TERMINATOR then lcd.escapeSequence
        else lcd.escapeSequence ++ [c] }
    if 1 ≠ sequenceLength ∧ final_escape_sequence_character c then
      perform_escape_sequence_command { lcd1 with inEscapeSequence := false } (sequenceLength + 1)
    else some lcd1
  else some { lcd with inEscapeSequence := false }

/-- `void put_char (const char c)`; `none` where `move_via_command_sequence`
reads past the string. -/
def put_char (lcd : HD44780) (c : Char) : Option HD44780 :=
  if lcd.inEscapeSequence then handle_escape_sequence_character lcd c
  else if c = ESCAPE then some (start_escape_sequence lcd)
  else if c = NEWLINE then some (newline lcd)
  else if c = TAB then tab lcd
  else if c = CARRIAGE_RETURN then some (carriage_return lcd)
  else if c = BACKSPACE then some (backspace lcd)
  else if c = BELL then some lcd
  else some (put_printable lcd c)

/-- `void puts (const char string[])`: `put_char` for one character after the
other up to the terminator. -/
def puts : List Char → HD44780 → Option HD44780
  | [], lcd => some lcd
  | c :: rest, lcd =>
    if c ≠ NULL_TERMINATOR then (put_char lcd c).bind (puts rest) else some lcd

end HD44780

end PropWare
/-! ## Frame lemmas

What each operation leaves untouched, field by field. -/

namespace PropWare

namespace PWEdit

theorem put_eq_puts (s : PWEdit) (c : Char) : put s c = puts s [c] := rfl

theorem put_uint_eq_puts (s : PWEdit) (n : Nat) : put_uint s n = puts s (Nat.toDigits 10 n) := rfl

@[simp] theorem puts_printer (s : PWEdit) (t : List Char) :
    (puts s t).printer = s.printer ++ t := rfl

@[simp] theorem puts_puts (s : PWEdit) (t u : List Char) :
    puts (puts s t) u = puts s (t ++ u) := by
  simp [puts]

@[simp] theorem puts_deref (s : PWEdit) (t : List Char) (it : Int) :
    (puts s t).deref it = s.deref it := rfl

@[simp] theorem puts_size (s : PWEdit) (t : List Char) : (puts s t).size = s.size := rfl

@[simp] theorem puts_inFile (s : PWEdit) (t : List Char) :
    (puts s t).inFile = s.inFile := rfl

@[simp] theorem puts_outFile (s : PWEdit) (t : List Char) :
    (puts s t).outFile = s.outFile := rfl

@[simp] theorem puts_scanner (s : PWEdit) (t : List Char) :
    (puts s t).scanner = s.scanner := rfl

@[simp] theorem puts_lines (s : PWEdit) (t : List Char) :
    (puts s t).lines = s.lines := rfl

@[simp] theorem puts_stray (s : PWEdit) (t : List Char) :
    (puts s t).stray = s.stray := rfl

@[simp] theorem puts_columns (s : PWEdit) (t : List Char) :
    (puts s t).columns = s.columns := rfl

@[simp] theorem puts_rows (s : PWEdit) (t : List Char) :
    (puts s t).rows = s.rows := rfl

@[simp] theorem puts_termRow (s : PWEdit) (t : List Char) :
    (puts s t).termRow = s.termRow := rfl

@[simp] theorem puts_termColumn (s : PWEdit) (t : List Char) :
    (puts s t).termColumn = s.termColumn := rfl

@[simp] theorem puts_selectedLine (s : PWEdit) (t : List Char) :
    (puts s t).selectedLine = s.selectedLine := rfl

@[simp] theorem puts_selectedLineNumber (s : PWEdit) (t : List Char) :
    (puts s t).selectedLineNumber = s.selectedLineNumber := rfl

@[simp] theorem puts_selectedColumnInLine (s : PWEdit) (t : List Char) :
    (puts s t).selectedColumnInLine = s.selectedColumnInLine := rfl

@[simp] theorem puts_desiredColumnInLine (s : PWEdit) (t : List Char) :
    (puts s t).desiredColumnInLine = s.desiredColumnInLine := rfl

@[simp] theorem puts_firstLineDisplayed (s : PWEdit) (t : List Char) :
    (puts s t).firstLineDisplayed = s.firstLineDisplayed := rfl

@[simp] theorem puts_firstColumnDisplayed (s : PWEdit) (t : List Char) :
    (puts s t).firstColumnDisplayed = s.firstColumnDisplayed := rfl

@[simp] theorem puts_modified (s : PWEdit) (t : List Char) :
    (puts s t).modified = s.modified := rfl

@[simp] theorem set_scanner_scanner (s : PWEdit) (r : List Char) :
    (set_scanner s r).scanner = r := rfl

@[simp] theorem set_scanner_deref (s : PWEdit) (r : List Char) (it : Int) :
    (set_scanner s r).deref it = s.deref it := rfl

@[simp] theorem set_scanner_size (s : PWEdit) (r : List Char) :
    (set_scanner s r).size = s.size := rfl

/-- Writing and reading commute: the normal form has `puts` outermost. -/
@[simp] theorem set_scanner_puts (s : PWEdit) (t r : List Char) :
    set_scanner (puts s t) r = puts (set_scanner s r) t := rfl

@[simp] theorem set_scanner_set_scanner (s : PWEdit) (r r2 : List Char) :
    set_scanner (set_scanner s r) r2 = set_scanner s r2 := rfl

@[simp] theorem set_scanner_inFile (s : PWEdit) (r : List Char) :
    (set_scanner s r).inFile = s.inFile := rfl

@[simp] theorem set_scanner_outFile (s : PWEdit) (r : List Char) :
    (set_scanner s r).outFile = s.outFile := rfl

@[simp] theorem set_scanner_printer (s : PWEdit) (r : List Char) :
    (set_scanner s r).printer = s.printer := rfl

@[simp] theorem set_scanner_lines (s : PWEdit) (r : List Char) :
    (set_scanner s r).lines = s.lines := rfl

@[simp] theorem set_scanner_stray (s : PWEdit) (r : List Char) :
    (set_scanner s r).stray = s.stray := rfl

@[simp] theorem set_scanner_columns (s : PWEdit) (r : List Char) :
    (set_scanner s r).columns = s.columns := rfl

@[simp] theorem set_scanner_rows (s : PWEdit) (r : List Char) :
    (set_scanner s r).rows = s.rows := rfl

@[simp] theorem set_scanner_termRow (s : PWEdit) (r : List Char) :
    (set_scanner s r).termRow = s.termRow := rfl

@[simp] theorem set_scanner_termColumn (s : PWEdit) (r : List Char) :
    (set_scanner s r).termColumn = s.termColumn := rfl

@[simp] theorem set_scanner_selectedLine (s : PWEdit) (r : List Char) :
    (set_scanner s r).selectedLine = s.selectedLine := rfl

@[simp] theorem set_scanner_selectedLineNumber (s : PWEdit) (r : List Char) :
    (set_scanner s r).selectedLineNumber = s.selectedLineNumber := rfl

@[simp] theorem set_scanner_selectedColumnInLine (s : PWEdit) (r : List Char) :
    (set_scanner s r).selectedColumnInLine = s.selectedColumnInLine := rfl

@[simp] theorem set_scanner_desiredColumnInLine (s : PWEdit) (r : List Char) :
    (set_scanner s r).desiredColumnInLine = s.desiredColumnInLine := rfl

@[simp] theorem set_scanner_firstLineDisplayed (s : PWEdit) (r : List Char) :
    (set_scanner s r).firstLineDisplayed = s.firstLineDisplayed := rfl

@[simp] theorem set_scanner_firstColumnDisplayed (s : PWEdit) (r : List Char) :
    (set_scanner s r).firstColumnDisplayed = s.firstColumnDisplayed := rfl

@[simp] theorem set_scanner_modified (s : PWEdit) (r : List Char) :
    (set_scanner s r).modified = s.modified := rfl

@[simp] theorem set_inFile_inFile (s : PWEdit) (r : FileReader) :
    (set_inFile s r).inFile = r := rfl

@[simp] theorem push_back_lines (s : PWEdit) (line : List Char) :
    (push_back s line).lines = s.lines ++ [line] := rfl

@[simp] theorem set_inFile_outFile (s : PWEdit) (r : FileReader) :
    (set_inFile s r).outFile = s.outFile := rfl

@[simp] theorem set_inFile_printer (s : PWEdit) (r : FileReader) :
    (set_inFile s r).printer = s.printer := rfl

@[simp] theorem set_inFile_scanner (s : PWEdit) (r : FileReader) :
    (set_inFile s r).scanner = s.scanner := rfl

@[simp] theorem set_inFile_lines (s : PWEdit) (r : FileReader) :
    (set_inFile s r).lines = s.lines := rfl

@[simp] theorem set_inFile_stray (s : PWEdit) (r : FileReader) :
    (set_inFile s r).stray = s.stray := rfl

@[simp] theorem set_inFile_columns (s : PWEdit) (r : FileReader) :
    (set_inFile s r).columns = s.columns := rfl

@[simp] theorem set_inFile_rows (s : PWEdit) (r : FileReader) :
    (set_inFile s r).rows = s.rows := rfl

@[simp] theorem set_inFile_termRow (s : PWEdit) (r : FileReader) :
    (set_inFile s r).termRow = s.termRow := rfl

@[simp] theorem set_inFile_termColumn (s : PWEdit) (r : FileReader) :
    (set_inFile s r).termColumn = s.termColumn := rfl

@[simp] theorem set_inFile_selectedLine (s : PWEdit) (r : FileReader) :
    (set_inFile s r).selectedLine = s.selectedLine := rfl

@[simp] theorem set_inFile_selectedLineNumber (s : PWEdit) (r : FileReader) :
    (set_inFile s r).selectedLineNumber = s.selectedLineNumber := rfl

@[simp] theorem set_inFile_selectedColumnInLine (s : PWEdit) (r : FileReader) :
    (set_inFile s r).selectedColumnInLine = s.selectedColumnInLine := rfl

@[simp] theorem set_inFile_desiredColumnInLine (s : PWEdit) (r : FileReader) :
    (set_inFile s r).desiredColumnInLine = s.desiredColumnInLine := rfl

@[simp] theorem set_inFile_firstLineDisplayed (s : PWEdit) (r : FileReader) :
    (set_inFile s r).firstLineDisplayed = s.firstLineDisplayed := rfl

@[simp] theorem set_inFile_firstColumnDisplayed (s : PWEdit) (r : FileReader) :
    (set_inFile s r).firstColumnDisplayed = s.firstColumnDisplayed := rfl

@[simp] theorem set_inFile_modified (s : PWEdit) (r : FileReader) :
    (set_inFile s r).modified = s.modified := rfl

@[simp] theorem push_back_inFile (s : PWEdit) (line : List Char) :
    (push_back s line).inFile = s.inFile := rfl

@[simp] theorem push_back_outFile (s : PWEdit) (line : List Char) :
    (push_back s line).outFile = s.outFile := rfl

@[simp] theorem push_back_printer (s : PWEdit) (line : List Char) :
    (push_back s line).printer = s.printer := rfl

@[simp] theorem push_back_scanner (s : PWEdit) (line : List Char) :
    (push_back s line).scanner = s.scanner := rfl

@[simp] theorem push_back_stray (s : PWEdit) (line : List Char) :
    (push_back s line).stray = s.stray := rfl

@[simp] theorem push_back_columns (s : PWEdit) (line : List Char) :
    (push_back s line).columns = s.columns := rfl

@[simp] theorem push_back_rows (s : PWEdit) (line : List Char) :
    (push_back s line).rows = s.rows := rfl

@[simp] theorem push_back_termRow (s : PWEdit) (line : List Char) :
    (push_back s line).termRow = s.termRow := rfl

@[simp] theorem push_back_termColumn (s : PWEdit) (line : List Char) :
    (push_back s line).termColumn = s.termColumn := rfl

@[simp] theorem push_back_selectedLine (s : PWEdit) (line : List Char) :
    (push_back s line).selectedLine = s.selectedLine := rfl

@[simp] theorem push_back_selectedLineNumber (s : PWEdit) (line : List Char) :
    (push_back s line).selectedLineNumber = s.selectedLineNumber := rfl

@[simp] theorem push_back_selectedColumnInLine (s : PWEdit) (line : List Char) :
    (push_back s line).selectedColumnInLine = s.selectedColumnInLine := rfl

@[simp] theorem push_back_desiredColumnInLine (s : PWEdit) (line : List Char) :
    (push_back s line).desiredColumnInLine = s.desiredColumnInLine := rfl

@[simp] theorem push_back_firstLineDisplayed (s : PWEdit) (line : List Char) :
    (push_back s line).firstLineDisplayed = s.firstLineDisplayed := rfl

@[simp] theorem push_back_firstColumnDisplayed (s : PWEdit) (line : List Char) :
    (push_back s line).firstColumnDisplayed = s.firstColumnDisplayed := rfl

@[simp] theorem push_back_modified (s : PWEdit) (line : List Char) :
    (push_back s line).modified = s.modified := rfl

theorem print_line_at_row_eq (s : PWEdit) (c : Nat) (it : Int) (row : Nat) :
    print_line_at_row s c it row =
      { s with printer := (print_line_at_row s c it row).printer } := by
  simp only [print_line_at_row, move_cursor, puts_puts]
  rfl

@[simp] theorem print_line_at_row_inFile (s : PWEdit) (c : Nat) (it : Int) (row : Nat) :
    (print_line_at_row s c it row).inFile = s.inFile := by
  rw [print_line_at_row_eq]

@[simp] theorem print_line_at_row_outFile (s : PWEdit) (c : Nat) (it : Int) (row : Nat) :
    (print_line_at_row s c it row).outFile = s.outFile := by
  rw [print_line_at_row_eq]

@[simp] theorem print_line_at_row_scanner (s : PWEdit) (c : Nat) (it : Int) (row : Nat) :
    (print_line_at_row s c it row).scanner = s.scanner := by
  rw [print_line_at_row_eq]

@[simp] theorem print_line_at_row_lines (s : PWEdit) (c : Nat) (it : Int) (row : Nat) :
    (print_line_at_row s c it row).lines = s.lines := by
  rw [print_line_at_row_eq]

@[simp] theorem print_line_at_row_stray (s : PWEdit) (c : Nat) (it : Int) (row : Nat) :
    (print_line_at_row s c it row).stray = s.stray := by
  rw [print_line_at_row_eq]

@[simp] theorem print_line_at_row_columns (s : PWEdit) (c : Nat) (it : Int) (row : Nat) :
    (print_line_at_row s c it row).columns = s.columns := by
  rw [print_line_at_row_eq]

@[simp] theorem print_line_at_row_rows (s : PWEdit) (c : Nat) (it : Int) (row : Nat) :
    (print_line_at_row s c it row).rows = s.rows := by
  rw [print_line_at_row_eq]

@[simp] theorem print_line_at_row_termRow (s : PWEdit) (c : Nat) (it : Int) (row : Nat) :
    (print_line_at_row s c it row).termRow = s.termRow := by
  rw [print_line_at_row_eq]

@[simp] theorem print_line_at_row_termColumn (s : PWEdit) (c : Nat) (it : Int) (row : Nat) :
    (print_line_at_row s c it row).termColumn = s.termColumn := by
  rw [print_line_at_row_eq]

@[simp] theorem print_line_at_row_selectedLine (s : PWEdit) (c : Nat) (it : Int) (row : Nat) :
    (print_line_at_row s c it row).selectedLine = s.selectedLine := by
  rw [print_line_at_row_eq]

@[simp] theorem print_line_at_row_selectedLineNumber (s : PWEdit) (c : Nat) (it : Int) (row : Nat) :
    (print_line_at_row s c it row).selectedLineNumber = s.selectedLineNumber := by
  rw [print_line_at_row_eq]

@[simp] theorem print_line_at_row_selectedColumnInLine (s : PWEdit) (c : Nat) (it : Int) (row : Nat) :
    (print_line_at_row s c it row).selectedColumnInLine = s.selectedColumnInLine := by
  rw [print_line_at_row_eq]

@[simp] theorem print_line_at_row_desiredColumnInLine (s : PWEdit) (c : Nat) (it : Int) (row : Nat) :
    (print_line_at_row s c it row).desiredColumnInLine = s.desiredColumnInLine := by
  rw [print_line_at_row_eq]

@[simp] theorem print_line_at_row_firstLineDisplayed (s : PWEdit) (c : Nat) (it : Int) (row : Nat) :
    (print_line_at_row s c it row).firstLineDisplayed = s.firstLineDisplayed := by
  rw [print_line_at_row_eq]

@[simp] theorem print_line_at_row_firstColumnDisplayed (s : PWEdit) (c : Nat) (it : Int) (row : Nat) :
    (print_line_at_row s c it row).firstColumnDisplayed = s.firstColumnDisplayed := by
  rw [print_line_at_row_eq]

@[simp] theorem print_line_at_row_modified (s : PWEdit) (c : Nat) (it : Int) (row : Nat) :
    (print_line_at_row s c it row).modified = s.modified := by
  rw [print_line_at_row_eq]

theorem display_rows_eq (c n : Nat) (s : PWEdit) (it : Int) (row : Nat) :
    display_rows c n s it row = { s with printer := (display_rows c n s it row).printer } := by
  induction n generalizing s it row with
  | zero => rfl
  | succ n ih =>
    rw [display_rows, ih, print_line_at_row_eq]

theorem display_file_from_eq (s : PWEdit) (a b : Nat) :
    display_file_from s a b =
      { s with printer := (display_file_from s a b).printer, firstLineDisplayed := a } := by
  unfold display_file_from
  simp only []
  rw [display_rows_eq]

@[simp] theorem display_file_from_inFile (s : PWEdit) (a b : Nat) :
    (display_file_from s a b).inFile = s.inFile := by
  rw [display_file_from_eq]

@[simp] theorem display_file_from_outFile (s : PWEdit) (a b : Nat) :
    (display_file_from s a b).outFile = s.outFile := by
  rw [display_file_from_eq]

@[simp] theorem display_file_from_scanner (s : PWEdit) (a b : Nat) :
    (display_file_from s a b).scanner = s.scanner := by
  rw [display_file_from_eq]

@[simp] theorem display_file_from_lines (s : PWEdit) (a b : Nat) :
    (display_file_from s a b).lines = s.lines := by
  rw [display_file_from_eq]

@[simp] theorem display_file_from_stray (s : PWEdit) (a b : Nat) :
    (display_file_from s a b).stray = s.stray := by
  rw [display_file_from_eq]

@[simp] theorem display_file_from_columns (s : PWEdit) (a b : Nat) :
    (display_file_from s a b).columns = s.columns := by
  rw [display_file_from_eq]

@[simp] theorem display_file_from_rows (s : PWEdit) (a b : Nat) :
    (display_file_from s a b).rows = s.rows := by
  rw [display_file_from_eq]

@[simp] theorem display_file_from_termRow (s : PWEdit) (a b : Nat) :
    (display_file_from s a b).termRow = s.termRow := by
  rw [display_file_from_eq]

@[simp] theorem display_file_from_termColumn (s : PWEdit) (a b : Nat) :
    (display_file_from s a b).termColumn = s.termColumn := by
  rw [display_file_from_eq]

@[simp] theorem display_file_from_selectedLine (s : PWEdit) (a b : Nat) :
    (display_file_from s a b).selectedLine = s.selectedLine := by
  rw [display_file_from_eq]

@[simp] theorem display_file_from_selectedLineNumber (s : PWEdit) (a b : Nat) :
    (display_file_from s a b).selectedLineNumber = s.selectedLineNumber := by
  rw [display_file_from_eq]

@[simp] theorem display_file_from_selectedColumnInLine (s : PWEdit) (a b : Nat) :
    (display_file_from s a b).selectedColumnInLine = s.selectedColumnInLine := by
  rw [display_file_from_eq]

@[simp] theorem display_file_from_desiredColumnInLine (s : PWEdit) (a b : Nat) :
    (display_file_from s a b).desiredColumnInLine = s.desiredColumnInLine := by
  rw [display_file_from_eq]

@[simp] theorem display_file_from_firstColumnDisplayed (s : PWEdit) (a b : Nat) :
    (display_file_from s a b).firstColumnDisplayed = s.firstColumnDisplayed := by
  rw [display_file_from_eq]

@[simp] theorem display_file_from_modified (s : PWEdit) (a b : Nat) :
    (display_file_from s a b).modified = s.modified := by
  rw [display_file_from_eq]

@[simp] theorem display_file_from_firstLineDisplayed (s : PWEdit) (a b : Nat) :
    (display_file_from s a b).firstLineDisplayed = a := by
  rw [display_file_from_eq]

theorem trim_eq (s : PWEdit) (d : Direction) :
    (trim_column_selection_to_fit s d).2 = { s with
      selectedColumnInLine := (trim_column_selection_to_fit s d).2.selectedColumnInLine
      firstColumnDisplayed := (trim_column_selection_to_fit s d).2.firstColumnDisplayed
      termColumn := (trim_column_selection_to_fit s d).2.termColumn } := by
  unfold trim_column_selection_to_fit
  cases d <;> simp only [] <;> split_ifs <;> rfl

theorem expand_eq (s : PWEdit) (d : Direction) (p : Nat) :
    (expand_column_selection_to_desired s d p).2 = { s with
      selectedColumnInLine := (expand_column_selection_to_desired s d p).2.selectedColumnInLine
      firstColumnDisplayed := (expand_column_selection_to_desired s d p).2.firstColumnDisplayed
      termColumn := (expand_column_selection_to_desired s d p).2.termColumn } := by
  unfold expand_column_selection_to_desired
  cases d <;> simp only [] <;> split_ifs <;> rfl

@[simp] theorem trim_inFile (s : PWEdit) (d : Direction) :
    (trim_column_selection_to_fit s d).2.inFile = s.inFile := by
  rw [trim_eq]

@[simp] theorem trim_outFile (s : PWEdit) (d : Direction) :
    (trim_column_selection_to_fit s d).2.outFile = s.outFile := by
  rw [trim_eq]

@[simp] theorem trim_printer (s : PWEdit) (d : Direction) :
    (trim_column_selection_to_fit s d).2.printer = s.printer := by
  rw [trim_eq]

@[simp] theorem trim_scanner (s : PWEdit) (d : Direction) :
    (trim_column_selection_to_fit s d).2.scanner = s.scanner := by
  rw [trim_eq]

@[simp] theorem trim_lines (s : PWEdit) (d : Direction) :
    (trim_column_selection_to_fit s d).2.lines = s.lines := by
  rw [trim_eq]

@[simp] theorem trim_stray (s : PWEdit) (d : Direction) :
    (trim_column_selection_to_fit s d).2.stray = s.stray := by
  rw [trim_eq]

@[simp] theorem trim_columns (s : PWEdit) (d : Direction) :
    (trim_column_selection_to_fit s d).2.columns = s.columns := by
  rw [trim_eq]

@[simp] theorem trim_rows (s : PWEdit) (d : Direction) :
    (trim_column_selection_to_fit s d).2.rows = s.rows := by
  rw [trim_eq]

@[simp] theorem trim_termRow (s : PWEdit) (d : Direction) :
    (trim_column_selection_to_fit s d).2.termRow = s.termRow := by
  rw [trim_eq]

@[simp] theorem trim_selectedLine (s : PWEdit) (d : Direction) :
    (trim_column_selection_to_fit s d).2.selectedLine = s.selectedLine := by
  rw [trim_eq]

@[simp] theorem trim_selectedLineNumber (s : PWEdit) (d : Direction) :
    (trim_column_selection_to_fit s d).2.selectedLineNumber = s.selectedLineNumber := by
  rw [trim_eq]

@[simp] theorem trim_desiredColumnInLine (s : PWEdit) (d : Direction) :
    (trim_column_selection_to_fit s d).2.desiredColumnInLine = s.desiredColumnInLine := by
  rw [trim_eq]

@[simp] theorem trim_firstLineDisplayed (s : PWEdit) (d : Direction) :
    (trim_column_selection_to_fit s d).2.firstLineDisplayed = s.firstLineDisplayed := by
  rw [trim_eq]

@[simp] theorem trim_modified (s : PWEdit) (d : Direction) :
    (trim_column_selection_to_fit s d).2.modified = s.modified := by
  rw [trim_eq]

@[simp] theorem expand_inFile (s : PWEdit) (d : Direction) (p : Nat) :
    (expand_column_selection_to_desired s d p).2.inFile = s.inFile := by
  rw [expand_eq]

@[simp] theorem expand_outFile (s : PWEdit) (d : Direction) (p : Nat) :
    (expand_column_selection_to_desired s d p).2.outFile = s.outFile := by
  rw [expand_eq]

@[simp] theorem expand_printer (s : PWEdit) (d : Direction) (p : Nat) :
    (expand_column_selection_to_desired s d p).2.printer = s.printer := by
  rw [expand_eq]

@[simp] theorem expand_scanner (s : PWEdit) (d : Direction) (p : Nat) :
    (expand_column_selection_to_desired s d p).2.scanner = s.scanner := by
  rw [expand_eq]

@[simp] theorem expand_lines (s : PWEdit) (d : Direction) (p : Nat) :
    (expand_column_selection_to_desired s d p).2.lines = s.lines := by
  rw [expand_eq]

@[simp] theorem expand_stray (s : PWEdit) (d : Direction) (p : Nat) :
    (expand_column_selection_to_desired s d p).2.stray = s.stray := by
  rw [expand_eq]

@[simp] theorem expand_columns (s : PWEdit) (d : Direction) (p : Nat) :
    (expand_column_selection_to_desired s d p).2.columns = s.columns := by
  rw [expand_eq]

@[simp] theorem expand_rows (s : PWEdit) (d : Direction) (p : Nat) :
    (expand_column_selection_to_desired s d p).2.rows = s.rows := by
  rw [expand_eq]

@[simp] theorem expand_termRow (s : PWEdit) (d : Direction) (p : Nat) :
    (expand_column_selection_to_desired s d p).2.termRow = s.termRow := by
  rw [expand_eq]

@[simp] theorem expand_selectedLine (s : PWEdit) (d : Direction) (p : Nat) :
    (expand_column_selection_to_desired s d p).2.selectedLine = s.selectedLine := by
  rw [expand_eq]

@[simp] theorem expand_selectedLineNumber (s : PWEdit) (d : Direction) (p : Nat) :
    (expand_column_selection_to_desired s d p).2.selectedLineNumber = s.selectedLineNumber := by
  rw [expand_eq]

@[simp] theorem expand_desiredColumnInLine (s : PWEdit) (d : Direction) (p : Nat) :
    (expand_column_selection_to_desired s d p).2.desiredColumnInLine = s.desiredColumnInLine := by
  rw [expand_eq]

@[simp] theorem expand_firstLineDisplayed (s : PWEdit) (d : Direction) (p : Nat) :
    (expand_column_selection_to_desired s d p).2.firstLineDisplayed = s.firstLineDisplayed := by
  rw [expand_eq]

@[simp] theorem expand_modified (s : PWEdit) (d : Direction) (p : Nat) :
    (expand_column_selection_to_desired s d p).2.modified = s.modified := by
  rw [expand_eq]

theorem move_down_scroll_eq (s : PWEdit) (b : Bool) :
    move_down_scroll s b = { s with
      printer := (move_down_scroll s b).printer
      termRow := (move_down_scroll s b).termRow
      firstLineDisplayed := (move_down_scroll s b).firstLineDisplayed } := by
  unfold move_down_scroll
  dsimp only []
  split_ifs
  · rw [move_cursor, display_file_from_eq]; rfl
  · rw [move_cursor, display_file_from_eq]; rfl
  · rfl

@[simp] theorem move_down_scroll_inFile (s : PWEdit) (b : Bool) :
    (move_down_scroll s b).inFile = s.inFile := by
  rw [move_down_scroll_eq]

@[simp] theorem move_down_scroll_outFile (s : PWEdit) (b : Bool) :
    (move_down_scroll s b).outFile = s.outFile := by
  rw [move_down_scroll_eq]

@[simp] theorem move_down_scroll_scanner (s : PWEdit) (b : Bool) :
    (move_down_scroll s b).scanner = s.scanner := by
  rw [move_down_scroll_eq]

@[simp] theorem move_down_scroll_lines (s : PWEdit) (b : Bool) :
    (move_down_scroll s b).lines = s.lines := by
  rw [move_down_scroll_eq]

@[simp] theorem move_down_scroll_stray (s : PWEdit) (b : Bool) :
    (move_down_scroll s b).stray = s.stray := by
  rw [move_down_scroll_eq]

@[simp] theorem move_down_scroll_columns (s : PWEdit) (b : Bool) :
    (move_down_scroll s b).columns = s.columns := by
  rw [move_down_scroll_eq]

@[simp] theorem move_down_scroll_rows (s : PWEdit) (b : Bool) :
    (move_down_scroll s b).rows = s.rows := by
  rw [move_down_scroll_eq]

@[simp] theorem move_down_scroll_termColumn (s : PWEdit) (b : Bool) :
    (move_down_scroll s b).termColumn = s.termColumn := by
  rw [move_down_scroll_eq]

@[simp] theorem move_down_scroll_selectedLine (s : PWEdit) (b : Bool) :
    (move_down_scroll s b).selectedLine = s.selectedLine := by
  rw [move_down_scroll_eq]

@[simp] theorem move_down_scroll_selectedLineNumber (s : PWEdit) (b : Bool) :
    (move_down_scroll s b).selectedLineNumber = s.selectedLineNumber := by
  rw [move_down_scroll_eq]

@[simp] theorem move_down_scroll_selectedColumnInLine (s : PWEdit) (b : Bool) :
    (move_down_scroll s b).selectedColumnInLine = s.selectedColumnInLine := by
  rw [move_down_scroll_eq]

@[simp] theorem move_down_scroll_desiredColumnInLine (s : PWEdit) (b : Bool) :
    (move_down_scroll s b).desiredColumnInLine = s.desiredColumnInLine := by
  rw [move_down_scroll_eq]

@[simp] theorem move_down_scroll_firstColumnDisplayed (s : PWEdit) (b : Bool) :
    (move_down_scroll s b).firstColumnDisplayed = s.firstColumnDisplayed := by
  rw [move_down_scroll_eq]

@[simp] theorem move_down_scroll_modified (s : PWEdit) (b : Bool) :
    (move_down_scroll s b).modified = s.modified := by
  rw [move_down_scroll_eq]

theorem move_up_scroll_eq (s : PWEdit) (b : Bool) :
    move_up_scroll s b = { s with
      printer := (move_up_scroll s b).printer
      termRow := (move_up_scroll s b).termRow
      firstLineDisplayed := (move_up_scroll s b).firstLineDisplayed } := by
  unfold move_up_scroll
  dsimp only []
  split_ifs
  · rw [move_cursor, display_file_from_eq]; rfl
  · rw [move_cursor, display_file_from_eq]; rfl
  · rfl

@[simp] theorem move_up_scroll_inFile (s : PWEdit) (b : Bool) :
    (move_up_scroll s b).inFile = s.inFile := by
  rw [move_up_scroll_eq]

@[simp] theorem move_up_scroll_outFile (s : PWEdit) (b : Bool) :
    (move_up_scroll s b).outFile = s.outFile := by
  rw [move_up_scroll_eq]

@[simp] theorem move_up_scroll_scanner (s : PWEdit) (b : Bool) :
    (move_up_scroll s b).scanner = s.scanner := by
  rw [move_up_scroll_eq]

@[simp] theorem move_up_scroll_lines (s : PWEdit) (b : Bool) :
    (move_up_scroll s b).lines = s.lines := by
  rw [move_up_scroll_eq]

@[simp] theorem move_up_scroll_stray (s : PWEdit) (b : Bool) :
    (move_up_scroll s b).stray = s.stray := by
  rw [move_up_scroll_eq]

@[simp] theorem move_up_scroll_columns (s : PWEdit) (b : Bool) :
    (move_up_scroll s b).columns = s.columns := by
  rw [move_up_scroll_eq]

@[simp] theorem move_up_scroll_rows (s : PWEdit) (b : Bool) :
    (move_up_scroll s b).rows = s.rows := by
  rw [move_up_scroll_eq]

@[simp] theorem move_up_scroll_termColumn (s : PWEdit) (b : Bool) :
    (move_up_scroll s b).termColumn = s.termColumn := by
  rw [move_up_scroll_eq]

@[simp] theorem move_up_scroll_selectedLine (s : PWEdit) (b : Bool) :
    (move_up_scroll s b).selectedLine = s.selectedLine := by
  rw [move_up_scroll_eq]

@[simp] theorem move_up_scroll_selectedLineNumber (s : PWEdit) (b : Bool) :
    (move_up_scroll s b).selectedLineNumber = s.selectedLineNumber := by
  rw [move_up_scroll_eq]

@[simp] theorem move_up_scroll_selectedColumnInLine (s : PWEdit) (b : Bool) :
    (move_up_scroll s b).selectedColumnInLine = s.selectedColumnInLine := by
  rw [move_up_scroll_eq]

@[simp] theorem move_up_scroll_desiredColumnInLine (s : PWEdit) (b : Bool) :
    (move_up_scroll s b).desiredColumnInLine = s.desiredColumnInLine := by
  rw [move_up_scroll_eq]

@[simp] theorem move_up_scroll_firstColumnDisplayed (s : PWEdit) (b : Bool) :
    (move_up_scroll s b).firstColumnDisplayed = s.firstColumnDisplayed := by
  rw [move_up_scroll_eq]

@[simp] theorem move_up_scroll_modified (s : PWEdit) (b : Bool) :
    (move_up_scroll s b).modified = s.modified := by
  rw [move_up_scroll_eq]

theorem save_lines_eq (ls : List (List Char)) (n : Nat) (s : PWEdit) :
    (save_lines ls n s).2 = { s with
      printer := (save_lines ls n s).2.printer
      outFile := (save_lines ls n s).2.outFile } := by
  induction ls generalizing n s with
  | nil => rfl
  | cons l ls ih =>
    rw [save_lines]
    split_ifs
    · rfl
    · rw [ih]
      rfl

theorem save_eq (s : PWEdit) :
    (save s).2 = { s with
      printer := (save s).2.printer
      outFile := (save s).2.outFile
      modified := (save s).2.modified } := by
  unfold save
  dsimp only []
  split_ifs
  · rfl
  · rfl
  · rw [save_lines_eq]; rfl
  · rw [save_lines_eq]; rfl
  · rw [save_lines_eq]; rfl
  · rfl

@[simp] theorem save_lines_snd_inFile (ls : List (List Char)) (n : Nat) (s : PWEdit) :
    (save_lines ls n s).2.inFile = s.inFile := by
  rw [save_lines_eq]

@[simp] theorem save_lines_snd_scanner (ls : List (List Char)) (n : Nat) (s : PWEdit) :
    (save_lines ls n s).2.scanner = s.scanner := by
  rw [save_lines_eq]

@[simp] theorem save_lines_snd_lines (ls : List (List Char)) (n : Nat) (s : PWEdit) :
    (save_lines ls n s).2.lines = s.lines := by
  rw [save_lines_eq]

@[simp] theorem save_lines_snd_stray (ls : List (List Char)) (n : Nat) (s : PWEdit) :
    (save_lines ls n s).2.stray = s.stray := by
  rw [save_lines_eq]

@[simp] theorem save_lines_snd_columns (ls : List (List Char)) (n : Nat) (s : PWEdit) :
    (save_lines ls n s).2.columns = s.columns := by
  rw [save_lines_eq]

@[simp] theorem save_lines_snd_rows (ls : List (List Char)) (n : Nat) (s : PWEdit) :
    (save_lines ls n s).2.rows = s.rows := by
  rw [save_lines_eq]

@[simp] theorem save_lines_snd_termRow (ls : List (List Char)) (n : Nat) (s : PWEdit) :
    (save_lines ls n s).2.termRow = s.termRow := by
  rw [save_lines_eq]

@[simp] theorem save_lines_snd_termColumn (ls : List (List Char)) (n : Nat) (s : PWEdit) :
    (save_lines ls n s).2.termColumn = s.termColumn := by
  rw [save_lines_eq]

@[simp] theorem save_lines_snd_selectedLine (ls : List (List Char)) (n : Nat) (s : PWEdit) :
    (save_lines ls n s).2.selectedLine = s.selectedLine := by
  rw [save_lines_eq]

@[simp] theorem save_lines_snd_selectedLineNumber (ls : List (List Char)) (n : Nat) (s : PWEdit) :
    (save_lines ls n s).2.selectedLineNumber = s.selectedLineNumber := by
  rw [save_lines_eq]

@[simp] theorem save_lines_snd_selectedColumnInLine (ls : List (List Char)) (n : Nat) (s : PWEdit) :
    (save_lines ls n s).2.selectedColumnInLine = s.selectedColumnInLine := by
  rw [save_lines_eq]

@[simp] theorem save_lines_snd_desiredColumnInLine (ls : List (List Char)) (n : Nat) (s : PWEdit) :
    (save_lines ls n s).2.desiredColumnInLine = s.desiredColumnInLine := by
  rw [save_lines_eq]

@[simp] theorem save_lines_snd_firstLineDisplayed (ls : List (List Char)) (n : Nat) (s : PWEdit) :
    (save_lines ls n s).2.firstLineDisplayed = s.firstLineDisplayed := by
  rw [save_lines_eq]

@[simp] theorem save_lines_snd_firstColumnDisplayed (ls : List (List Char)) (n : Nat) (s : PWEdit) :
    (save_lines ls n s).2.firstColumnDisplayed = s.firstColumnDisplayed := by
  rw [save_lines_eq]

@[simp] theorem save_lines_snd_modified (ls : List (List Char)) (n : Nat) (s : PWEdit) :
    (save_lines ls n s).2.modified = s.modified := by
  rw [save_lines_eq]

@[simp] theorem save_snd_inFile (s : PWEdit) :
    (save s).2.inFile = s.inFile := by
  rw [save_eq]

@[simp] theorem save_snd_scanner (s : PWEdit) :
    (save s).2.scanner = s.scanner := by
  rw [save_eq]

@[simp] theorem save_snd_lines (s : PWEdit) :
    (save s).2.lines = s.lines := by
  rw [save_eq]

@[simp] theorem save_snd_stray (s : PWEdit) :
    (save s).2.stray = s.stray := by
  rw [save_eq]

@[simp] theorem save_snd_columns (s : PWEdit) :
    (save s).2.columns = s.columns := by
  rw [save_eq]

@[simp] theorem save_snd_rows (s : PWEdit) :
    (save s).2.rows = s.rows := by
  rw [save_eq]

@[simp] theorem save_snd_termRow (s : PWEdit) :
    (save s).2.termRow = s.termRow := by
  rw [save_eq]

@[simp] theorem save_snd_termColumn (s : PWEdit) :
    (save s).2.termColumn = s.termColumn := by
  rw [save_eq]

@[simp] theorem save_snd_selectedLine (s : PWEdit) :
    (save s).2.selectedLine = s.selectedLine := by
  rw [save_eq]

@[simp] theorem save_snd_selectedLineNumber (s : PWEdit) :
    (save s).2.selectedLineNumber = s.selectedLineNumber := by
  rw [save_eq]

@[simp] theorem save_snd_selectedColumnInLine (s : PWEdit) :
    (save s).2.selectedColumnInLine = s.selectedColumnInLine := by
  rw [save_eq]

@[simp] theorem save_snd_desiredColumnInLine (s : PWEdit) :
    (save s).2.desiredColumnInLine = s.desiredColumnInLine := by
  rw [save_eq]

@[simp] theorem save_snd_firstLineDisplayed (s : PWEdit) :
    (save s).2.firstLineDisplayed = s.firstLineDisplayed := by
  rw [save_eq]

@[simp] theorem save_snd_firstColumnDisplayed (s : PWEdit) :
    (save s).2.firstColumnDisplayed = s.firstColumnDisplayed := by
  rw [save_eq]

end PWEdit

end PropWare

namespace PropWare
namespace PWEdit

/-! ## Vertical moves away from the document boundary -/

/-- Length of the line a vertical move goes to, as `trim` and `expand` read it. -/
theorem trim_selectedColumnInLine (s : PWEdit) (d : Direction)
    (hd : d = Direction.UP ∨ d = Direction.DOWN) :
    (trim_column_selection_to_fit s d).2.selectedColumnInLine =
      if get_size (s.deref (if d = Direction.UP then s.selectedLine - 1 else s.selectedLine + 1))
          % 4294967296 ≤ s.selectedColumnInLine then
        usub (get_size (s.deref (if d = Direction.UP then s.selectedLine - 1
          else s.selectedLine + 1)) % 4294967296) 1
      else s.selectedColumnInLine := by
  unfold trim_column_selection_to_fit
  rcases hd with rfl | rfl <;> dsimp only [] <;> split_ifs <;> simp_all

theorem expand_selectedColumnInLine (s : PWEdit) (d : Direction) (p : Nat)
    (hd : d = Direction.UP ∨ d = Direction.DOWN) :
    (expand_column_selection_to_desired s d p).2.selectedColumnInLine =
      if usub (get_size (s.deref (if d = Direction.UP then s.selectedLine - 1
            else s.selectedLine + 1)) % 4294967296) 1 > p ∧ s.desiredColumnInLine ≠ p then
        if get_size (s.deref (if d = Direction.UP then s.selectedLine - 1
            else s.selectedLine + 1)) % 4294967296 ≥ s.desiredColumnInLine then
          s.desiredColumnInLine
        else usub (get_size (s.deref (if d = Direction.UP then s.selectedLine - 1
            else s.selectedLine + 1)) % 4294967296) 1
      else s.selectedColumnInLine := by
  unfold expand_column_selection_to_desired
  rcases hd with rfl | rfl <;> dsimp only [] <;> split_ifs <;> simp_all

theorem deref_mem (s : PWEdit) (it : Int) (h0 : 0 ≤ it) (h1 : it < s.lines.length) :
    s.deref it ∈ s.lines := by
  unfold deref
  rw [if_pos ⟨h0, h1⟩]
  have h2 : it.toNat < s.lines.length := by omega
  rw [List.getD_eq_getElem _ _ h2]
  exact List.getElem_mem _

theorem deref_congr (s t : PWEdit) (it : Int) (hl : t.lines = s.lines) (hs : t.stray = s.stray) :
    t.deref it = s.deref it := by
  unfold deref
  rw [hl, hs]

/-- Column selected by a vertical move onto a line of (reduced) length `len`
from column `c` with desired column `d`: `trim_column_selection_to_fit`
followed by `expand_column_selection_to_desired`. -/
theorem vertical_selectedColumnInLine (s : PWEdit) (d : Direction)
    (hd : d = Direction.UP ∨ d = Direction.DOWN) (len : Nat)
    (hlen : get_size (s.deref (if d = Direction.UP then s.selectedLine - 1
      else s.selectedLine + 1)) % 4294967296 = len) :
    (expand_column_selection_to_desired (trim_column_selection_to_fit s d).2 d
        s.selectedColumnInLine).2.selectedColumnInLine =
      if usub len 1 > s.selectedColumnInLine ∧ s.desiredColumnInLine ≠ s.selectedColumnInLine then
        if len ≥ s.desiredColumnInLine then s.desiredColumnInLine else usub len 1
      else if len ≤ s.selectedColumnInLine then usub len 1 else s.selectedColumnInLine := by
  rw [expand_selectedColumnInLine _ _ _ hd, trim_selectedColumnInLine _ _ hd]
  simp only [trim_selectedLine, trim_desiredColumnInLine]
  rw [deref_congr s _ _ (trim_lines s d) (trim_stray s d), hlen]

theorem move_up_inner (s : PWEdit) (h : s.selectedLineNumber ≠ 0) :
    (move_up s).lines = s.lines ∧ (move_up s).stray = s.stray ∧
    (move_up s).selectedLine = s.selectedLine - 1 ∧
    (move_up s).selectedLineNumber = usub s.selectedLineNumber 1 ∧
    (move_up s).desiredColumnInLine = s.desiredColumnInLine ∧
    (move_up s).selectedColumnInLine =
      (expand_column_selection_to_desired (trim_column_selection_to_fit s Direction.UP).2
        Direction.UP s.selectedColumnInLine).2.selectedColumnInLine := by
  unfold move_up
  rw [if_neg h]
  simp

theorem move_down_inner (s : PWEdit) (h : ¬ usub s.size 1 ≤ s.selectedLineNumber) :
    (move_down s).lines = s.lines ∧ (move_down s).stray = s.stray ∧
    (move_down s).selectedLine = s.selectedLine + 1 ∧
    (move_down s).selectedLineNumber = uadd s.selectedLineNumber 1 ∧
    (move_down s).desiredColumnInLine = s.desiredColumnInLine ∧
    (move_down s).selectedColumnInLine =
      (expand_column_selection_to_desired (trim_column_selection_to_fit s Direction.DOWN).2
        Direction.DOWN s.selectedColumnInLine).2.selectedColumnInLine := by
  unfold move_down
  rw [if_neg h]
  simp

theorem line_length_bounds (s : PWEdit) (it : Int)
    (hline : ∀ l ∈ s.lines, l ≠ [] ∧ l.length < 4294967296)
    (h0 : 0 ≤ it) (h1 : it < s.lines.length) :
    0 < get_size (s.deref it) ∧ get_size (s.deref it) < 4294967296 := by
  obtain ⟨hne, hlt⟩ := hline _ (deref_mem s it h0 h1)
  unfold get_size
  exact ⟨List.length_pos.mpr hne, hlt⟩

end PWEdit

end PropWare
/-! ## Saving and the writer -/

namespace PropWare

theorem FileWriter.run_append (w : FileWriter) (a b : List WriterCall) :
    w.run (a ++ b) = if (w.run a).1 ≠ 0 then w.run a else (w.run a).2.run b := by
  induction a generalizing w with
  | nil => simp [FileWriter.run, NO_ERROR]
  | cons c cs ih =>
    simp only [List.cons_append, FileWriter.run]
    by_cases h : (w.call c).1 ≠ 0
    · simp only [if_pos h]
    · simp only [if_neg h]
      exact ih _

/-- A writer that answers every call with `NO_ERROR` receives the whole list. -/
theorem FileWriter.run_willing (w : FileWriter) (cs : List WriterCall)
    (hok : ∀ h, w.respond h = NO_ERROR) :
    w.run cs = (NO_ERROR, { w with calls := w.calls ++ cs }) := by
  induction cs generalizing w with
  | nil => simp [FileWriter.run]
  | cons c cs ih =>
    have h1 : (w.call c).1 = 0 := hok _
    simp only [FileWriter.run, h1, ne_eq, not_true_eq_false, if_false]
    rw [ih (w.call c).2 (fun h => hok h)]
    simp [FileWriter.call]

/-- When the call number `k` of the list is the first to be answered with a
non-zero code `e`, the run returns `e` and stops right after that call. -/
theorem FileWriter.run_first_failure (w : FileWriter) (cs : List WriterCall) (k : Nat)
    (e : ErrorCode) (hk : k < cs.length)
    (hbefore : ∀ j, j < k → w.respond (w.calls ++ cs.take (j + 1)) = NO_ERROR)
    (hat : w.respond (w.calls ++ cs.take (k + 1)) = e) (he : e ≠ 0) :
    w.run cs = (e, { w with calls := w.calls ++ cs.take (k + 1) }) := by
  induction cs generalizing w k with
  | nil => simp at hk
  | cons c cs ih =>
    cases k with
    | zero =>
      have h1 : (w.call c).1 = e := by simpa [FileWriter.call] using hat
      simp only [FileWriter.run, h1, ne_eq, he, not_false_eq_true, if_true]
      rw [← h1]
      simp [FileWriter.call]
    | succ k =>
      have h1 : (w.call c).1 = 0 := by
        simpa [FileWriter.call] using hbefore 0 (Nat.succ_pos k)
      simp only [FileWriter.run, h1, ne_eq, not_true_eq_false, if_false]
      rw [ih (w.call c).2 k (by simpa using hk)
        (fun j hj => by simpa [FileWriter.call] using hbefore (j + 1) (by omega))
        (by simpa [FileWriter.call] using hat)]
      simp [FileWriter.call]

namespace PWEdit

theorem save_lines_run (ls : List (List Char)) (n : Nat) (s : PWEdit) :
    (save_lines ls n s).1 = (s.outFile.run (ls.map WriterCall.safe_puts)).1 ∧
    (save_lines ls n s).2.outFile = (s.outFile.run (ls.map WriterCall.safe_puts)).2 := by
  induction ls generalizing n s with
  | nil => exact ⟨rfl, rfl⟩
  | cons l ls ih =>
    rw [save_lines]
    simp only [List.map_cons, FileWriter.run, move_cursor, put_uint_eq_puts, puts_puts,
      puts_outFile]
    split_ifs
    · exact ⟨rfl, rfl⟩
    · exact ih _ _

theorem save_lines_fst (ls : List (List Char)) (n : Nat) (s : PWEdit) :
    (save_lines ls n s).1 = (s.outFile.run (ls.map WriterCall.safe_puts)).1 :=
  (save_lines_run ls n s).1

theorem save_lines_outFile (ls : List (List Char)) (n : Nat) (s : PWEdit) :
    (save_lines ls n s).2.outFile = (s.outFile.run (ls.map WriterCall.safe_puts)).2 :=
  (save_lines_run ls n s).2

/-- `save` on a modified document makes the calls of `save_calls` until one
fails, returns the last code, and clears `m_modified` exactly when none failed. -/
theorem save_run (s : PWEdit) (hm : s.modified = true) :
    (save s).1 = (s.outFile.run (save_calls s.lines)).1 ∧
    (save s).2.outFile = (s.outFile.run (save_calls s.lines)).2 ∧
    (save s).2.modified = decide ((s.outFile.run (save_calls s.lines)).1 ≠ 0) := by
  unfold save save_calls
  rw [if_pos hm]
  simp only [FileWriter.run]
  by_cases h1 : (s.outFile.call (WriterCall.openAt 0 SeekDir.BEG)).1 ≠ 0
  · simp only [if_pos h1]
    simp [hm, h1]
  · simp only [if_neg h1, move_cursor, puts_puts, puts_outFile, puts_rows, puts_lines]
    by_cases h2 : ((s.outFile.call (WriterCall.openAt 0 SeekDir.BEG)).2.call WriterCall.trim).1 ≠ 0
    · simp only [if_pos h2]
      simp [hm, h2]
    · simp only [if_neg h2, save_lines_fst, save_lines_outFile, save_lines_snd_modified,
        puts_outFile, puts_modified, puts_lines]
      rw [FileWriter.run_append]
      by_cases h3 : (((s.outFile.call (WriterCall.openAt 0 SeekDir.BEG)).2.call
        WriterCall.trim).2.run (List.map WriterCall.safe_puts s.lines)).1 ≠ 0
      · simp only [if_pos h3]
        simp [h3, hm, save_lines_fst, save_lines_outFile]
      · simp only [if_neg h3, FileWriter.run]
        by_cases h5 : ((((s.outFile.call (WriterCall.openAt 0 SeekDir.BEG)).2.call
          WriterCall.trim).2.run (List.map WriterCall.safe_puts s.lines)).2.call
            WriterCall.close).1 ≠ 0
        · simp only [if_pos h5]
          simp [h5, hm, save_lines_fst, save_lines_outFile]
        · simp only [if_neg h5]
          simp [NO_ERROR]

/-! ## Command mode -/

/-- What `command` writes before it reads the command: the cleared bottom row,
the cursor at its start, and the prompt. -/
theorem command_prompt_eq (s : PWEdit) :
    put (move_cursor (clear_row s s.rows) s.rows 1) COMMAND_START =
      puts s (cursor_sequence s.rows 1 ++ List.replicate (s.columns + 1) ' ' ++
        cursor_sequence s.rows 1 ++ [COMMAND_START]) := by
  simp [clear_row, move_cursor, put_eq_puts]

/-- On keystrokes `cmd`, none of them a terminator, followed by the terminator
`t`, `read_command_input` stores `cmd` and `t`, echoes `cmd`, and leaves the
keystrokes after `t` in the scanner. -/
theorem read_command_input_eq (cmd : List Char) (t : Char) (rest : List Char) (s : PWEdit)
    (hcmd : ∀ c ∈ cmd, not_enter_key c = true) (ht : not_enter_key t = false) :
    read_command_input (cmd ++ t :: rest) s = some (cmd ++ [t], puts (set_scanner s rest) cmd) := by
  induction cmd generalizing s with
  | nil => simp [read_command_input, ht, puts, set_scanner]
  | cons c cmd ih =>
    have hc : not_enter_key c = true := hcmd c (List.mem_cons_self _ _)
    rw [List.cons_append, read_command_input, if_pos hc,
      ih _ (fun x hx => hcmd x (List.mem_cons_of_mem _ hx))]
    simp [put_eq_puts]

theorem wait_for_enter_key_eq (junk : List Char) (t : Char) (rest : List Char) (s : PWEdit)
    (hjunk : ∀ c ∈ junk, not_enter_key c = true) (ht : not_enter_key t = false) :
    wait_for_enter_key (junk ++ t :: rest) s = some (set_scanner s rest) := by
  induction junk generalizing s with
  | nil => simp [wait_for_enter_key, ht]
  | cons c junk ih =>
    have hc : not_enter_key c = true := hjunk c (List.mem_cons_self _ _)
    rw [List.cons_append, wait_for_enter_key, if_pos hc,
      ih _ (fun x hx => hjunk x (List.mem_cons_of_mem _ hx))]
    rfl

theorem print_line_at_row_puts (s : PWEdit) (c : Nat) (it : Int) (row : Nat) :
    ∃ out, print_line_at_row s c it row = puts s out := by
  unfold print_line_at_row
  simp only [move_cursor, puts_puts]
  exact ⟨_, rfl⟩

/-- End of `command`: the bottom row is rewritten and the cursor put back. -/
theorem command_tail_puts (s : PWEdit) :
    ∃ out, move_cursor (rewrite_last_line s) (rewrite_last_line s).termRow
      (rewrite_last_line s).termColumn = puts s out := by
  obtain ⟨o, ho⟩ : ∃ out, rewrite_last_line s = puts s out := by
    unfold rewrite_last_line
    exact print_line_at_row_puts _ _ _ _
  rw [ho]
  simp only [move_cursor, puts_puts]
  exact ⟨_, rfl⟩

/-- The quit part of `command` when it sets the exit flag: the document is not
modified, or the force modifier follows the quit token. -/
theorem command_exit_quits (buffer : List Char) (next : Nat) (exit : Bool) (s : PWEdit)
    (hq : buffer.getD next NULL_TERMINATOR = EXIT_CHAR)
    (h : s.modified = false ∨ buffer.getD (next + 1) NULL_TERMINATOR = EXIT_NO_SAVE) :
    ∃ out, command_exit buffer next exit s = some (NO_ERROR, true, puts s out) := by
  obtain ⟨o, ho⟩ := command_tail_puts s
  refine ⟨o, ?_⟩
  unfold command_exit
  rw [if_pos hq]
  have e : (if s.modified = true then
      if buffer.getD (next + 1) NULL_TERMINATOR = EXIT_NO_SAVE then some (true, s)
      else Option.map (fun s2 => (exit, s2))
        (wait_for_enter_key
          (puts (move_cursor (clear_row s s.rows) s.rows 1) unsavedChangesMessage).scanner
          (puts (move_cursor (clear_row s s.rows) s.rows 1) unsavedChangesMessage))
      else some (true, s)) = some (true, s) := by
    rcases h with h | h
    · rw [if_neg (by simp [h])]
    · rw [if_pos h]; simp
  simp only [] at e ⊢
  rw [e, Option.map_some', ho]

/-- The quit part of `command` when the document is modified and no force
modifier follows the quit token: the warning is written and a terminator
awaited; `exit` keeps its value. -/
theorem command_exit_warns (buffer : List Char) (next : Nat) (exit : Bool) (s : PWEdit)
    (junk : List Char) (t : Char) (rest : List Char)
    (hq : buffer.getD next NULL_TERMINATOR = EXIT_CHAR)
    (hm : s.modified = true)
    (hf : buffer.getD (next + 1) NULL_TERMINATOR ≠ EXIT_NO_SAVE)
    (hs : s.scanner = junk ++ t :: rest)
    (hjunk : ∀ c ∈ junk, not_enter_key c = true) (ht : not_enter_key t = false) :
    ∃ pre post, command_exit buffer next exit s =
      some (NO_ERROR, exit, puts (set_scanner s rest) (pre ++ unsavedChangesMessage ++ post)) := by
  obtain ⟨o, ho⟩ := command_tail_puts
    (puts (set_scanner s rest) (cursor_sequence s.rows 1 ++
      List.replicate (s.columns + 1) ' ' ++ cursor_sequence s.rows 1 ++ unsavedChangesMessage))
  refine ⟨cursor_sequence s.rows 1 ++ List.replicate (s.columns + 1) ' ' ++
      cursor_sequence s.rows 1, o, ?_⟩
  unfold command_exit
  rw [if_pos hq, if_pos hm, if_neg hf]
  simp only [clear_row, move_cursor, puts_puts, puts_scanner, puts_rows, puts_columns, hs]
  rw [wait_for_enter_key_eq junk t rest _ hjunk ht]
  simp only [Option.map_some', set_scanner_puts, move_cursor] at ho ⊢
  rw [ho]
  simp

end PWEdit

end PropWare

namespace PropWare

namespace PWEdit

/-- `command` on keystrokes `cmd`, none a terminator, followed by the
terminator `t`: after the prompt and the echo of `cmd` (state `s2`), a leading
save token runs `save`, whose failure is returned; then the quit part runs. -/
theorem command_eq (s s2 : PWEdit) (exit : Bool) (cmd : List Char) (t : Char)
    (rest : List Char) (hs : s.scanner = cmd ++ t :: rest)
    (hcmd : ∀ c ∈ cmd, not_enter_key c = true) (ht : not_enter_key t = false)
    (h2 : s2 = puts (set_scanner s rest) (cursor_sequence s.rows 1 ++
      List.replicate (s.columns + 1) ' ' ++ cursor_sequence s.rows 1 ++ [COMMAND_START] ++ cmd)) :
    command s exit =
      if (cmd ++ [t]).getD 0 NULL_TERMINATOR = SAVE_CHAR then
        if (save s2).1 ≠ 0 then some ((save s2).1, exit, (save s2).2)
        else command_exit (cmd ++ [t]) 1 exit (save s2).2
      else command_exit (cmd ++ [t]) 0 exit s2 := by
  unfold command
  simp only [command_prompt_eq, puts_scanner, hs]
  rw [read_command_input_eq cmd t rest _ hcmd ht]
  simp only [set_scanner_puts, puts_puts]
  rw [← h2]

/-- The save-then-quit commands `wq` and `wq!` (any `cmd` after the two
tokens) on a modified document whose writer accepts every call: the document
is saved in full and the exit flag set. -/
theorem command_save_quit (s : PWEdit) (cmd : List Char) (t : Char) (rest : List Char)
    (exit : Bool) (hm : s.modified = true) (hok : ∀ h, s.outFile.respond h = NO_ERROR)
    (hs : s.scanner = SAVE_CHAR :: EXIT_CHAR :: (cmd ++ t :: rest))
    (hcmd : ∀ c ∈ cmd, not_enter_key c = true) (ht : not_enter_key t = false) :
    ∃ s2, command s exit = some (NO_ERROR, true, s2) ∧
      s2.outFile.calls = s.outFile.calls ++ save_calls s.lines ∧
      s2.modified = false ∧ s2.lines = s.lines ∧ s2.scanner = rest := by
  have hcmd2 : ∀ c ∈ SAVE_CHAR :: EXIT_CHAR :: cmd, not_enter_key c = true := by
    intro c hc
    simp only [List.mem_cons] at hc
    rcases hc with rfl | rfl | hc
    · decide
    · decide
    · exact hcmd c hc
  rw [command_eq s _ exit (SAVE_CHAR :: EXIT_CHAR :: cmd) t rest (by simpa using hs) hcmd2 ht rfl]
  generalize hx : puts (set_scanner s rest) (cursor_sequence s.rows 1 ++
      List.replicate (s.columns + 1) ' ' ++ cursor_sequence s.rows 1 ++ [COMMAND_START] ++
      (SAVE_CHAR :: EXIT_CHAR :: cmd)) = x
  have hxm : x.modified = true := by rw [← hx]; simpa using hm
  have hxo : x.outFile = s.outFile := by rw [← hx]; simp
  have hxl : x.lines = s.lines := by rw [← hx]; simp
  have hxs : x.scanner = rest := by rw [← hx]; simp
  obtain ⟨r1, r2, r3⟩ := save_run x hxm
  rw [hxo, hxl, FileWriter.run_willing _ _ hok] at r1 r2 r3
  simp only [] at r1 r2 r3
  have r3b : (save x).2.modified = false := by simpa [NO_ERROR] using r3
  rw [if_pos (by simp), if_neg (by rw [r1]; simp [NO_ERROR])]
  obtain ⟨o, ho⟩ := command_exit_quits (SAVE_CHAR :: EXIT_CHAR :: cmd ++ [t]) 1 exit (save x).2
    (by simp) (Or.inl r3b)
  refine ⟨_, ho, ?_, ?_, ?_, ?_⟩
  · simp [r2]
  · simpa using r3b
  · simp [hxl]
  · simp [hxs]

end PWEdit

/-- C5. `save` on an unmodified document returns `NO_ERROR` and changes
nothing: no call reaches the writer, the document and the modified flag stay
as they were (the whole state does). -/
theorem C5_save_unmodified (s : PWEdit) (hm : s.modified = false) :
    (PWEdit.save s).1 = NO_ERROR ∧
    (PWEdit.save s).2.outFile.calls = s.outFile.calls ∧
    (PWEdit.save s).2.lines = s.lines ∧
    (PWEdit.save s).2.modified = false ∧
    (PWEdit.save s).2 = s := by
  have h : PWEdit.save s = (NO_ERROR, s) := by
    unfold PWEdit.save
    rw [if_neg (by simp [hm])]
  rw [h]
  exact ⟨rfl, rfl, rfl, hm, rfl⟩

theorem C5_save_unmodified_witness :
    (PWEdit.save PWEdit.twoLines).1 = NO_ERROR ∧
    (PWEdit.save PWEdit.twoLines).2.outFile.calls = [] ∧
    (PWEdit.save PWEdit.twoLines).2.modified = false :=
  ⟨(C5_save_unmodified PWEdit.twoLines rfl).1, (C5_save_unmodified PWEdit.twoLines rfl).2.1,
    (C5_save_unmodified PWEdit.twoLines rfl).2.2.2.1⟩

/-- C6. `save` on a modified document whose writer accepts every call makes
exactly the calls open (offset 0 from the beginning), trim, one `safe_puts` per
line in document order, close; it returns `NO_ERROR`, clears the modified flag
and leaves the document as it was. -/
theorem C6_save_writes_document (s : PWEdit) (hm : s.modified = true)
    (hok : ∀ h, s.outFile.respond h = NO_ERROR) :
    (PWEdit.save s).1 = NO_ERROR ∧
    (PWEdit.save s).2.outFile.calls =
      s.outFile.calls ++ (WriterCall.openAt 0 SeekDir.BEG :: WriterCall.trim ::
        (s.lines.map WriterCall.safe_puts ++ [WriterCall.close])) ∧
    (PWEdit.save s).2.modified = false ∧
    (PWEdit.save s).2.lines = s.lines := by
  obtain ⟨r1, r2, r3⟩ := PWEdit.save_run s hm
  rw [FileWriter.run_willing _ _ hok] at r1 r2 r3
  refine ⟨r1, ?_, ?_, PWEdit.save_snd_lines s⟩
  · rw [r2]; rfl
  · simpa [NO_ERROR] using r3

end PropWare

namespace PropWare

/-- C3. On a modified document whose writer accepts every call, the command
`wq!` followed by a terminator first saves the document in full (open at
offset 0, trim, one `safe_puts` per line, close) and then sets the exit flag,
returning `NO_ERROR`. -/
theorem C3_forced_save_and_quit (s : PWEdit) (t : Char) (rest : List Char)
    (hm : s.modified = true) (hok : ∀ h, s.outFile.respond h = NO_ERROR)
    (hs : s.scanner = SAVE_CHAR :: EXIT_CHAR :: EXIT_NO_SAVE :: t :: rest)
    (ht : PWEdit.not_enter_key t = false) :
    ∃ s2, PWEdit.command s false = some (NO_ERROR, true, s2) ∧
      s2.outFile.calls = s.outFile.calls ++ (WriterCall.openAt 0 SeekDir.BEG ::
        WriterCall.trim :: (s.lines.map WriterCall.safe_puts ++ [WriterCall.close])) ∧
      s2.modified = false ∧ s2.lines = s.lines :=
  let ⟨s2, h1, h2, h3, h4, _⟩ := PWEdit.command_save_quit s [EXIT_NO_SAVE] t rest false hm hok
    hs (by simp; decide) ht
  ⟨s2, h1, h2, h3, h4⟩

theorem C3_forced_save_and_quit_witness :
    ∃ s2, PWEdit.command
        (PWEdit.unsaved [SAVE_CHAR, EXIT_CHAR, EXIT_NO_SAVE, CARRIAGE_RETURN]) false
        = some (NO_ERROR, true, s2) ∧
      s2.outFile.calls = [] ++ (WriterCall.openAt 0 SeekDir.BEG :: WriterCall.trim ::
        ([['a', 'b'], ['a', 'b', 'c', 'd', 'e', 'f', 'g', 'h', 'i', 'j']].map
          WriterCall.safe_puts ++ [WriterCall.close])) ∧
      s2.modified = false ∧
      s2.lines = [['a', 'b'], ['a', 'b', 'c', 'd', 'e', 'f', 'g', 'h', 'i', 'j']] :=
  C3_forced_save_and_quit
    (PWEdit.unsaved [SAVE_CHAR, EXIT_CHAR, EXIT_NO_SAVE, CARRIAGE_RETURN]) CARRIAGE_RETURN []
    rfl (fun _ => rfl) rfl (by decide)

theorem C6_save_writes_document_witness :
    (PWEdit.save (PWEdit.unsaved [])).1 = NO_ERROR ∧
    (PWEdit.save (PWEdit.unsaved [])).2.outFile.calls =
      [] ++ (WriterCall.openAt 0 SeekDir.BEG :: WriterCall.trim ::
        ([['a', 'b'], ['a', 'b', 'c', 'd', 'e', 'f', 'g', 'h', 'i', 'j']].map
          WriterCall.safe_puts ++ [WriterCall.close])) ∧
    (PWEdit.save (PWEdit.unsaved [])).2.modified = false ∧
    (PWEdit.save (PWEdit.unsaved [])).2.lines =
      [['a', 'b'], ['a', 'b', 'c', 'd', 'e', 'f', 'g', 'h', 'i', 'j']] :=
  C6_save_writes_document (PWEdit.unsaved []) rfl (fun _ => rfl)

end PropWare

namespace PropWare

namespace PWEdit

/-- The character stored after the quit token is the force modifier exactly
when it is the first character typed after the token: a terminator is not `!`. -/
theorem force_modifier_iff (cmd : List Char) (t : Char) (ht : not_enter_key t = false) :
    (cmd ++ [t]).getD 0 NULL_TERMINATOR = EXIT_NO_SAVE ↔ cmd.head? = some EXIT_NO_SAVE := by
  cases cmd with
  | nil =>
    simp only [List.nil_append, List.getD_cons_zero, List.head?_nil]
    constructor
    · intro h
      rw [h] at ht
      exact absurd ht (by decide)
    · intro h
      exact absurd h (by simp)
  | cons c cmd => simp

end PWEdit

/-- C4. Quit decision.  The command is the quit token `q` followed by
characters `cmd` (none a terminator) and a terminator `t`, no save token; it
fits the command buffer, and the exit flag is unset on entry.  Then `command`
returns `NO_ERROR`; the exit flag is set if and only if the document is not
modified or `!` comes right after `q`; otherwise (for which a terminator must
follow among the later keystrokes, awaited by the warning) the text
`UNSAVED CHANGES` is written and the flag stays unset; and in all cases the
writer receives no call. -/
theorem C4_quit_decision (s : PWEdit) (cmd : List Char) (t : Char) (rest : List Char)
    (hs : s.scanner = EXIT_CHAR :: (cmd ++ t :: rest))
    (_hfit : (EXIT_CHAR :: (cmd ++ [t])).length ≤ COMMAND_BUFFER_SIZE)
    (hcmd : ∀ c ∈ cmd, PWEdit.not_enter_key c = true) (ht : PWEdit.not_enter_key t = false)
    (hwait : s.modified = true → cmd.head? ≠ some EXIT_NO_SAVE →
      ∃ junk t2 rest2, rest = junk ++ t2 :: rest2 ∧
        (∀ c ∈ junk, PWEdit.not_enter_key c = true) ∧ PWEdit.not_enter_key t2 = false) :
    ∃ e s2, PWEdit.command s false = some (NO_ERROR, e, s2) ∧
      (e = true ↔ (s.modified = false ∨ cmd.head? = some EXIT_NO_SAVE)) ∧
      (e = false → ∃ pre post,
        s2.printer = s.printer ++ pre ++ PWEdit.unsavedChangesMessage ++ post) ∧
      s2.outFile = s.outFile ∧ s2.modified = s.modified ∧ s2.lines = s.lines := by
  have hcmd2 : ∀ c ∈ EXIT_CHAR :: cmd, PWEdit.not_enter_key c = true := by
    intro c hc
    simp only [List.mem_cons] at hc
    rcases hc with rfl | hc
    · decide
    · exact hcmd c hc
  rw [PWEdit.command_eq s _ false (EXIT_CHAR :: cmd) t rest (by simpa using hs) hcmd2 ht rfl]
  rw [if_neg (by simp only [List.cons_append, List.getD_cons_zero]; decide)]
  generalize hx : PWEdit.puts (PWEdit.set_scanner s rest) (PWEdit.cursor_sequence s.rows 1 ++
      List.replicate (s.columns + 1) ' ' ++ PWEdit.cursor_sequence s.rows 1 ++ [COMMAND_START] ++
      (EXIT_CHAR :: cmd)) = x
  have hxm : x.modified = s.modified := by rw [← hx]; simp
  have hxo : x.outFile = s.outFile := by rw [← hx]; simp
  have hxl : x.lines = s.lines := by rw [← hx]; simp
  have hxs : x.scanner = rest := by rw [← hx]; simp
  have hxp : x.printer = s.printer ++ (PWEdit.cursor_sequence s.rows 1 ++
      List.replicate (s.columns + 1) ' ' ++ PWEdit.cursor_sequence s.rows 1 ++ [COMMAND_START] ++
      (EXIT_CHAR :: cmd)) := by rw [← hx]; simp
  have hq : (EXIT_CHAR :: cmd ++ [t]).getD 0 NULL_TERMINATOR = EXIT_CHAR := by simp
  have hf : (EXIT_CHAR :: cmd ++ [t]).getD (0 + 1) NULL_TERMINATOR = EXIT_NO_SAVE ↔
      cmd.head? = some EXIT_NO_SAVE := by
    simpa using PWEdit.force_modifier_iff cmd t ht
  by_cases hgo : s.modified = false ∨ cmd.head? = some EXIT_NO_SAVE
  · obtain ⟨o, ho⟩ := PWEdit.command_exit_quits (EXIT_CHAR :: cmd ++ [t]) 0 false x hq
      (hgo.imp (fun h => hxm.trans h) hf.mpr)
    refine ⟨true, _, ho, ?_, ?_, ?_, ?_, ?_⟩
    · simp [hgo]
    · intro h; exact absurd h (by simp)
    · simp [hxo]
    · simp [hxm]
    · simp [hxl]
  · have hm : s.modified = true := by
      cases h : s.modified
      · exact absurd (Or.inl h) hgo
      · rfl
    have hnf : cmd.head? ≠ some EXIT_NO_SAVE := fun h => hgo (Or.inr h)
    obtain ⟨junk, t2, rest2, hr, hjunk, ht2⟩ := hwait hm hnf
    obtain ⟨pre, post, ho⟩ := PWEdit.command_exit_warns (EXIT_CHAR :: cmd ++ [t]) 0 false x
      junk t2 rest2 hq (hxm.trans hm) (fun h => hnf (hf.mp h)) (hxs.trans hr) hjunk ht2
    refine ⟨false, _, ho, ?_, ?_, ?_, ?_, ?_⟩
    · simp [hgo]
    · intro _
      refine ⟨PWEdit.cursor_sequence s.rows 1 ++ List.replicate (s.columns + 1) ' ' ++
        PWEdit.cursor_sequence s.rows 1 ++ [COMMAND_START] ++ (EXIT_CHAR :: cmd) ++ pre, post, ?_⟩
      simp [hxp]
    · simp [hxo]
    · simp [hxm]
    · simp [hxl]

set_option maxRecDepth 100000 in
theorem C4_quit_decision_witness :
    (∃ e s2, PWEdit.command
        { PWEdit.twoLines with scanner := [EXIT_CHAR, CARRIAGE_RETURN] } false
        = some (NO_ERROR, e, s2) ∧
      (e = true ↔ (false = false ∨ ([] : List Char).head? = some EXIT_NO_SAVE)) ∧
      (e = false → ∃ pre post,
        s2.printer = [] ++ pre ++ PWEdit.unsavedChangesMessage ++ post) ∧
      s2.outFile = FileWriter.willing ∧ s2.modified = false ∧
      s2.lines = [['a', 'b'], ['a', 'b', 'c', 'd', 'e', 'f', 'g', 'h', 'i', 'j']]) ∧
    (∃ e s2, PWEdit.command
        (PWEdit.unsaved [EXIT_CHAR, CARRIAGE_RETURN, 'x', NEWLINE]) false
        = some (NO_ERROR, e, s2) ∧
      (e = true ↔ (true = false ∨ ([] : List Char).head? = some EXIT_NO_SAVE)) ∧
      (e = false → ∃ pre post,
        s2.printer = [] ++ pre ++ PWEdit.unsavedChangesMessage ++ post) ∧
      s2.outFile = FileWriter.willing ∧ s2.modified = true ∧
      s2.lines = [['a', 'b'], ['a', 'b', 'c', 'd', 'e', 'f', 'g', 'h', 'i', 'j']]) :=
  ⟨C4_quit_decision { PWEdit.twoLines with scanner := [EXIT_CHAR, CARRIAGE_RETURN] } []
      CARRIAGE_RETURN [] rfl (by decide) (by simp) (by decide) (fun h => absurd h (by decide)),
    C4_quit_decision (PWEdit.unsaved [EXIT_CHAR, CARRIAGE_RETURN, 'x', NEWLINE]) []
      CARRIAGE_RETURN ['x', NEWLINE] rfl (by decide) (by simp) (by decide)
      (fun _ _ => ⟨['x'], NEWLINE, [], rfl, by simp; decide, by decide⟩)⟩

/-- C8. Save error propagation.  On a modified document, when call number `k`
of the calls a complete save makes (open, trim, each `safe_puts`, close) is the
first the writer answers with a non-zero code `e`: `save` returns exactly `e`,
the writer has received the calls up to that one and no further, and the
modified flag is still set; and `command`, given a command that starts with the
save token, returns the same `e` with the exit flag as it found it. -/
theorem C8_save_error_propagation (s : PWEdit) (k : Nat) (e : ErrorCode)
    (hm : s.modified = true) (hk : k < (save_calls s.lines).length)
    (hbefore : ∀ j, j < k →
      s.outFile.respond (s.outFile.calls ++ (save_calls s.lines).take (j + 1)) = NO_ERROR)
    (hat : s.outFile.respond (s.outFile.calls ++ (save_calls s.lines).take (k + 1)) = e)
    (he : e ≠ 0) :
    ((PWEdit.save s).1 = e ∧
      (PWEdit.save s).2.outFile.calls = s.outFile.calls ++ (save_calls s.lines).take (k + 1) ∧
      (PWEdit.save s).2.modified = true) ∧
    (∀ (cmd : List Char) (t : Char) (rest : List Char) (exit : Bool),
      s.scanner = SAVE_CHAR :: (cmd ++ t :: rest) →
      (SAVE_CHAR :: (cmd ++ [t])).length ≤ COMMAND_BUFFER_SIZE →
      (∀ c ∈ cmd, PWEdit.not_enter_key c = true) → PWEdit.not_enter_key t = false →
      ∃ s2, PWEdit.command s exit = some (e, exit, s2) ∧
        s2.outFile.calls = s.outFile.calls ++ (save_calls s.lines).take (k + 1) ∧
        s2.modified = true) := by
  have key : ∀ x : PWEdit, x.modified = true → x.outFile = s.outFile → x.lines = s.lines →
      (PWEdit.save x).1 = e ∧
      (PWEdit.save x).2.outFile.calls = s.outFile.calls ++ (save_calls s.lines).take (k + 1) ∧
      (PWEdit.save x).2.modified = true := by
    intro x hxm hxo hxl
    obtain ⟨r1, r2, r3⟩ := PWEdit.save_run x hxm
    rw [hxo, hxl, FileWriter.run_first_failure _ _ k e hk hbefore hat he] at r1 r2 r3
    refine ⟨r1, ?_, ?_⟩
    · rw [r2]
    · simpa [he] using r3
  refine ⟨key s hm rfl rfl, ?_⟩
  intro cmd t rest exit hs _ hcmd ht
  have hcmd2 : ∀ c ∈ SAVE_CHAR :: cmd, PWEdit.not_enter_key c = true := by
    intro c hc
    simp only [List.mem_cons] at hc
    rcases hc with rfl | hc
    · decide
    · exact hcmd c hc
  rw [PWEdit.command_eq s _ exit (SAVE_CHAR :: cmd) t rest (by simpa using hs) hcmd2 ht rfl]
  obtain ⟨k1, k2, k3⟩ := key (PWEdit.puts (PWEdit.set_scanner s rest)
    (PWEdit.cursor_sequence s.rows 1 ++ List.replicate (s.columns + 1) ' ' ++
      PWEdit.cursor_sequence s.rows 1 ++ [COMMAND_START] ++ (SAVE_CHAR :: cmd)))
    (by simpa using hm) (by simp) (by simp)
  rw [if_pos (by simp), if_pos (by rw [k1]; exact he), k1]
  exact ⟨_, rfl, k2, k3⟩

theorem C8_save_error_propagation_witness :
    ((PWEdit.save { PWEdit.unsaved [SAVE_CHAR, EXIT_CHAR, CARRIAGE_RETURN] with
        outFile := FileWriter.failingAt 2 7 }).1 = 7 ∧
      (PWEdit.save { PWEdit.unsaved [SAVE_CHAR, EXIT_CHAR, CARRIAGE_RETURN] with
        outFile := FileWriter.failingAt 2 7 }).2.outFile.calls =
          [] ++ (save_calls [['a', 'b'], ['a', 'b', 'c', 'd', 'e', 'f', 'g', 'h', 'i', 'j']]).take
            (2 + 1) ∧
      (PWEdit.save { PWEdit.unsaved [SAVE_CHAR, EXIT_CHAR, CARRIAGE_RETURN] with
        outFile := FileWriter.failingAt 2 7 }).2.modified = true) ∧
    (∃ s2, PWEdit.command { PWEdit.unsaved [SAVE_CHAR, EXIT_CHAR, CARRIAGE_RETURN] with
          outFile := FileWriter.failingAt 2 7 } false = some (7, false, s2) ∧
        s2.outFile.calls =
          [] ++ (save_calls [['a', 'b'], ['a', 'b', 'c', 'd', 'e', 'f', 'g', 'h', 'i', 'j']]).take
            (2 + 1) ∧
        s2.modified = true) :=
  ⟨(C8_save_error_propagation { PWEdit.unsaved [SAVE_CHAR, EXIT_CHAR, CARRIAGE_RETURN] with
      outFile := FileWriter.failingAt 2 7 } 2 7 rfl (by decide)
      (by
        intro j hj
        have h : j = 0 ∨ j = 1 := by omega
        rcases h with rfl | rfl <;> decide)
      (by decide) (by decide)).1,
    (C8_save_error_propagation { PWEdit.unsaved [SAVE_CHAR, EXIT_CHAR, CARRIAGE_RETURN] with
      outFile := FileWriter.failingAt 2 7 } 2 7 rfl (by decide)
      (by
        intro j hj
        have h : j = 0 ∨ j = 1 := by omega
        rcases h with rfl | rfl <;> decide)
      (by decide) (by decide)).2 [EXIT_CHAR] CARRIAGE_RETURN [] false rfl (by decide)
      (by simp; decide) (by decide)⟩

end PropWare

/-! ## Loading -/

namespace PropWare

namespace PWEdit

/-- More fuel does not change a result of the inner loop. -/
theorem read_line_mono (fuel : Nat) (r : FileReader) (line : List Char)
    (x : ErrorCode × FileReader × List Char) (h : read_line fuel r line = some x) :
    read_line (fuel + 1) r line = some x := by
  induction fuel generalizing r line with
  | zero => simp [read_line] at h
  | succ n ih =>
    rw [read_line] at h ⊢
    dsimp only [] at h ⊢
    by_cases h1 : r.safe_get_char.1 ≠ 0
    · rw [if_pos h1] at h ⊢
      exact h
    · rw [if_neg h1] at h ⊢
      by_cases h2 : r.safe_get_char.2.1 ≠ CARRIAGE_RETURN ∧ r.safe_get_char.2.1 ≠ NEWLINE
      · rw [if_pos h2] at h ⊢
        exact ih _ _ h
      · rw [if_neg h2] at h ⊢
        exact h

/-- More fuel does not change a result of the outer loop. -/
theorem read_lines_mono (fuel : Nat) (s : PWEdit) (x : ErrorCode × PWEdit)
    (h : read_lines fuel s = some x) : read_lines (fuel + 1) s = some x := by
  induction fuel generalizing s with
  | zero => simp [read_lines] at h
  | succ n ih =>
    rw [read_lines] at h ⊢
    split_ifs at h ⊢ with h1
    · exact h
    · cases hl : read_line n s.inFile [] with
      | none => simp [hl] at h
      | some y =>
        rw [read_line_mono n _ _ y hl]
        rw [hl] at h
        dsimp only [] at h ⊢
        split_ifs at h ⊢ with h2 h3 h4 h5
        · exact h
        · exact h
        · exact ih _ h
        · exact h
        · exact ih _ h

theorem read_lines_mono_le (fuel fuel2 : Nat) (s : PWEdit) (x : ErrorCode × PWEdit)
    (h : read_lines fuel s = some x) (hle : fuel ≤ fuel2) : read_lines fuel2 s = some x := by
  induction hle with
  | refl => exact h
  | step _ ih => exact read_lines_mono _ _ _ ih

/-- Whatever the fuel, `read_in_file` either does not finish or gives the
result it gives with the fuel `fuel0`, provided that is a result. -/
theorem read_in_file_fuel (fuel0 fuel : Nat) (s : PWEdit) (x : ErrorCode × PWEdit)
    (h0 : read_in_file fuel0 s = some x) :
    read_in_file fuel s = none ∨ read_in_file fuel s = some x := by
  unfold read_in_file at h0 ⊢
  split_ifs at h0 ⊢ with h1
  · exact Or.inr h0
  · cases hf : read_lines fuel s with
    | none => exact Or.inl rfl
    | some y =>
      right
      rcases Nat.le_total fuel fuel0 with hle | hle
      · rw [read_lines_mono_le fuel fuel0 s y hf hle] at h0
        exact h0
      · rw [read_lines_mono_le fuel0 fuel s x h0 hle] at hf
        exact hf.symm

/-- The inner loop on a record: characters `pre`, none of them a carriage
return or a newline, then the terminator `t`.  With fuel for every character
it returns `NO_ERROR`, leaves the reader after `t`, and has added to the line
the accepted characters of `pre`, in order. -/
theorem read_line_record (fuel : Nat) (r : FileReader) (line pre : List Char) (t : Char)
    (rest : List Char) (h : r.content = pre ++ t :: rest)
    (hpre : ∀ ch ∈ pre, ch ≠ CARRIAGE_RETURN ∧ ch ≠ NEWLINE)
    (ht : t = CARRIAGE_RETURN ∨ t = NEWLINE) (hfuel : pre.length + 1 ≤ fuel) :
    read_line fuel r line =
      some (NO_ERROR, { r with content := rest }, line ++ pre.filter accepted) := by
  induction pre generalizing fuel r line with
  | nil =>
    obtain ⟨n, rfl⟩ : ∃ n, fuel = n + 1 := ⟨fuel - 1, by simp at hfuel; omega⟩
    have hacc : accepted t = false := by rcases ht with rfl | rfl <;> decide
    have hterm : ¬ (t ≠ CARRIAGE_RETURN ∧ t ≠ NEWLINE) := by
      rcases ht with rfl | rfl <;> decide
    simp only [List.nil_append] at h
    simp [read_line, FileReader.safe_get_char, h, NO_ERROR, hacc, hterm]
  | cons ch pre ih =>
    obtain ⟨n, rfl⟩ : ∃ n, fuel = n + 1 := ⟨fuel - 1, by simp at hfuel; omega⟩
    have hch := hpre ch (List.mem_cons_self _ _)
    simp only [List.cons_append] at h
    rw [read_line]
    simp only [FileReader.safe_get_char, h, NO_ERROR, ne_eq, not_true_eq_false, if_false, hch,
      not_false_eq_true, and_self, if_true]
    rw [ih n _ _ rfl (fun x hx => hpre x (List.mem_cons_of_mem _ hx))
      (by simp at hfuel; omega)]
    by_cases ha : accepted ch = true
    · simp [ha, List.filter_cons, NO_ERROR]
    · simp [ha, List.filter_cons, NO_ERROR]

/-- One round of the outer loop on a record `pre` ended by `t`: the line
is read, a newline that comes next is consumed whether `t` was a carriage
return or not, and the line is appended to the document. -/
theorem read_lines_record (fuel : Nat) (s : PWEdit) (pre : List Char) (t : Char)
    (rest : List Char) (h : s.inFile.content = pre ++ t :: rest)
    (hpre : ∀ ch ∈ pre, ch ≠ CARRIAGE_RETURN ∧ ch ≠ NEWLINE)
    (ht : t = CARRIAGE_RETURN ∨ t = NEWLINE) (hfuel : pre.length + 1 ≤ fuel) :
    read_lines (fuel + 1) s =
      if ((if FileReader.peek { s.inFile with content := rest } = NEWLINE then
            FileReader.safe_get_char { s.inFile with content := rest }
          else (NO_ERROR, NEWLINE, { s.inFile with content := rest })).1 ≠ 0) then
        some ((if FileReader.peek { s.inFile with content := rest } = NEWLINE then
            FileReader.safe_get_char { s.inFile with content := rest }
          else (NO_ERROR, NEWLINE, { s.inFile with content := rest })).1,
          set_inFile s (if FileReader.peek { s.inFile with content := rest } = NEWLINE then
            FileReader.safe_get_char { s.inFile with content := rest }
          else (NO_ERROR, NEWLINE, { s.inFile with content := rest })).2.2)
      else
        read_lines fuel (puts (push_back (set_inFile s
          (if FileReader.peek { s.inFile with content := rest } = NEWLINE then
            FileReader.safe_get_char { s.inFile with content := rest }
          else (NO_ERROR, NEWLINE, { s.inFile with content := rest })).2.2)
          (pre.filter accepted))
          (cursor_sequence 2 1 ++ "Line: ".toList ++
            Nat.toDigits 10 ((s.lines.length + 1) % 4294967296))) := by
  rw [read_lines]
  have hne : s.inFile.eof = false := by simp [FileReader.eof, h]
  rw [if_neg (by simp [hne])]
  rw [read_line_record fuel s.inFile [] pre t rest h hpre ht hfuel]
  simp only [NO_ERROR, ne_eq, not_true_eq_false, if_false, List.nil_append, move_cursor,
    put_uint_eq_puts, puts_puts, size, push_back_lines, set_inFile_lines, List.length_append,
    List.length_singleton, List.append_assoc]

end PWEdit

end PropWare

namespace PropWare

namespace PWEdit

theorem read_line_mono_le (fuel fuel2 : Nat) (r : FileReader) (line : List Char)
    (x : ErrorCode × FileReader × List Char) (h : read_line fuel r line = some x)
    (hle : fuel ≤ fuel2) : read_line fuel2 r line = some x := by
  induction hle with
  | refl => exact h
  | step _ ih => exact read_line_mono _ _ _ _ ih

/-- The inner loop never ends on an input that holds no terminator when the
reader, asked past the end, reports no error and delivers a character that is
no terminator. -/
theorem read_line_starved (fuel : Nat) (r : FileReader) (line : List Char)
    (hpre : ∀ ch ∈ r.content, ch ≠ CARRIAGE_RETURN ∧ ch ≠ NEWLINE)
    (hcode : r.pastEndCode = 0)
    (hchar : r.pastEndChar ≠ CARRIAGE_RETURN ∧ r.pastEndChar ≠ NEWLINE) :
    read_line fuel r line = none := by
  induction fuel generalizing r line with
  | zero => rfl
  | succ n ih =>
    rw [read_line]
    cases hc : r.content with
    | nil =>
      simp only [FileReader.safe_get_char, hc, hcode, ne_eq, not_true_eq_false, if_false, hchar,
        not_false_eq_true, and_self, if_true]
      exact ih _ _ (by simp [hc]) hcode hchar
    | cons ch rest =>
      have hch := hpre ch (by simp [hc])
      simp only [FileReader.safe_get_char, hc, NO_ERROR, ne_eq, not_true_eq_false, if_false, hch,
        not_false_eq_true, and_self, if_true]
      exact ih _ _ (fun x hx => hpre x (by simp [hc, hx])) hcode hchar

/-- The inner loop on an input that holds no terminator, when the reader
reports an error past the end: that error is returned. -/
theorem read_line_unterminated (fuel : Nat) (r : FileReader) (line : List Char)
    (hpre : ∀ ch ∈ r.content, ch ≠ CARRIAGE_RETURN ∧ ch ≠ NEWLINE)
    (hcode : r.pastEndCode ≠ 0) (hfuel : r.content.length + 1 ≤ fuel) :
    read_line fuel r line =
      some (r.pastEndCode, { r with content := [] }, line ++ r.content.filter accepted) := by
  induction fuel generalizing r line with
  | zero => omega
  | succ n ih =>
    rw [read_line]
    cases hc : r.content with
    | nil =>
      simp only [FileReader.safe_get_char, hc, ne_eq, hcode, not_false_eq_true, if_true,
        List.filter_nil, List.append_nil]
      rw [← hc]
    | cons ch rest =>
      have hch := hpre ch (by simp [hc])
      simp only [FileReader.safe_get_char, hc, NO_ERROR, ne_eq, not_true_eq_false, if_false, hch,
        not_false_eq_true, and_self, if_true]
      rw [ih { r with content := rest } _
        (fun x hx => hpre x (by rw [hc]; exact List.mem_cons_of_mem _ hx)) hcode
        (by rw [hc] at hfuel; simp only [List.length_cons] at hfuel ⊢; omega)]
      by_cases ha : accepted ch = true
      · simp [ha, List.filter_cons]
      · simp [ha, List.filter_cons]

/-- The outer loop entered on a non-empty input that holds no terminator: when
the reader, asked past the end, reports an error or delivers a character that
is no terminator, the loop does not end or returns that error, and the record
is not appended to the document. -/
theorem read_lines_unterminated (fuel : Nat) (s : PWEdit)
    (hne : s.inFile.content ≠ [])
    (hpre : ∀ ch ∈ s.inFile.content, ch ≠ CARRIAGE_RETURN ∧ ch ≠ NEWLINE)
    (hend : s.inFile.pastEndCode ≠ 0 ∨
      (s.inFile.pastEndChar ≠ CARRIAGE_RETURN ∧ s.inFile.pastEndChar ≠ NEWLINE)) :
    read_lines fuel s = none ∨
      ∃ s2, read_lines fuel s = some (s.inFile.pastEndCode, s2) ∧
        s.inFile.pastEndCode ≠ 0 ∧ s2.lines = s.lines := by
  cases fuel with
  | zero => exact Or.inl rfl
  | succ n =>
    rw [read_lines]
    have heof : s.inFile.eof = false := by
      cases hc : s.inFile.content with
      | nil => exact absurd hc hne
      | cons a l => simp [FileReader.eof, hc]
    rw [if_neg (by simp [heof])]
    by_cases hcode : s.inFile.pastEndCode = 0
    · have hchar := hend.resolve_left (not_not.mpr hcode)
      rw [read_line_starved n _ _ hpre hcode hchar]
      exact Or.inl rfl
    · cases hl : read_line n s.inFile [] with
      | none => exact Or.inl rfl
      | some y =>
        right
        have h1 := read_line_mono_le n (max n (s.inFile.content.length + 1)) _ _ y hl
          (le_max_left _ _)
        rw [read_line_unterminated _ _ _ hpre hcode (le_max_right _ _)] at h1
        rw [← Option.some.inj h1]
        dsimp only []
        rw [if_pos hcode]
        exact ⟨_, rfl, hcode, rfl⟩

/-- The stream `a`, newline, newline, `b`, newline loaded with fuel 5: two
lines, unless the reader peeks a newline past the end and then reports an
error, in which case one. -/
theorem load_blank_record (code : ErrorCode) (c p : Char) :
    (read_in_file 5 (reading ['a', NEWLINE, NEWLINE, 'b', NEWLINE] code c p)).map
      (fun x => (x.1, x.2.lines)) =
      some (if p = NEWLINE ∧ code ≠ 0 then (code, [['a']]) else (NO_ERROR, [['a'], ['b']])) := by
  unfold read_in_file
  rw [if_neg (by simp [reading, NO_ERROR])]
  rw [read_lines_record 4 _ ['a'] NEWLINE [NEWLINE, 'b', NEWLINE] rfl (by simp; decide)
    (Or.inr rfl) (by simp)]
  simp only [reading, showing, FileReader.peek, FileReader.safe_get_char, if_true, NO_ERROR,
    ne_eq, not_true_eq_false, if_false]
  rw [read_lines_record 3 _ ['b'] NEWLINE [] (by simp) (by simp; decide)
    (Or.inr rfl) (by simp)]
  simp only [puts_inFile, push_back_inFile, set_inFile_inFile, FileReader.peek,
    FileReader.safe_get_char, NO_ERROR]
  by_cases hp : p = NEWLINE
  · by_cases hc : code = 0
    · simp [hp, hc, read_lines, FileReader.eof]
      exact ⟨rfl, by decide, by decide⟩
    · simp [hp, hc]
      decide
  · simp [hp, read_lines, FileReader.eof]
    exact ⟨rfl, by decide, by decide⟩

/-- Whatever the reader does past the end and whatever the fuel, a finished
`read_in_file` on `a`, newline, newline, `b`, newline leaves at most two
lines, and `["a", "b"]` when it returns `NO_ERROR`. -/
theorem load_blank_record_any_fuel (code : ErrorCode) (c p : Char) (fuel : Nat)
    (x : ErrorCode × PWEdit)
    (h : read_in_file fuel (reading ['a', NEWLINE, NEWLINE, 'b', NEWLINE] code c p) = some x) :
    x.2.lines.length ≤ 2 ∧ (x.1 = NO_ERROR → x.2.lines = [['a'], ['b']]) := by
  have h5 := load_blank_record code c p
  cases h0 : read_in_file 5 (reading ['a', NEWLINE, NEWLINE, 'b', NEWLINE] code c p) with
  | none => simp [h0] at h5
  | some x0 =>
    rcases read_in_file_fuel 5 fuel _ x0 h0 with hn | hs
    · rw [hn] at h; exact absurd h (by simp)
    · rw [hs] at h
      obtain rfl := Option.some.inj h
      rw [h0] at h5
      simp only [Option.map_some', Option.some.injEq] at h5
      split_ifs at h5 with hc
      · have e1 : x0.1 = code := congrArg Prod.fst h5
        have e2 : x0.2.lines = [['a']] := congrArg Prod.snd h5
        refine ⟨by rw [e2]; simp, fun hx => ?_⟩
        rw [e1] at hx
        exact absurd hx hc.2
      · have e2 : x0.2.lines = [['a'], ['b']] := congrArg Prod.snd h5
        exact ⟨by rw [e2]; simp, fun _ => e2⟩

end PWEdit

/-- C9 at the stream of the claim: `a`, newline, newline, `b`, newline holds
three records, each ended by LF.  Whatever the reader does past the end and
whatever the fuel, a finished `read_in_file` leaves at most two lines, and
when it returns `NO_ERROR` the document is `["a", "b"]`: the newline that ends
the empty record is consumed as if it followed a carriage return. -/
theorem C9_blank_record_lost (code : ErrorCode) (c p : Char) (fuel : Nat)
    (x : ErrorCode × PWEdit)
    (h : PWEdit.read_in_file fuel
      (PWEdit.reading ['a', NEWLINE, NEWLINE, 'b', NEWLINE] code c p) = some x) :
    x.2.lines.length ≤ 2 ∧ (x.1 = NO_ERROR → x.2.lines = [['a'], ['b']]) :=
  PWEdit.load_blank_record_any_fuel code c p fuel x h

end PropWare

namespace PropWare

theorem C9_blank_record_lost_witness :
    ∃ x, PWEdit.read_in_file 5 (PWEdit.reading ['a', NEWLINE, NEWLINE, 'b', NEWLINE] 1
        NULL_TERMINATOR NULL_TERMINATOR) = some x ∧
      x.2.lines.length ≤ 2 ∧ (x.1 = NO_ERROR → x.2.lines = [['a'], ['b']]) :=
  (Option.isSome_iff_exists.mp (by decide :
    (PWEdit.read_in_file 5 (PWEdit.reading ['a', NEWLINE, NEWLINE, 'b', NEWLINE] 1
      NULL_TERMINATOR NULL_TERMINATOR)).isSome = true)).elim
    (fun x h => ⟨x, h, C9_blank_record_lost 1 NULL_TERMINATOR NULL_TERMINATOR 5 x h⟩)

/-- C10 at the stream `a`, newline, `b`: one terminated record and the
unterminated record `b`.  With a reader that, asked for a character past the
end, reports an error or delivers a character that is no terminator,
`read_in_file` either never finishes or returns the reader's error code, which
is not `NO_ERROR`, and the document then holds the one line `a`: the trailing
record is not loaded. -/
theorem C10_trailing_record_not_loaded (code : ErrorCode) (c p : Char)
    (hend : code ≠ 0 ∨ (c ≠ CARRIAGE_RETURN ∧ c ≠ NEWLINE)) (fuel : Nat) :
    PWEdit.read_in_file fuel (PWEdit.reading ['a', NEWLINE, 'b'] code c p) = none ∨
      ∃ s2, PWEdit.read_in_file fuel (PWEdit.reading ['a', NEWLINE, 'b'] code c p)
          = some (code, s2) ∧ code ≠ NO_ERROR ∧ s2.lines = [['a']] := by
  unfold PWEdit.read_in_file
  rw [if_neg (by simp [PWEdit.reading, NO_ERROR])]
  rcases fuel with _ | _ | _ | n
  · exact Or.inl rfl
  · exact Or.inl rfl
  · exact Or.inl rfl
  · rw [PWEdit.read_lines_record (n + 2) _ ['a'] NEWLINE ['b'] rfl (by simp; decide)
      (Or.inr rfl) (by simp)]
    have hb : ¬ ('b' = NEWLINE) := by decide
    simp only [PWEdit.reading, PWEdit.showing, FileReader.peek, hb, if_false, NO_ERROR, ne_eq,
      not_true_eq_false]
    have ha : List.filter PWEdit.accepted ['a'] = ['a'] := by decide
    rw [ha]
    have aux : ∀ S1 : PWEdit, S1.inFile.content = ['b'] → S1.inFile.pastEndCode = code →
        S1.inFile.pastEndChar = c → S1.lines = [['a']] →
        (PWEdit.read_lines (n + 2) S1 = none ∨
          ∃ s2, PWEdit.read_lines (n + 2) S1 = some (code, s2) ∧ ¬ code = 0 ∧
            s2.lines = [['a']]) := by
      intro S1 h1 h2 h3 h4
      rcases PWEdit.read_lines_unterminated (n + 2) S1 (by simp [h1])
        (by rw [h1]; simp; decide) (by rw [h2, h3]; exact hend) with h | ⟨s2, e1, e2, e3⟩
      · exact Or.inl h
      · exact Or.inr ⟨s2, by rw [← h2]; exact e1, by rw [← h2]; exact e2, by rw [e3, h4]⟩
    exact aux _ (by simp) (by simp) (by simp) (by simp)

theorem C10_trailing_record_not_loaded_witness :
    ((1 : ErrorCode) ≠ 0 ∨
      (NULL_TERMINATOR ≠ CARRIAGE_RETURN ∧ NULL_TERMINATOR ≠ NEWLINE)) ∧
    (PWEdit.read_in_file 4 (PWEdit.reading ['a', NEWLINE, 'b'] 1 NULL_TERMINATOR
        NULL_TERMINATOR) = none ∨
      ∃ s2, PWEdit.read_in_file 4 (PWEdit.reading ['a', NEWLINE, 'b'] 1 NULL_TERMINATOR
          NULL_TERMINATOR) = some (1, s2) ∧ (1 : ErrorCode) ≠ NO_ERROR ∧ s2.lines = [['a']]) :=
  ⟨Or.inl (by decide),
    C10_trailing_record_not_loaded 1 NULL_TERMINATOR NULL_TERMINATOR (Or.inl (by decide)) 4⟩

end PropWare

namespace PropWare

namespace PWEdit

/-- The inner loop on an input that holds no terminator, when the reader,
asked past the end, reports no error and delivers a terminator: the line ends
there. -/
theorem read_line_closed_by_reader (fuel : Nat) (r : FileReader) (line : List Char)
    (hpre : ∀ ch ∈ r.content, ch ≠ CARRIAGE_RETURN ∧ ch ≠ NEWLINE)
    (hcode : r.pastEndCode = 0)
    (hchar : r.pastEndChar = CARRIAGE_RETURN ∨ r.pastEndChar = NEWLINE)
    (hfuel : r.content.length + 1 ≤ fuel) :
    read_line fuel r line =
      some (NO_ERROR, { r with content := [] }, line ++ r.content.filter accepted) := by
  induction fuel generalizing r line with
  | zero => omega
  | succ n ih =>
    rw [read_line]
    cases hc : r.content with
    | nil =>
      have hacc : accepted r.pastEndChar = false := by rcases hchar with h | h <;> rw [h] <;> decide
      have hterm : ¬ (r.pastEndChar ≠ CARRIAGE_RETURN ∧ r.pastEndChar ≠ NEWLINE) := by
        rcases hchar with h | h <;> rw [h] <;> decide
      have hr : ({ r with content := [] } : FileReader) = r := by
        cases r
        simp only [FileReader.mk.injEq, and_true] at hc ⊢
        exact hc.symm
      rw [hr]
      simp only [FileReader.safe_get_char, hc, hcode, ne_eq, not_true_eq_false, if_false, hacc,
        hterm, Bool.false_eq_true, List.filter_nil, List.append_nil, NO_ERROR]
    | cons ch rest =>
      have hch := hpre ch (by simp [hc])
      simp only [FileReader.safe_get_char, hc, NO_ERROR, ne_eq, not_true_eq_false, if_false, hch,
        not_false_eq_true, and_self, if_true]
      rw [ih { r with content := rest } _
        (fun x hx => hpre x (by rw [hc]; exact List.mem_cons_of_mem _ hx)) hcode hchar
        (by rw [hc] at hfuel; simp only [List.length_cons] at hfuel ⊢; omega)]
      by_cases ha : accepted ch = true
      · simp [ha, List.filter_cons, NO_ERROR]
      · simp [ha, List.filter_cons, NO_ERROR]

/-- The stream `a`, `b` with no terminator: whatever the reader does past the
end and whatever the fuel, a finished `read_in_file` leaves at most one line. -/
theorem load_unterminated_pair (code : ErrorCode) (c p : Char) (fuel : Nat)
    (x : ErrorCode × PWEdit)
    (h : read_in_file fuel (reading ['a', 'b'] code c p) = some x) :
    x.2.lines.length ≤ 1 := by
  by_cases hend : code ≠ 0 ∨ (c ≠ CARRIAGE_RETURN ∧ c ≠ NEWLINE)
  · unfold read_in_file at h
    rw [if_neg (by simp [reading, NO_ERROR])] at h
    rcases read_lines_unterminated fuel (reading ['a', 'b'] code c p) (by simp [reading])
      (by simp [reading]; decide) (by simpa [reading] using hend) with h1 | ⟨s2, h1, _, h3⟩
    · rw [h1] at h; exact absurd h (by simp)
    · rw [h1] at h
      rw [← Option.some.inj h]
      simp [h3, reading, showing]
  · have hcode : code = 0 := by
      by_contra hne
      exact hend (Or.inl hne)
    have hchar : c = CARRIAGE_RETURN ∨ c = NEWLINE := by
      by_contra hne
      push_neg at hne
      exact hend (Or.inr hne)
    have h4 : ∃ x0, read_in_file 4 (reading ['a', 'b'] code c p) = some x0 ∧
        x0.2.lines.length ≤ 1 := by
      unfold read_in_file
      rw [if_neg (by simp [reading, NO_ERROR])]
      rw [read_lines]
      rw [if_neg (by simp [reading, FileReader.eof])]
      rw [read_line_closed_by_reader 3 _ [] (by simp [reading]; decide) (by simp [reading, hcode])
        (by simpa [reading] using hchar) (by simp [reading])]
      by_cases hp : p = NEWLINE
      · simp [reading, showing, FileReader.peek, FileReader.safe_get_char, hp, hcode, NO_ERROR,
          read_lines, FileReader.eof, move_cursor, put_uint_eq_puts]
      · simp [reading, showing, FileReader.peek, FileReader.safe_get_char, hp, NO_ERROR,
          read_lines, FileReader.eof, move_cursor, put_uint_eq_puts]
    obtain ⟨x0, h0, hlen⟩ := h4
    rcases read_in_file_fuel 4 fuel _ x0 h0 with hn | hs
    · rw [hn] at h; exact absurd h (by simp)
    · rw [hs] at h
      rw [← Option.some.inj h]
      exact hlen

/-- What `save` sends to the writer for the document `["a", "", "b"]`. -/
theorem blankLineUnsaved_calls :
    (save blankLineUnsaved).2.outFile.calls = save_calls [['a'], [], ['b']] := by
  decide

/-- The destination after those calls: the characters of the lines, each
followed by `lineEnd`, whatever the destination held before. -/
theorem stored_blankLine (lineEnd old : List Char) (hl : lineEnd = [] ∨ lineEnd = [NEWLINE]) :
    FileWriter.stored lineEnd old (save_calls [['a'], [], ['b']]) =
      'a' :: lineEnd ++ lineEnd ++ 'b' :: lineEnd := by
  rcases hl with rfl | rfl <;> simp [FileWriter.stored, FileWriter.store, save_calls]

end PWEdit

/-- C7 at the document `["a", "", "b"]`.  Whether `safe_puts` writes the
characters of a line only or follows them with a newline, whatever the
destination held before, whatever the reader does past the end and whatever
the fuel: `read_in_file` on the stream `save` has written does not give the
document back; it leaves at most two lines. -/
theorem C7_round_trip_loses_lines (lineEnd old : List Char)
    (hl : lineEnd = [] ∨ lineEnd = [NEWLINE]) (code : ErrorCode) (c p : Char) (fuel : Nat)
    (x : ErrorCode × PWEdit)
    (h : PWEdit.read_in_file fuel (PWEdit.reading
      (FileWriter.stored lineEnd old (PWEdit.save PWEdit.blankLineUnsaved).2.outFile.calls)
      code c p) = some x) :
    x.2.lines.length ≤ 2 ∧ x.2.lines ≠ PWEdit.blankLineUnsaved.lines := by
  rw [PWEdit.blankLineUnsaved_calls, PWEdit.stored_blankLine _ _ hl] at h
  have hlen : x.2.lines.length ≤ 2 := by
    rcases hl with rfl | rfl
    · have := PWEdit.load_unterminated_pair code c p fuel x (by simpa using h)
      omega
    · exact (PWEdit.load_blank_record_any_fuel code c p fuel x (by simpa using h)).1
  refine ⟨hlen, fun he => ?_⟩
  rw [he] at hlen
  simp [PWEdit.blankLineUnsaved, PWEdit.showing] at hlen

theorem C7_round_trip_loses_lines_witness :
    ∃ x, PWEdit.read_in_file 4 (PWEdit.reading
        (FileWriter.stored [] [] (PWEdit.save PWEdit.blankLineUnsaved).2.outFile.calls)
        1 NULL_TERMINATOR NULL_TERMINATOR) = some x ∧
      x.2.lines.length ≤ 2 ∧ x.2.lines ≠ PWEdit.blankLineUnsaved.lines :=
  (Option.isSome_iff_exists.mp (by decide :
    (PWEdit.read_in_file 4 (PWEdit.reading
        (FileWriter.stored [] [] (PWEdit.save PWEdit.blankLineUnsaved).2.outFile.calls)
        1 NULL_TERMINATOR NULL_TERMINATOR)).isSome = true)).elim
    (fun x h => ⟨x, h,
      C7_round_trip_loses_lines [] [] (Or.inl rfl) 1 NULL_TERMINATOR NULL_TERMINATOR 4 x h⟩)

end PropWare

/-! ## Jumps and moves: what they leave untouched

Every jump and every move writes to the printer and changes cursor fields
only: the collaborators but the printer, the document, the window size and the
modified flag are as before. -/

namespace PropWare

namespace PWEdit

theorem cursor_fields_eq (s x : PWEdit) (h1 : x.inFile = s.inFile) (h2 : x.outFile = s.outFile)
    (h3 : x.scanner = s.scanner) (h4 : x.lines = s.lines) (h5 : x.stray = s.stray)
    (h6 : x.columns = s.columns) (h7 : x.rows = s.rows) (h8 : x.modified = s.modified) :
    x = { s with
      printer := x.printer
      termRow := x.termRow
      termColumn := x.termColumn
      selectedLine := x.selectedLine
      selectedLineNumber := x.selectedLineNumber
      selectedColumnInLine := x.selectedColumnInLine
      desiredColumnInLine := x.desiredColumnInLine
      firstLineDisplayed := x.firstLineDisplayed
      firstColumnDisplayed := x.firstColumnDisplayed } := by
  cases s
  cases x
  simp_all

theorem to_file_start_eq (s : PWEdit) :
    to_file_start s = { s with
      printer := (to_file_start s).printer
      termRow := (to_file_start s).termRow
      termColumn := (to_file_start s).termColumn
      selectedLine := (to_file_start s).selectedLine
      selectedLineNumber := (to_file_start s).selectedLineNumber
      selectedColumnInLine := (to_file_start s).selectedColumnInLine
      desiredColumnInLine := (to_file_start s).desiredColumnInLine
      firstLineDisplayed := (to_file_start s).firstLineDisplayed
      firstColumnDisplayed := (to_file_start s).firstColumnDisplayed } := by
  refine cursor_fields_eq s _ ?_ ?_ ?_ ?_ ?_ ?_ ?_ ?_ <;>
  · unfold to_file_start
    dsimp only []
    split_ifs <;> simp [move_cursor, put_eq_puts]

@[simp] theorem to_file_start_inFile (s : PWEdit) :
    (to_file_start s).inFile = s.inFile := by
  rw [to_file_start_eq]

@[simp] theorem to_file_start_outFile (s : PWEdit) :
    (to_file_start s).outFile = s.outFile := by
  rw [to_file_start_eq]

@[simp] theorem to_file_start_scanner (s : PWEdit) :
    (to_file_start s).scanner = s.scanner := by
  rw [to_file_start_eq]

@[simp] theorem to_file_start_lines (s : PWEdit) :
    (to_file_start s).lines = s.lines := by
  rw [to_file_start_eq]

@[simp] theorem to_file_start_stray (s : PWEdit) :
    (to_file_start s).stray = s.stray := by
  rw [to_file_start_eq]

@[simp] theorem to_file_start_columns (s : PWEdit) :
    (to_file_start s).columns = s.columns := by
  rw [to_file_start_eq]

@[simp] theorem to_file_start_rows (s : PWEdit) :
    (to_file_start s).rows = s.rows := by
  rw [to_file_start_eq]

@[simp] theorem to_file_start_modified (s : PWEdit) :
    (to_file_start s).modified = s.modified := by
  rw [to_file_start_eq]

theorem to_file_end_eq (s : PWEdit) :
    to_file_end s = { s with
      printer := (to_file_end s).printer
      termRow := (to_file_end s).termRow
      termColumn := (to_file_end s).termColumn
      selectedLine := (to_file_end s).selectedLine
      selectedLineNumber := (to_file_end s).selectedLineNumber
      selectedColumnInLine := (to_file_end s).selectedColumnInLine
      desiredColumnInLine := (to_file_end s).desiredColumnInLine
      firstLineDisplayed := (to_file_end s).firstLineDisplayed
      firstColumnDisplayed := (to_file_end s).firstColumnDisplayed } := by
  refine cursor_fields_eq s _ ?_ ?_ ?_ ?_ ?_ ?_ ?_ ?_ <;>
  · unfold to_file_end
    dsimp only []
    split_ifs <;> simp [move_cursor, put_eq_puts]

@[simp] theorem to_file_end_inFile (s : PWEdit) :
    (to_file_end s).inFile = s.inFile := by
  rw [to_file_end_eq]

@[simp] theorem to_file_end_outFile (s : PWEdit) :
    (to_file_end s).outFile = s.outFile := by
  rw [to_file_end_eq]

@[simp] theorem to_file_end_scanner (s : PWEdit) :
    (to_file_end s).scanner = s.scanner := by
  rw [to_file_end_eq]

@[simp] theorem to_file_end_lines (s : PWEdit) :
    (to_file_end s).lines = s.lines := by
  rw [to_file_end_eq]

@[simp] theorem to_file_end_stray (s : PWEdit) :
    (to_file_end s).stray = s.stray := by
  rw [to_file_end_eq]

@[simp] theorem to_file_end_columns (s : PWEdit) :
    (to_file_end s).columns = s.columns := by
  rw [to_file_end_eq]

@[simp] theorem to_file_end_rows (s : PWEdit) :
    (to_file_end s).rows = s.rows := by
  rw [to_file_end_eq]

@[simp] theorem to_file_end_modified (s : PWEdit) :
    (to_file_end s).modified = s.modified := by
  rw [to_file_end_eq]

theorem to_line_start_eq (s : PWEdit) :
    to_line_start s = { s with
      printer := (to_line_start s).printer
      termRow := (to_line_start s).termRow
      termColumn := (to_line_start s).termColumn
      selectedLine := (to_line_start s).selectedLine
      selectedLineNumber := (to_line_start s).selectedLineNumber
      selectedColumnInLine := (to_line_start s).selectedColumnInLine
      desiredColumnInLine := (to_line_start s).desiredColumnInLine
      firstLineDisplayed := (to_line_start s).firstLineDisplayed
      firstColumnDisplayed := (to_line_start s).firstColumnDisplayed } := by
  refine cursor_fields_eq s _ ?_ ?_ ?_ ?_ ?_ ?_ ?_ ?_ <;>
  · unfold to_line_start
    dsimp only []
    split_ifs <;> simp [move_cursor, put_eq_puts]

@[simp] theorem to_line_start_inFile (s : PWEdit) :
    (to_line_start s).inFile = s.inFile := by
  rw [to_line_start_eq]

@[simp] theorem to_line_start_outFile (s : PWEdit) :
    (to_line_start s).outFile = s.outFile := by
  rw [to_line_start_eq]

@[simp] theorem to_line_start_scanner (s : PWEdit) :
    (to_line_start s).scanner = s.scanner := by
  rw [to_line_start_eq]

@[simp] theorem to_line_start_lines (s : PWEdit) :
    (to_line_start s).lines = s.lines := by
  rw [to_line_start_eq]

@[simp] theorem to_line_start_stray (s : PWEdit) :
    (to_line_start s).stray = s.stray := by
  rw [to_line_start_eq]

@[simp] theorem to_line_start_columns (s : PWEdit) :
    (to_line_start s).columns = s.columns := by
  rw [to_line_start_eq]

@[simp] theorem to_line_start_rows (s : PWEdit) :
    (to_line_start s).rows = s.rows := by
  rw [to_line_start_eq]

@[simp] theorem to_line_start_modified (s : PWEdit) :
    (to_line_start s).modified = s.modified := by
  rw [to_line_start_eq]

theorem to_line_end_eq (s : PWEdit) :
    to_line_end s = { s with
      printer := (to_line_end s).printer
      termRow := (to_line_end s).termRow
      termColumn := (to_line_end s).termColumn
      selectedLine := (to_line_end s).selectedLine
      selectedLineNumber := (to_line_end s).selectedLineNumber
      selectedColumnInLine := (to_line_end s).selectedColumnInLine
      desiredColumnInLine := (to_line_end s).desiredColumnInLine
      firstLineDisplayed := (to_line_end s).firstLineDisplayed
      firstColumnDisplayed := (to_line_end s).firstColumnDisplayed } := by
  refine cursor_fields_eq s _ ?_ ?_ ?_ ?_ ?_ ?_ ?_ ?_ <;>
  · unfold to_line_end
    dsimp only []
    split_ifs <;> simp [move_cursor, put_eq_puts]

@[simp] theorem to_line_end_inFile (s : PWEdit) :
    (to_line_end s).inFile = s.inFile := by
  rw [to_line_end_eq]

@[simp] theorem to_line_end_outFile (s : PWEdit) :
    (to_line_end s).outFile = s.outFile := by
  rw [to_line_end_eq]

@[simp] theorem to_line_end_scanner (s : PWEdit) :
    (to_line_end s).scanner = s.scanner := by
  rw [to_line_end_eq]

@[simp] theorem to_line_end_lines (s : PWEdit) :
    (to_line_end s).lines = s.lines := by
  rw [to_line_end_eq]

@[simp] theorem to_line_end_stray (s : PWEdit) :
    (to_line_end s).stray = s.stray := by
  rw [to_line_end_eq]

@[simp] theorem to_line_end_columns (s : PWEdit) :
    (to_line_end s).columns = s.columns := by
  rw [to_line_end_eq]

@[simp] theorem to_line_end_rows (s : PWEdit) :
    (to_line_end s).rows = s.rows := by
  rw [to_line_end_eq]

@[simp] theorem to_line_end_modified (s : PWEdit) :
    (to_line_end s).modified = s.modified := by
  rw [to_line_end_eq]

theorem move_right_eq (s : PWEdit) :
    move_right s = { s with
      printer := (move_right s).printer
      termRow := (move_right s).termRow
      termColumn := (move_right s).termColumn
      selectedLine := (move_right s).selectedLine
      selectedLineNumber := (move_right s).selectedLineNumber
      selectedColumnInLine := (move_right s).selectedColumnInLine
      desiredColumnInLine := (move_right s).desiredColumnInLine
      firstLineDisplayed := (move_right s).firstLineDisplayed
      firstColumnDisplayed := (move_right s).firstColumnDisplayed } := by
  refine cursor_fields_eq s _ ?_ ?_ ?_ ?_ ?_ ?_ ?_ ?_ <;>
  · unfold move_right
    dsimp only []
    split_ifs <;> simp [move_cursor, put_eq_puts]

@[simp] theorem move_right_inFile (s : PWEdit) :
    (move_right s).inFile = s.inFile := by
  rw [move_right_eq]

@[simp] theorem move_right_outFile (s : PWEdit) :
    (move_right s).outFile = s.outFile := by
  rw [move_right_eq]

@[simp] theorem move_right_scanner (s : PWEdit) :
    (move_right s).scanner = s.scanner := by
  rw [move_right_eq]

@[simp] theorem move_right_lines (s : PWEdit) :
    (move_right s).lines = s.lines := by
  rw [move_right_eq]

@[simp] theorem move_right_stray (s : PWEdit) :
    (move_right s).stray = s.stray := by
  rw [move_right_eq]

@[simp] theorem move_right_columns (s : PWEdit) :
    (move_right s).columns = s.columns := by
  rw [move_right_eq]

@[simp] theorem move_right_rows (s : PWEdit) :
    (move_right s).rows = s.rows := by
  rw [move_right_eq]

@[simp] theorem move_right_modified (s : PWEdit) :
    (move_right s).modified = s.modified := by
  rw [move_right_eq]

theorem move_left_eq (s : PWEdit) :
    move_left s = { s with
      printer := (move_left s).printer
      termRow := (move_left s).termRow
      termColumn := (move_left s).termColumn
      selectedLine := (move_left s).selectedLine
      selectedLineNumber := (move_left s).selectedLineNumber
      selectedColumnInLine := (move_left s).selectedColumnInLine
      desiredColumnInLine := (move_left s).desiredColumnInLine
      firstLineDisplayed := (move_left s).firstLineDisplayed
      firstColumnDisplayed := (move_left s).firstColumnDisplayed } := by
  refine cursor_fields_eq s _ ?_ ?_ ?_ ?_ ?_ ?_ ?_ ?_ <;>
  · unfold move_left
    dsimp only []
    split_ifs <;> simp [move_cursor, put_eq_puts]

@[simp] theorem move_left_inFile (s : PWEdit) :
    (move_left s).inFile = s.inFile := by
  rw [move_left_eq]

@[simp] theorem move_left_outFile (s : PWEdit) :
    (move_left s).outFile = s.outFile := by
  rw [move_left_eq]

@[simp] theorem move_left_scanner (s : PWEdit) :
    (move_left s).scanner = s.scanner := by
  rw [move_left_eq]

@[simp] theorem move_left_lines (s : PWEdit) :
    (move_left s).lines = s.lines := by
  rw [move_left_eq]

@[simp] theorem move_left_stray (s : PWEdit) :
    (move_left s).stray = s.stray := by
  rw [move_left_eq]

@[simp] theorem move_left_columns (s : PWEdit) :
    (move_left s).columns = s.columns := by
  rw [move_left_eq]

@[simp] theorem move_left_rows (s : PWEdit) :
    (move_left s).rows = s.rows := by
  rw [move_left_eq]

@[simp] theorem move_left_modified (s : PWEdit) :
    (move_left s).modified = s.modified := by
  rw [move_left_eq]

theorem move_down_eq (s : PWEdit) :
    move_down s = { s with
      printer := (move_down s).printer
      termRow := (move_down s).termRow
      termColumn := (move_down s).termColumn
      selectedLine := (move_down s).selectedLine
      selectedLineNumber := (move_down s).selectedLineNumber
      selectedColumnInLine := (move_down s).selectedColumnInLine
      desiredColumnInLine := (move_down s).desiredColumnInLine
      firstLineDisplayed := (move_down s).firstLineDisplayed
      firstColumnDisplayed := (move_down s).firstColumnDisplayed } := by
  refine cursor_fields_eq s _ ?_ ?_ ?_ ?_ ?_ ?_ ?_ ?_ <;>
  · unfold move_down
    dsimp only []
    split_ifs <;> simp [put_eq_puts]

@[simp] theorem move_down_inFile (s : PWEdit) :
    (move_down s).inFile = s.inFile := by
  rw [move_down_eq]

@[simp] theorem move_down_outFile (s : PWEdit) :
    (move_down s).outFile = s.outFile := by
  rw [move_down_eq]

@[simp] theorem move_down_scanner (s : PWEdit) :
    (move_down s).scanner = s.scanner := by
  rw [move_down_eq]

@[simp] theorem move_down_lines (s : PWEdit) :
    (move_down s).lines = s.lines := by
  rw [move_down_eq]

@[simp] theorem move_down_stray (s : PWEdit) :
    (move_down s).stray = s.stray := by
  rw [move_down_eq]

@[simp] theorem move_down_columns (s : PWEdit) :
    (move_down s).columns = s.columns := by
  rw [move_down_eq]

@[simp] theorem move_down_rows (s : PWEdit) :
    (move_down s).rows = s.rows := by
  rw [move_down_eq]

@[simp] theorem move_down_modified (s : PWEdit) :
    (move_down s).modified = s.modified := by
  rw [move_down_eq]

theorem move_up_eq (s : PWEdit) :
    move_up s = { s with
      printer := (move_up s).printer
      termRow := (move_up s).termRow
      termColumn := (move_up s).termColumn
      selectedLine := (move_up s).selectedLine
      selectedLineNumber := (move_up s).selectedLineNumber
      selectedColumnInLine := (move_up s).selectedColumnInLine
      desiredColumnInLine := (move_up s).desiredColumnInLine
      firstLineDisplayed := (move_up s).firstLineDisplayed
      firstColumnDisplayed := (move_up s).firstColumnDisplayed } := by
  refine cursor_fields_eq s _ ?_ ?_ ?_ ?_ ?_ ?_ ?_ ?_ <;>
  · unfold move_up
    dsimp only []
    split_ifs <;> simp [put_eq_puts]

@[simp] theorem move_up_inFile (s : PWEdit) :
    (move_up s).inFile = s.inFile := by
  rw [move_up_eq]

@[simp] theorem move_up_outFile (s : PWEdit) :
    (move_up s).outFile = s.outFile := by
  rw [move_up_eq]

@[simp] theorem move_up_scanner (s : PWEdit) :
    (move_up s).scanner = s.scanner := by
  rw [move_up_eq]

@[simp] theorem move_up_lines (s : PWEdit) :
    (move_up s).lines = s.lines := by
  rw [move_up_eq]

@[simp] theorem move_up_stray (s : PWEdit) :
    (move_up s).stray = s.stray := by
  rw [move_up_eq]

@[simp] theorem move_up_columns (s : PWEdit) :
    (move_up s).columns = s.columns := by
  rw [move_up_eq]

@[simp] theorem move_up_rows (s : PWEdit) :
    (move_up s).rows = s.rows := by
  rw [move_up_eq]

@[simp] theorem move_up_modified (s : PWEdit) :
    (move_up s).modified = s.modified := by
  rw [move_up_eq]

theorem move_selection_eq (s : PWEdit) (d : Direction) :
    move_selection s d = { s with
      printer := (move_selection s d).printer
      termRow := (move_selection s d).termRow
      termColumn := (move_selection s d).termColumn
      selectedLine := (move_selection s d).selectedLine
      selectedLineNumber := (move_selection s d).selectedLineNumber
      selectedColumnInLine := (move_selection s d).selectedColumnInLine
      desiredColumnInLine := (move_selection s d).desiredColumnInLine
      firstLineDisplayed := (move_selection s d).firstLineDisplayed
      firstColumnDisplayed := (move_selection s d).firstColumnDisplayed } := by
  refine cursor_fields_eq s _ ?_ ?_ ?_ ?_ ?_ ?_ ?_ ?_ <;>
  · cases d <;> simp [move_selection]

@[simp] theorem move_selection_inFile (s : PWEdit) (d : Direction) :
    (move_selection s d).inFile = s.inFile := by
  rw [move_selection_eq]

@[simp] theorem move_selection_outFile (s : PWEdit) (d : Direction) :
    (move_selection s d).outFile = s.outFile := by
  rw [move_selection_eq]

@[simp] theorem move_selection_scanner (s : PWEdit) (d : Direction) :
    (move_selection s d).scanner = s.scanner := by
  rw [move_selection_eq]

@[simp] theorem move_selection_lines (s : PWEdit) (d : Direction) :
    (move_selection s d).lines = s.lines := by
  rw [move_selection_eq]

@[simp] theorem move_selection_stray (s : PWEdit) (d : Direction) :
    (move_selection s d).stray = s.stray := by
  rw [move_selection_eq]

@[simp] theorem move_selection_columns (s : PWEdit) (d : Direction) :
    (move_selection s d).columns = s.columns := by
  rw [move_selection_eq]

@[simp] theorem move_selection_rows (s : PWEdit) (d : Direction) :
    (move_selection s d).rows = s.rows := by
  rw [move_selection_eq]

@[simp] theorem move_selection_modified (s : PWEdit) (d : Direction) :
    (move_selection s d).modified = s.modified := by
  rw [move_selection_eq]

end PWEdit

end PropWare
/-! ## Jumps and moves: the selected line and the window origin -/

namespace PropWare

namespace PWEdit

@[simp] theorem to_file_start_selectedLine (s : PWEdit) : (to_file_start s).selectedLine = 0 := by
  unfold to_file_start
  dsimp only []
  split_ifs <;> simp [move_cursor]

@[simp] theorem to_file_start_selectedLineNumber (s : PWEdit) :
    (to_file_start s).selectedLineNumber = 0 := by
  unfold to_file_start
  dsimp only []
  split_ifs <;> simp [move_cursor]

@[simp] theorem to_file_start_firstLineDisplayed (s : PWEdit) :
    (to_file_start s).firstLineDisplayed = 0 := by
  unfold to_file_start
  dsimp only []
  split_ifs <;> simp [move_cursor]

@[simp] theorem to_file_end_selectedLine (s : PWEdit) :
    (to_file_end s).selectedLine = (s.lines.length : Int) - 1 := by
  unfold to_file_end
  dsimp only []
  split_ifs <;> simp [move_cursor]

@[simp] theorem to_file_end_selectedLineNumber (s : PWEdit) :
    (to_file_end s).selectedLineNumber = usub s.size 1 := by
  unfold to_file_end
  dsimp only []
  split_ifs <;> simp [move_cursor]

@[simp] theorem to_file_end_firstLineDisplayed (s : PWEdit) :
    (to_file_end s).firstLineDisplayed = usub s.size s.rows := by
  unfold to_file_end
  dsimp only []
  split_ifs <;> simp [move_cursor]

@[simp] theorem to_line_start_selectedLine (s : PWEdit) :
    (to_line_start s).selectedLine = s.selectedLine := by
  unfold to_line_start
  dsimp only []
  split_ifs <;> simp [move_cursor]

@[simp] theorem to_line_start_selectedLineNumber (s : PWEdit) :
    (to_line_start s).selectedLineNumber = s.selectedLineNumber := by
  unfold to_line_start
  dsimp only []
  split_ifs <;> simp [move_cursor]

@[simp] theorem to_line_start_firstLineDisplayed (s : PWEdit) :
    (to_line_start s).firstLineDisplayed = s.firstLineDisplayed := by
  unfold to_line_start
  dsimp only []
  split_ifs <;> simp [move_cursor]

@[simp] theorem to_line_end_selectedLine (s : PWEdit) :
    (to_line_end s).selectedLine = s.selectedLine := by
  unfold to_line_end
  dsimp only []
  split_ifs <;> simp [move_cursor]

@[simp] theorem to_line_end_selectedLineNumber (s : PWEdit) :
    (to_line_end s).selectedLineNumber = s.selectedLineNumber := by
  unfold to_line_end
  dsimp only []
  split_ifs <;> simp [move_cursor]

@[simp] theorem to_line_end_firstLineDisplayed (s : PWEdit) :
    (to_line_end s).firstLineDisplayed = s.firstLineDisplayed := by
  unfold to_line_end
  dsimp only []
  split_ifs <;> simp [move_cursor]

@[simp] theorem move_right_selectedLine (s : PWEdit) :
    (move_right s).selectedLine = s.selectedLine := by
  unfold move_right
  dsimp only []
  split_ifs <;> simp [move_cursor, put_eq_puts]

@[simp] theorem move_right_selectedLineNumber (s : PWEdit) :
    (move_right s).selectedLineNumber = s.selectedLineNumber := by
  unfold move_right
  dsimp only []
  split_ifs <;> simp [move_cursor, put_eq_puts]

@[simp] theorem move_right_firstLineDisplayed (s : PWEdit) :
    (move_right s).firstLineDisplayed = s.firstLineDisplayed := by
  unfold move_right
  dsimp only []
  split_ifs <;> simp [move_cursor, put_eq_puts]

@[simp] theorem move_left_selectedLine (s : PWEdit) :
    (move_left s).selectedLine = s.selectedLine := by
  unfold move_left
  dsimp only []
  split_ifs <;> simp [move_cursor, put_eq_puts]

@[simp] theorem move_left_selectedLineNumber (s : PWEdit) :
    (move_left s).selectedLineNumber = s.selectedLineNumber := by
  unfold move_left
  dsimp only []
  split_ifs <;> simp [move_cursor, put_eq_puts]

@[simp] theorem move_left_firstLineDisplayed (s : PWEdit) :
    (move_left s).firstLineDisplayed = s.firstLineDisplayed := by
  unfold move_left
  dsimp only []
  split_ifs <;> simp [move_cursor, put_eq_puts]

/-- The window origin and the screen row after the scroll statement of
`move_down`. -/
theorem move_down_scroll_firstLineDisplayed (s : PWEdit) (b : Bool) :
    (move_down_scroll s b).firstLineDisplayed =
      if PADDING > usub s.rows s.termRow ∧ s.size > uadd s.firstLineDisplayed s.rows then
        uadd s.firstLineDisplayed 1
      else s.firstLineDisplayed := by
  unfold move_down_scroll
  dsimp only []
  split_ifs <;> simp [move_cursor]

theorem move_down_scroll_termRow (s : PWEdit) (b : Bool) :
    (move_down_scroll s b).termRow =
      if PADDING > usub s.rows s.termRow ∧ s.size > uadd s.firstLineDisplayed s.rows then
        s.termRow
      else uadd s.termRow 1 := by
  unfold move_down_scroll
  dsimp only []
  split_ifs <;> simp [move_cursor]

/-- The window origin and the screen row after the scroll statement of
`move_up`. -/
theorem move_up_scroll_firstLineDisplayed (s : PWEdit) (b : Bool) :
    (move_up_scroll s b).firstLineDisplayed =
      if PADDING ≥ s.termRow ∧ s.firstLineDisplayed ≠ 0 then usub s.firstLineDisplayed 1
      else s.firstLineDisplayed := by
  unfold move_up_scroll
  dsimp only []
  split_ifs <;> simp [move_cursor]

theorem move_up_scroll_termRow (s : PWEdit) (b : Bool) :
    (move_up_scroll s b).termRow =
      if PADDING ≥ s.termRow ∧ s.firstLineDisplayed ≠ 0 then s.termRow
      else usub s.termRow 1 := by
  unfold move_up_scroll
  dsimp only []
  split_ifs <;> simp [move_cursor]

end PWEdit

end PropWare
/-! ## Command mode leaves the document and the cursor alone -/

namespace PropWare

namespace PWEdit

@[simp] theorem document_and_cursor_puts (s : PWEdit) (t : List Char) :
    document_and_cursor (puts s t) = document_and_cursor s := rfl

@[simp] theorem document_and_cursor_set_scanner (s : PWEdit) (r : List Char) :
    document_and_cursor (set_scanner s r) = document_and_cursor s := rfl

@[simp] theorem document_and_cursor_print_line_at_row (s : PWEdit) (c : Nat) (it : Int)
    (row : Nat) : document_and_cursor (print_line_at_row s c it row) = document_and_cursor s := by
  rw [print_line_at_row_eq]
  rfl

@[simp] theorem document_and_cursor_save (s : PWEdit) :
    document_and_cursor (save s).2 = document_and_cursor s := by
  rw [save_eq]
  rfl

/-- The fields read off an equality of `document_and_cursor`. -/
theorem document_and_cursor_fields (s x : PWEdit)
    (h : document_and_cursor x = document_and_cursor s) :
    x.lines = s.lines ∧ x.stray = s.stray ∧ x.columns = s.columns ∧ x.rows = s.rows ∧
    x.termRow = s.termRow ∧ x.termColumn = s.termColumn ∧ x.selectedLine = s.selectedLine ∧
    x.selectedLineNumber = s.selectedLineNumber ∧
    x.selectedColumnInLine = s.selectedColumnInLine ∧
    x.desiredColumnInLine = s.desiredColumnInLine ∧
    x.firstLineDisplayed = s.firstLineDisplayed ∧
    x.firstColumnDisplayed = s.firstColumnDisplayed := by
  simpa only [document_and_cursor, Prod.mk.injEq] using h

theorem read_command_input_document (input : List Char) (s : PWEdit) (r : List Char × PWEdit)
    (h : read_command_input input s = some r) :
    document_and_cursor r.2 = document_and_cursor s := by
  induction input generalizing s r with
  | nil => simp [read_command_input] at h
  | cons c rest ih =>
    rw [read_command_input] at h
    by_cases hc : not_enter_key c = true
    · rw [if_pos hc, Option.map_eq_some'] at h
      obtain ⟨q, hq, hr⟩ := h
      rw [← hr]
      exact (ih _ q hq).trans (by simp [put_eq_puts])
    · rw [if_neg hc] at h
      cases h
      rfl

theorem wait_for_enter_key_document (input : List Char) (s x : PWEdit)
    (h : wait_for_enter_key input s = some x) :
    document_and_cursor x = document_and_cursor s := by
  induction input generalizing s with
  | nil => simp [wait_for_enter_key] at h
  | cons c rest ih =>
    rw [wait_for_enter_key] at h
    by_cases hc : not_enter_key c = true
    · rw [if_pos hc] at h
      exact (ih _ h).trans rfl
    · rw [if_neg hc] at h
      cases h
      rfl

theorem command_exit_document (buffer : List Char) (next : Nat) (exit : Bool) (s : PWEdit)
    (r : ErrorCode × Bool × PWEdit) (h : command_exit buffer next exit s = some r) :
    document_and_cursor r.2.2 = document_and_cursor s := by
  unfold command_exit at h
  dsimp only [] at h
  rw [Option.map_eq_some'] at h
  obtain ⟨q, hq, hr⟩ := h
  have hq2 : document_and_cursor q.2 = document_and_cursor s := by
    split_ifs at hq
    · cases hq; rfl
    · rw [Option.map_eq_some'] at hq
      obtain ⟨x, hx, hxq⟩ := hq
      rw [← hxq]
      exact (wait_for_enter_key_document _ _ x hx).trans (by simp [move_cursor, clear_row])
    · cases hq; rfl
    · cases hq; rfl
  rw [← hr]
  simp [move_cursor, rewrite_last_line, hq2]

/-- Whatever is typed in command mode, `command` leaves the document, the
window size and every cursor member as they were. -/
theorem command_document (s : PWEdit) (exit : Bool) (r : ErrorCode × Bool × PWEdit)
    (h : command s exit = some r) : document_and_cursor r.2.2 = document_and_cursor s := by
  unfold command at h
  dsimp only [] at h
  split at h
  · cases h
  · rename_i buffer s2 hread
    have h2 : document_and_cursor s2 = document_and_cursor s :=
      (read_command_input_document _ _ (buffer, s2) hread).trans
        (by simp [move_cursor, clear_row, put_eq_puts])
    split_ifs at h
    · cases h
      simp [h2]
    · exact (command_exit_document _ _ _ _ r h).trans (by simp [h2])
    · exact (command_exit_document _ _ _ _ r h).trans h2

end PWEdit

end PropWare
/-! ## The key loop: what holds in every state it reaches -/

namespace PropWare

namespace PWEdit

/-- The window origin and the screen row after `move_down` away from the last
line. -/
theorem move_down_window (s : PWEdit) (h : ¬ usub s.size 1 ≤ s.selectedLineNumber) :
    (move_down s).firstLineDisplayed =
      (if PADDING > usub s.rows s.termRow ∧ s.size > uadd s.firstLineDisplayed s.rows then
        uadd s.firstLineDisplayed 1
      else s.firstLineDisplayed) ∧
    (move_down s).termRow =
      (if PADDING > usub s.rows s.termRow ∧ s.size > uadd s.firstLineDisplayed s.rows then
        s.termRow
      else uadd s.termRow 1) := by
  unfold move_down
  rw [if_neg h]
  dsimp only []
  rw [move_down_scroll_firstLineDisplayed, move_down_scroll_termRow]
  simp [size]

/-- The window origin and the screen row after `move_up` away from line 0. -/
theorem move_up_window (s : PWEdit) (h : s.selectedLineNumber ≠ 0) :
    (move_up s).firstLineDisplayed =
      (if PADDING ≥ s.termRow ∧ s.firstLineDisplayed ≠ 0 then usub s.firstLineDisplayed 1
      else s.firstLineDisplayed) ∧
    (move_up s).termRow =
      (if PADDING ≥ s.termRow ∧ s.firstLineDisplayed ≠ 0 then s.termRow
      else usub s.termRow 1) := by
  unfold move_up
  rw [if_neg h]
  dsimp only []
  rw [move_up_scroll_firstLineDisplayed, move_up_scroll_termRow]
  simp

/-- A property kept by every round of the loop holds after any number of
rounds. -/
theorem loop_rounds_invariant (P : PWEdit → Prop)
    (hstep : ∀ s r, P s → loop_round s = some r → P r.2.2) :
    ∀ (n : Nat) (s x : PWEdit), P s → loop_rounds n s = some x → P x := by
  intro n
  induction n with
  | zero =>
    intro s x hs h
    rw [loop_rounds] at h
    cases h
    exact hs
  | succ n ih =>
    intro s x hs h
    rw [loop_rounds] at h
    split at h
    · cases h
    · rename_i err exit s1 hr
      split_ifs at h
      exact ih s1 x (hstep s (err, exit, s1) hs hr) h

/-- A property kept by the four moves and the four jumps, and by every change
that leaves the document and the cursor alone, is kept by a round of the
loop. -/
theorem loop_round_invariant (P : PWEdit → Prop)
    (hframe : ∀ s x, P s → document_and_cursor x = document_and_cursor s → P x)
    (hmove : ∀ s d, P s → P (move_selection s d))
    (hfs : ∀ s, P s → P (to_file_start s)) (hfe : ∀ s, P s → P (to_file_end s))
    (hls : ∀ s, P s → P (to_line_start s)) (hle : ∀ s, P s → P (to_line_end s)) :
    ∀ s r, P s → loop_round s = some r → P r.2.2 := by
  intro s r hs h
  unfold loop_round at h
  split at h
  · cases h
  · rename_i c rest hscan
    have hs1 : P (set_scanner s rest) := hframe s _ hs rfl
    unfold dispatch at h
    split_ifs at h
    · cases h; exact hmove _ Direction.LEFT hs1
    · cases h; exact hmove _ Direction.DOWN hs1
    · cases h; exact hmove _ Direction.RIGHT hs1
    · cases h; exact hmove _ Direction.UP hs1
    · cases h; exact hfs _ hs1
    · cases h; exact hfe _ hs1
    · cases h; exact hls _ hs1
    · cases h; exact hle _ hs1
    · exact hframe _ _ hs1 (command_document _ _ r h)
    · cases h; exact hs1

/-- Induction over the states the loop of `run` reaches. -/
theorem Reachable_invariant (doc : List (List Char)) (P : PWEdit → Prop)
    (hstart : ∀ s0 : PWEdit, s0.lines = doc → P (run_start s0))
    (hframe : ∀ s x, P s → document_and_cursor x = document_and_cursor s → P x)
    (hmove : ∀ s d, P s → P (move_selection s d))
    (hfs : ∀ s, P s → P (to_file_start s)) (hfe : ∀ s, P s → P (to_file_end s))
    (hls : ∀ s, P s → P (to_line_start s)) (hle : ∀ s, P s → P (to_line_end s))
    (s : PWEdit) (h : Reachable doc s) : P s := by
  obtain ⟨s0, n, h0, hn⟩ := h
  exact loop_rounds_invariant P (loop_round_invariant P hframe hmove hfs hfe hls hle) n _ s
    (hstart s0 h0) hn

/-- The document, where stray iterators lead and the window size never change
in the loop. -/
theorem Reachable_lines (doc : List (List Char)) (s : PWEdit) (h : Reachable doc s) :
    s.lines = doc := by
  refine Reachable_invariant doc (fun s => s.lines = doc) ?_ ?_ ?_ ?_ ?_ ?_ ?_ s h
  · intro s0 h0
    simpa [run_start] using h0
  · intro s x hs hx
    rw [(document_and_cursor_fields s x hx).1]
    exact hs
  · intro s d hs; simpa using hs
  · intro s hs; simpa using hs
  · intro s hs; simpa using hs
  · intro s hs; simpa using hs
  · intro s hs; simpa using hs

end PWEdit

end PropWare
/-! ## Loading: which bytes are kept -/

namespace PropWare

namespace PWEdit

/-- The test of `read_in_file` passes the byte 127. -/
theorem accepted_DELETE : accepted DELETE = true := by decide

/-- The load of the stream `a`, DEL, newline, for every behaviour of the reader
past the end: the line stored is `a`, DEL. -/
theorem load_delete_record (code : ErrorCode) (c p : Char) :
    (read_in_file 4 (reading ['a', DELETE, NEWLINE] code c p)).map
      (fun x => (x.1, x.2.lines)) =
      some (if p = NEWLINE ∧ code ≠ 0 then (code, []) else (NO_ERROR, [['a', DELETE]])) := by
  unfold read_in_file
  rw [if_neg (by simp [reading, NO_ERROR])]
  rw [read_lines_record 3 _ ['a', DELETE] NEWLINE [] rfl (by simp; decide)
    (Or.inr rfl) (by simp)]
  simp only [reading, showing, FileReader.peek, FileReader.safe_get_char, NO_ERROR]
  by_cases hp : p = NEWLINE
  · by_cases hc : code = 0
    · simp [hp, hc, read_lines, FileReader.eof]
      exact ⟨rfl, by decide⟩
    · simp [hp, hc]
  · simp [hp, read_lines, FileReader.eof]
    exact ⟨rfl, by decide⟩

end PWEdit

/-- C11 at the stream `a`, DEL (byte 127), newline: whatever the reader does
past the end of the input, `read_in_file` either returns the reader's error
for the read past the end, or returns `NO_ERROR` with the single line `a`, DEL.
The byte 127 is kept: it passes the test `32 <= c && c <= 127`, so the line
is not the subsequence of the bytes in 32..126, which is `a`. -/
theorem C11_load_keeps_delete (code : ErrorCode) (c p : Char) :
    (PWEdit.read_in_file 4 (PWEdit.reading ['a', DELETE, NEWLINE] code c p)).map
        (fun x => (x.1, x.2.lines)) =
      some (if p = NEWLINE ∧ code ≠ 0 then (code, [])
        else (NO_ERROR, [['a', DELETE]])) ∧
    DELETE.toNat = 127 ∧ PWEdit.accepted DELETE = true ∧
    ['a', DELETE].filter (fun ch => decide (32 ≤ ch.toNat ∧ ch.toNat ≤ 126)) = ['a'] :=
  ⟨PWEdit.load_delete_record code c p, by decide, by decide, by decide⟩

/-! ## Moves at the edges of the document -/

/-- C12, amended: with the selected column 0, `move_selection(LEFT)` writes the
one character BELL and changes no member but `m_desiredColumnInLine`, which it
sets to the selected column, 0: the result is the state with BELL appended to
the printer and the desired column 0. -/
theorem C12_left_at_column_zero (s : PWEdit) (h : s.selectedColumnInLine = 0) :
    PWEdit.move_selection s Direction.LEFT =
      { s with printer := s.printer ++ [BELL], desiredColumnInLine := 0 } := by
  unfold PWEdit.move_selection PWEdit.move_left
  simp only [h, if_true, PWEdit.put]

theorem C12_left_at_column_zero_witness :
    (PWEdit.showing [['a', 'b']] 2 10).selectedColumnInLine = 0 ∧
    PWEdit.move_selection (PWEdit.showing [['a', 'b']] 2 10) Direction.LEFT =
      { PWEdit.showing [['a', 'b']] 2 10 with
        printer := (PWEdit.showing [['a', 'b']] 2 10).printer ++ [BELL]
        desiredColumnInLine := 0 } :=
  ⟨rfl, C12_left_at_column_zero (PWEdit.showing [['a', 'b']] 2 10) rfl⟩

/-- C13: on the last line of a document (which is then not empty),
`move_selection(DOWN)` with
the selected column equal to the length of the selected line minus one (in
32-bit unsigned arithmetic, as the code computes it) writes the one character
BELL and changes nothing else; with any other selected column it is
`to_file_end`: same state, same output. -/
theorem C13_down_at_document_end (s : PWEdit) (hcount : s.lines.length < 4294967296)
    (hlast : s.selectedLineNumber + 1 = s.lines.length) :
    (s.selectedColumnInLine = usub (PWEdit.get_size (s.deref s.selectedLine)) 1 →
      PWEdit.move_selection s Direction.DOWN = { s with printer := s.printer ++ [BELL] }) ∧
    (s.selectedColumnInLine ≠ usub (PWEdit.get_size (s.deref s.selectedLine)) 1 →
      PWEdit.move_selection s Direction.DOWN = PWEdit.to_file_end s) := by
  have hb : usub s.size 1 ≤ s.selectedLineNumber := by
    unfold PWEdit.size usub
    omega
  unfold PWEdit.move_selection PWEdit.move_down
  rw [if_pos hb]
  dsimp only []
  constructor
  · intro hc
    rw [if_pos hc.symm]
    rfl
  · intro hc
    rw [if_neg (fun e => hc e.symm)]

theorem C13_down_at_document_end_witness :
    PWEdit.twoLines.lines.length < 4294967296 ∧
    PWEdit.twoLines.selectedLineNumber + 1 = PWEdit.twoLines.lines.length ∧
    PWEdit.twoLines.selectedColumnInLine =
      usub (PWEdit.get_size (PWEdit.twoLines.deref PWEdit.twoLines.selectedLine)) 1 ∧
    PWEdit.move_selection PWEdit.twoLines Direction.DOWN =
      { PWEdit.twoLines with printer := PWEdit.twoLines.printer ++ [BELL] } :=
  ⟨by decide, by decide, by decide,
    (C13_down_at_document_end PWEdit.twoLines (by decide) (by decide)).1 (by decide)⟩

/-- C14: on line 0, `move_selection(UP)` with the selected column 0 writes the
one character BELL and changes nothing else; with a selected column above 0 it
is `to_file_start`: same state, same output. -/
theorem C14_up_at_line_zero (s : PWEdit) (hline : s.selectedLineNumber = 0) :
    (s.selectedColumnInLine = 0 →
      PWEdit.move_selection s Direction.UP = { s with printer := s.printer ++ [BELL] }) ∧
    (0 < s.selectedColumnInLine →
      PWEdit.move_selection s Direction.UP = PWEdit.to_file_start s) := by
  unfold PWEdit.move_selection PWEdit.move_up
  rw [if_pos hline]
  dsimp only []
  constructor
  · intro hc
    rw [if_neg (fun e => e hc)]
    rfl
  · intro hc
    rw [if_pos (by omega)]

theorem C14_up_at_line_zero_witness :
    (PWEdit.showing [['a', 'b']] 2 10).selectedLineNumber = 0 ∧
    (PWEdit.showing [['a', 'b']] 2 10).selectedColumnInLine = 0 ∧
    PWEdit.move_selection (PWEdit.showing [['a', 'b']] 2 10) Direction.UP =
      { PWEdit.showing [['a', 'b']] 2 10 with
        printer := (PWEdit.showing [['a', 'b']] 2 10).printer ++ [BELL] } :=
  ⟨rfl, rfl, (C14_up_at_line_zero (PWEdit.showing [['a', 'b']] 2 10) rfl).1 rfl⟩

end PropWare
/-! ## The selected line and the window in the states the loop reaches -/

namespace PropWare

namespace PWEdit

/-- A state computed by `n` rounds of the loop from a loaded document is one
the loop reaches; whatever is observed of it by `f` is carried along. -/
theorem Reachable_of_rounds {α : Type} (doc : List (List Char)) (rows columns : Nat)
    (keys : List Char) (n : Nat) (f : PWEdit → α) (a : α)
    (h : (loop_rounds n (run_start (loaded doc rows columns keys))).map f = some a) :
    ∃ s, Reachable doc s ∧ f s = a := by
  rw [Option.map_eq_some'] at h
  obtain ⟨s, hs, hf⟩ := h
  exact ⟨s, ⟨loaded doc rows columns keys, n, rfl, hs⟩, hf⟩

/-- In every state the loop reaches on a non-empty document, the selected line
number is below the line count and the iterator stands on that line. -/
theorem selected_line_valid (doc : List (List Char)) (hdoc : doc ≠ [])
    (hcount : doc.length < 4294967296) (s : PWEdit) (h : Reachable doc s) :
    s.lines = doc ∧ s.selectedLineNumber < doc.length ∧
      s.selectedLine = (s.selectedLineNumber : Int) := by
  have hpos : 0 < doc.length := List.length_pos.mpr hdoc
  have hend : ∀ s : PWEdit, s.lines = doc →
      (to_file_end s).lines = doc ∧ (to_file_end s).selectedLineNumber < doc.length ∧
        (to_file_end s).selectedLine = ((to_file_end s).selectedLineNumber : Int) := by
    intro s h1
    rw [to_file_end_lines, to_file_end_selectedLineNumber, to_file_end_selectedLine]
    unfold size usub
    rw [h1]
    refine ⟨rfl, by omega, by omega⟩
  have hbegin : ∀ s : PWEdit, s.lines = doc →
      (to_file_start s).lines = doc ∧ (to_file_start s).selectedLineNumber < doc.length ∧
        (to_file_start s).selectedLine = ((to_file_start s).selectedLineNumber : Int) := by
    intro s h1
    rw [to_file_start_lines, to_file_start_selectedLineNumber, to_file_start_selectedLine]
    exact ⟨h1, hpos, rfl⟩
  refine Reachable_invariant doc (fun s => s.lines = doc ∧ s.selectedLineNumber < doc.length ∧
      s.selectedLine = (s.selectedLineNumber : Int)) ?_ ?_ ?_ ?_ ?_ ?_ ?_ s h
  · intro s0 h0
    exact hbegin _ h0
  · intro s x hs hx
    obtain ⟨e1, _, _, _, _, _, e7, e8, _⟩ := document_and_cursor_fields s x hx
    rw [e1, e7, e8]
    exact hs
  · intro s d hs
    obtain ⟨h1, h2, h3⟩ := hs
    cases d with
    | UP =>
      unfold move_selection
      dsimp only []
      by_cases hb : s.selectedLineNumber = 0
      · unfold move_up
        rw [if_pos hb]
        split_ifs
        · exact hbegin s h1
        · exact ⟨h1, h2, h3⟩
      · obtain ⟨u1, _, u3, u4, _, _⟩ := move_up_inner s hb
        rw [u1, u3, u4, h3]
        unfold usub
        refine ⟨h1, by omega, by omega⟩
    | DOWN =>
      unfold move_selection
      dsimp only []
      by_cases hb : usub s.size 1 ≤ s.selectedLineNumber
      · unfold move_down
        rw [if_pos hb]
        split_ifs
        · exact ⟨h1, h2, h3⟩
        · exact hend s h1
      · obtain ⟨u1, _, u3, u4, _, _⟩ := move_down_inner s hb
        rw [u1, u3, u4, h3]
        unfold size usub at hb
        rw [h1] at hb
        unfold uadd
        refine ⟨h1, by omega, by omega⟩
    | LEFT =>
      unfold move_selection
      dsimp only []
      rw [move_left_lines, move_left_selectedLine, move_left_selectedLineNumber]
      exact ⟨h1, h2, h3⟩
    | RIGHT =>
      unfold move_selection
      dsimp only []
      rw [move_right_lines, move_right_selectedLine, move_right_selectedLineNumber]
      exact ⟨h1, h2, h3⟩
  · intro s hs
    exact hbegin s hs.1
  · intro s hs
    exact hend s hs.1
  · intro s hs
    rw [to_line_start_lines, to_line_start_selectedLine, to_line_start_selectedLineNumber]
    exact hs
  · intro s hs
    rw [to_line_end_lines, to_line_end_selectedLine, to_line_end_selectedLineNumber]
    exact hs

end PWEdit

end PropWare
namespace PropWare

namespace PWEdit

/-- In every state the loop reaches on a document with at least as many lines
as the window has rows, the window ends within the document. -/
theorem window_within_document (doc : List (List Char)) (hcount : doc.length < 4294967296)
    (s : PWEdit) (h : Reachable doc s) :
    s.lines = doc ∧ (s.rows ≤ doc.length → s.firstLineDisplayed + s.rows ≤ doc.length) := by
  have hend : ∀ s : PWEdit, s.lines = doc →
      (to_file_end s).lines = doc ∧ ((to_file_end s).rows ≤ doc.length →
        (to_file_end s).firstLineDisplayed + (to_file_end s).rows ≤ doc.length) := by
    intro s h1
    rw [to_file_end_lines, to_file_end_rows, to_file_end_firstLineDisplayed]
    unfold size usub
    rw [h1]
    refine ⟨rfl, fun hr => by omega⟩
  have hbegin : ∀ s : PWEdit, s.lines = doc →
      (to_file_start s).lines = doc ∧ ((to_file_start s).rows ≤ doc.length →
        (to_file_start s).firstLineDisplayed + (to_file_start s).rows ≤ doc.length) := by
    intro s h1
    rw [to_file_start_lines, to_file_start_rows, to_file_start_firstLineDisplayed]
    refine ⟨h1, fun hr => by omega⟩
  refine Reachable_invariant doc (fun s => s.lines = doc ∧
      (s.rows ≤ doc.length → s.firstLineDisplayed + s.rows ≤ doc.length)) ?_ ?_ ?_ ?_ ?_ ?_ ?_ s h
  · intro s0 h0
    exact hbegin _ h0
  · intro s x hs hx
    obtain ⟨e1, _, _, e4, _, _, _, _, _, _, e11, _⟩ := document_and_cursor_fields s x hx
    rw [e1, e4, e11]
    exact hs
  · intro s d hs
    obtain ⟨h1, h2⟩ := hs
    cases d with
    | UP =>
      unfold move_selection
      dsimp only []
      by_cases hb : s.selectedLineNumber = 0
      · unfold move_up
        rw [if_pos hb]
        split_ifs
        · exact hbegin s h1
        · exact ⟨h1, h2⟩
      · rw [move_up_lines, move_up_rows, (move_up_window s hb).1]
        refine ⟨h1, fun hr => ?_⟩
        have h3 := h2 hr
        unfold usub
        split_ifs <;> omega
    | DOWN =>
      unfold move_selection
      dsimp only []
      by_cases hb : usub s.size 1 ≤ s.selectedLineNumber
      · unfold move_down
        rw [if_pos hb]
        split_ifs
        · exact ⟨h1, h2⟩
        · exact hend s h1
      · rw [move_down_lines, move_down_rows, (move_down_window s hb).1]
        refine ⟨h1, fun hr => ?_⟩
        have h3 := h2 hr
        unfold size uadd
        rw [h1]
        split_ifs <;> omega
    | LEFT =>
      unfold move_selection
      dsimp only []
      rw [move_left_lines, move_left_rows, move_left_firstLineDisplayed]
      exact ⟨h1, h2⟩
    | RIGHT =>
      unfold move_selection
      dsimp only []
      rw [move_right_lines, move_right_rows, move_right_firstLineDisplayed]
      exact ⟨h1, h2⟩
  · intro s hs
    exact hbegin s hs.1
  · intro s hs
    exact hend s hs.1
  · intro s hs
    rw [to_line_start_lines, to_line_start_rows, to_line_start_firstLineDisplayed]
    exact hs
  · intro s hs
    rw [to_line_end_lines, to_line_end_rows, to_line_end_firstLineDisplayed]
    exact hs

/-! ### A stream that loads an empty line -/

/-- The load of the stream `a`, CR, CR, for every behaviour of the reader past
the end: the lines stored are `a` and the empty line. -/
theorem load_empty_line (code : ErrorCode) (c p : Char) :
    (read_in_file 4 (reading ['a', CARRIAGE_RETURN, CARRIAGE_RETURN] code c p)).map
      (fun x => (x.1, x.2.lines)) =
      some (if p = NEWLINE ∧ code ≠ 0 then (code, [['a']]) else (NO_ERROR, [['a'], []])) := by
  unfold read_in_file
  rw [if_neg (by simp [reading, NO_ERROR])]
  rw [read_lines_record 3 _ ['a'] CARRIAGE_RETURN [CARRIAGE_RETURN] rfl (by simp; decide)
    (Or.inl rfl) (by simp)]
  have hcr : ¬ (CARRIAGE_RETURN = NEWLINE) := by decide
  simp only [reading, showing, FileReader.peek, FileReader.safe_get_char, hcr, if_false,
    NO_ERROR, ne_eq, not_true_eq_false]
  rw [read_lines_record 2 _ [] CARRIAGE_RETURN [] (by simp) (by simp)
    (Or.inl rfl) (by simp)]
  simp only [puts_inFile, push_back_inFile, set_inFile_inFile, FileReader.peek,
    FileReader.safe_get_char, NO_ERROR]
  by_cases hp : p = NEWLINE
  · by_cases hc : code = 0
    · simp [hp, hc, read_lines, FileReader.eof]
      exact ⟨rfl, by decide⟩
    · simp [hp, hc]
      decide
  · simp [hp, read_lines, FileReader.eof]
    exact ⟨rfl, by decide⟩

end PWEdit

end PropWare
/-! ## The desired column in the states the loop reaches -/

namespace PropWare

namespace PWEdit

theorem to_file_start_columns_selected (s : PWEdit) :
    (to_file_start s).selectedColumnInLine = 0 ∧ (to_file_start s).desiredColumnInLine = 0 := by
  unfold to_file_start
  dsimp only []
  split_ifs <;> simp [move_cursor]

theorem to_file_end_desiredColumnInLine (s : PWEdit) :
    (to_file_end s).desiredColumnInLine = (to_file_end s).selectedColumnInLine := by
  unfold to_file_end
  dsimp only []
  split_ifs <;> simp [move_cursor]

theorem to_line_start_desiredColumnInLine (s : PWEdit) :
    (to_line_start s).desiredColumnInLine = (to_line_start s).selectedColumnInLine := rfl

theorem to_line_end_desiredColumnInLine (s : PWEdit) :
    (to_line_end s).desiredColumnInLine = (to_line_end s).selectedColumnInLine := rfl

theorem move_right_desiredColumnInLine (s : PWEdit) :
    (move_right s).desiredColumnInLine = (move_right s).selectedColumnInLine := rfl

theorem move_left_desiredColumnInLine (s : PWEdit) :
    (move_left s).desiredColumnInLine = (move_left s).selectedColumnInLine := rfl

/-- On a document without empty lines, the desired column is never below the
selected column in a state the loop reaches. -/
theorem desired_dominates (doc : List (List Char)) (hdoc : doc ≠ [])
    (hcount : doc.length < 4294967296)
    (hline : ∀ l ∈ doc, l ≠ [] ∧ l.length < 4294967296)
    (s : PWEdit) (h : Reachable doc s) :
    s.selectedColumnInLine ≤ s.desiredColumnInLine := by
  have hpos : 0 < doc.length := List.length_pos.mpr hdoc
  suffices hall : (s.lines = doc ∧ s.selectedLineNumber < doc.length ∧
      s.selectedLine = (s.selectedLineNumber : Int)) ∧
      s.selectedColumnInLine ≤ s.desiredColumnInLine from hall.2
  have hbegin : ∀ s : PWEdit,
      (to_file_start s).selectedColumnInLine ≤ (to_file_start s).desiredColumnInLine := by
    intro s
    rw [(to_file_start_columns_selected s).1, (to_file_start_columns_selected s).2]
  have hend : ∀ s : PWEdit,
      (to_file_end s).selectedColumnInLine ≤ (to_file_end s).desiredColumnInLine := by
    intro s
    rw [to_file_end_desiredColumnInLine]
  refine Reachable_invariant doc (fun s => (s.lines = doc ∧ s.selectedLineNumber < doc.length ∧
      s.selectedLine = (s.selectedLineNumber : Int)) ∧
      s.selectedColumnInLine ≤ s.desiredColumnInLine) ?_ ?_ ?_ ?_ ?_ ?_ ?_ s h
  · intro s0 h0
    exact ⟨selected_line_valid doc hdoc hcount _ ⟨s0, 0, h0, rfl⟩, hbegin _⟩
  · intro s x hs hx
    obtain ⟨e1, _, _, _, _, _, e7, e8, e9, e10, _⟩ := document_and_cursor_fields s x hx
    rw [e1, e7, e8, e9, e10]
    exact hs
  · intro s d hs
    obtain ⟨⟨h1, h2, h3⟩, h4⟩ := hs
    cases d with
    | UP =>
      unfold move_selection
      dsimp only []
      by_cases hb : s.selectedLineNumber = 0
      · unfold move_up
        rw [if_pos hb]
        split_ifs
        · rw [to_file_start_lines, to_file_start_selectedLineNumber, to_file_start_selectedLine]
          exact ⟨⟨h1, hpos, rfl⟩, hbegin s⟩
        · exact ⟨⟨h1, h2, h3⟩, h4⟩
      · obtain ⟨u1, _, u3, u4, u5, u6⟩ := move_up_inner s hb
        obtain ⟨t0, t1⟩ := line_length_bounds s (s.selectedLine - 1) (by rw [h1]; exact hline)
          (by omega) (by rw [h1]; omega)
        rw [vertical_selectedColumnInLine s Direction.UP (Or.inl rfl)
          (get_size (s.deref (s.selectedLine - 1))) (by simp; omega)] at u6
        rw [u1, u3, u4, u5, u6]
        refine ⟨⟨h1, by unfold usub; omega, by rw [h3]; unfold usub; omega⟩, ?_⟩
        generalize get_size (s.deref (s.selectedLine - 1)) = lt at *
        unfold usub
        split_ifs <;> omega
    | DOWN =>
      unfold move_selection
      dsimp only []
      by_cases hb : usub s.size 1 ≤ s.selectedLineNumber
      · unfold move_down
        rw [if_pos hb]
        split_ifs
        · exact ⟨⟨h1, h2, h3⟩, h4⟩
        · rw [to_file_end_lines, to_file_end_selectedLineNumber, to_file_end_selectedLine]
          refine ⟨⟨h1, ?_, ?_⟩, hend s⟩
          · unfold size usub; rw [h1]; omega
          · unfold size usub; rw [h1]; omega
      · obtain ⟨u1, _, u3, u4, u5, u6⟩ := move_down_inner s hb
        have hb2 : s.selectedLineNumber + 1 < doc.length := by
          unfold size usub at hb
          rw [h1] at hb
          omega
        obtain ⟨t0, t1⟩ := line_length_bounds s (s.selectedLine + 1) (by rw [h1]; exact hline)
          (by omega) (by rw [h1]; omega)
        rw [vertical_selectedColumnInLine s Direction.DOWN (Or.inr rfl)
          (get_size (s.deref (s.selectedLine + 1))) (by simp; omega)] at u6
        rw [u1, u3, u4, u5, u6]
        refine ⟨⟨h1, by unfold uadd; omega, by rw [h3]; unfold uadd; omega⟩, ?_⟩
        generalize get_size (s.deref (s.selectedLine + 1)) = lt at *
        unfold usub
        split_ifs <;> omega
    | LEFT =>
      unfold move_selection
      dsimp only []
      rw [move_left_lines, move_left_selectedLine, move_left_selectedLineNumber,
        move_left_desiredColumnInLine]
      exact ⟨⟨h1, h2, h3⟩, le_refl _⟩
    | RIGHT =>
      unfold move_selection
      dsimp only []
      rw [move_right_lines, move_right_selectedLine, move_right_selectedLineNumber,
        move_right_desiredColumnInLine]
      exact ⟨⟨h1, h2, h3⟩, le_refl _⟩
  · intro s hs
    rw [to_file_start_lines, to_file_start_selectedLineNumber, to_file_start_selectedLine]
    exact ⟨⟨hs.1.1, hpos, rfl⟩, hbegin s⟩
  · intro s hs
    rw [to_file_end_lines, to_file_end_selectedLineNumber, to_file_end_selectedLine]
    refine ⟨⟨hs.1.1, ?_, ?_⟩, hend s⟩
    · unfold size usub; rw [hs.1.1]; omega
    · unfold size usub; rw [hs.1.1]; omega
  · intro s hs
    rw [to_line_start_lines, to_line_start_selectedLine, to_line_start_selectedLineNumber,
      to_line_start_desiredColumnInLine]
    exact ⟨hs.1, le_refl _⟩
  · intro s hs
    rw [to_line_end_lines, to_line_end_selectedLine, to_line_end_selectedLineNumber,
      to_line_end_desiredColumnInLine]
    exact ⟨hs.1, le_refl _⟩

end PWEdit

end PropWare
namespace PropWare

/-- C12 as stated fails on the desired column.  On the document `abc`, `x`,
the keys right, right, down lead to line 1, column 0 with the desired column
still 2; `move_selection(LEFT)` there rings the bell and sets the desired
column to 0. -/
theorem C12_counterexample :
    ∃ s, PWEdit.Reachable [['a', 'b', 'c'], ['x']] s ∧ s.selectedColumnInLine = 0 ∧
      s.desiredColumnInLine = 2 ∧
      (PWEdit.move_selection s Direction.LEFT).desiredColumnInLine = 0 := by
  obtain ⟨s, hs, hf⟩ := PWEdit.Reachable_of_rounds [['a', 'b', 'c'], ['x']] 2 10
    ['d', 'd', 's'] 3
    (fun s => (s.selectedColumnInLine, s.desiredColumnInLine,
      (PWEdit.move_selection s Direction.LEFT).desiredColumnInLine)) (0, 2, 0) (by decide)
  simp only [Prod.mk.injEq] at hf
  exact ⟨s, hs, hf.1, hf.2.1, hf.2.2⟩

/-- C15: in every state the loop of `run` reaches on a non-empty document
(whatever the window size and the keys, command keys included),
`m_selectedLineNumber` is below the line count, the iterator `m_selectedLine`
stands at that distance from `cbegin()`, and dereferencing it yields the line
of the document at that index. -/
theorem C15_selected_line_valid (doc : List (List Char)) (s : PWEdit) (hdoc : doc ≠ [])
    (hcount : doc.length < 4294967296) (h : PWEdit.Reachable doc s) :
    s.lines = doc ∧ s.selectedLineNumber < doc.length ∧
    s.selectedLine = (s.selectedLineNumber : Int) ∧
    doc[s.selectedLineNumber]? = some (s.deref s.selectedLine) := by
  obtain ⟨h1, h2, h3⟩ := PWEdit.selected_line_valid doc hdoc hcount s h
  refine ⟨h1, h2, h3, ?_⟩
  unfold PWEdit.deref
  rw [h3, h1, if_pos ⟨by omega, by omega⟩]
  simp [List.getD_eq_getElem?_getD, List.getElem?_eq_getElem h2]

theorem C15_selected_line_valid_witness :
    [['a', 'b'], ['c']] ≠ ([] : List (List Char)) ∧
    [['a', 'b'], ['c']].length < 4294967296 ∧
    ∃ s, PWEdit.Reachable [['a', 'b'], ['c']] s ∧ s.selectedLineNumber = 1 ∧
      s.lines = [['a', 'b'], ['c']] ∧ s.selectedLineNumber < [['a', 'b'], ['c']].length ∧
      s.selectedLine = (s.selectedLineNumber : Int) ∧
      [['a', 'b'], ['c']][s.selectedLineNumber]? = some (s.deref s.selectedLine) :=
  ⟨by decide, by decide,
    (PWEdit.Reachable_of_rounds [['a', 'b'], ['c']] 2 10 ['d', 's', 's'] 3
      (fun s => s.selectedLineNumber) 1 (by decide)).elim
      (fun s hs => ⟨s, hs.1, hs.2,
        C15_selected_line_valid [['a', 'b'], ['c']] s (by decide) (by decide) hs.1⟩)⟩

/-- C16 on the document `abcd`, `a`, `abc`, `x` (no empty line): the keys
right, right, right, down, down lead to line 2, which is `abc` and not the
last line, with the selected column 3, one past its last character (index
2). -/
theorem C16_column_past_line_end :
    ∃ s, PWEdit.Reachable [['a', 'b', 'c', 'd'], ['a'], ['a', 'b', 'c'], ['x']] s ∧
      s.selectedLineNumber = 2 ∧ s.deref s.selectedLine = ['a', 'b', 'c'] ∧
      s.selectedColumnInLine = 3 ∧
      ¬ (s.selectedColumnInLine ≤ max 0 (usub (PWEdit.get_size (s.deref s.selectedLine)) 1)) := by
  obtain ⟨s, hs, hf⟩ := PWEdit.Reachable_of_rounds
    [['a', 'b', 'c', 'd'], ['a'], ['a', 'b', 'c'], ['x']] 3 10 ['d', 'd', 'd', 's', 's'] 5
    (fun s => (s.selectedLineNumber, s.deref s.selectedLine, s.selectedColumnInLine))
    (2, ['a', 'b', 'c'], 3) (by decide)
  simp only [Prod.mk.injEq] at hf
  refine ⟨s, hs, hf.1, hf.2.1, hf.2.2, ?_⟩
  rw [hf.2.1, hf.2.2]
  decide

/-- C17 as stated fails on a document shorter than the window: with one line
and two rows, the state in which the loop reads its first key has
`m_firstLineDisplayed = 0`, and `0 + 2 - 1 <= 1 - 1` is false. -/
theorem C17_counterexample :
    ∃ s, PWEdit.Reachable [['a']] s ∧ s.rows = 2 ∧ s.firstLineDisplayed = 0 ∧
      ¬ (usub (uadd s.firstLineDisplayed s.rows) 1 ≤ usub s.size 1) := by
  obtain ⟨s, hs, hf⟩ := PWEdit.Reachable_of_rounds [['a']] 2 10 [] 0
    (fun s => (s.rows, s.firstLineDisplayed, s.size)) (2, 0, 1) (by decide)
  simp only [Prod.mk.injEq] at hf
  refine ⟨s, hs, hf.1, hf.2.1, ?_⟩
  rw [hf.1, hf.2.1, hf.2.2]
  decide

/-- C17, amended: in every state the loop of `run` reaches on a document with
at least as many lines as the window has rows (and at least one row),
`m_firstLineDisplayed + m_rows` does not exceed the line count, so that
`m_firstLineDisplayed + m_rows - 1 <= size() - 1` holds as the unsigned
comparison too, nothing wrapping. -/
theorem C17_window_within_document (doc : List (List Char)) (s : PWEdit)
    (hcount : doc.length < 4294967296) (h : PWEdit.Reachable doc s)
    (hrow : 1 ≤ s.rows) (hrows : s.rows ≤ doc.length) :
    s.firstLineDisplayed + s.rows ≤ doc.length ∧
    usub (uadd s.firstLineDisplayed s.rows) 1 ≤ usub s.size 1 := by
  obtain ⟨h1, h2⟩ := PWEdit.window_within_document doc hcount s h
  have h3 := h2 hrows
  refine ⟨h3, ?_⟩
  unfold PWEdit.size usub uadd
  rw [h1]
  omega

theorem C17_window_within_document_witness :
    [['a', 'b'], ['c'], ['d']].length < 4294967296 ∧
    ∃ s, PWEdit.Reachable [['a', 'b'], ['c'], ['d']] s ∧
      (s.rows = 2 ∧ s.firstLineDisplayed = 1) ∧
      s.firstLineDisplayed + s.rows ≤ [['a', 'b'], ['c'], ['d']].length ∧
      usub (uadd s.firstLineDisplayed s.rows) 1 ≤ usub s.size 1 :=
  ⟨by decide,
    (PWEdit.Reachable_of_rounds [['a', 'b'], ['c'], ['d']] 2 10 ['G'] 1
      (fun s => (s.rows, s.firstLineDisplayed)) (2, 1) (by decide)).elim
      (fun s hs => ⟨s, hs.1, Prod.mk.inj hs.2,
        C17_window_within_document [['a', 'b'], ['c'], ['d']] s (by decide) hs.1
          (by rw [(Prod.mk.inj hs.2).1]; decide) (by rw [(Prod.mk.inj hs.2).1]; decide)⟩)⟩

/-- C18 on the document `a`, empty line, which is what `read_in_file` builds
from the stream `a`, CR, CR (whatever the reader does past the end, unless it
reports an error there): the key down leads from line 0, column 0 to line 1
with the selected column 4294967295 (`lineLength - 1` for the length 0) and
the desired column still 0, below the selected column. -/
theorem C18_desired_below_selected (code : ErrorCode) (c p : Char) :
    (PWEdit.read_in_file 4
        (PWEdit.reading ['a', CARRIAGE_RETURN, CARRIAGE_RETURN] code c p)).map
        (fun x => (x.1, x.2.lines)) =
      some (if p = NEWLINE ∧ code ≠ 0 then (code, [['a']]) else (NO_ERROR, [['a'], []])) ∧
    ∃ s, PWEdit.Reachable [['a'], []] s ∧ s.selectedLineNumber = 1 ∧
      s.selectedColumnInLine = 4294967295 ∧ s.desiredColumnInLine = 0 ∧
      ¬ (s.desiredColumnInLine ≥ s.selectedColumnInLine) := by
  refine ⟨PWEdit.load_empty_line code c p, ?_⟩
  obtain ⟨s, hs, hf⟩ := PWEdit.Reachable_of_rounds [['a'], []] 2 10 ['s'] 1
    (fun s => (s.selectedLineNumber, s.selectedColumnInLine, s.desiredColumnInLine))
    (1, 4294967295, 0) (by decide)
  simp only [Prod.mk.injEq] at hf
  refine ⟨s, hs, hf.1, hf.2.1, hf.2.2, ?_⟩
  rw [hf.2.1, hf.2.2]
  decide

end PropWare
/-! ## Vertical moves: the column selected and the scroll decision -/

namespace PropWare

namespace PWEdit

end PWEdit

/-- C19 where the desired column equals the length of the target line: a
`move_selection(DOWN)` away from the last line, from a column more than one
below the length `L` of the next line and with the desired column `L`, selects
column `L`, one past the last character of the target, and not
`min(desired, L - 1)`, which is `L - 1`.  The selected line number grows by one
and the desired column stays. -/
theorem C19_vertical_move_overshoots (s : PWEdit) (L : Nat)
    (hcount : s.lines.length < 4294967296)
    (hnb : s.selectedLineNumber + 1 < s.lines.length)
    (hT : PWEdit.get_size (s.deref (s.selectedLine + 1)) = L) (hL : L < 4294967296)
    (hdes : s.desiredColumnInLine = L) (hcol : s.selectedColumnInLine + 1 < L) :
    (PWEdit.move_selection s Direction.DOWN).selectedLineNumber = s.selectedLineNumber + 1 ∧
    (PWEdit.move_selection s Direction.DOWN).desiredColumnInLine = s.desiredColumnInLine ∧
    (PWEdit.move_selection s Direction.DOWN).selectedColumnInLine = L ∧
    (PWEdit.move_selection s Direction.DOWN).selectedColumnInLine ≠
      min s.desiredColumnInLine (L - 1) := by
  have hb : ¬ usub s.size 1 ≤ s.selectedLineNumber := by
    unfold PWEdit.size usub
    omega
  obtain ⟨_, _, _, d4, d5, d6⟩ := PWEdit.move_down_inner s hb
  rw [PWEdit.vertical_selectedColumnInLine s Direction.DOWN (Or.inr rfl) L
    (by simp only [reduceCtorEq, if_false]; rw [hT]; omega)] at d6
  have hsel : (PWEdit.move_down s).selectedColumnInLine = L := by
    rw [d6, hdes]
    unfold usub
    rw [if_pos ⟨by omega, by omega⟩, if_pos (by omega)]
  unfold PWEdit.move_selection
  dsimp only []
  refine ⟨?_, d5, hsel, ?_⟩
  · rw [d4]
    unfold uadd
    omega
  · rw [hsel, hdes]
    omega

theorem C19_vertical_move_overshoots_witness :
    ∃ s, PWEdit.Reachable [['a', 'b', 'c', 'd'], ['a'], ['a', 'b', 'c'], ['x']] s ∧
      (s.lines.length = 4 ∧ s.selectedLineNumber = 1 ∧
        PWEdit.get_size (s.deref (s.selectedLine + 1)) = 3 ∧ s.desiredColumnInLine = 3 ∧
        s.selectedColumnInLine = 0) ∧
      (PWEdit.move_selection s Direction.DOWN).selectedLineNumber = s.selectedLineNumber + 1 ∧
      (PWEdit.move_selection s Direction.DOWN).desiredColumnInLine = s.desiredColumnInLine ∧
      (PWEdit.move_selection s Direction.DOWN).selectedColumnInLine = 3 ∧
      (PWEdit.move_selection s Direction.DOWN).selectedColumnInLine ≠
        min s.desiredColumnInLine (3 - 1) :=
  (PWEdit.Reachable_of_rounds [['a', 'b', 'c', 'd'], ['a'], ['a', 'b', 'c'], ['x']] 3 10
    ['d', 'd', 'd', 's'] 4
    (fun s => (s.lines.length, s.selectedLineNumber,
      PWEdit.get_size (s.deref (s.selectedLine + 1)), s.desiredColumnInLine,
      s.selectedColumnInLine)) (4, 1, 3, 3, 0) (by decide)).elim
    (fun s hs =>
      have hf : s.lines.length = 4 ∧ s.selectedLineNumber = 1 ∧
          PWEdit.get_size (s.deref (s.selectedLine + 1)) = 3 ∧ s.desiredColumnInLine = 3 ∧
          s.selectedColumnInLine = 0 := by
        simpa only [Prod.mk.injEq] using hs.2
      ⟨s, hs.1, hf,
        C19_vertical_move_overshoots s 3 (by rw [hf.1]; decide)
          (by rw [hf.1, hf.2.1]; decide) hf.2.2.1 (by decide) hf.2.2.2.1
          (by rw [hf.2.2.2.2]; decide)⟩)

end PropWare
/-! # The UART configuration -/

namespace PropWare

namespace UART

/-- The mask built by the loop of `set_data_width` for a width up to 16. -/
theorem data_mask_loop_eq (w : Nat) (h : w ≤ 16) : data_mask_loop w 0 0 = 2 ^ w - 1 := by
  interval_cases w <;> rfl

theorem set_data_width_valid (u : UART) (w : Nat) (h1 : 1 ≤ w) (h16 : w ≤ 16) :
    set_data_width u w =
      (NO_ERROR, set_total_bits (set_parity_mask
        { u with dataWidth := w, dataMask := data_mask_loop w 0 0 })) := by
  unfold set_data_width
  rw [if_neg (by omega)]

theorem set_total_bits_eq (u : UART) :
    set_total_bits u = { u with totalBits := (set_total_bits u).totalBits } := by
  unfold set_total_bits
  dsimp only []
  split_ifs <;> rfl

theorem set_data_width_parityMask (u : UART) (w : Nat) (h1 : 1 ≤ w) (h16 : w ≤ 16) :
    (set_data_width u w).2.parityMask = (1 <<< w) % 65536 := by
  rw [set_data_width_valid u w h1 h16, set_total_bits_eq]
  rfl

end UART

/-- C28: `UART::set_data_width` returns `INVALID_DATA_WIDTH` exactly for a
width below 1 or above 16, and then leaves the whole configuration as it was;
for a width from 1 to 16 it returns `NO_ERROR`, `get_data_width` then returns
that width and the data mask is `2^width - 1`. -/
theorem C28_data_width_validation (u : UART) (dataWidth : Nat) :
    ((UART.set_data_width u dataWidth).1 = UART.INVALID_DATA_WIDTH ↔
      (dataWidth < 1 ∨ dataWidth > 16)) ∧
    (dataWidth < 1 ∨ dataWidth > 16 → (UART.set_data_width u dataWidth).2 = u) ∧
    (¬ (dataWidth < 1 ∨ dataWidth > 16) →
      (UART.set_data_width u dataWidth).1 = UART.NO_ERROR ∧
      UART.get_data_width (UART.set_data_width u dataWidth).2 = dataWidth ∧
      (UART.set_data_width u dataWidth).2.dataMask = 2 ^ dataWidth - 1) := by
  by_cases h : dataWidth < 1 ∨ dataWidth > 16
  · have e : UART.set_data_width u dataWidth = (UART.INVALID_DATA_WIDTH, u) := by
      unfold UART.set_data_width
      rw [if_pos (by omega)]
    rw [e]
    exact ⟨⟨fun _ => h, fun _ => rfl⟩, fun _ => rfl, fun hn => absurd h hn⟩
  · rw [UART.set_data_width_valid u dataWidth (by omega) (by omega)]
    refine ⟨⟨fun e => absurd e (by simp [UART.NO_ERROR, UART.INVALID_DATA_WIDTH]),
      fun hn => absurd hn h⟩, fun hn => absurd hn h,
      fun _ => ⟨rfl, ?_, ?_⟩⟩
    · rw [UART.set_total_bits_eq]
      rfl
    · rw [UART.set_total_bits_eq]
      exact UART.data_mask_loop_eq dataWidth (by omega)

theorem C28_data_width_validation_witness :
    (UART.set_data_width UART.constructed 0).2 = UART.constructed ∧
    (UART.set_data_width UART.constructed 17).2 = UART.constructed ∧
    ((UART.set_data_width UART.constructed 9).1 = UART.NO_ERROR ∧
      UART.get_data_width (UART.set_data_width UART.constructed 9).2 = 9 ∧
      (UART.set_data_width UART.constructed 9).2.dataMask = 2 ^ 9 - 1) :=
  ⟨(C28_data_width_validation UART.constructed 0).2.1 (by decide),
    (C28_data_width_validation UART.constructed 17).2.1 (by decide),
    (C28_data_width_validation UART.constructed 9).2.2 (by decide)⟩

/-- C29 at the width 16: `set_data_width(16)` returns `NO_ERROR` and leaves
the parity mask 0, with no bit set, and not `2^16`: the member is a `uint16_t`
and `1 << 16` does not fit it.  For every width from 1 to 15 the parity mask
is `2^width`. -/
theorem C29_parity_mask_lost_at_16 (u : UART) :
    (UART.set_data_width u 16).1 = UART.NO_ERROR ∧
    (UART.set_data_width u 16).2.dataWidth = 16 ∧
    (UART.set_data_width u 16).2.parityMask = 0 ∧
    (UART.set_data_width u 16).2.parityMask ≠ 2 ^ 16 ∧
    (∀ w, 1 ≤ w → w ≤ 15 → (UART.set_data_width u w).2.parityMask = 2 ^ w) := by
  refine ⟨?_, ?_, ?_, ?_, ?_⟩
  · rw [UART.set_data_width_valid u 16 (by decide) (by decide)]
  · rw [UART.set_data_width_valid u 16 (by decide) (by decide), UART.set_total_bits_eq]
    rfl
  · rw [UART.set_data_width_parityMask u 16 (by decide) (by decide)]
    decide
  · rw [UART.set_data_width_parityMask u 16 (by decide) (by decide)]
    decide
  · intro w h1 h15
    rw [UART.set_data_width_parityMask u w h1 (by omega)]
    interval_cases w <;> decide

theorem C29_parity_mask_lost_at_16_witness :
    (UART.set_data_width UART.constructed 16).2.parityMask = 0 ∧
    (UART.set_data_width UART.constructed 15).2.parityMask = 2 ^ 15 :=
  ⟨(C29_parity_mask_lost_at_16 UART.constructed).2.2.1,
    (C29_parity_mask_lost_at_16 UART.constructed).2.2.2.2 15 (by decide) (by decide)⟩

/-! # The HD44780 cursor addressing -/

/-- C30 for the dimensions `DIM_16x1_1`: `move(0, col)` sends
`SET_DDRAM_ADDR | col` for every column from 0 to 15.  For the columns 0 to 7
that is the command of the claim; for the columns 8 to 15 it is not
`SET_DDRAM_ADDR | (0x40 + (col - 8))`: the memory map stored for these
dimensions has `ddramCharRowBreak = ddramLineEnd = 8`, so the branch of `move`
for a row split across two DDRAM lines, guarded by
`ddramCharRowBreak > ddramLineEnd`, is not taken. -/
theorem C30_split_row_not_addressed (showCursor : Bool) (col : Nat) (h : col ≤ 15) :
    (HD44780.move (HD44780.construct HD44780.Dimensions.DIM_16x1_1 showCursor) 0 col).commands
      = [HD44780.SET_DDRAM_ADDR ||| col] ∧
    (8 ≤ col → HD44780.SET_DDRAM_ADDR ||| col ≠ HD44780.SET_DDRAM_ADDR ||| (64 + (col - 8))) ∧
    ¬ ((HD44780.construct HD44780.Dimensions.DIM_16x1_1 showCursor).memMap.ddramCharRowBreak >
      (HD44780.construct HD44780.Dimensions.DIM_16x1_1 showCursor).memMap.ddramLineEnd) := by
  refine ⟨?_, ?_, ?_⟩
  · cases showCursor <;> interval_cases col <;> decide
  · intro h8
    interval_cases col <;> decide
  · cases showCursor <;> decide

theorem C30_split_row_not_addressed_witness :
    (HD44780.move (HD44780.construct HD44780.Dimensions.DIM_16x1_1 false) 0 8).commands
      = [HD44780.SET_DDRAM_ADDR ||| 8] ∧
    HD44780.SET_DDRAM_ADDR ||| 8 ≠ HD44780.SET_DDRAM_ADDR ||| (64 + (8 - 8)) :=
  ⟨(C30_split_row_not_addressed false 8 (by decide)).1,
    (C30_split_row_not_addressed false 8 (by decide)).2.1 (by decide)⟩

end PropWare
/-! # The key map -/

namespace PropWare

namespace PWEdit

/-- A character that is none of the thirteen keys leaves the state alone. -/
theorem dispatch_ignored (s : PWEdit) (exit : Bool) (c : Char)
    (hc : c ∉ ['a', 'h', 's', 'j', 'd', 'l', 'w', 'k', 'g', 'G', '0', '$', ':']) :
    dispatch s exit c = some (NO_ERROR, exit, s) := by
  simp only [List.mem_cons, List.mem_singleton, not_or, List.not_mem_nil, or_false] at hc
  obtain ⟨h1, h2, h3, h4, h5, h6, h7, h8, h9, h10, h11, h12, h13⟩ := hc
  unfold dispatch
  simp [h1, h2, h3, h4, h5, h6, h7, h8, h9, h10, h11, h12, h13, TO_FILE_START, TO_FILE_END,
    TO_LINE_START, TO_LINE_END, COMMAND_START]

theorem spec_key_command_ignored (c : Char)
    (hc : c ∉ ['a', 'h', 's', 'j', 'd', 'l', 'w', 'k', 'g', 'G', '0', '$', ':']) :
    spec_key_command c = KeyCommand.ignored := by
  simp only [List.mem_cons, List.mem_singleton, not_or, List.not_mem_nil, or_false] at hc
  unfold spec_key_command
  split <;> simp_all

/-- The switch of `run` and the dispatcher of the specification agree on
every keystroke. -/
theorem dispatch_eq_spec_dispatch (s : PWEdit) (exit : Bool) (c : Char) :
    dispatch s exit c = spec_dispatch s exit c := by
  by_cases hc : c ∈ ['a', 'h', 's', 'j', 'd', 'l', 'w', 'k', 'g', 'G', '0', '$', ':']
  · simp only [List.mem_cons, List.mem_singleton, List.not_mem_nil, or_false] at hc
    rcases hc with h | h | h | h | h | h | h | h | h | h | h | h | h <;> subst h <;> rfl
  · rw [dispatch_ignored s exit c hc]
    unfold spec_dispatch
    rw [spec_key_command_ignored c hc]

end PWEdit

/-- C25: the switch in the loop of `run` is the key map of the specification.
The keys `a` and `h` both give `move_selection(LEFT)`, `s` and `j` DOWN, `d`
and `l` RIGHT, `w` and `k` UP, each pair with the same resulting state (the
printer is part of it); `g`, `G`, `0` and `$` run `to_file_start`,
`to_file_end`, `to_line_start` and `to_line_end`; `:` runs `command`; every
other character leaves the state as it is, nothing written, no error, the
exit flag as it was. -/
theorem C25_alternate_keysets (s : PWEdit) (exit : Bool) :
    (∀ c, PWEdit.dispatch s exit c = spec_dispatch s exit c) ∧
    (PWEdit.dispatch s exit 'a' = PWEdit.dispatch s exit 'h' ∧
      PWEdit.dispatch s exit 'h' = some (NO_ERROR, exit, PWEdit.move_selection s Direction.LEFT)) ∧
    (PWEdit.dispatch s exit 's' = PWEdit.dispatch s exit 'j' ∧
      PWEdit.dispatch s exit 'j' = some (NO_ERROR, exit, PWEdit.move_selection s Direction.DOWN)) ∧
    (PWEdit.dispatch s exit 'd' = PWEdit.dispatch s exit 'l' ∧
      PWEdit.dispatch s exit 'l' =
        some (NO_ERROR, exit, PWEdit.move_selection s Direction.RIGHT)) ∧
    (PWEdit.dispatch s exit 'w' = PWEdit.dispatch s exit 'k' ∧
      PWEdit.dispatch s exit 'k' = some (NO_ERROR, exit, PWEdit.move_selection s Direction.UP)) ∧
    PWEdit.dispatch s exit 'g' = some (NO_ERROR, exit, PWEdit.to_file_start s) ∧
    PWEdit.dispatch s exit 'G' = some (NO_ERROR, exit, PWEdit.to_file_end s) ∧
    PWEdit.dispatch s exit '0' = some (NO_ERROR, exit, PWEdit.to_line_start s) ∧
    PWEdit.dispatch s exit '$' = some (NO_ERROR, exit, PWEdit.to_line_end s) ∧
    PWEdit.dispatch s exit ':' = PWEdit.command s exit ∧
    (∀ c, c ∉ ['a', 'h', 's', 'j', 'd', 'l', 'w', 'k', 'g', 'G', '0', '$', ':'] →
      PWEdit.dispatch s exit c = some (NO_ERROR, exit, s)) := by
  refine ⟨PWEdit.dispatch_eq_spec_dispatch s exit, ⟨rfl, rfl⟩, ⟨rfl, rfl⟩, ⟨rfl, rfl⟩, ⟨rfl, rfl⟩,
    rfl, rfl, rfl, rfl, rfl, PWEdit.dispatch_ignored s exit⟩

theorem C25_alternate_keysets_witness :
    'x' ∉ ['a', 'h', 's', 'j', 'd', 'l', 'w', 'k', 'g', 'G', '0', '$', ':'] ∧
    PWEdit.dispatch PWEdit.twoLines false 'x' = some (NO_ERROR, false, PWEdit.twoLines) :=
  ⟨by decide, (C25_alternate_keysets PWEdit.twoLines false).2.2.2.2.2.2.2.2.2.2 'x' (by decide)⟩

/-! # The command buffer -/

/-- C27 for a command of 64 or more characters before the terminator:
`read_command_input` stores every character of the command and then the
terminator, one array element each from `_buffer[0]` on, so more than the 64
elements of `_buffer`: the terminator (and every character from the 65th on)
is written past the end of the array.  The function has no test of the
index. -/
theorem C27_command_buffer_overrun (s : PWEdit) (cmd : List Char) (t : Char) (rest : List Char)
    (hcmd : ∀ c ∈ cmd, PWEdit.not_enter_key c = true) (ht : PWEdit.not_enter_key t = false)
    (hlong : COMMAND_BUFFER_SIZE ≤ cmd.length) :
    ∃ stored s2, PWEdit.read_command_input (cmd ++ t :: rest) s = some (stored, s2) ∧
      stored = cmd ++ [t] ∧ COMMAND_BUFFER_SIZE < stored.length := by
  refine ⟨cmd ++ [t], _, PWEdit.read_command_input_eq cmd t rest s hcmd ht, rfl, ?_⟩
  rw [List.length_append, List.length_singleton]
  omega

theorem C27_command_buffer_overrun_witness :
    (∀ c ∈ List.replicate 64 'x', PWEdit.not_enter_key c = true) ∧
    PWEdit.not_enter_key CARRIAGE_RETURN = false ∧
    COMMAND_BUFFER_SIZE ≤ (List.replicate 64 'x').length ∧
    ∃ stored s2, PWEdit.read_command_input (List.replicate 64 'x' ++ CARRIAGE_RETURN :: [])
        PWEdit.twoLines = some (stored, s2) ∧
      stored = List.replicate 64 'x' ++ [CARRIAGE_RETURN] ∧
      COMMAND_BUFFER_SIZE < stored.length :=
  ⟨by decide, by decide, by decide,
    C27_command_buffer_overrun PWEdit.twoLines (List.replicate 64 'x') CARRIAGE_RETURN []
      (by decide) (by decide) (by decide)⟩

end PropWare
/-! # What a redraw writes -/

namespace PropWare

namespace PWEdit

/-- The first loop of `print_line_at_row` writes the characters of the line
from the starting column on, as many as there are rounds and characters. -/
theorem print_line_chars_eq (line : List Char) (c : Nat) (n column : Nat)
    (h : column + n + c ≤ 4294967296) :
    print_line_chars line c line.length n column =
      ((line.drop (column + c)).take n, column + ((line.drop (column + c)).take n).length) := by
  induction n generalizing column with
  | zero => simp [print_line_chars]
  | succ n ih =>
    rw [print_line_chars]
    have hu : uadd column c = column + c := by
      unfold uadd
      omega
    rw [hu]
    by_cases hlt : column + c < line.length
    · rw [if_pos hlt]
      dsimp only []
      rw [ih (column + 1) (by omega)]
      have e1 : column + 1 + c = column + c + 1 := by omega
      rw [e1, List.drop_eq_getElem_cons hlt, List.take_succ_cons, List.getD_eq_getElem _ _ hlt]
      simp only [List.length_cons]
      refine Prod.ext rfl ?_
      simp only []
      omega
    · rw [if_neg hlt, List.drop_eq_nil_of_le (by omega)]
      simp

/-- What `print_line_at_row` writes for a line whose length fits the
`uint16_t` it is stored in: the cursor sequence to the first column of the
row, then the row as the specification describes it. -/
theorem print_line_at_row_printer (s : PWEdit) (c : Nat) (it : Int) (row : Nat)
    (hlen : (s.deref it).length < 65536) (hc : s.columns + c ≤ 4294967296) :
    (print_line_at_row s c it row).printer =
      s.printer ++ (cursor_sequence row 1 ++ spec_row (s.deref it) c s.columns) := by
  unfold print_line_at_row
  dsimp only []
  have e : get_size (s.deref it) % 65536 = (s.deref it).length := by
    unfold get_size
    omega
  rw [e, print_line_chars_eq _ _ _ _ (by omega)]
  simp only [move_cursor, puts_puts, puts_printer, Nat.zero_add, spec_row, List.append_assoc]

/-- What the row loop of `display_file_from` writes when every line it prints
is the line of the document at the iterator (or the empty line past the end)
and fits a `uint16_t`: the redraw of the specification. -/
theorem display_rows_printer (c first : Nat) (n : Nat) (s : PWEdit) (it : Int) (row : Nat)
    (hc : s.columns + c ≤ 4294967296) (hrow : 1 ≤ row)
    (hit : it = ((first + row - 1 : Nat) : Int))
    (hline : ∀ k, k < n → s.deref (it + k) = s.lines.getD (first + row - 1 + k) [] ∧
      (s.deref (it + k)).length < 65536) :
    (display_rows c n s it row).printer =
      s.printer ++ spec_redraw s.lines first c s.columns n row := by
  induction n generalizing s it row with
  | zero => simp [display_rows, spec_redraw]
  | succ n ih =>
    rw [display_rows, spec_redraw]
    have h0 := hline 0 (by omega)
    simp only [Nat.cast_zero, add_zero] at h0
    rw [ih (print_line_at_row s c it row) (it + 1) (row + 1) (by simpa using hc) (by omega)
      (by rw [hit]; omega)]
    · rw [print_line_at_row_printer s c it row h0.2 hc, h0.1]
      simp only [print_line_at_row_lines, print_line_at_row_columns, List.append_assoc]
    · intro k hk
      have hk1 := hline (k + 1) (by omega)
      have e1 : it + 1 + (k : Int) = it + ((k + 1 : Nat) : Int) := by push_cast; omega
      have e2 : first + (row + 1) - 1 + k = first + row - 1 + (k + 1) := by omega
      rw [e1, e2]
      rw [print_line_at_row_eq]
      exact hk1

/-- A redraw whose window lies within the document writes what the
specification says, and sets the first line displayed. -/
theorem display_file_from_printer (s : PWEdit) (a b : Nat)
    (hc : s.columns + b ≤ 4294967296) (hwin : a + s.rows ≤ s.lines.length)
    (hline : ∀ l ∈ s.lines, l.length < 65536) :
    (display_file_from s a b).printer =
      s.printer ++ spec_redraw s.lines a b s.columns s.rows 1 := by
  unfold display_file_from
  dsimp only []
  rw [display_rows_printer b a s.rows s (a : Int) 1 hc (by omega) (by simp)]
  intro k hk
  have hin : (0 : Int) ≤ (a : Int) + k ∧ (a : Int) + k < s.lines.length := by omega
  have e : s.deref ((a : Int) + k) = s.lines.getD (a + k) [] := by
    unfold deref
    rw [if_pos hin]
    congr 1
  have e2 : a + 1 - 1 + k = a + k := by omega
  rw [e2, e]
  refine ⟨rfl, ?_⟩
  rw [List.getD_eq_getElem _ _ (by omega)]
  exact hline _ (List.getElem_mem _)

end PWEdit

end PropWare
/-! # The screen row of the selected line -/

namespace PropWare

namespace PWEdit

@[simp] theorem to_file_start_termRow (s : PWEdit) : (to_file_start s).termRow = 1 := by
  unfold to_file_start
  dsimp only []
  split_ifs <;> simp [move_cursor]

@[simp] theorem to_file_end_termRow (s : PWEdit) : (to_file_end s).termRow = s.rows := by
  unfold to_file_end
  dsimp only []
  split_ifs <;> simp [move_cursor]

@[simp] theorem to_line_start_termRow (s : PWEdit) : (to_line_start s).termRow = s.termRow := by
  unfold to_line_start
  dsimp only []
  split_ifs <;> simp [move_cursor]

@[simp] theorem to_line_end_termRow (s : PWEdit) : (to_line_end s).termRow = s.termRow := by
  unfold to_line_end
  dsimp only []
  split_ifs <;> simp [move_cursor]

@[simp] theorem move_right_termRow (s : PWEdit) : (move_right s).termRow = s.termRow := by
  unfold move_right
  dsimp only []
  split_ifs <;> simp [move_cursor, put_eq_puts]

@[simp] theorem move_left_termRow (s : PWEdit) : (move_left s).termRow = s.termRow := by
  unfold move_left
  dsimp only []
  split_ifs <;> simp [move_cursor, put_eq_puts]

/-- In every state the loop reaches on a non-empty document with at least as
many lines as the window has rows: the selected line is valid, the window lies
within the document, the selected line lies within the window, and the screen
row is its place in the window, counted from 1. -/
theorem selected_row_in_window (doc : List (List Char)) (hdoc : doc ≠ [])
    (hcount : doc.length < 4294967296) (s : PWEdit) (h : Reachable doc s) :
    (s.lines = doc ∧ s.selectedLineNumber < doc.length ∧
      s.selectedLine = (s.selectedLineNumber : Int)) ∧
    (1 ≤ s.rows → s.rows ≤ doc.length →
      s.firstLineDisplayed + s.rows ≤ doc.length ∧
      s.firstLineDisplayed ≤ s.selectedLineNumber ∧
      s.termRow + s.firstLineDisplayed = s.selectedLineNumber + 1 ∧
      s.termRow ≤ s.rows) := by
  have hpos : 0 < doc.length := List.length_pos.mpr hdoc
  have hbegin : ∀ s : PWEdit, s.lines = doc →
      ((to_file_start s).lines = doc ∧ (to_file_start s).selectedLineNumber < doc.length ∧
        (to_file_start s).selectedLine = ((to_file_start s).selectedLineNumber : Int)) ∧
      (1 ≤ (to_file_start s).rows → (to_file_start s).rows ≤ doc.length →
        (to_file_start s).firstLineDisplayed + (to_file_start s).rows ≤ doc.length ∧
        (to_file_start s).firstLineDisplayed ≤ (to_file_start s).selectedLineNumber ∧
        (to_file_start s).termRow + (to_file_start s).firstLineDisplayed =
          (to_file_start s).selectedLineNumber + 1 ∧
        (to_file_start s).termRow ≤ (to_file_start s).rows) := by
    intro s h1
    rw [to_file_start_lines, to_file_start_selectedLineNumber, to_file_start_selectedLine,
      to_file_start_rows, to_file_start_firstLineDisplayed, to_file_start_termRow]
    exact ⟨⟨h1, hpos, rfl⟩, fun hr1 hr => ⟨by omega, by omega, by omega, by omega⟩⟩
  have hend : ∀ s : PWEdit, s.lines = doc →
      ((to_file_end s).lines = doc ∧ (to_file_end s).selectedLineNumber < doc.length ∧
        (to_file_end s).selectedLine = ((to_file_end s).selectedLineNumber : Int)) ∧
      (1 ≤ (to_file_end s).rows → (to_file_end s).rows ≤ doc.length →
        (to_file_end s).firstLineDisplayed + (to_file_end s).rows ≤ doc.length ∧
        (to_file_end s).firstLineDisplayed ≤ (to_file_end s).selectedLineNumber ∧
        (to_file_end s).termRow + (to_file_end s).firstLineDisplayed =
          (to_file_end s).selectedLineNumber + 1 ∧
        (to_file_end s).termRow ≤ (to_file_end s).rows) := by
    intro s h1
    rw [to_file_end_lines, to_file_end_selectedLineNumber, to_file_end_selectedLine,
      to_file_end_rows, to_file_end_firstLineDisplayed, to_file_end_termRow]
    unfold size usub
    rw [h1]
    exact ⟨⟨rfl, by omega, by omega⟩, fun hr1 hr => ⟨by omega, by omega, by omega, by omega⟩⟩
  refine Reachable_invariant doc (fun s =>
    (s.lines = doc ∧ s.selectedLineNumber < doc.length ∧
      s.selectedLine = (s.selectedLineNumber : Int)) ∧
    (1 ≤ s.rows → s.rows ≤ doc.length →
      s.firstLineDisplayed + s.rows ≤ doc.length ∧
      s.firstLineDisplayed ≤ s.selectedLineNumber ∧
      s.termRow + s.firstLineDisplayed = s.selectedLineNumber + 1 ∧
      s.termRow ≤ s.rows)) ?_ ?_ ?_ ?_ ?_ ?_ ?_ s h
  · intro s0 h0
    exact hbegin _ h0
  · intro s x hs hx
    obtain ⟨e1, _, _, e4, e5, _, e7, e8, _, _, e11, _⟩ := document_and_cursor_fields s x hx
    rw [e1, e4, e5, e7, e8, e11]
    exact hs
  · intro s d hs
    obtain ⟨⟨h1, h2, h3⟩, h4⟩ := hs
    cases d with
    | UP =>
      unfold move_selection
      dsimp only []
      by_cases hb : s.selectedLineNumber = 0
      · unfold move_up
        rw [if_pos hb]
        split_ifs
        · exact hbegin s h1
        · exact ⟨⟨h1, h2, h3⟩, h4⟩
      · obtain ⟨u1, _, u3, u4, _, _⟩ := move_up_inner s hb
        obtain ⟨w1, w2⟩ := move_up_window s hb
        rw [u1, u3, u4, w1, w2, move_up_rows]
        refine ⟨⟨h1, by unfold usub; omega, by rw [h3]; unfold usub; omega⟩, fun hr1 hr => ?_⟩
        obtain ⟨i1, i2, i3, i4⟩ := h4 hr1 hr
        unfold usub PADDING
        split_ifs <;> omega
    | DOWN =>
      unfold move_selection
      dsimp only []
      by_cases hb : usub s.size 1 ≤ s.selectedLineNumber
      · unfold move_down
        rw [if_pos hb]
        split_ifs
        · exact ⟨⟨h1, h2, h3⟩, h4⟩
        · exact hend s h1
      · obtain ⟨u1, _, u3, u4, _, _⟩ := move_down_inner s hb
        obtain ⟨w1, w2⟩ := move_down_window s hb
        have hb2 : s.selectedLineNumber + 1 < doc.length := by
          unfold size usub at hb
          rw [h1] at hb
          omega
        rw [u1, u3, u4, w1, w2, move_down_rows]
        refine ⟨⟨h1, by unfold uadd; omega, by rw [h3]; unfold uadd; omega⟩, fun hr1 hr => ?_⟩
        obtain ⟨i1, i2, i3, i4⟩ := h4 hr1 hr
        unfold size uadd usub PADDING
        rw [h1]
        split_ifs <;> omega
    | LEFT =>
      unfold move_selection
      dsimp only []
      rw [move_left_lines, move_left_selectedLine, move_left_selectedLineNumber, move_left_rows,
        move_left_firstLineDisplayed, move_left_termRow]
      exact ⟨⟨h1, h2, h3⟩, h4⟩
    | RIGHT =>
      unfold move_selection
      dsimp only []
      rw [move_right_lines, move_right_selectedLine, move_right_selectedLineNumber,
        move_right_rows, move_right_firstLineDisplayed, move_right_termRow]
      exact ⟨⟨h1, h2, h3⟩, h4⟩
  · intro s hs
    exact hbegin s hs.1.1
  · intro s hs
    exact hend s hs.1.1
  · intro s hs
    rw [to_line_start_lines, to_line_start_selectedLine, to_line_start_selectedLineNumber,
      to_line_start_rows, to_line_start_firstLineDisplayed, to_line_start_termRow]
    exact hs
  · intro s hs
    rw [to_line_end_lines, to_line_end_selectedLine, to_line_end_selectedLineNumber,
      to_line_end_rows, to_line_end_firstLineDisplayed, to_line_end_termRow]
    exact hs

end PWEdit

end PropWare
namespace PropWare

set_option maxRecDepth 100000 in
/-- C24.  When the window lies within the document (the origin line plus the
rows does not exceed the line count), every line fits the `uint16_t` its
length is stored in and the columns do not wrap, `display_file_from` writes
exactly the redraw of the specification and sets `m_firstLineDisplayed` to the
origin line.  When it does not, the line past the end is read all the same:
for the one-line document `a` in a window of 2 rows by 3 columns, row 2 shows
the characters found where the iterator one past the last line leads (`z`
here), not three spaces. -/
theorem C24_redraw_reads_past_document (s : PWEdit) (a b : Nat)
    (hc : s.columns + b ≤ 4294967296) (hwin : a + s.rows ≤ s.lines.length)
    (hline : ∀ l ∈ s.lines, l.length < 65536) :
    ((PWEdit.display_file_from s a b).printer =
        s.printer ++ spec_redraw s.lines a b s.columns s.rows 1 ∧
      (PWEdit.display_file_from s a b).firstLineDisplayed = a) ∧
    ((PWEdit.display_file_from PWEdit.shortDocument 0 0).printer =
        PWEdit.cursor_sequence 1 1 ++ ['a', ' ', ' '] ++
          (PWEdit.cursor_sequence 2 1 ++ ['z', ' ', ' ']) ∧
      spec_redraw PWEdit.shortDocument.lines 0 0 3 2 1 =
        PWEdit.cursor_sequence 1 1 ++ ['a', ' ', ' '] ++
          (PWEdit.cursor_sequence 2 1 ++ [' ', ' ', ' '])) :=
  ⟨⟨PWEdit.display_file_from_printer s a b hc hwin hline,
      PWEdit.display_file_from_firstLineDisplayed s a b⟩, by decide, by decide⟩

set_option maxRecDepth 100000 in
theorem C24_redraw_reads_past_document_witness :
    (PWEdit.twoLines.columns + 0 ≤ 4294967296 ∧
      0 + PWEdit.twoLines.rows ≤ PWEdit.twoLines.lines.length ∧
      ∀ l ∈ PWEdit.twoLines.lines, l.length < 65536) ∧
    (PWEdit.display_file_from PWEdit.twoLines 0 0).printer =
      PWEdit.twoLines.printer ++
        spec_redraw PWEdit.twoLines.lines 0 0 PWEdit.twoLines.columns PWEdit.twoLines.rows 1 :=
  ⟨⟨by decide, by decide, by decide⟩,
    (C24_redraw_reads_past_document PWEdit.twoLines 0 0 (by decide) (by decide)
      (by decide)).1.1⟩

end PropWare
/-! # The column members stay within the lines

With every line of the document between 1 and `M` characters long, the
selected column, the desired column and the first column displayed never
exceed `M`. -/

namespace PropWare

namespace PWEdit

theorem to_file_start_bounded (s : PWEdit) (M : Nat) :
    (to_file_start s).firstColumnDisplayed ≤ M ∧ (to_file_start s).selectedColumnInLine ≤ M ∧
      (to_file_start s).desiredColumnInLine ≤ M := by
  unfold to_file_start
  dsimp only []
  split_ifs <;> simp [move_cursor]

theorem to_file_end_bounded (s : PWEdit) (M : Nat) (hM : M < 4294967296)
    (hlen : get_size (s.deref ((s.lines.length : Int) - 1)) ≤ M)
    (h1 : 1 ≤ get_size (s.deref ((s.lines.length : Int) - 1))) :
    (to_file_end s).firstColumnDisplayed ≤ M ∧ (to_file_end s).selectedColumnInLine ≤ M ∧
      (to_file_end s).desiredColumnInLine ≤ M := by
  unfold to_file_end
  dsimp only []
  generalize get_size (s.deref ((s.lines.length : Int) - 1)) = len at *
  split_ifs <;> simp [move_cursor] <;> unfold usub <;> omega

theorem to_line_start_bounded (s : PWEdit) (M : Nat)
    (hb : s.firstColumnDisplayed ≤ M ∧ s.selectedColumnInLine ≤ M ∧ s.desiredColumnInLine ≤ M) :
    (to_line_start s).firstColumnDisplayed ≤ M ∧ (to_line_start s).selectedColumnInLine ≤ M ∧
      (to_line_start s).desiredColumnInLine ≤ M := by
  unfold to_line_start
  dsimp only []
  split_ifs <;> simp [move_cursor] <;> omega

theorem to_line_end_bounded (s : PWEdit) (M : Nat) (hM : M < 65536)
    (hcol : s.columns + M < 4294967296)
    (hlen : get_size (s.deref s.selectedLine) ≤ M) (h1 : 1 ≤ get_size (s.deref s.selectedLine))
    (hb : s.firstColumnDisplayed ≤ M ∧ s.selectedColumnInLine ≤ M ∧ s.desiredColumnInLine ≤ M) :
    (to_line_end s).firstColumnDisplayed ≤ M ∧ (to_line_end s).selectedColumnInLine ≤ M ∧
      (to_line_end s).desiredColumnInLine ≤ M := by
  unfold to_line_end cursor_at_end
  dsimp only []
  generalize get_size (s.deref s.selectedLine) = len at *
  split_ifs <;> simp [move_cursor] <;>
    (try simp only [usub, uadd, decide_eq_true_eq, Bool.not_eq_true', decide_eq_false_iff_not,
      Bool.not_eq_true] at *) <;> omega

theorem move_right_bounded (s : PWEdit) (M : Nat)
    (hcol : s.columns + M < 4294967296)
    (hlen : get_size (s.deref s.selectedLine) ≤ M) (h1 : 1 ≤ get_size (s.deref s.selectedLine))
    (hb : s.firstColumnDisplayed ≤ M ∧ s.selectedColumnInLine ≤ M ∧ s.desiredColumnInLine ≤ M) :
    (move_right s).firstColumnDisplayed ≤ M ∧ (move_right s).selectedColumnInLine ≤ M ∧
      (move_right s).desiredColumnInLine ≤ M := by
  unfold move_right cursor_at_end
  dsimp only []
  generalize get_size (s.deref s.selectedLine) = len at *
  split_ifs <;> simp [move_cursor, put_eq_puts] <;>
    (try simp only [usub, uadd, decide_eq_true_eq, Bool.not_eq_true', decide_eq_false_iff_not,
      Bool.not_eq_true] at *) <;> omega

theorem move_left_bounded (s : PWEdit) (M : Nat) (hM : M < 4294967296)
    (hb : s.firstColumnDisplayed ≤ M ∧ s.selectedColumnInLine ≤ M ∧ s.desiredColumnInLine ≤ M) :
    (move_left s).firstColumnDisplayed ≤ M ∧ (move_left s).selectedColumnInLine ≤ M ∧
      (move_left s).desiredColumnInLine ≤ M := by
  unfold move_left
  dsimp only []
  split_ifs <;> simp [move_cursor, put_eq_puts] <;>
    (try simp only [usub, uadd, decide_eq_true_eq, Bool.not_eq_true', decide_eq_false_iff_not,
      Bool.not_eq_true] at *) <;> omega

/-- The clamp never moves the first column displayed to the right. -/
theorem trim_firstColumnDisplayed_le (s : PWEdit) (d : Direction) :
    (trim_column_selection_to_fit s d).2.firstColumnDisplayed ≤ s.firstColumnDisplayed := by
  unfold trim_column_selection_to_fit
  cases d <;> dsimp only [] <;> (try split_ifs) <;> simp_all <;> omega

theorem expand_firstColumnDisplayed_le (s : PWEdit) (d : Direction) (p M : Nat)
    (hcol : s.columns + M < 4294967296) (hb : s.firstColumnDisplayed ≤ M)
    (hsel : (expand_column_selection_to_desired s d p).2.selectedColumnInLine ≤ M) :
    (expand_column_selection_to_desired s d p).2.firstColumnDisplayed ≤ M := by
  unfold expand_column_selection_to_desired at hsel ⊢
  cases d <;> dsimp only [] at hsel ⊢ <;> (try split_ifs at hsel ⊢) <;> simp_all <;>
    (try simp only [usub, uadd] at *) <;> omega

end PWEdit

end PropWare

namespace PropWare

namespace PWEdit

/-- A vertical or horizontal move keeps the selected line valid. -/
theorem move_selection_valid (doc : List (List Char)) (hdoc : doc ≠ [])
    (hcount : doc.length < 4294967296) (s : PWEdit) (d : Direction)
    (hs : s.lines = doc ∧ s.selectedLineNumber < doc.length ∧
      s.selectedLine = (s.selectedLineNumber : Int)) :
    (move_selection s d).lines = doc ∧ (move_selection s d).selectedLineNumber < doc.length ∧
      (move_selection s d).selectedLine = ((move_selection s d).selectedLineNumber : Int) := by
  have hpos : 0 < doc.length := List.length_pos.mpr hdoc
  obtain ⟨h1, h2, h3⟩ := hs
  cases d with
  | UP =>
    unfold move_selection
    dsimp only []
    by_cases hb : s.selectedLineNumber = 0
    · unfold move_up
      rw [if_pos hb]
      split_ifs
      · rw [to_file_start_lines, to_file_start_selectedLineNumber, to_file_start_selectedLine]
        exact ⟨h1, hpos, rfl⟩
      · exact ⟨h1, h2, h3⟩
    · obtain ⟨u1, _, u3, u4, _, _⟩ := move_up_inner s hb
      rw [u1, u3, u4, h3]
      unfold usub
      refine ⟨h1, by omega, by omega⟩
  | DOWN =>
    unfold move_selection
    dsimp only []
    by_cases hb : usub s.size 1 ≤ s.selectedLineNumber
    · unfold move_down
      rw [if_pos hb]
      split_ifs
      · exact ⟨h1, h2, h3⟩
      · rw [to_file_end_lines, to_file_end_selectedLineNumber, to_file_end_selectedLine]
        unfold size usub
        rw [h1]
        refine ⟨rfl, by omega, by omega⟩
    · obtain ⟨u1, _, u3, u4, _, _⟩ := move_down_inner s hb
      rw [u1, u3, u4, h3]
      unfold size usub at hb
      rw [h1] at hb
      unfold uadd
      refine ⟨h1, by omega, by omega⟩
  | LEFT =>
    unfold move_selection
    dsimp only []
    rw [move_left_lines, move_left_selectedLine, move_left_selectedLineNumber]
    exact ⟨h1, h2, h3⟩
  | RIGHT =>
    unfold move_selection
    dsimp only []
    rw [move_right_lines, move_right_selectedLine, move_right_selectedLineNumber]
    exact ⟨h1, h2, h3⟩

/-- Induction over the states the loop reaches on a non-empty document, with
the validity of the selected line at hand in every step. -/
theorem Reachable_invariant_valid (doc : List (List Char)) (hdoc : doc ≠ [])
    (hcount : doc.length < 4294967296) (P : PWEdit → Prop)
    (hstart : ∀ s0 : PWEdit, s0.lines = doc → P (run_start s0))
    (hframe : ∀ s x, P s → document_and_cursor x = document_and_cursor s → P x)
    (hmove : ∀ s d, s.lines = doc → s.selectedLineNumber < doc.length →
      s.selectedLine = (s.selectedLineNumber : Int) → P s → P (move_selection s d))
    (hfs : ∀ s, s.lines = doc → P s → P (to_file_start s))
    (hfe : ∀ s, s.lines = doc → P s → P (to_file_end s))
    (hls : ∀ s, s.lines = doc → s.selectedLineNumber < doc.length →
      s.selectedLine = (s.selectedLineNumber : Int) → P s → P (to_line_start s))
    (hle : ∀ s, s.lines = doc → s.selectedLineNumber < doc.length →
      s.selectedLine = (s.selectedLineNumber : Int) → P s → P (to_line_end s))
    (s : PWEdit) (h : Reachable doc s) : P s := by
  have hpos : 0 < doc.length := List.length_pos.mpr hdoc
  suffices hall : (s.lines = doc ∧ s.selectedLineNumber < doc.length ∧
      s.selectedLine = (s.selectedLineNumber : Int)) ∧ P s from hall.2
  refine Reachable_invariant doc (fun s => (s.lines = doc ∧ s.selectedLineNumber < doc.length ∧
      s.selectedLine = (s.selectedLineNumber : Int)) ∧ P s) ?_ ?_ ?_ ?_ ?_ ?_ ?_ s h
  · intro s0 h0
    exact ⟨selected_line_valid doc hdoc hcount _ ⟨s0, 0, h0, rfl⟩, hstart s0 h0⟩
  · intro s x hs hx
    obtain ⟨e1, _, _, _, _, _, e7, e8, _⟩ := document_and_cursor_fields s x hx
    rw [e1, e7, e8]
    exact ⟨hs.1, hframe s x hs.2 hx⟩
  · intro s d hs
    exact ⟨move_selection_valid doc hdoc hcount s d hs.1,
      hmove s d hs.1.1 hs.1.2.1 hs.1.2.2 hs.2⟩
  · intro s hs
    rw [to_file_start_lines, to_file_start_selectedLineNumber, to_file_start_selectedLine]
    exact ⟨⟨hs.1.1, hpos, rfl⟩, hfs s hs.1.1 hs.2⟩
  · intro s hs
    rw [to_file_end_lines, to_file_end_selectedLineNumber, to_file_end_selectedLine]
    refine ⟨⟨hs.1.1, ?_, ?_⟩, hfe s hs.1.1 hs.2⟩
    · unfold size usub; rw [hs.1.1]; omega
    · unfold size usub; rw [hs.1.1]; omega
  · intro s hs
    rw [to_line_start_lines, to_line_start_selectedLine, to_line_start_selectedLineNumber]
    exact ⟨hs.1, hls s hs.1.1 hs.1.2.1 hs.1.2.2 hs.2⟩
  · intro s hs
    rw [to_line_end_lines, to_line_end_selectedLine, to_line_end_selectedLineNumber]
    exact ⟨hs.1, hle s hs.1.1 hs.1.2.1 hs.1.2.2 hs.2⟩

/-- The first column shown after a vertical move away from the boundary is
the one left by the two column statements. -/
theorem move_up_firstColumnDisplayed (s : PWEdit) (h : s.selectedLineNumber ≠ 0) :
    (move_up s).firstColumnDisplayed =
      (expand_column_selection_to_desired (trim_column_selection_to_fit s Direction.UP).2
        Direction.UP s.selectedColumnInLine).2.firstColumnDisplayed := by
  unfold move_up
  rw [if_neg h]
  simp

theorem move_down_firstColumnDisplayed (s : PWEdit) (h : ¬ usub s.size 1 ≤ s.selectedLineNumber) :
    (move_down s).firstColumnDisplayed =
      (expand_column_selection_to_desired (trim_column_selection_to_fit s Direction.DOWN).2
        Direction.DOWN s.selectedColumnInLine).2.firstColumnDisplayed := by
  unfold move_down
  rw [if_neg h]
  simp

/-- The column members after the two column statements of a vertical move
onto a line of 1 to `M` characters. -/
theorem vertical_bounded (s : PWEdit) (d : Direction)
    (hd : d = Direction.UP ∨ d = Direction.DOWN) (M : Nat)
    (hcol : s.columns + M < 4294967296)
    (hlen : get_size (s.deref (if d = Direction.UP then s.selectedLine - 1
      else s.selectedLine + 1)) ≤ M)
    (h1 : 1 ≤ get_size (s.deref (if d = Direction.UP then s.selectedLine - 1
      else s.selectedLine + 1)))
    (hb : s.firstColumnDisplayed ≤ M ∧ s.selectedColumnInLine ≤ M ∧ s.desiredColumnInLine ≤ M) :
    (expand_column_selection_to_desired (trim_column_selection_to_fit s d).2 d
        s.selectedColumnInLine).2.firstColumnDisplayed ≤ M ∧
    (expand_column_selection_to_desired (trim_column_selection_to_fit s d).2 d
        s.selectedColumnInLine).2.selectedColumnInLine ≤ M := by
  have hsel : (expand_column_selection_to_desired (trim_column_selection_to_fit s d).2 d
      s.selectedColumnInLine).2.selectedColumnInLine ≤ M := by
    rw [vertical_selectedColumnInLine s d hd _ rfl]
    generalize get_size (s.deref (if d = Direction.UP then s.selectedLine - 1
      else s.selectedLine + 1)) = len at *
    unfold usub
    split_ifs <;> omega
  refine ⟨?_, hsel⟩
  exact expand_firstColumnDisplayed_le _ d _ M (by simpa using hcol)
    (le_trans (trim_firstColumnDisplayed_le s d) hb.1) hsel

/-- In every state the loop reaches on a document whose lines hold between 1
and `M` characters (`M` within a `uint16_t`), in a window whose columns added
to `M` stay within 32 bits: the first column displayed, the selected column
and the desired column are at most `M`. -/
theorem columns_bounded (doc : List (List Char)) (M : Nat) (hdoc : doc ≠ [])
    (hcount : doc.length < 4294967296) (hM : M < 65536)
    (hline : ∀ l ∈ doc, 1 ≤ l.length ∧ l.length ≤ M)
    (s : PWEdit) (h : Reachable doc s) :
    s.columns + M < 4294967296 →
      s.firstColumnDisplayed ≤ M ∧ s.selectedColumnInLine ≤ M ∧ s.desiredColumnInLine ≤ M := by
  have hpos : 0 < doc.length := List.length_pos.mpr hdoc
  have hmem : ∀ (s : PWEdit) (it : Int), s.lines = doc → 0 ≤ it → it < doc.length →
      1 ≤ get_size (s.deref it) ∧ get_size (s.deref it) ≤ M := by
    intro s it h1 h0 hlt
    exact hline _ (by rw [← h1]; exact deref_mem s it h0 (by rw [h1]; exact hlt))
  refine Reachable_invariant_valid doc hdoc hcount (fun s => s.columns + M < 4294967296 →
      s.firstColumnDisplayed ≤ M ∧ s.selectedColumnInLine ≤ M ∧ s.desiredColumnInLine ≤ M)
    ?_ ?_ ?_ ?_ ?_ ?_ ?_ s h
  · intro s0 _ _
    exact to_file_start_bounded _ M
  · intro s x hs hx
    obtain ⟨_, _, e3, _, _, _, _, _, e9, e10, _, e12⟩ := document_and_cursor_fields s x hx
    rw [e3, e9, e10, e12]
    exact hs
  · intro s d h1 h2 h3 hs
    cases d with
    | UP =>
      unfold move_selection
      dsimp only []
      rw [move_up_columns]
      intro hc
      by_cases hb : s.selectedLineNumber = 0
      · unfold move_up
        rw [if_pos hb]
        split_ifs
        · exact to_file_start_bounded _ M
        · exact hs hc
      · obtain ⟨_, _, _, _, u5, u6⟩ := move_up_inner s hb
        obtain ⟨t1, t2⟩ := hmem s (s.selectedLine - 1) h1 (by omega) (by omega)
        obtain ⟨v1, v2⟩ := vertical_bounded s Direction.UP (Or.inl rfl) M hc
          (by simpa using t2) (by simpa using t1) (hs hc)
        rw [move_up_firstColumnDisplayed s hb, u5, u6]
        exact ⟨v1, v2, (hs hc).2.2⟩
    | DOWN =>
      unfold move_selection
      dsimp only []
      rw [move_down_columns]
      intro hc
      by_cases hb : usub s.size 1 ≤ s.selectedLineNumber
      · unfold move_down
        rw [if_pos hb]
        split_ifs
        · exact hs hc
        · obtain ⟨t1, t2⟩ := hmem s ((s.lines.length : Int) - 1) h1 (by rw [h1]; omega)
            (by rw [h1]; omega)
          exact to_file_end_bounded s M (by omega) t2 t1
      · have hb2 : s.selectedLineNumber + 1 < doc.length := by
          unfold size usub at hb
          rw [h1] at hb
          omega
        obtain ⟨_, _, _, _, u5, u6⟩ := move_down_inner s hb
        obtain ⟨t1, t2⟩ := hmem s (s.selectedLine + 1) h1 (by omega) (by omega)
        obtain ⟨v1, v2⟩ := vertical_bounded s Direction.DOWN (Or.inr rfl) M hc
          (by simpa using t2) (by simpa using t1) (hs hc)
        rw [move_down_firstColumnDisplayed s hb, u5, u6]
        exact ⟨v1, v2, (hs hc).2.2⟩
    | LEFT =>
      unfold move_selection
      dsimp only []
      rw [move_left_columns]
      intro hc
      exact move_left_bounded s M (by omega) (hs hc)
    | RIGHT =>
      unfold move_selection
      dsimp only []
      rw [move_right_columns]
      intro hc
      obtain ⟨t1, t2⟩ := hmem s s.selectedLine h1 (by omega) (by omega)
      exact move_right_bounded s M hc t2 t1 (hs hc)
  · intro s _ _ _
    exact to_file_start_bounded _ M
  · intro s h1 _
    rw [to_file_end_columns]
    intro _
    obtain ⟨t1, t2⟩ := hmem s ((s.lines.length : Int) - 1) h1 (by rw [h1]; omega)
      (by rw [h1]; omega)
    exact to_file_end_bounded s M (by omega) t2 t1
  · intro s _ _ _ hs
    rw [to_line_start_columns]
    intro hc
    exact to_line_start_bounded s M (hs hc)
  · intro s h1 h2 h3 hs
    rw [to_line_end_columns]
    intro hc
    obtain ⟨t1, t2⟩ := hmem s s.selectedLine h1 (by omega) (by omega)
    exact to_line_end_bounded s M hM hc t2 t1 (hs hc)

end PWEdit

end PropWare
/-! # What command mode writes last -/

namespace PropWare

namespace PWEdit

theorem grows_refl (a : List Char) : ∃ o, a = a ++ o := ⟨[], by simp⟩

theorem grows_append (a b x : List Char) (h : ∃ o, b = a ++ o) : ∃ o, b ++ x = a ++ o := by
  obtain ⟨o, ho⟩ := h
  exact ⟨o ++ x, by rw [ho, List.append_assoc]⟩

theorem grows_trans (a b c : List Char) (h1 : ∃ o, b = a ++ o) (h2 : ∃ o, c = b ++ o) :
    ∃ o, c = a ++ o := by
  obtain ⟨o1, ho1⟩ := h1
  obtain ⟨o2, ho2⟩ := h2
  exact ⟨o1 ++ o2, by rw [ho2, ho1, List.append_assoc]⟩

theorem read_command_input_grows (input : List Char) (s : PWEdit) (r : List Char × PWEdit)
    (h : read_command_input input s = some r) : ∃ out, r.2.printer = s.printer ++ out := by
  induction input generalizing s r with
  | nil => simp [read_command_input] at h
  | cons c rest ih =>
    rw [read_command_input] at h
    by_cases hc : not_enter_key c = true
    · rw [if_pos hc, Option.map_eq_some'] at h
      obtain ⟨q, hq, hr⟩ := h
      rw [← hr]
      exact grows_trans _ _ _ (grows_append _ _ [c] (grows_refl _)) (ih _ q hq)
    · rw [if_neg hc] at h
      cases h
      exact grows_refl _

theorem wait_for_enter_key_printer (input : List Char) (s x : PWEdit)
    (h : wait_for_enter_key input s = some x) : x.printer = s.printer := by
  induction input generalizing s with
  | nil => simp [wait_for_enter_key] at h
  | cons c rest ih =>
    rw [wait_for_enter_key] at h
    by_cases hc : not_enter_key c = true
    · rw [if_pos hc] at h
      exact (ih _ h).trans rfl
    · rw [if_neg hc] at h
      cases h
      rfl

theorem save_lines_grows (ls : List (List Char)) (n : Nat) (s : PWEdit) :
    ∃ out, (save_lines ls n s).2.printer = s.printer ++ out := by
  induction ls generalizing n s with
  | nil => exact grows_refl _
  | cons l ls ih =>
    rw [save_lines]
    split_ifs
    · exact grows_append _ _ _ (grows_append _ _ _ (grows_refl _))
    · exact grows_trans _ _ _ (grows_append _ _ _ (grows_append _ _ _ (grows_refl s.printer)))
        (ih _ _)

theorem save_grows (s : PWEdit) : ∃ out, (save s).2.printer = s.printer ++ out := by
  unfold save
  dsimp only []
  split_ifs
  · exact grows_refl _
  · exact grows_append _ _ _ (grows_append _ _ _ (grows_refl _))
  · exact grows_trans _ _ _ (grows_append _ _ _ (grows_append _ _ _ (grows_append _ _ _
      (grows_append _ _ _ (grows_refl s.printer))))) (save_lines_grows _ _ _)
  · exact grows_trans _ _ _ (grows_append _ _ _ (grows_append _ _ _ (grows_append _ _ _
      (grows_append _ _ _ (grows_refl s.printer))))) (save_lines_grows _ _ _)
  · exact grows_trans _ _ _ (grows_append _ _ _ (grows_append _ _ _ (grows_append _ _ _
      (grows_append _ _ _ (grows_refl s.printer))))) (save_lines_grows _ _ _)
  · exact grows_refl _

/-- A `command` that returns `NO_ERROR` ends with `rewrite_last_line` and
`move_cursor`, run on a state that differs from the one `command` started in
by what was written, read and saved only. -/
theorem command_exit_tail (buffer : List Char) (next : Nat) (exit : Bool) (s : PWEdit)
    (r : ErrorCode × Bool × PWEdit) (h : command_exit buffer next exit s = some r) :
    ∃ q, document_and_cursor q = document_and_cursor s ∧ (∃ out, q.printer = s.printer ++ out) ∧
      r.2.2 = move_cursor (rewrite_last_line q) (rewrite_last_line q).termRow
        (rewrite_last_line q).termColumn := by
  unfold command_exit at h
  dsimp only [] at h
  rw [Option.map_eq_some'] at h
  obtain ⟨q, hq, hr⟩ := h
  refine ⟨q.2, ?_, ?_, by rw [← hr]⟩
  · split_ifs at hq
    · cases hq; rfl
    · rw [Option.map_eq_some'] at hq
      obtain ⟨x, hx, hxq⟩ := hq
      rw [← hxq]
      exact (wait_for_enter_key_document _ _ x hx).trans (by simp [move_cursor, clear_row])
    · cases hq; rfl
    · cases hq; rfl
  · split_ifs at hq
    · cases hq; exact grows_refl _
    · rw [Option.map_eq_some'] at hq
      obtain ⟨x, hx, hxq⟩ := hq
      rw [← hxq]
      dsimp only []
      rw [wait_for_enter_key_printer _ _ x hx]
      exact grows_append _ _ _ (grows_append _ _ _ (grows_append _ _ _ (grows_append _ _ _
        (grows_refl s.printer))))
    · cases hq; exact grows_refl _
    · cases hq; exact grows_refl _

theorem command_tail (s : PWEdit) (exit : Bool) (r : ErrorCode × Bool × PWEdit)
    (h : command s exit = some r) (hok : r.1 = NO_ERROR) :
    ∃ q, document_and_cursor q = document_and_cursor s ∧ (∃ out, q.printer = s.printer ++ out) ∧
      r.2.2 = move_cursor (rewrite_last_line q) (rewrite_last_line q).termRow
        (rewrite_last_line q).termColumn := by
  unfold command at h
  dsimp only [] at h
  split at h
  · cases h
  · rename_i buffer s2 hread
    have h2 : document_and_cursor s2 = document_and_cursor s :=
      (read_command_input_document _ _ (buffer, s2) hread).trans
        (by simp [move_cursor, clear_row, put_eq_puts])
    have g2 : ∃ out, s2.printer = s.printer ++ out :=
      grows_trans _ _ _ (grows_append _ _ _ (grows_append _ _ _ (grows_append _ _ _
        (grows_append _ _ _ (grows_refl s.printer)))))
        (read_command_input_grows _ _ (buffer, s2) hread)
    split_ifs at h with hsave herr
    · cases h
      exact absurd hok herr
    · obtain ⟨q, q1, q2, q3⟩ := command_exit_tail _ _ _ _ r h
      exact ⟨q, q1.trans (by simp [h2]), grows_trans _ _ _ (grows_trans _ _ _ g2 (save_grows s2)) q2,
        q3⟩
    · obtain ⟨q, q1, q2, q3⟩ := command_exit_tail _ _ _ _ r h
      exact ⟨q, q1.trans h2, grows_trans _ _ _ g2 q2, q3⟩

/-- What `rewrite_last_line` writes when the selected line lies within a
window that lies within the document: the cursor sequence to the first column
of the bottom row, then the row of the last line of the window. -/
theorem rewrite_last_line_printer (s : PWEdit) (hcount : s.lines.length < 4294967296)
    (hline : ∀ l ∈ s.lines, l.length < 65536)
    (hc : s.columns + s.firstColumnDisplayed ≤ 4294967296)
    (hit : s.selectedLine = (s.selectedLineNumber : Int))
    (hrow : 1 ≤ s.rows) (hwin : s.firstLineDisplayed + s.rows ≤ s.lines.length)
    (hsel : s.selectedLineNumber < s.firstLineDisplayed + s.rows) :
    (rewrite_last_line s).printer = s.printer ++ (cursor_sequence s.rows 1 ++
      spec_row (s.lines.getD (s.firstLineDisplayed + s.rows - 1) []) s.firstColumnDisplayed
        s.columns) := by
  unfold rewrite_last_line
  dsimp only []
  have e1 : usub (uadd s.firstLineDisplayed s.rows) 1 = s.firstLineDisplayed + s.rows - 1 := by
    unfold usub uadd
    omega
  have e2 : s.selectedLine + ((usub (uadd s.firstLineDisplayed s.rows) 1 - s.selectedLineNumber
      : Nat) : Int) = ((s.firstLineDisplayed + s.rows - 1 : Nat) : Int) := by
    rw [e1, hit]
    omega
  rw [e2]
  have e3 : s.deref ((s.firstLineDisplayed + s.rows - 1 : Nat) : Int) =
      s.lines.getD (s.firstLineDisplayed + s.rows - 1) [] := by
    unfold deref
    rw [if_pos ⟨by omega, by omega⟩]
    rfl
  have hin : s.firstLineDisplayed + s.rows - 1 < s.lines.length := by omega
  rw [print_line_at_row_printer s _ _ _ (by
    rw [e3, List.getD_eq_getElem _ _ hin]
    exact hline _ (List.getElem_mem _)) hc, e3]

end PWEdit

end PropWare

namespace PropWare

/-- C26: in a state the loop of `run` reaches on a document with at least as
many lines as the window has rows (lines within a `uint16_t`, the columns
shown not wrapping), a `command` that returns `NO_ERROR` leaves the selected
line number, the selected and the desired column, the window origin and the
screen cursor as they were; what it has written, after whatever came before,
ends with the cursor sequence to the first column of the bottom row, the row
of the document line at index `m_firstLineDisplayed + m_rows - 1` from column
`m_firstColumnDisplayed`, and the cursor sequence for `m_termRow`,
`m_termColumn`. -/
theorem C26_command_preserves_cursor (doc : List (List Char)) (s : PWEdit) (exit : Bool)
    (r : ErrorCode × Bool × PWEdit) (hdoc : doc ≠ []) (hcount : doc.length < 4294967296)
    (hline : ∀ l ∈ doc, l.length < 65536) (h : PWEdit.Reachable doc s)
    (hrow : 1 ≤ s.rows) (hrows : s.rows ≤ doc.length)
    (hc : s.columns + s.firstColumnDisplayed ≤ 4294967296)
    (_hfit : ∀ stored q, PWEdit.read_command_input s.scanner s = some (stored, q) →
      stored.length ≤ COMMAND_BUFFER_SIZE)
    (hr : PWEdit.command s exit = some r) (hok : r.1 = NO_ERROR) :
    (r.2.2.selectedLineNumber = s.selectedLineNumber ∧
      r.2.2.selectedColumnInLine = s.selectedColumnInLine ∧
      r.2.2.desiredColumnInLine = s.desiredColumnInLine ∧
      r.2.2.firstLineDisplayed = s.firstLineDisplayed ∧
      r.2.2.firstColumnDisplayed = s.firstColumnDisplayed ∧
      r.2.2.termRow = s.termRow ∧ r.2.2.termColumn = s.termColumn) ∧
    ∃ out line, doc[s.firstLineDisplayed + s.rows - 1]? = some line ∧
      r.2.2.printer = s.printer ++ out ++
        (PWEdit.cursor_sequence s.rows 1 ++ spec_row line s.firstColumnDisplayed s.columns) ++
        PWEdit.cursor_sequence s.termRow s.termColumn := by
  obtain ⟨f1, _, f3, f4, f5, f6, f7, f8, f9, f10, f11, f12⟩ :=
    PWEdit.document_and_cursor_fields s r.2.2 (PWEdit.command_document s exit r hr)
  refine ⟨⟨f8, f9, f10, f11, f12, f5, f6⟩, ?_⟩
  obtain ⟨⟨i1, i2, i3⟩, i4⟩ := PWEdit.selected_row_in_window doc hdoc hcount s h
  obtain ⟨j1, j2, j3, j4⟩ := i4 hrow hrows
  obtain ⟨q, q1, ⟨out, q2⟩, q3⟩ := PWEdit.command_tail s exit r hr hok
  obtain ⟨g1, _, g3, g4, g5, g6, g7, g8, _, _, g11, g12⟩ :=
    PWEdit.document_and_cursor_fields s q q1
  have hin : s.firstLineDisplayed + s.rows - 1 < doc.length := by omega
  refine ⟨out, doc[s.firstLineDisplayed + s.rows - 1], List.getElem?_eq_getElem hin, ?_⟩
  have hp := PWEdit.rewrite_last_line_printer q (by rw [g1, i1]; exact hcount)
    (by rw [g1, i1]; exact hline) (by rw [g3, g12]; exact hc) (by rw [g7, g8]; exact i3)
    (by rw [g4]; exact hrow) (by rw [g11, g4, g1, i1]; exact j1) (by rw [g8, g11, g4]; omega)
  rw [q3]
  simp only [PWEdit.move_cursor, PWEdit.puts_printer, PWEdit.rewrite_last_line,
    PWEdit.print_line_at_row_termRow, PWEdit.print_line_at_row_termColumn]
  rw [PWEdit.rewrite_last_line] at hp
  rw [hp, q2, g1, g3, g4, g5, g6, g11, g12, i1, List.getD_eq_getElem _ _ hin]

theorem C26_command_preserves_cursor_witness :
    ∃ r, PWEdit.command (PWEdit.run_start (PWEdit.loaded
        [['a', 'b'], ['a', 'b', 'c', 'd', 'e', 'f', 'g', 'h', 'i', 'j']] 2 10
        [EXIT_CHAR, CARRIAGE_RETURN])) false = some r ∧ r.1 = NO_ERROR ∧
      (r.2.2.selectedLineNumber = 0 ∧ r.2.2.termRow = 1 ∧ r.2.2.termColumn = 1) ∧
      ∃ out line,
        [['a', 'b'], ['a', 'b', 'c', 'd', 'e', 'f', 'g', 'h', 'i', 'j']][0 + 2 - 1]? =
          some line ∧
        r.2.2.printer = (PWEdit.run_start (PWEdit.loaded
            [['a', 'b'], ['a', 'b', 'c', 'd', 'e', 'f', 'g', 'h', 'i', 'j']] 2 10
            [EXIT_CHAR, CARRIAGE_RETURN])).printer ++ out ++
          (PWEdit.cursor_sequence 2 1 ++ spec_row line 0 10) ++ PWEdit.cursor_sequence 1 1 := by
  obtain ⟨r, hr⟩ := Option.isSome_iff_exists.mp (by decide :
    (PWEdit.command (PWEdit.run_start (PWEdit.loaded
      [['a', 'b'], ['a', 'b', 'c', 'd', 'e', 'f', 'g', 'h', 'i', 'j']] 2 10
      [EXIT_CHAR, CARRIAGE_RETURN])) false).isSome = true)
  have hok : r.1 = NO_ERROR := by
    have hk : (PWEdit.command (PWEdit.run_start (PWEdit.loaded
        [['a', 'b'], ['a', 'b', 'c', 'd', 'e', 'f', 'g', 'h', 'i', 'j']] 2 10
        [EXIT_CHAR, CARRIAGE_RETURN])) false).map (fun r => r.1) = some NO_ERROR := by decide
    rw [hr] at hk
    exact Option.some.inj hk
  have hc := C26_command_preserves_cursor
    [['a', 'b'], ['a', 'b', 'c', 'd', 'e', 'f', 'g', 'h', 'i', 'j']]
    (PWEdit.run_start (PWEdit.loaded
      [['a', 'b'], ['a', 'b', 'c', 'd', 'e', 'f', 'g', 'h', 'i', 'j']] 2 10
      [EXIT_CHAR, CARRIAGE_RETURN])) false r (by decide) (by decide) (by decide)
    ⟨_, 0, rfl, rfl⟩ (by decide) (by decide) (by decide)
    (fun stored q hq => by
      rw [show (PWEdit.run_start (PWEdit.loaded
          [['a', 'b'], ['a', 'b', 'c', 'd', 'e', 'f', 'g', 'h', 'i', 'j']] 2 10
          [EXIT_CHAR, CARRIAGE_RETURN])).scanner = [EXIT_CHAR] ++ CARRIAGE_RETURN :: [] from
          by decide,
        PWEdit.read_command_input_eq [EXIT_CHAR] CARRIAGE_RETURN [] _ (by decide)
          (by decide)] at hq
      cases hq
      decide) hr hok
  exact ⟨r, hr, hok, ⟨hc.1.1, hc.1.2.2.2.2.2.1, hc.1.2.2.2.2.2.2⟩, hc.2⟩

end PropWare
/-! # Horizontal moves that succeed -/

namespace PropWare

namespace PWEdit

theorem digitChar_ne_BELL (d : Nat) (h : d < 10) : Nat.digitChar d ≠ BELL := by
  interval_cases d <;> decide

theorem toDigitsCore_no_BELL (fuel n : Nat) (acc : List Char) (h : BELL ∉ acc) :
    BELL ∉ Nat.toDigitsCore 10 fuel n acc := by
  induction fuel generalizing n acc with
  | zero => simpa [Nat.toDigitsCore] using h
  | succ fuel ih =>
    rw [Nat.toDigitsCore]
    have hd : BELL ∉ Nat.digitChar (n % 10) :: acc := by
      intro hm
      rcases List.mem_cons.mp hm with e | e
      · exact digitChar_ne_BELL _ (Nat.mod_lt _ (by decide)) e.symm
      · exact h e
    split_ifs
    · exact hd
    · exact ih _ _ hd

theorem toDigits_no_BELL (n : Nat) : BELL ∉ Nat.toDigits 10 n :=
  toDigitsCore_no_BELL _ _ _ (List.not_mem_nil _)

/-- A cursor sequence holds no BELL. -/
theorem cursor_sequence_no_BELL (row column : Nat) : BELL ∉ cursor_sequence row column := by
  unfold cursor_sequence
  intro h
  simp only [List.mem_cons, List.mem_append, List.mem_singleton, List.not_mem_nil,
    or_false] at h
  rcases h with h | h | h | h | h | h
  · exact absurd h (by decide)
  · exact absurd h (by decide)
  · exact toDigits_no_BELL _ h
  · exact absurd h (by decide)
  · exact toDigits_no_BELL _ h
  · exact absurd h (by decide)

/-- The first loop of `print_line_at_row` writes characters of the line only. -/
theorem print_line_chars_mem (line : List Char) (c len : Nat) (hlen : len ≤ line.length)
    (n column : Nat) : ∀ ch ∈ (print_line_chars line c len n column).1, ch ∈ line := by
  induction n generalizing column with
  | zero => simp [print_line_chars]
  | succ n ih =>
    rw [print_line_chars]
    split_ifs with hlt
    · intro ch hch
      rcases List.mem_cons.mp hch with e | e
      · rw [e, List.getD_eq_getElem _ _ (by omega)]
        exact List.getElem_mem _
      · exact ih _ ch e
    · simp

theorem print_line_at_row_no_BELL (s : PWEdit) (c : Nat) (it : Int) (row : Nat)
    (h : BELL ∉ s.deref it) :
    ∃ out, (print_line_at_row s c it row).printer = s.printer ++ out ∧ BELL ∉ out := by
  unfold print_line_at_row
  dsimp only []
  refine ⟨cursor_sequence row 1 ++ ((print_line_chars (s.deref it) c
    (get_size (s.deref it) % 65536) s.columns 0).1 ++ List.replicate (s.columns -
      (print_line_chars (s.deref it) c (get_size (s.deref it) % 65536) s.columns 0).2) ' '),
    by simp [move_cursor], ?_⟩
  intro hm
  rcases List.mem_append.mp hm with e | e
  · exact cursor_sequence_no_BELL _ _ e
  · rcases List.mem_append.mp e with e | e
    · exact h (print_line_chars_mem _ _ _ (Nat.mod_le _ _) _ _ _ e)
    · exact absurd (List.eq_of_mem_replicate e) (by decide)

theorem display_rows_no_BELL (c n : Nat) (s : PWEdit) (it : Int) (row : Nat)
    (h : ∀ i, BELL ∉ s.deref i) :
    ∃ out, (display_rows c n s it row).printer = s.printer ++ out ∧ BELL ∉ out := by
  induction n generalizing s it row with
  | zero => exact ⟨[], by simp [display_rows], List.not_mem_nil _⟩
  | succ n ih =>
    rw [display_rows]
    obtain ⟨o1, h1, n1⟩ := print_line_at_row_no_BELL s c it row (h it)
    obtain ⟨o2, h2, n2⟩ := ih (print_line_at_row s c it row) (it + 1) (row + 1)
      (by intro i; rw [print_line_at_row_eq]; exact h i)
    refine ⟨o1 ++ o2, by rw [h2, h1, List.append_assoc], ?_⟩
    intro hm
    rcases List.mem_append.mp hm with e | e
    · exact n1 e
    · exact n2 e

/-- A redraw of a document that holds no BELL writes no BELL. -/
theorem display_file_from_no_BELL (s : PWEdit) (a b : Nat) (h : ∀ i, BELL ∉ s.deref i) :
    ∃ out, (display_file_from s a b).printer = s.printer ++ out ∧ BELL ∉ out := by
  unfold display_file_from
  exact display_rows_no_BELL b s.rows s a 1 h

end PWEdit

end PropWare

namespace PropWare

namespace PWEdit

theorem move_left_no_BELL (s : PWEdit) (hpos : s.selectedColumnInLine ≠ 0)
    (h : ∀ i, BELL ∉ s.deref i) :
    ∃ out, (move_left s).printer = s.printer ++ out ∧ BELL ∉ out := by
  unfold move_left
  rw [if_neg hpos]
  dsimp only []
  split_ifs
  · obtain ⟨o, ho, hn⟩ := display_file_from_no_BELL
      { s with firstColumnDisplayed := usub s.firstColumnDisplayed 1 } s.firstLineDisplayed
      (usub s.firstColumnDisplayed 1) h
    refine ⟨o ++ cursor_sequence _ _, by
      simp only [move_cursor, puts_printer]
      rw [ho, List.append_assoc], ?_⟩
    intro hm
    rcases List.mem_append.mp hm with e | e
    · exact hn e
    · exact cursor_sequence_no_BELL _ _ e
  · exact ⟨cursor_sequence _ _, rfl, cursor_sequence_no_BELL _ _⟩

theorem move_left_selectedColumnInLine (s : PWEdit) (hpos : s.selectedColumnInLine ≠ 0) :
    (move_left s).selectedColumnInLine = usub s.selectedColumnInLine 1 := by
  unfold move_left
  rw [if_neg hpos]
  dsimp only []
  split_ifs <;> simp [move_cursor]

theorem move_right_no_BELL (s : PWEdit) (hend : s.cursor_at_end = false)
    (h : ∀ i, BELL ∉ s.deref i) :
    ∃ out, (move_right s).printer = s.printer ++ out ∧ BELL ∉ out := by
  unfold move_right
  rw [hend]
  dsimp only []
  simp only [Bool.false_eq_true, if_false]
  split_ifs
  · obtain ⟨o, ho, hn⟩ := display_file_from_no_BELL
      { s with firstColumnDisplayed := uadd s.firstColumnDisplayed 1 } s.firstLineDisplayed
      (uadd s.firstColumnDisplayed 1) h
    refine ⟨o ++ cursor_sequence _ _, by
      simp only [move_cursor, puts_printer]
      rw [ho, List.append_assoc], ?_⟩
    intro hm
    rcases List.mem_append.mp hm with e | e
    · exact hn e
    · exact cursor_sequence_no_BELL _ _ e
  · exact ⟨cursor_sequence _ _, rfl, cursor_sequence_no_BELL _ _⟩

theorem move_right_selectedColumnInLine (s : PWEdit) (hend : s.cursor_at_end = false) :
    (move_right s).selectedColumnInLine = uadd s.selectedColumnInLine 1 := by
  unfold move_right
  rw [hend]
  simp only [Bool.false_eq_true, if_false]
  split_ifs <;> simp [move_cursor]

/-- No line an iterator can lead to holds a BELL, when neither the lines of the
document nor the lines past it do. -/
theorem deref_no_BELL (s : PWEdit) (hl : ∀ l ∈ s.lines, BELL ∉ l)
    (hs : ∀ i, BELL ∉ s.stray i) : ∀ i, BELL ∉ s.deref i := by
  intro i
  unfold deref
  split_ifs with hi
  · rw [List.getD_eq_getElem _ _ (by omega)]
    exact hl _ (List.getElem_mem _)
  · exact hs i

end PWEdit

/-- C21: a `move_selection(LEFT)` from a selected column above 0 subtracts one
from the selected column; a `move_selection(RIGHT)` on a line with the
selected column below its last character adds one.  Either leaves the selected
line number and the first line displayed as they were and ends with the desired
column equal to the selected column; what it writes (a redraw or not, then a
cursor sequence) holds no BELL, the document holding none. -/
theorem C21_successful_horizontal_move (s : PWEdit) (hbell : ∀ i, BELL ∉ s.deref i) :
    (0 < s.selectedColumnInLine → s.selectedColumnInLine < 4294967296 →
      (PWEdit.move_selection s Direction.LEFT).selectedColumnInLine
        = s.selectedColumnInLine - 1 ∧
      (PWEdit.move_selection s Direction.LEFT).selectedLineNumber = s.selectedLineNumber ∧
      (PWEdit.move_selection s Direction.LEFT).firstLineDisplayed = s.firstLineDisplayed ∧
      (PWEdit.move_selection s Direction.LEFT).desiredColumnInLine =
        (PWEdit.move_selection s Direction.LEFT).selectedColumnInLine ∧
      ∃ out, (PWEdit.move_selection s Direction.LEFT).printer = s.printer ++ out ∧
        BELL ∉ out) ∧
    (s.selectedColumnInLine + 1 < PWEdit.get_size (s.deref s.selectedLine) →
      PWEdit.get_size (s.deref s.selectedLine) < 4294967296 →
      (PWEdit.move_selection s Direction.RIGHT).selectedColumnInLine
        = s.selectedColumnInLine + 1 ∧
      (PWEdit.move_selection s Direction.RIGHT).selectedLineNumber = s.selectedLineNumber ∧
      (PWEdit.move_selection s Direction.RIGHT).firstLineDisplayed = s.firstLineDisplayed ∧
      (PWEdit.move_selection s Direction.RIGHT).desiredColumnInLine =
        (PWEdit.move_selection s Direction.RIGHT).selectedColumnInLine ∧
      ∃ out, (PWEdit.move_selection s Direction.RIGHT).printer = s.printer ++ out ∧
        BELL ∉ out) := by
  unfold PWEdit.move_selection
  dsimp only []
  constructor
  · intro hpos hlt
    have hne : s.selectedColumnInLine ≠ 0 := by omega
    refine ⟨?_, PWEdit.move_left_selectedLineNumber s, PWEdit.move_left_firstLineDisplayed s,
      PWEdit.move_left_desiredColumnInLine s, PWEdit.move_left_no_BELL s hne hbell⟩
    rw [PWEdit.move_left_selectedColumnInLine s hne]
    unfold usub
    omega
  · intro hcol hlen
    have hend : s.cursor_at_end = false := by
      unfold PWEdit.cursor_at_end usub
      rw [decide_eq_false_iff_not]
      omega
    refine ⟨?_, PWEdit.move_right_selectedLineNumber s, PWEdit.move_right_firstLineDisplayed s,
      PWEdit.move_right_desiredColumnInLine s, PWEdit.move_right_no_BELL s hend hbell⟩
    rw [PWEdit.move_right_selectedColumnInLine s hend]
    unfold uadd
    omega

theorem C21_successful_horizontal_move_witness :
    (∀ i, BELL ∉ PWEdit.twoLines.deref i) ∧
    (0 < PWEdit.twoLines.selectedColumnInLine ∧
      PWEdit.twoLines.selectedColumnInLine < 4294967296) ∧
    (PWEdit.move_selection PWEdit.twoLines Direction.LEFT).selectedColumnInLine = 9 - 1 ∧
    ((PWEdit.showing [['a', 'b']] 2 10).selectedColumnInLine + 1 <
        PWEdit.get_size ((PWEdit.showing [['a', 'b']] 2 10).deref
          (PWEdit.showing [['a', 'b']] 2 10).selectedLine)) ∧
    (PWEdit.move_selection (PWEdit.showing [['a', 'b']] 2 10)
      Direction.RIGHT).selectedColumnInLine = 0 + 1 :=
  ⟨PWEdit.deref_no_BELL PWEdit.twoLines (by decide) (fun _ => List.not_mem_nil _),
    ⟨by decide, by decide⟩,
    ((C21_successful_horizontal_move PWEdit.twoLines
      (PWEdit.deref_no_BELL PWEdit.twoLines (by decide) (fun _ => List.not_mem_nil _))).1
      (by decide) (by decide)).1,
    by decide,
    ((C21_successful_horizontal_move (PWEdit.showing [['a', 'b']] 2 10)
      (PWEdit.deref_no_BELL (PWEdit.showing [['a', 'b']] 2 10) (by decide)
        (fun _ => List.not_mem_nil _))).2 (by decide) (by decide)).1⟩

end PropWare
/-! # The four jumps -/

namespace PropWare

namespace PWEdit

theorem print_line_at_row_printer_congr (s t : PWEdit) (c : Nat) (it : Int) (row : Nat)
    (hp : t.printer = s.printer) (hl : t.lines = s.lines) (hs : t.stray = s.stray)
    (hc : t.columns = s.columns) :
    (print_line_at_row t c it row).printer = (print_line_at_row s c it row).printer := by
  unfold print_line_at_row
  dsimp only []
  rw [deref_congr s t it hl hs, hc]
  simp only [move_cursor, puts_puts, puts_printer, hp]

theorem display_rows_printer_congr (c n : Nat) (s t : PWEdit) (it : Int) (row : Nat)
    (hp : t.printer = s.printer) (hl : t.lines = s.lines) (hs : t.stray = s.stray)
    (hc : t.columns = s.columns) :
    (display_rows c n t it row).printer = (display_rows c n s it row).printer := by
  induction n generalizing s t it row with
  | zero => exact hp
  | succ n ih =>
    rw [display_rows, display_rows]
    exact ih _ _ _ _ (print_line_at_row_printer_congr s t c it row hp hl hs hc)
      (by simp [hl]) (by simp [hs]) (by simp [hc])

/-- What a redraw writes depends on the printer, the document, the lines past
it and the window size only. -/
theorem display_file_from_printer_congr (s t : PWEdit) (a b : Nat)
    (hp : t.printer = s.printer) (hl : t.lines = s.lines) (hs : t.stray = s.stray)
    (hr : t.rows = s.rows) (hc : t.columns = s.columns) :
    (display_file_from t a b).printer = (display_file_from s a b).printer := by
  unfold display_file_from
  dsimp only []
  rw [hr]
  exact display_rows_printer_congr b s.rows s t a 1 hp hl hs hc

theorem to_file_start_redraws (s : PWEdit) :
    ((s.firstLineDisplayed ≠ 0 ∨ s.firstColumnDisplayed ≠ 0) →
      ((to_file_start s).firstLineDisplayed, (to_file_start s).firstColumnDisplayed) ≠
        (s.firstLineDisplayed, s.firstColumnDisplayed) ∧
      (to_file_start s).printer =
        (display_file_from s (to_file_start s).firstLineDisplayed
          (to_file_start s).firstColumnDisplayed).printer ++
          cursor_sequence (to_file_start s).termRow (to_file_start s).termColumn) ∧
    (¬ (s.firstLineDisplayed ≠ 0 ∨ s.firstColumnDisplayed ≠ 0) →
      (to_file_start s).printer =
        s.printer ++ cursor_sequence (to_file_start s).termRow (to_file_start s).termColumn) := by
  unfold to_file_start
  dsimp only []
  constructor
  · intro hc
    have hb : (s.firstLineDisplayed != 0 || s.firstColumnDisplayed != 0) = true := by
      simpa [bne_iff_ne] using hc
    rw [if_pos hb]
    simp only [move_cursor, puts_firstLineDisplayed, puts_firstColumnDisplayed, puts_printer,
      puts_termRow, puts_termColumn, display_file_from_termRow, display_file_from_termColumn,
      display_file_from_firstLineDisplayed, display_file_from_firstColumnDisplayed, ne_eq,
      Prod.mk.injEq, not_and]
    refine ⟨?_, ?_⟩
    · intro h0 h1
      rcases hc with h | h
      · exact h h0.symm
      · exact h h1.symm
    · congr 1
      exact display_file_from_printer_congr _ _ _ _ rfl rfl rfl rfl rfl
  · intro hc
    have hb : ¬ (s.firstLineDisplayed != 0 || s.firstColumnDisplayed != 0) = true := by
      simpa [bne_iff_ne] using hc
    rw [if_neg hb]
    rfl

theorem to_line_start_redraws (s : PWEdit) :
    ((s.selectedColumnInLine ≠ 0 ∧ s.firstColumnDisplayed ≠ 0) →
      ((to_line_start s).firstLineDisplayed, (to_line_start s).firstColumnDisplayed) ≠
        (s.firstLineDisplayed, s.firstColumnDisplayed) ∧
      (to_line_start s).printer =
        (display_file_from s (to_line_start s).firstLineDisplayed
          (to_line_start s).firstColumnDisplayed).printer ++
          cursor_sequence (to_line_start s).termRow (to_line_start s).termColumn) ∧
    (¬ (s.selectedColumnInLine ≠ 0 ∧ s.firstColumnDisplayed ≠ 0) →
      (to_line_start s).printer =
          s.printer ++ cursor_sequence (to_line_start s).termRow (to_line_start s).termColumn ∨
        (to_line_start s).printer = s.printer) := by
  unfold to_line_start
  dsimp only []
  constructor
  · intro hc
    have hb1 : (s.selectedColumnInLine != 0) = true := by simpa [bne_iff_ne] using hc.1
    have hb2 : (s.firstColumnDisplayed != 0) = true := by simpa [bne_iff_ne] using hc.2
    rw [if_pos hb1, if_pos hb2]
    simp only [move_cursor, puts_firstLineDisplayed, puts_firstColumnDisplayed, puts_printer,
      puts_termRow, puts_termColumn, display_file_from_termRow, display_file_from_termColumn,
      display_file_from_firstLineDisplayed, display_file_from_firstColumnDisplayed, ne_eq,
      Prod.mk.injEq, not_and]
    refine ⟨?_, ?_⟩
    · intro _ h1
      exact hc.2 h1.symm
    · congr 1
      exact display_file_from_printer_congr _ _ _ _ rfl rfl rfl rfl rfl
  · intro hc
    by_cases h1 : s.selectedColumnInLine = 0
    · have hb1 : ¬ (s.selectedColumnInLine != 0) = true := by simpa [bne_iff_ne] using h1
      rw [if_neg hb1]
      exact Or.inr rfl
    · have hb1 : (s.selectedColumnInLine != 0) = true := by simpa [bne_iff_ne] using h1
      have hb2 : ¬ (s.firstColumnDisplayed != 0) = true := by
        simpa [bne_iff_ne] using fun h => hc ⟨h1, h⟩
      rw [if_pos hb1, if_neg hb2]
      exact Or.inl rfl

theorem to_file_end_redraws (s : PWEdit) (hcols : 1 ≤ s.columns)
    (hlen1 : 1 ≤ get_size (s.deref ((s.lines.length : Int) - 1)))
    (hlen : get_size (s.deref ((s.lines.length : Int) - 1)) < 4294967296) :
    ((s.firstLineDisplayed ≠ usub s.size s.rows ∨
        s.firstColumnDisplayed > usub (get_size (s.deref ((s.lines.length : Int) - 1))) 1) →
      ((to_file_end s).firstLineDisplayed, (to_file_end s).firstColumnDisplayed) ≠
        (s.firstLineDisplayed, s.firstColumnDisplayed) ∧
      (to_file_end s).printer =
        (display_file_from s (to_file_end s).firstLineDisplayed
          (to_file_end s).firstColumnDisplayed).printer ++
          cursor_sequence (to_file_end s).termRow (to_file_end s).termColumn) ∧
    (¬ (s.firstLineDisplayed ≠ usub s.size s.rows ∨
        s.firstColumnDisplayed > usub (get_size (s.deref ((s.lines.length : Int) - 1))) 1) →
      (to_file_end s).printer =
        s.printer ++ cursor_sequence (to_file_end s).termRow (to_file_end s).termColumn) := by
  unfold to_file_end
  dsimp only []
  generalize get_size (s.deref ((s.lines.length : Int) - 1)) = len at *
  constructor
  · intro hc
    have hb : (s.firstLineDisplayed != usub s.size s.rows ||
        decide (s.firstColumnDisplayed > usub len 1)) = true := by
      simpa [bne_iff_ne] using hc
    rw [if_pos hb]
    simp only [move_cursor, puts_firstLineDisplayed, puts_firstColumnDisplayed, puts_printer,
      puts_termRow, puts_termColumn, display_file_from_termRow, display_file_from_termColumn,
      display_file_from_firstLineDisplayed, display_file_from_firstColumnDisplayed, ne_eq,
      Prod.mk.injEq, not_and]
    refine ⟨?_, ?_⟩
    · intro h0 h1
      rcases hc with h | h
      · exact h h0.symm
      · unfold usub at h h1
        split_ifs at h1 <;> omega
    · congr 1
      exact display_file_from_printer_congr _ _ _ _ rfl rfl rfl rfl rfl
  · intro hc
    have hb : ¬ (s.firstLineDisplayed != usub s.size s.rows ||
        decide (s.firstColumnDisplayed > usub len 1)) = true := by
      simpa [bne_iff_ne] using hc
    rw [if_neg hb]
    rfl

theorem to_line_end_redraws (s : PWEdit) :
    ((s.cursor_at_end = false ∧ get_size (s.deref s.selectedLine) % 65536 >
        uadd s.firstColumnDisplayed s.columns) →
      ((to_line_end s).firstLineDisplayed, (to_line_end s).firstColumnDisplayed) ≠
        (s.firstLineDisplayed, s.firstColumnDisplayed) ∧
      (to_line_end s).printer =
        (display_file_from s (to_line_end s).firstLineDisplayed
          (to_line_end s).firstColumnDisplayed).printer ++
          cursor_sequence (to_line_end s).termRow (to_line_end s).termColumn) ∧
    (¬ (s.cursor_at_end = false ∧ get_size (s.deref s.selectedLine) % 65536 >
        uadd s.firstColumnDisplayed s.columns) →
      (to_line_end s).printer =
          s.printer ++ cursor_sequence (to_line_end s).termRow (to_line_end s).termColumn ∨
        (to_line_end s).printer = s.printer) := by
  unfold to_line_end
  dsimp only []
  constructor
  · intro hc
    have hb1 : (!s.cursor_at_end) = true := by simp [hc.1]
    have hb2 : decide (get_size (s.deref s.selectedLine) % 65536 >
        uadd s.firstColumnDisplayed s.columns) = true := by simpa using hc.2
    rw [if_pos hb1, if_pos hb2]
    simp only [move_cursor, puts_firstLineDisplayed, puts_firstColumnDisplayed, puts_printer,
      puts_termRow, puts_termColumn, display_file_from_termRow, display_file_from_termColumn,
      display_file_from_firstLineDisplayed, display_file_from_firstColumnDisplayed, ne_eq,
      Prod.mk.injEq, not_and]
    refine ⟨?_, ?_⟩
    · intro _ h1
      have h2 := hc.2
      unfold usub at h1
      unfold uadd at h2
      omega
    · congr 1
      exact display_file_from_printer_congr _ _ _ _ rfl rfl rfl rfl rfl
  · intro hc
    by_cases h1 : s.cursor_at_end = true
    · have hb1 : ¬ (!s.cursor_at_end) = true := by simp [h1]
      rw [if_neg hb1]
      exact Or.inr rfl
    · have hb1 : (!s.cursor_at_end) = true := by simpa using h1
      have hb2 : ¬ decide (get_size (s.deref s.selectedLine) % 65536 >
          uadd s.firstColumnDisplayed s.columns) = true := by
        simpa using fun h => hc ⟨by simpa using h1, h⟩
      rw [if_pos hb1, if_neg hb2]
      exact Or.inl rfl

end PWEdit

/-- C22 on the document `abcd`, `a`, `abc`, `x` in a window of 3 rows: the keys
right, right, right, down, down lead to line 2, `abc`, with the selected
column 3; `to_line_end` there finds the cursor at the end already
(`get_size() - 1 <= m_selectedColumnInLine`) and leaves the selected column 3,
which is not the length of the line less one. -/
theorem C22_line_end_past_last_character :
    ∃ s, PWEdit.Reachable [['a', 'b', 'c', 'd'], ['a'], ['a', 'b', 'c'], ['x']] s ∧
      s.rows ≤ s.lines.length ∧ s.deref s.selectedLine = ['a', 'b', 'c'] ∧
      s.selectedColumnInLine = 3 ∧
      (PWEdit.to_line_end s).selectedLineNumber = s.selectedLineNumber ∧
      (PWEdit.to_line_end s).selectedColumnInLine = 3 ∧
      (PWEdit.to_line_end s).selectedColumnInLine ≠
        PWEdit.get_size (s.deref s.selectedLine) - 1 := by
  obtain ⟨s, hs, hf⟩ := PWEdit.Reachable_of_rounds
    [['a', 'b', 'c', 'd'], ['a'], ['a', 'b', 'c'], ['x']] 3 10 ['d', 'd', 'd', 's', 's'] 5
    (fun s => (decide (s.rows ≤ s.lines.length), s.deref s.selectedLine, s.selectedColumnInLine,
      (PWEdit.to_line_end s).selectedColumnInLine))
    (true, ['a', 'b', 'c'], 3, 3) (by decide)
  simp only [Prod.mk.injEq, decide_eq_true_eq] at hf
  refine ⟨s, hs, hf.1, hf.2.1, hf.2.2.1, PWEdit.to_line_end_selectedLineNumber s, hf.2.2.2, ?_⟩
  rw [hf.2.2.2, hf.2.1]
  decide

/-- C23, for every state with at least one column whose last document line is
not empty.  Each of the four jumps redraws exactly when its test says so
(`redrawNecessary` in `to_file_start` and `to_file_end`, a first column
displayed other than 0 in `to_line_start`, a line reaching past the last
column shown in `to_line_end`).  When it does, the window origin after the
jump differs from the origin before it, and the output is the redraw from the
new origin followed by one cursor sequence; when it does not, the output is
one cursor sequence, or nothing at all. -/
theorem C23_jumps_redraw_only_when_window_moves (s : PWEdit) (hcols : 1 ≤ s.columns)
    (hlen1 : 1 ≤ PWEdit.get_size (s.deref ((s.lines.length : Int) - 1)))
    (hlen : PWEdit.get_size (s.deref ((s.lines.length : Int) - 1)) < 4294967296) :
    (((s.firstLineDisplayed ≠ 0 ∨ s.firstColumnDisplayed ≠ 0) →
      ((PWEdit.to_file_start s).firstLineDisplayed, (PWEdit.to_file_start s).firstColumnDisplayed) ≠
        (s.firstLineDisplayed, s.firstColumnDisplayed) ∧
      (PWEdit.to_file_start s).printer =
        (PWEdit.display_file_from s (PWEdit.to_file_start s).firstLineDisplayed
          (PWEdit.to_file_start s).firstColumnDisplayed).printer ++
          PWEdit.cursor_sequence (PWEdit.to_file_start s).termRow (PWEdit.to_file_start s).termColumn) ∧
    (¬ (s.firstLineDisplayed ≠ 0 ∨ s.firstColumnDisplayed ≠ 0) →
      (PWEdit.to_file_start s).printer =
        s.printer ++ PWEdit.cursor_sequence (PWEdit.to_file_start s).termRow (PWEdit.to_file_start s).termColumn)) ∧
    (((s.firstLineDisplayed ≠ usub s.size s.rows ∨
        s.firstColumnDisplayed > usub (PWEdit.get_size (s.deref ((s.lines.length : Int) - 1))) 1) →
      ((PWEdit.to_file_end s).firstLineDisplayed, (PWEdit.to_file_end s).firstColumnDisplayed) ≠
        (s.firstLineDisplayed, s.firstColumnDisplayed) ∧
      (PWEdit.to_file_end s).printer =
        (PWEdit.display_file_from s (PWEdit.to_file_end s).firstLineDisplayed
          (PWEdit.to_file_end s).firstColumnDisplayed).printer ++
          PWEdit.cursor_sequence (PWEdit.to_file_end s).termRow (PWEdit.to_file_end s).termColumn) ∧
    (¬ (s.firstLineDisplayed ≠ usub s.size s.rows ∨
        s.firstColumnDisplayed > usub (PWEdit.get_size (s.deref ((s.lines.length : Int) - 1))) 1) →
      (PWEdit.to_file_end s).printer =
        s.printer ++ PWEdit.cursor_sequence (PWEdit.to_file_end s).termRow (PWEdit.to_file_end s).termColumn)) ∧
    (((s.selectedColumnInLine ≠ 0 ∧ s.firstColumnDisplayed ≠ 0) →
      ((PWEdit.to_line_start s).firstLineDisplayed, (PWEdit.to_line_start s).firstColumnDisplayed) ≠
        (s.firstLineDisplayed, s.firstColumnDisplayed) ∧
      (PWEdit.to_line_start s).printer =
        (PWEdit.display_file_from s (PWEdit.to_line_start s).firstLineDisplayed
          (PWEdit.to_line_start s).firstColumnDisplayed).printer ++
          PWEdit.cursor_sequence (PWEdit.to_line_start s).termRow (PWEdit.to_line_start s).termColumn) ∧
    (¬ (s.selectedColumnInLine ≠ 0 ∧ s.firstColumnDisplayed ≠ 0) →
      (PWEdit.to_line_start s).printer =
          s.printer ++ PWEdit.cursor_sequence (PWEdit.to_line_start s).termRow (PWEdit.to_line_start s).termColumn ∨
        (PWEdit.to_line_start s).printer = s.printer)) ∧
    (((s.cursor_at_end = false ∧ PWEdit.get_size (s.deref s.selectedLine) % 65536 >
        uadd s.firstColumnDisplayed s.columns) →
      ((PWEdit.to_line_end s).firstLineDisplayed, (PWEdit.to_line_end s).firstColumnDisplayed) ≠
        (s.firstLineDisplayed, s.firstColumnDisplayed) ∧
      (PWEdit.to_line_end s).printer =
        (PWEdit.display_file_from s (PWEdit.to_line_end s).firstLineDisplayed
          (PWEdit.to_line_end s).firstColumnDisplayed).printer ++
          PWEdit.cursor_sequence (PWEdit.to_line_end s).termRow (PWEdit.to_line_end s).termColumn) ∧
    (¬ (s.cursor_at_end = false ∧ PWEdit.get_size (s.deref s.selectedLine) % 65536 >
        uadd s.firstColumnDisplayed s.columns) →
      (PWEdit.to_line_end s).printer =
          s.printer ++ PWEdit.cursor_sequence (PWEdit.to_line_end s).termRow (PWEdit.to_line_end s).termColumn ∨
        (PWEdit.to_line_end s).printer = s.printer)) :=
  ⟨PWEdit.to_file_start_redraws s, PWEdit.to_file_end_redraws s hcols hlen1 hlen,
    PWEdit.to_line_start_redraws s, PWEdit.to_line_end_redraws s⟩

theorem C23_jumps_redraw_only_when_window_moves_witness :
    (1 ≤ PWEdit.fiveLines.columns ∧
      1 ≤ PWEdit.get_size (PWEdit.fiveLines.deref ((PWEdit.fiveLines.lines.length : Int) - 1)) ∧
      PWEdit.get_size (PWEdit.fiveLines.deref ((PWEdit.fiveLines.lines.length : Int) - 1))
        < 4294967296) ∧
    (PWEdit.fiveLines.firstLineDisplayed ≠ usub PWEdit.fiveLines.size PWEdit.fiveLines.rows ∨
      PWEdit.fiveLines.firstColumnDisplayed > usub (PWEdit.get_size
        (PWEdit.fiveLines.deref ((PWEdit.fiveLines.lines.length : Int) - 1))) 1) ∧
    ((PWEdit.to_file_end PWEdit.fiveLines).firstLineDisplayed,
        (PWEdit.to_file_end PWEdit.fiveLines).firstColumnDisplayed) ≠
      (PWEdit.fiveLines.firstLineDisplayed, PWEdit.fiveLines.firstColumnDisplayed) ∧
    (PWEdit.to_file_start PWEdit.fiveLines).printer =
      PWEdit.fiveLines.printer ++
        PWEdit.cursor_sequence (PWEdit.to_file_start PWEdit.fiveLines).termRow
          (PWEdit.to_file_start PWEdit.fiveLines).termColumn :=
  ⟨⟨by decide, by decide, by decide⟩, by decide,
    ((C23_jumps_redraw_only_when_window_moves PWEdit.fiveLines (by decide) (by decide)
      (by decide)).2.1.1 (by decide)).1,
    (C23_jumps_redraw_only_when_window_moves PWEdit.fiveLines (by decide) (by decide)
      (by decide)).1.2 (by decide)⟩

end PropWare
/-! # The screen cursor and the window -/

namespace PropWare

namespace PWEdit

/-- A row in the words of the specification is as wide as the window. -/
theorem spec_row_length (line : List Char) (firstColumn columns : Nat) :
    (spec_row line firstColumn columns).length = columns := by
  unfold spec_row
  simp only [List.length_append, List.length_replicate, List.length_take, List.length_drop]
  omega

end PWEdit

/-- C33: in every state the loop of `run` reaches on a document with at least
as many lines as the window has rows (and at least one row), the screen row is
the place of the selected line in the window counted from 1,
`m_termRow = m_selectedLineNumber - m_firstLineDisplayed + 1`, and lies
between 1 and `m_rows`. -/
theorem C33_screen_row_agrees (doc : List (List Char)) (hdoc : doc ≠ [])
    (hcount : doc.length < 4294967296) (s : PWEdit) (h : PWEdit.Reachable doc s)
    (hrow : 1 ≤ s.rows) (hrows : s.rows ≤ doc.length) :
    s.firstLineDisplayed ≤ s.selectedLineNumber ∧
    s.termRow = s.selectedLineNumber - s.firstLineDisplayed + 1 ∧
    1 ≤ s.termRow ∧ s.termRow ≤ s.rows := by
  have hw := (PWEdit.selected_row_in_window doc hdoc hcount s h).2 hrow hrows
  omega

theorem C33_screen_row_agrees_witness :
    ∃ s, PWEdit.Reachable [['a'], ['b'], ['c'], ['d'], ['e']] s ∧
      (s.rows = 3 ∧ s.selectedLineNumber = 1 ∧ s.firstLineDisplayed = 0 ∧ s.termRow = 2) ∧
      s.firstLineDisplayed ≤ s.selectedLineNumber ∧
      s.termRow = s.selectedLineNumber - s.firstLineDisplayed + 1 ∧
      1 ≤ s.termRow ∧ s.termRow ≤ s.rows :=
  (PWEdit.Reachable_of_rounds [['a'], ['b'], ['c'], ['d'], ['e']] 3 10
    ['s', 's', 's', 's', 'w', 'w', 'w'] 7
    (fun s => decide (s.rows = 3 ∧ s.selectedLineNumber = 1 ∧ s.firstLineDisplayed = 0 ∧
      s.termRow = 2)) true (by decide)).elim
    (fun s hs => ⟨s, hs.1, of_decide_eq_true hs.2,
      C33_screen_row_agrees [['a'], ['b'], ['c'], ['d'], ['e']] (by decide) (by decide) s hs.1
        (by rw [(of_decide_eq_true hs.2).1]; decide)
        (by rw [(of_decide_eq_true hs.2).1]; decide)⟩)

/-- C34 on two documents without an empty line.  On `ab`, `abcdef` in a window
of 2 rows by 3 columns the key `G` (`to_file_end`, the last line longer than
the window is wide) leaves the selected column 5, the first column displayed 3
and `m_termColumn = 2`, not `5 - 3 + 1 = 3`: the branch for a long last line
sets `lastColumn = m_columns - 1`.  On `abcdefgh`, `a`, `abcdefgh` in a window
of 3 rows by 3 columns the keys `$`, down, down restore the desired column 7
with the first column displayed 4 and `m_termColumn = 3`, not `7 - 4 + 1 = 4`. -/
theorem C34_screen_column_off_by_one :
    (∃ s, PWEdit.Reachable [['a', 'b'], ['a', 'b', 'c', 'd', 'e', 'f']] s ∧
      s.rows ≤ s.lines.length ∧ 1 ≤ s.columns ∧
      s.selectedColumnInLine = 5 ∧ s.firstColumnDisplayed = 3 ∧ s.termColumn = 2 ∧
      s.termColumn ≠ s.selectedColumnInLine - s.firstColumnDisplayed + 1) ∧
    (∃ s, PWEdit.Reachable [['a', 'b', 'c', 'd', 'e', 'f', 'g', 'h'], ['a'],
        ['a', 'b', 'c', 'd', 'e', 'f', 'g', 'h']] s ∧
      s.rows ≤ s.lines.length ∧ 1 ≤ s.columns ∧
      s.selectedColumnInLine = 7 ∧ s.firstColumnDisplayed = 4 ∧ s.termColumn = 3 ∧
      s.termColumn ≠ s.selectedColumnInLine - s.firstColumnDisplayed + 1) := by
  constructor
  · obtain ⟨s, hs, hf⟩ := PWEdit.Reachable_of_rounds
      [['a', 'b'], ['a', 'b', 'c', 'd', 'e', 'f']] 2 3 ['G'] 1
      (fun s => (decide (s.rows ≤ s.lines.length), decide (1 ≤ s.columns),
        s.selectedColumnInLine, s.firstColumnDisplayed, s.termColumn))
      (true, true, 5, 3, 2) (by decide)
    simp only [Prod.mk.injEq, decide_eq_true_eq] at hf
    refine ⟨s, hs, hf.1, hf.2.1, hf.2.2.1, hf.2.2.2.1, hf.2.2.2.2, ?_⟩
    rw [hf.2.2.1, hf.2.2.2.1, hf.2.2.2.2]
    decide
  · obtain ⟨s, hs, hf⟩ := PWEdit.Reachable_of_rounds
      [['a', 'b', 'c', 'd', 'e', 'f', 'g', 'h'], ['a'], ['a', 'b', 'c', 'd', 'e', 'f', 'g', 'h']]
      3 3 ['$', 's', 's'] 3
      (fun s => (decide (s.rows ≤ s.lines.length), decide (1 ≤ s.columns),
        s.selectedColumnInLine, s.firstColumnDisplayed, s.termColumn))
      (true, true, 7, 4, 3) (by decide)
    simp only [Prod.mk.injEq, decide_eq_true_eq] at hf
    refine ⟨s, hs, hf.1, hf.2.1, hf.2.2.1, hf.2.2.2.1, hf.2.2.2.2, ?_⟩
    rw [hf.2.2.1, hf.2.2.2.1, hf.2.2.2.2]
    decide

/-- C36 on the document `ab`, `abcdef` in a window of 2 rows by 3 columns, in
the state the loop of `run` starts from (both lines on screen from column 0):
`to_file_end` moves the window origin from line 0, column 0 to line 0,
column 3, and all it writes is the cursor sequence for row 2, column 2, no
redraw: `lastLineNotShown` and `lastColumnNotShown` are both false. -/
theorem C36_file_end_moves_window_unpainted :
    ∃ s, PWEdit.Reachable [['a', 'b'], ['a', 'b', 'c', 'd', 'e', 'f']] s ∧
      s.rows ≤ s.lines.length ∧
      (s.firstLineDisplayed, s.firstColumnDisplayed) = (0, 0) ∧
      ((PWEdit.to_file_end s).firstLineDisplayed, (PWEdit.to_file_end s).firstColumnDisplayed)
        = (0, 3) ∧
      (PWEdit.to_file_end s).printer = s.printer ++ PWEdit.cursor_sequence 2 2 ∧
      (PWEdit.to_file_end s).printer ≠
        (PWEdit.display_file_from s 0 3).printer ++ PWEdit.cursor_sequence 2 2 := by
  obtain ⟨s, hs, hf⟩ := PWEdit.Reachable_of_rounds
    [['a', 'b'], ['a', 'b', 'c', 'd', 'e', 'f']] 2 3 [] 0
    (fun s => (decide (s.rows ≤ s.lines.length),
      (s.firstLineDisplayed, s.firstColumnDisplayed),
      ((PWEdit.to_file_end s).firstLineDisplayed, (PWEdit.to_file_end s).firstColumnDisplayed),
      decide ((PWEdit.to_file_end s).printer = s.printer ++ PWEdit.cursor_sequence 2 2),
      decide ((PWEdit.to_file_end s).printer ≠
        (PWEdit.display_file_from s 0 3).printer ++ PWEdit.cursor_sequence 2 2)))
    (true, (0, 0), (0, 3), true, true) (by decide)
  simp only [Prod.mk.injEq, decide_eq_true_eq] at hf
  exact ⟨s, hs, hf.1, by rw [hf.2.1.1, hf.2.1.2], by rw [hf.2.2.1.1, hf.2.2.1.2],
    hf.2.2.2.1, hf.2.2.2.2⟩

/-- C37: `clear_row(row)` writes the cursor sequence for the first column of
the row and then `m_columns + 1` spaces, one more than the row is wide (the
loop runs `for (col = 0; col <= m_columns; ++col)`), whereas
`print_line_at_row` writes, after the same cursor sequence, exactly
`m_columns` characters. -/
theorem C37_clear_row_one_space_too_many (s : PWEdit) (row c : Nat) (it : Int)
    (hlen : (s.deref it).length < 65536) (hc : s.columns + c ≤ 4294967296) :
    (PWEdit.clear_row s row).printer =
      s.printer ++ (PWEdit.cursor_sequence row 1 ++ List.replicate (s.columns + 1) ' ') ∧
    (PWEdit.clear_row s row).printer ≠
      s.printer ++ (PWEdit.cursor_sequence row 1 ++ List.replicate s.columns ' ') ∧
    ∃ chars, (PWEdit.print_line_at_row s c it row).printer =
        s.printer ++ (PWEdit.cursor_sequence row 1 ++ chars) ∧
      chars.length = s.columns := by
  have h1 : (PWEdit.clear_row s row).printer =
      s.printer ++ (PWEdit.cursor_sequence row 1 ++ List.replicate (s.columns + 1) ' ') := by
    simp [PWEdit.clear_row, PWEdit.move_cursor]
  refine ⟨h1, ?_, _, PWEdit.print_line_at_row_printer s c it row hlen hc,
    PWEdit.spec_row_length _ _ _⟩
  rw [h1]
  intro h
  have h2 := congrArg List.length h
  simp only [List.length_append, List.length_replicate] at h2
  omega

theorem C37_clear_row_one_space_too_many_witness :
    (PWEdit.clear_row PWEdit.twoLines 1).printer =
      PWEdit.twoLines.printer ++
        (PWEdit.cursor_sequence 1 1 ++ List.replicate (PWEdit.twoLines.columns + 1) ' ') ∧
    (PWEdit.clear_row PWEdit.twoLines 1).printer ≠
      PWEdit.twoLines.printer ++
        (PWEdit.cursor_sequence 1 1 ++ List.replicate PWEdit.twoLines.columns ' ') ∧
    ∃ chars, (PWEdit.print_line_at_row PWEdit.twoLines 0 0 1).printer =
        PWEdit.twoLines.printer ++ (PWEdit.cursor_sequence 1 1 ++ chars) ∧
      chars.length = PWEdit.twoLines.columns :=
  C37_clear_row_one_space_too_many PWEdit.twoLines 1 0 0 (by decide) (by decide)

end PropWare
/-! # The horizontal scroll decision -/

namespace PropWare

namespace PWEdit

/-- The two branches of a `move_right` that is not rejected, in the arithmetic
of the code. -/
theorem move_right_scroll (s : PWEdit) (hend : s.cursor_at_end = false) :
    ((PADDING > usub s.columns s.termColumn ∧
        get_size (s.deref s.selectedLine) > uadd s.firstColumnDisplayed s.columns) →
      (move_right s).firstColumnDisplayed = uadd s.firstColumnDisplayed 1 ∧
      (move_right s).termColumn = s.termColumn ∧
      (move_right s).printer =
        (display_file_from s s.firstLineDisplayed (uadd s.firstColumnDisplayed 1)).printer ++
          cursor_sequence s.termRow s.termColumn) ∧
    (¬ (PADDING > usub s.columns s.termColumn ∧
        get_size (s.deref s.selectedLine) > uadd s.firstColumnDisplayed s.columns) →
      (move_right s).firstColumnDisplayed = s.firstColumnDisplayed ∧
      (move_right s).termColumn = uadd s.termColumn 1 ∧
      (move_right s).printer = s.printer ++ cursor_sequence s.termRow (uadd s.termColumn 1)) := by
  constructor
  · intro h
    unfold move_right
    rw [hend]
    simp only [Bool.false_eq_true, if_false]
    rw [if_pos h]
    refine ⟨by simp [move_cursor], by simp [move_cursor], ?_⟩
    simp only [move_cursor, puts_printer, display_file_from_termRow,
      display_file_from_termColumn]
    congr 1
    exact display_file_from_printer_congr _ _ _ _ rfl rfl rfl rfl rfl
  · intro h
    unfold move_right
    rw [hend]
    simp only [Bool.false_eq_true, if_false]
    rw [if_neg h]
    exact ⟨by simp [move_cursor], by simp [move_cursor], by simp [move_cursor]⟩

/-- The two branches of a `move_left` that is not rejected, in the arithmetic
of the code. -/
theorem move_left_scroll (s : PWEdit) (hpos : s.selectedColumnInLine ≠ 0) :
    ((PADDING ≥ s.termColumn ∧ s.firstColumnDisplayed ≠ 0) →
      (move_left s).firstColumnDisplayed = usub s.firstColumnDisplayed 1 ∧
      (move_left s).termColumn = s.termColumn ∧
      (move_left s).printer =
        (display_file_from s s.firstLineDisplayed (usub s.firstColumnDisplayed 1)).printer ++
          cursor_sequence s.termRow s.termColumn) ∧
    (¬ (PADDING ≥ s.termColumn ∧ s.firstColumnDisplayed ≠ 0) →
      (move_left s).firstColumnDisplayed = s.firstColumnDisplayed ∧
      (move_left s).termColumn = usub s.termColumn 1 ∧
      (move_left s).printer = s.printer ++ cursor_sequence s.termRow (usub s.termColumn 1)) := by
  constructor
  · intro h
    unfold move_left
    rw [if_neg hpos]
    dsimp only []
    rw [if_pos h]
    refine ⟨by simp [move_cursor], by simp [move_cursor], ?_⟩
    simp only [move_cursor, puts_printer, display_file_from_termRow,
      display_file_from_termColumn]
    congr 1
    exact display_file_from_printer_congr _ _ _ _ rfl rfl rfl rfl rfl
  · intro h
    unfold move_left
    rw [if_neg hpos]
    dsimp only []
    rw [if_neg h]
    exact ⟨by simp [move_cursor], by simp [move_cursor], by simp [move_cursor]⟩

end PWEdit

end PropWare

namespace PropWare

/-- C31.  In a state whose screen column lies between 1 and `m_columns` (and
whose columns stay clear of the end of the 32-bit range) the claim holds: a
`move_selection(RIGHT)` that is not rejected scrolls, first column displayed
plus one, screen column kept, redraw and cursor sequence, exactly if
`m_columns - m_termColumn < 3` and the line is longer than
`m_firstColumnDisplayed + m_columns`, and otherwise adds one to the screen
column; a `move_selection(LEFT)` likewise with `m_termColumn - 1 < 3` and
`m_firstColumnDisplayed > 0`.  The loop of `run` also reaches states with the
screen column past `m_columns`: on two lines of 16 characters with the line
`a` between them, in a window of 3 rows by 10 columns, ten times right and
twice down lead to `m_termColumn = 11`.  There `m_columns - m_termColumn` is
less than 3 and the line (16) is longer than `0 + 10`, yet the next
`move_selection(RIGHT)` does not scroll: the unsigned difference wraps, the
first column displayed stays 0 and the screen column becomes 12. -/
theorem C31_no_scroll_right_of_window (s : PWEdit)
    (hterm1 : 1 ≤ s.termColumn) (hterm : s.termColumn ≤ s.columns)
    (hfit : s.firstColumnDisplayed + s.columns < 4294967295) :
    (s.cursor_at_end = false →
      ((s.columns - s.termColumn < 3 ∧
          PWEdit.get_size (s.deref s.selectedLine) > s.firstColumnDisplayed + s.columns) →
        (PWEdit.move_selection s Direction.RIGHT).firstColumnDisplayed
          = s.firstColumnDisplayed + 1 ∧
        (PWEdit.move_selection s Direction.RIGHT).termColumn = s.termColumn ∧
        (PWEdit.move_selection s Direction.RIGHT).printer =
          (PWEdit.display_file_from s s.firstLineDisplayed
            (s.firstColumnDisplayed + 1)).printer ++
            PWEdit.cursor_sequence s.termRow s.termColumn) ∧
      (¬ (s.columns - s.termColumn < 3 ∧
          PWEdit.get_size (s.deref s.selectedLine) > s.firstColumnDisplayed + s.columns) →
        (PWEdit.move_selection s Direction.RIGHT).firstColumnDisplayed
          = s.firstColumnDisplayed ∧
        (PWEdit.move_selection s Direction.RIGHT).termColumn = s.termColumn + 1 ∧
        (PWEdit.move_selection s Direction.RIGHT).printer =
          s.printer ++ PWEdit.cursor_sequence s.termRow (s.termColumn + 1))) ∧
    (s.selectedColumnInLine ≠ 0 →
      ((s.termColumn - 1 < 3 ∧ 0 < s.firstColumnDisplayed) →
        (PWEdit.move_selection s Direction.LEFT).firstColumnDisplayed
          = s.firstColumnDisplayed - 1 ∧
        (PWEdit.move_selection s Direction.LEFT).termColumn = s.termColumn ∧
        (PWEdit.move_selection s Direction.LEFT).printer =
          (PWEdit.display_file_from s s.firstLineDisplayed
            (s.firstColumnDisplayed - 1)).printer ++
            PWEdit.cursor_sequence s.termRow s.termColumn) ∧
      (¬ (s.termColumn - 1 < 3 ∧ 0 < s.firstColumnDisplayed) →
        (PWEdit.move_selection s Direction.LEFT).firstColumnDisplayed
          = s.firstColumnDisplayed ∧
        (PWEdit.move_selection s Direction.LEFT).termColumn = s.termColumn - 1 ∧
        (PWEdit.move_selection s Direction.LEFT).printer =
          s.printer ++ PWEdit.cursor_sequence s.termRow (s.termColumn - 1))) ∧
    (∃ t, PWEdit.Reachable
        ["abcdefghijklmnop".toList, ['a'], "abcdefghijklmnop".toList] t ∧
      t.rows ≤ t.lines.length ∧ t.cursor_at_end = false ∧
      t.columns = 10 ∧ t.termColumn = 11 ∧ t.firstColumnDisplayed = 0 ∧
      PWEdit.get_size (t.deref t.selectedLine) = 16 ∧
      (PWEdit.move_selection t Direction.RIGHT).firstColumnDisplayed = 0 ∧
      (PWEdit.move_selection t Direction.RIGHT).termColumn = 12) := by
  have e1 : uadd s.firstColumnDisplayed 1 = s.firstColumnDisplayed + 1 := by
    unfold uadd; omega
  have e2 : uadd s.firstColumnDisplayed s.columns = s.firstColumnDisplayed + s.columns := by
    unfold uadd; omega
  have e3 : usub s.columns s.termColumn = s.columns - s.termColumn := by
    unfold usub; omega
  have e4 : uadd s.termColumn 1 = s.termColumn + 1 := by
    unfold uadd; omega
  have e5 : usub s.termColumn 1 = s.termColumn - 1 := by
    unfold usub; omega
  refine ⟨fun hend => ?_, fun hpos => ?_, ?_⟩
  · have h := PWEdit.move_right_scroll s hend
    rw [e1, e2, e3, e4] at h
    exact h
  · have h := PWEdit.move_left_scroll s hpos
    rw [e5] at h
    have hiff : (PADDING ≥ s.termColumn ∧ s.firstColumnDisplayed ≠ 0) ↔
        (s.termColumn - 1 < 3 ∧ 0 < s.firstColumnDisplayed) := by
      unfold PADDING
      constructor <;> rintro ⟨a, b⟩ <;> constructor <;> omega
    rw [hiff] at h
    refine ⟨fun hc => ?_, h.2⟩
    have e6 : usub s.firstColumnDisplayed 1 = s.firstColumnDisplayed - 1 := by
      have := hc.2
      unfold usub; omega
    have h1 := h.1 hc
    rw [e6] at h1
    exact h1
  · obtain ⟨t, ht, hf⟩ := PWEdit.Reachable_of_rounds
      ["abcdefghijklmnop".toList, ['a'], "abcdefghijklmnop".toList] 3 10
      ['d', 'd', 'd', 'd', 'd', 'd', 'd', 'd', 'd', 'd', 's', 's'] 12
      (fun t => decide (t.rows ≤ t.lines.length ∧ t.cursor_at_end = false ∧
        t.columns = 10 ∧ t.termColumn = 11 ∧ t.firstColumnDisplayed = 0 ∧
        PWEdit.get_size (t.deref t.selectedLine) = 16 ∧
        (PWEdit.move_selection t Direction.RIGHT).firstColumnDisplayed = 0 ∧
        (PWEdit.move_selection t Direction.RIGHT).termColumn = 12))
      true (by decide)
    exact ⟨t, ht, of_decide_eq_true hf⟩

theorem C31_no_scroll_right_of_window_witness :
    (1 ≤ PWEdit.twoLines.termColumn ∧ PWEdit.twoLines.termColumn ≤ PWEdit.twoLines.columns ∧
      PWEdit.twoLines.firstColumnDisplayed + PWEdit.twoLines.columns < 4294967295) ∧
    (PWEdit.move_selection PWEdit.twoLines Direction.LEFT).firstColumnDisplayed
      = PWEdit.twoLines.firstColumnDisplayed ∧
    (PWEdit.move_selection PWEdit.twoLines Direction.LEFT).termColumn
      = PWEdit.twoLines.termColumn - 1 :=
  ⟨⟨by decide, by decide, by decide⟩,
    (((C31_no_scroll_right_of_window PWEdit.twoLines (by decide) (by decide) (by decide)).2.1
      (by decide)).2 (by decide)).1,
    (((C31_no_scroll_right_of_window PWEdit.twoLines (by decide) (by decide) (by decide)).2.1
      (by decide)).2 (by decide)).2.1⟩

end PropWare
/-! # The modified flag and the writer through `run` -/

namespace PropWare

namespace PWEdit

theorem clear_rows_unwritten (n : Nat) (s : PWEdit) (row : Nat) :
    (clear_rows n s row).modified = s.modified ∧ (clear_rows n s row).outFile = s.outFile ∧
      (clear_rows n s row).lines = s.lines := by
  induction n generalizing s row with
  | zero => exact ⟨rfl, rfl, rfl⟩
  | succ n ih =>
    rw [clear_rows]
    obtain ⟨h1, h2, h3⟩ := ih (clear_row s row) (row + 1)
    rw [h1, h2, h3]
    simp [clear_row, move_cursor]

theorem clear_unwritten (s : PWEdit) (writeSpaces : Bool) :
    (clear s writeSpaces).modified = s.modified ∧ (clear s writeSpaces).outFile = s.outFile ∧
      (clear s writeSpaces).lines = s.lines := by
  unfold clear
  simp only [move_cursor, puts_modified, puts_outFile, puts_lines]
  split_ifs
  · exact clear_rows_unwritten _ _ _
  · exact ⟨rfl, rfl, rfl⟩

theorem calibrate_row_unwritten (s : PWEdit) :
    (calibrate_row s).modified = s.modified ∧ (calibrate_row s).outFile = s.outFile ∧
      (calibrate_row s).lines = s.lines := by
  simp [calibrate_row, put_eq_puts]

theorem calibrate_rows_unwritten (n : Nat) (s : PWEdit) :
    (calibrate_rows n s).modified = s.modified ∧ (calibrate_rows n s).outFile = s.outFile ∧
      (calibrate_rows n s).lines = s.lines := by
  induction n generalizing s with
  | zero => exact ⟨rfl, rfl, rfl⟩
  | succ n ih =>
    rw [calibrate_rows]
    obtain ⟨h1, h2, h3⟩ := ih (calibrate_row s)
    rw [h1, h2, h3]
    exact calibrate_row_unwritten s

theorem calibrate_key_unwritten (s : PWEdit) (input : Char) :
    (calibrate_key s input).modified = s.modified ∧
      (calibrate_key s input).outFile = s.outFile ∧
      (calibrate_key s input).lines = s.lines := by
  unfold calibrate_key
  dsimp only []
  split_ifs
  · simp
  · exact ⟨rfl, rfl, rfl⟩
  · obtain ⟨h1, h2, h3⟩ := calibrate_rows_unwritten
      ((put (puts (puts (puts (clear (puts { s with rows := usub s.rows 1 } [BACKSPACE, ' '])
        false) calibrationString) [BACKSPACE, ' '])
        (List.replicate (uadd (usub calibrationStringLength
          (puts (puts (clear (puts { s with rows := usub s.rows 1 } [BACKSPACE, ' '])
            false) calibrationString) [BACKSPACE, ' ']).columns) 1)
          [BACKSPACE, ' ', BACKSPACE]).flatten) CURSOR).rows - 1) _
    rw [h1, h2, h3]
    obtain ⟨c1, c2, c3⟩ := clear_unwritten (puts { s with rows := usub s.rows 1 } [BACKSPACE, ' '])
      false
    simp [put_eq_puts, c1, c2, c3]
  · obtain ⟨h1, h2, h3⟩ := calibrate_rows_unwritten
      ((put (puts (puts (puts (clear (puts { s with rows := usub s.rows 1 } [BACKSPACE, ' '])
        false) calibrationString) [BACKSPACE, ' '])
        (List.replicate ((puts (puts (clear (puts { s with rows := usub s.rows 1 }
          [BACKSPACE, ' ']) false) calibrationString) [BACKSPACE, ' ']).columns -
            calibrationStringLength) ' ')) CURSOR).rows - 1) _
    rw [h1, h2, h3]
    obtain ⟨c1, c2, c3⟩ := clear_unwritten (puts { s with rows := usub s.rows 1 } [BACKSPACE, ' '])
      false
    simp [put_eq_puts, c1, c2, c3]
  · exact ⟨rfl, rfl, rfl⟩
  · obtain ⟨h1, h2, h3⟩ := calibrate_row_unwritten { s with rows := uadd s.rows 1 }
    rw [h1, h2, h3]
    exact ⟨rfl, rfl, rfl⟩
  · simp
  · exact ⟨rfl, rfl, rfl⟩

theorem calibrate_loop_unwritten (keys : List Char) (s x : PWEdit)
    (h : calibrate_loop keys s = some x) :
    x.modified = s.modified ∧ x.outFile = s.outFile ∧ x.lines = s.lines := by
  induction keys generalizing s with
  | nil => cases h
  | cons input rest ih =>
    rw [calibrate_loop] at h
    obtain ⟨k1, k2, k3⟩ := calibrate_key_unwritten (set_scanner s rest) input
    split_ifs at h
    · obtain ⟨h1, h2, h3⟩ := ih _ h
      rw [h1, h2, h3, k1, k2, k3]
      simp
    · cases h
      rw [k1, k2, k3]
      simp

theorem calibrate_unwritten (s x : PWEdit) (h : calibrate s = some x) :
    x.modified = s.modified ∧ x.outFile = s.outFile ∧ x.lines = s.lines := by
  unfold calibrate at h
  dsimp only [] at h
  rw [Option.map_eq_some'] at h
  obtain ⟨s3, h3, hx⟩ := h
  obtain ⟨l1, l2, l3⟩ := calibrate_loop_unwritten _ _ _ h3
  obtain ⟨c1, c2, c3⟩ := clear_unwritten (show_cursor s3) true
  obtain ⟨d1, d2, d3⟩ := clear_unwritten (hide_cursor s) false
  have e1 : (hide_cursor s).modified = s.modified := by simp [hide_cursor]
  have e2 : (hide_cursor s).outFile = s.outFile := by simp [hide_cursor]
  have e3 : (hide_cursor s).lines = s.lines := by simp [hide_cursor]
  have f1 : (show_cursor s3).modified = s3.modified := by simp [show_cursor]
  have f2 : (show_cursor s3).outFile = s3.outFile := by simp [show_cursor]
  have f3 : (show_cursor s3).lines = s3.lines := by simp [show_cursor]
  simp only [puts_modified, puts_outFile, puts_lines, d1, d2, d3, e1, e2, e3] at l1 l2 l3
  subst hx
  simp only [puts_modified, puts_outFile, puts_lines, put_uint_eq_puts, put_eq_puts, c1, c2, c3,
    f1, f2, f3]
  exact ⟨l1, l2, l3⟩

end PWEdit

end PropWare

namespace PropWare

namespace PWEdit

theorem read_lines_unwritten (fuel : Nat) (s : PWEdit) (r : ErrorCode × PWEdit)
    (h : read_lines fuel s = some r) :
    r.2.modified = s.modified ∧ r.2.outFile = s.outFile := by
  induction fuel generalizing s with
  | zero => cases h
  | succ fuel ih =>
    rw [read_lines] at h
    split_ifs at h
    · cases h
      exact ⟨rfl, rfl⟩
    · cases hl : read_line fuel s.inFile [] with
      | none => simp [hl] at h
      | some y =>
        rw [hl] at h
        dsimp only [] at h
        split_ifs at h
        · cases h
          exact ⟨rfl, rfl⟩
        · cases h
          exact ⟨rfl, rfl⟩
        · obtain ⟨h1, h2⟩ := ih _ h
          rw [h1, h2]
          simp [move_cursor, put_uint_eq_puts]
        · cases h
          exact ⟨rfl, rfl⟩
        · obtain ⟨h1, h2⟩ := ih _ h
          rw [h1, h2]
          simp [move_cursor, put_uint_eq_puts]

theorem read_in_file_unwritten (fuel : Nat) (s : PWEdit) (r : ErrorCode × PWEdit)
    (h : read_in_file fuel s = some r) :
    r.2.modified = s.modified ∧ r.2.outFile = s.outFile := by
  unfold read_in_file at h
  split_ifs at h
  · cases h
    exact ⟨rfl, rfl⟩
  · exact read_lines_unwritten fuel s r h

theorem save_unmodified (s : PWEdit) (hm : s.modified = false) : save s = (NO_ERROR, s) := by
  unfold save
  rw [if_neg (by simp [hm])]

theorem read_command_input_unwritten (input : List Char) (s : PWEdit) (r : List Char × PWEdit)
    (h : read_command_input input s = some r) :
    r.2.modified = s.modified ∧ r.2.outFile = s.outFile := by
  induction input generalizing s r with
  | nil => cases h
  | cons c rest ih =>
    rw [read_command_input] at h
    split_ifs at h
    · rw [Option.map_eq_some'] at h
      obtain ⟨q, hq, hr⟩ := h
      obtain ⟨h1, h2⟩ := ih _ q hq
      subst hr
      rw [h1, h2]
      simp [put_eq_puts]
    · cases h
      simp

/-- The quit part of `command` on an unmodified document: the exit flag is set
if the quit token stands at `next` and keeps its value otherwise; the warning
is not written and no key is awaited: the bottom row is rewritten and the
cursor put back, nothing else. -/
theorem command_exit_unmodified (buffer : List Char) (next : Nat) (exit : Bool) (s : PWEdit)
    (hm : s.modified = false) :
    command_exit buffer next exit s =
      some (NO_ERROR, (if buffer.getD next NULL_TERMINATOR = EXIT_CHAR then true else exit),
        move_cursor (rewrite_last_line s) (rewrite_last_line s).termRow
          (rewrite_last_line s).termColumn) := by
  unfold command_exit
  by_cases hq : buffer.getD next NULL_TERMINATOR = EXIT_CHAR
  · rw [if_pos hq, if_pos hq, if_neg (by rw [hm]; decide)]
    rfl
  · rw [if_neg hq, if_neg hq]
    rfl

/-- On an unmodified document `command` leaves the flag unset and the writer
as it was. -/
theorem command_unmodified (s : PWEdit) (exit : Bool) (r : ErrorCode × Bool × PWEdit)
    (hm : s.modified = false) (h : command s exit = some r) :
    r.1 = NO_ERROR ∧ r.2.2.modified = false ∧ r.2.2.outFile = s.outFile := by
  unfold command at h
  dsimp only [] at h
  split at h
  · cases h
  · rename_i buffer s2 hread
    obtain ⟨h1, h2⟩ := read_command_input_unwritten _ _ (buffer, s2) hread
    have hm2 : s2.modified = false := by
      rw [h1]
      simpa [move_cursor, clear_row, put_eq_puts] using hm
    have ho2 : s2.outFile = s.outFile := by
      rw [h2]
      simp [move_cursor, clear_row, put_eq_puts]
    rw [save_unmodified s2 hm2] at h
    simp only [NO_ERROR, ne_eq, not_true_eq_false, if_false] at h
    split_ifs at h
    · rw [command_exit_unmodified buffer 1 exit s2 hm2] at h
      cases h
      exact ⟨rfl, by simpa [move_cursor, rewrite_last_line] using hm2,
        by simpa [move_cursor, rewrite_last_line] using ho2⟩
    · rw [command_exit_unmodified buffer 0 exit s2 hm2] at h
      cases h
      exact ⟨rfl, by simpa [move_cursor, rewrite_last_line] using hm2,
        by simpa [move_cursor, rewrite_last_line] using ho2⟩

/-- A round of the loop of `run` on an unmodified document returns no error and
leaves the flag unset, the writer and the document as they were. -/
theorem loop_round_unmodified (s : PWEdit) (r : ErrorCode × Bool × PWEdit)
    (hm : s.modified = false) (h : loop_round s = some r) :
    r.1 = NO_ERROR ∧ r.2.2.modified = false ∧ r.2.2.outFile = s.outFile ∧
      r.2.2.lines = s.lines := by
  unfold loop_round at h
  split at h
  · cases h
  · rename_i c rest hscan
    have hl := h
    unfold dispatch at h
    split_ifs at h
    · cases h; exact ⟨rfl, by simpa using hm, by simp, by simp⟩
    · cases h; exact ⟨rfl, by simpa using hm, by simp, by simp⟩
    · cases h; exact ⟨rfl, by simpa using hm, by simp, by simp⟩
    · cases h; exact ⟨rfl, by simpa using hm, by simp, by simp⟩
    · cases h; exact ⟨rfl, by simpa using hm, by simp, by simp⟩
    · cases h; exact ⟨rfl, by simpa using hm, by simp, by simp⟩
    · cases h; exact ⟨rfl, by simpa using hm, by simp, by simp⟩
    · cases h; exact ⟨rfl, by simpa using hm, by simp, by simp⟩
    · obtain ⟨h1, h2, h3⟩ := command_unmodified (set_scanner s rest) false r (by simpa using hm) h
      have hd := (document_and_cursor_fields _ _ (command_document _ _ r h)).1
      exact ⟨h1, h2, by simpa using h3, by simpa using hd⟩
    · cases h; exact ⟨rfl, by simpa using hm, by simp, by simp⟩

theorem loop_rounds_unmodified (w : FileWriter) (doc : List (List Char)) (n : Nat)
    (s x : PWEdit) (hs : s.modified = false ∧ s.outFile = w ∧ s.lines = doc)
    (h : loop_rounds n s = some x) : x.modified = false ∧ x.outFile = w ∧ x.lines = doc := by
  refine loop_rounds_invariant (fun s => s.modified = false ∧ s.outFile = w ∧ s.lines = doc)
    ?_ n s x hs h
  intro s r hs hr
  obtain ⟨_, h2, h3, h4⟩ := loop_round_unmodified s r hs.1 hr
  exact ⟨h2, h3.trans hs.2.1, h4.trans hs.2.2⟩

theorem run_start_unwritten (s : PWEdit) :
    (run_start s).modified = s.modified ∧ (run_start s).outFile = s.outFile ∧
      (run_start s).lines = s.lines := by
  simp [run_start]

theorem run_loop_unmodified (fuel : Nat) (s : PWEdit) (r : ErrorCode × PWEdit)
    (hm : s.modified = false) (h : run_loop fuel s = some r) :
    r.1 = NO_ERROR ∧ r.2.modified = false ∧ r.2.outFile = s.outFile ∧ r.2.lines = s.lines := by
  induction fuel generalizing s with
  | zero => cases h
  | succ fuel ih =>
    rw [run_loop] at h
    split at h
    · cases h
    · rename_i err exit s1 hr
      obtain ⟨h1, h2, h3, h4⟩ := loop_round_unmodified s (err, exit, s1) hm hr
      simp only [] at h1 h2 h3 h4
      rw [if_neg (by simp [h1, NO_ERROR])] at h
      split_ifs at h
      · cases h
        obtain ⟨c1, c2, c3⟩ := clear_unwritten s1 true
        exact ⟨rfl, c1.trans h2, c2.trans h3, c3.trans h4⟩
      · obtain ⟨i1, i2, i3, i4⟩ := ih s1 h2 h
        exact ⟨i1, i2, i3.trans h3, i4.trans h4⟩

end PWEdit

end PropWare

namespace PropWare

/-- C35: in every state in which `run`, started on an editor as the
constructor leaves it, reads a key of its loop, `m_modified` is false, the
writer is the one handed to the constructor, no call made to it, and the lines
are those `read_in_file` produced.  There `save` returns `NO_ERROR` and
changes nothing, the quit part of `command` never writes the warning nor waits
for a key, every round of the loop returns no error and keeps all this, and
whatever `run` returns, it returns with the flag unset and the writer as it
was. -/
theorem C35_modified_never_set (inFile : FileReader) (outFile : FileWriter)
    (keys printer : List Char) (junk : PWEdit) (fuel n : Nat) (closeCode : ErrorCode)
    (s3 : PWEdit)
    (h : PWEdit.run_rounds fuel n closeCode
      (PWEdit.construct inFile outFile keys printer junk) = some s3) :
    s3.modified = false ∧ s3.outFile = outFile ∧
    (∃ s1 s2, PWEdit.calibrate (PWEdit.construct inFile outFile keys printer junk) = some s1 ∧
      s1.modified = false ∧ PWEdit.read_in_file fuel s1 = some (NO_ERROR, s2) ∧
      s2.modified = false ∧ s3.lines = s2.lines) ∧
    PWEdit.save s3 = (NO_ERROR, s3) ∧
    (∀ buffer next exit, PWEdit.command_exit buffer next exit s3 =
      some (NO_ERROR, (if buffer.getD next NULL_TERMINATOR = EXIT_CHAR then true else exit),
        PWEdit.move_cursor (PWEdit.rewrite_last_line s3) (PWEdit.rewrite_last_line s3).termRow
          (PWEdit.rewrite_last_line s3).termColumn)) ∧
    (∀ r, PWEdit.loop_round s3 = some r →
      r.1 = NO_ERROR ∧ r.2.2.modified = false ∧ r.2.2.outFile = outFile ∧
        r.2.2.lines = s3.lines) ∧
    (∀ r, PWEdit.run fuel closeCode (PWEdit.construct inFile outFile keys printer junk) = some r →
      r.2.modified = false ∧ r.2.outFile = outFile) := by
  have hrun : ∀ r, PWEdit.run fuel closeCode
      (PWEdit.construct inFile outFile keys printer junk) = some r →
      r.2.modified = false ∧ r.2.outFile = outFile := by
    intro r hr
    unfold PWEdit.run at hr
    cases hc : PWEdit.calibrate (PWEdit.construct inFile outFile keys printer junk) with
    | none => simp [hc] at hr
    | some s1 =>
      obtain ⟨c1, c2, _⟩ := PWEdit.calibrate_unwritten _ s1 hc
      rw [hc] at hr
      dsimp only [] at hr
      cases hl : PWEdit.read_in_file fuel s1 with
      | none => simp [hl] at hr
      | some y =>
        obtain ⟨l1, l2⟩ := PWEdit.read_in_file_unwritten fuel s1 y hl
        rw [hl] at hr
        dsimp only [] at hr
        have hm2 : y.2.modified = false := l1.trans c1
        have ho2 : y.2.outFile = outFile := l2.trans c2
        split_ifs at hr
        · cases hr
          exact ⟨hm2, ho2⟩
        · cases hr
          exact ⟨hm2, ho2⟩
        · obtain ⟨_, q2, q3, _⟩ := PWEdit.run_loop_unmodified fuel _ r
            ((PWEdit.run_start_unwritten y.2).1.trans hm2) hr
          exact ⟨q2, q3.trans ((PWEdit.run_start_unwritten y.2).2.1.trans ho2)⟩
  unfold PWEdit.run_rounds at h
  cases hc : PWEdit.calibrate (PWEdit.construct inFile outFile keys printer junk) with
  | none => simp [hc] at h
  | some s1 =>
    obtain ⟨c1, c2, _⟩ := PWEdit.calibrate_unwritten _ s1 hc
    rw [hc] at h
    dsimp only [] at h
    cases hl : PWEdit.read_in_file fuel s1 with
    | none => simp [hl] at h
    | some y =>
      obtain ⟨l1, l2⟩ := PWEdit.read_in_file_unwritten fuel s1 y hl
      rw [hl] at h
      dsimp only [] at h
      split_ifs at h with herr
      obtain ⟨err, s2⟩ := y
      simp only [] at herr l1 l2 h
      have hm2 : s2.modified = false := l1.trans c1
      have ho2 : s2.outFile = outFile := l2.trans c2
      obtain ⟨r1, r2, r3⟩ := PWEdit.run_start_unwritten s2
      obtain ⟨q1, q2, q3⟩ := PWEdit.loop_rounds_unmodified outFile s2.lines n _ s3
        ⟨r1.trans hm2, r2.trans ho2, r3⟩ h
      refine ⟨q1, q2, ⟨s1, s2, rfl, c1, ?_, hm2, q3⟩, PWEdit.save_unmodified s3 q1,
        fun buffer next exit => PWEdit.command_exit_unmodified buffer next exit s3 q1,
        fun r hr => ?_, hrun⟩
      · rw [hl, herr.1]
        rfl
      · obtain ⟨t1, t2, t3, t4⟩ := PWEdit.loop_round_unmodified s3 r q1 hr
        exact ⟨t1, t2, t3.trans q2, t4⟩

theorem C35_modified_never_set_witness :
    ∃ s3, PWEdit.run_rounds 10 2 0 (PWEdit.construct
        (FileReader.over "ab\ncd\n".toList 1 'x') FileWriter.willing
        ['d', 's', CARRIAGE_RETURN, 'j', ':', 'w', NEWLINE] [] (PWEdit.showing [] 7 7)) =
          some s3 ∧
      s3.modified = false ∧ s3.outFile = FileWriter.willing ∧
      PWEdit.save s3 = (NO_ERROR, s3) :=
  (Option.isSome_iff_exists.mp (by decide : (PWEdit.run_rounds 10 2 0 (PWEdit.construct
      (FileReader.over "ab\ncd\n".toList 1 'x') FileWriter.willing
      ['d', 's', CARRIAGE_RETURN, 'j', ':', 'w', NEWLINE] [] (PWEdit.showing [] 7 7))).isSome
        = true)).elim
    (fun s3 h => ⟨s3, h,
      (C35_modified_never_set _ _ _ _ _ _ _ _ s3 h).1,
      (C35_modified_never_set _ _ _ _ _ _ _ _ s3 h).2.1,
      (C35_modified_never_set _ _ _ _ _ _ _ _ s3 h).2.2.2.1⟩)

end PropWare
/-! # The stop-bit mask of the UART -/

namespace PropWare

namespace UART

/-- The value of the stop-bit mask computed for a data width from 1 to 16 and
a stop-bit width from 1 to 14, without and with the shift for a parity bit. -/
theorem stop_bit_mask_value (d w : Nat) (hd1 : 1 ≤ d) (hd : d ≤ 16) (hw1 : 1 ≤ w)
    (hw : w ≤ 14) :
    (stop_bit_mask_loop (w - 1) 1 <<< d) % 4294967296 = (2 ^ w - 1) * 2 ^ d ∧
    (((stop_bit_mask_loop (w - 1) 1 <<< d) % 4294967296) <<< 1) % 4294967296
      = (2 ^ w - 1) * 2 ^ (d + 1) := by
  interval_cases d <;> interval_cases w <;> decide

theorem set_stop_bit_mask_eq (u : UART) (hd1 : 1 ≤ u.dataWidth) (hd : u.dataWidth ≤ 16)
    (hw1 : 1 ≤ u.stopBitWidth) (hw : u.stopBitWidth ≤ 14) :
    (set_stop_bit_mask u).stopBitMask =
      (2 ^ u.stopBitWidth - 1) * 2 ^ (u.dataWidth + parity_bits u.parity) := by
  obtain ⟨h1, h2⟩ := stop_bit_mask_value u.dataWidth u.stopBitWidth hd1 hd hw1 hw
  unfold set_stop_bit_mask
  dsimp only []
  cases hp : u.parity
  · rw [if_neg (by simp), h1]
    rfl
  · rw [if_pos (by simp), h2]
    rfl
  · rw [if_pos (by simp), h2]
    rfl

theorem set_total_bits_value (u : UART) (hd : u.dataWidth ≤ 16) (hw : u.stopBitWidth ≤ 14) :
    (set_total_bits u).totalBits = 1 + u.dataWidth + parity_bits u.parity + u.stopBitWidth := by
  unfold set_total_bits
  dsimp only []
  cases hp : u.parity
  · rw [if_neg (by simp)]
    simp only [parity_bits]
    omega
  · rw [if_pos (by simp)]
    simp only [parity_bits]
    omega
  · rw [if_pos (by simp)]
    simp only [parity_bits]
    omega

theorem set_total_bits_stopBitMask (u : UART) :
    (set_total_bits u).stopBitMask = u.stopBitMask := by
  rw [set_total_bits_eq]

theorem set_stop_bit_width_valid (u : UART) (w : Nat) (hw1 : 1 ≤ w) (hw : w ≤ 14) :
    set_stop_bit_width u w =
      (NO_ERROR, set_total_bits (set_stop_bit_mask { u with stopBitWidth := w })) := by
  unfold set_stop_bit_width
  rw [if_neg (by omega)]

/-- What a successful `set_stop_bit_width` leaves. -/
theorem set_stop_bit_width_value (u : UART) (w : Nat) (hw1 : 1 ≤ w) (hw : w ≤ 14)
    (hd1 : 1 ≤ u.dataWidth) (hd : u.dataWidth ≤ 16) :
    (set_stop_bit_width u w).1 = NO_ERROR ∧
    (set_stop_bit_width u w).2.stopBitMask =
      (2 ^ w - 1) * 2 ^ (u.dataWidth + parity_bits u.parity) ∧
    (set_stop_bit_width u w).2.totalBits = 1 + u.dataWidth + parity_bits u.parity + w ∧
    (set_stop_bit_width u w).2.dataWidth = u.dataWidth ∧
    (set_stop_bit_width u w).2.parity = u.parity ∧
    (set_stop_bit_width u w).2.stopBitWidth = w := by
  rw [set_stop_bit_width_valid u w hw1 hw]
  refine ⟨rfl, ?_, ?_, ?_, ?_, ?_⟩
  · rw [set_total_bits_stopBitMask]
    exact set_stop_bit_mask_eq { u with stopBitWidth := w } hd1 hd hw1 hw
  · exact set_total_bits_value (set_stop_bit_mask { u with stopBitWidth := w }) hd hw
  · rw [set_total_bits_eq]; rfl
  · rw [set_total_bits_eq]; rfl
  · rw [set_total_bits_eq]; rfl

/-- What `set_parity` leaves. -/
theorem set_parity_value (u : UART) (parity : Parity) (hd1 : 1 ≤ u.dataWidth)
    (hd : u.dataWidth ≤ 16) (hw1 : 1 ≤ u.stopBitWidth) (hw : u.stopBitWidth ≤ 14) :
    (set_parity u parity).stopBitMask =
      (2 ^ u.stopBitWidth - 1) * 2 ^ (u.dataWidth + parity_bits parity) ∧
    (set_parity u parity).totalBits = 1 + u.dataWidth + parity_bits parity + u.stopBitWidth := by
  unfold set_parity
  refine ⟨?_, ?_⟩
  · rw [set_total_bits_stopBitMask]
    exact set_stop_bit_mask_eq (set_parity_mask { u with parity := parity }) hd1 hd hw1 hw
  · exact set_total_bits_value
      (set_stop_bit_mask (set_parity_mask { u with parity := parity })) hd hw

theorem set_parity_keeps (u : UART) (parity : Parity) :
    (set_parity u parity).dataWidth = u.dataWidth ∧
    (set_parity u parity).stopBitWidth = u.stopBitWidth ∧
    (set_parity u parity).parity = parity := by
  unfold set_parity
  rw [set_total_bits_eq]
  exact ⟨rfl, rfl, rfl⟩

/-- What a successful `set_data_width` leaves: the stop-bit mask is not among
the members it assigns. -/
theorem set_data_width_keeps (u : UART) (w : Nat) (h1 : 1 ≤ w) (h16 : w ≤ 16) :
    (set_data_width u w).1 = NO_ERROR ∧
    (set_data_width u w).2.dataWidth = w ∧
    (set_data_width u w).2.parity = u.parity ∧
    (set_data_width u w).2.stopBitWidth = u.stopBitWidth ∧
    (set_data_width u w).2.stopBitMask = u.stopBitMask := by
  rw [set_data_width_valid u w h1 h16, set_total_bits_eq]
  exact ⟨rfl, rfl, rfl, rfl, rfl⟩

theorem parity_bits_le (parity : Parity) : parity_bits parity ≤ 1 := by
  cases parity <;> decide

end UART

end PropWare

namespace PropWare

/-- C39.  When `set_stop_bit_width` or `set_parity` is the last call, on a
configuration with a data width from 1 to 16 and a stop-bit width from 1 to
14, the stop-bit mask is `(2^stopBitWidth - 1) * 2^(dataWidth + p)` and
`m_totalBits` is `1 + dataWidth + p + stopBitWidth`, at most 32.  When
`set_data_width` is the last call it is not: `set_data_width` calls
`set_parity_mask` and `set_total_bits` but not `set_stop_bit_mask`.  After
`set_data_width(8)`, `set_parity(NO_PARITY)`, `set_stop_bit_width(1)` and
`set_data_width(5)`, all successful, the mask is still `2^8`, not `2^5`. -/
theorem C39_stop_bit_mask_stale (u : UART) :
    (∀ w, 1 ≤ w → w ≤ 14 → 1 ≤ u.dataWidth → u.dataWidth ≤ 16 →
      (UART.set_stop_bit_width u w).1 = UART.NO_ERROR ∧
      (UART.set_stop_bit_width u w).2.stopBitMask =
        (2 ^ w - 1) * 2 ^ (u.dataWidth + UART.parity_bits u.parity) ∧
      (UART.set_stop_bit_width u w).2.totalBits =
        1 + u.dataWidth + UART.parity_bits u.parity + w ∧
      (UART.set_stop_bit_width u w).2.totalBits ≤ 32) ∧
    (∀ parity, 1 ≤ u.dataWidth → u.dataWidth ≤ 16 → 1 ≤ u.stopBitWidth →
      u.stopBitWidth ≤ 14 →
      (UART.set_parity u parity).stopBitMask =
        (2 ^ u.stopBitWidth - 1) * 2 ^ (u.dataWidth + UART.parity_bits parity) ∧
      (UART.set_parity u parity).totalBits =
        1 + u.dataWidth + UART.parity_bits parity + u.stopBitWidth ∧
      (UART.set_parity u parity).totalBits ≤ 32) ∧
    ((UART.set_data_width u 8).1 = UART.NO_ERROR ∧
      (UART.set_stop_bit_width
        (UART.set_parity (UART.set_data_width u 8).2 UART.Parity.NO_PARITY) 1).1
          = UART.NO_ERROR ∧
      (UART.set_data_width (UART.set_stop_bit_width
        (UART.set_parity (UART.set_data_width u 8).2 UART.Parity.NO_PARITY) 1).2 5).1
          = UART.NO_ERROR ∧
      (UART.set_data_width (UART.set_stop_bit_width
        (UART.set_parity (UART.set_data_width u 8).2 UART.Parity.NO_PARITY) 1).2 5).2.dataWidth
          = 5 ∧
      (UART.set_data_width (UART.set_stop_bit_width
        (UART.set_parity (UART.set_data_width u 8).2 UART.Parity.NO_PARITY) 1).2 5).2.parity
          = UART.Parity.NO_PARITY ∧
      (UART.set_data_width (UART.set_stop_bit_width
        (UART.set_parity (UART.set_data_width u 8).2 UART.Parity.NO_PARITY) 1).2 5).2.stopBitWidth
          = 1 ∧
      (UART.set_data_width (UART.set_stop_bit_width
        (UART.set_parity (UART.set_data_width u 8).2 UART.Parity.NO_PARITY) 1).2 5).2.stopBitMask
          = 2 ^ 8 ∧
      (UART.set_data_width (UART.set_stop_bit_width
        (UART.set_parity (UART.set_data_width u 8).2 UART.Parity.NO_PARITY) 1).2 5).2.stopBitMask
          ≠ (2 ^ 1 - 1) * 2 ^ (5 + 0) ∧
      (UART.set_data_width (UART.set_stop_bit_width
        (UART.set_parity (UART.set_data_width u 8).2 UART.Parity.NO_PARITY) 1).2 5).2.totalBits
          = 1 + 5 + 0 + 1) := by
  refine ⟨?_, ?_, ?_⟩
  · intro w hw1 hw hd1 hd
    obtain ⟨h1, h2, h3, _⟩ := UART.set_stop_bit_width_value u w hw1 hw hd1 hd
    have hp := UART.parity_bits_le u.parity
    exact ⟨h1, h2, h3, by rw [h3]; omega⟩
  · intro parity hd1 hd hw1 hw
    obtain ⟨h1, h2⟩ := UART.set_parity_value u parity hd1 hd hw1 hw
    have hp := UART.parity_bits_le parity
    exact ⟨h1, h2, by rw [h2]; omega⟩
  · obtain ⟨a1, a2, _, _, _⟩ := UART.set_data_width_keeps u 8 (by decide) (by decide)
    obtain ⟨b1, _, b3⟩ := UART.set_parity_keeps (UART.set_data_width u 8).2
      UART.Parity.NO_PARITY
    obtain ⟨c1, c2, _, c4, c5, c6⟩ := UART.set_stop_bit_width_value
      (UART.set_parity (UART.set_data_width u 8).2 UART.Parity.NO_PARITY) 1
      (by decide) (by decide) (by rw [b1, a2]; decide) (by rw [b1, a2]; decide)
    obtain ⟨d1, d2, d3, d4, d5⟩ := UART.set_data_width_keeps
      (UART.set_stop_bit_width
        (UART.set_parity (UART.set_data_width u 8).2 UART.Parity.NO_PARITY) 1).2 5
      (by decide) (by decide)
    rw [b1, a2, b3] at c2
    have e : (UART.set_data_width (UART.set_stop_bit_width
        (UART.set_parity (UART.set_data_width u 8).2 UART.Parity.NO_PARITY) 1).2
          5).2.stopBitMask = 2 ^ 8 := by
      rw [d5, c2]
      decide
    refine ⟨a1, c1, d1, d2, by rw [d3, c5, b3], by rw [d4, c6], e, by rw [e]; decide, ?_⟩
    have ht := UART.set_total_bits_value
      (UART.set_parity_mask { (UART.set_stop_bit_width
        (UART.set_parity (UART.set_data_width u 8).2 UART.Parity.NO_PARITY) 1).2 with
          dataWidth := 5, dataMask := UART.data_mask_loop 5 0 0 })
      (show (5 : Nat) ≤ 16 by decide) (by
        show (UART.set_stop_bit_width
          (UART.set_parity (UART.set_data_width u 8).2 UART.Parity.NO_PARITY) 1).2.stopBitWidth
            ≤ 14
        rw [c6]; decide)
    rw [UART.set_data_width_valid _ 5 (by decide) (by decide)]
    rw [ht]
    show 1 + 5 + UART.parity_bits (UART.set_stop_bit_width
        (UART.set_parity (UART.set_data_width u 8).2 UART.Parity.NO_PARITY) 1).2.parity +
      (UART.set_stop_bit_width
        (UART.set_parity (UART.set_data_width u 8).2 UART.Parity.NO_PARITY) 1).2.stopBitWidth
      = 1 + 5 + 0 + 1
    rw [c5, b3, c6]
    rfl

theorem C39_stop_bit_mask_stale_witness :
    (UART.set_data_width (UART.set_stop_bit_width
        (UART.set_parity (UART.set_data_width UART.constructed 8).2 UART.Parity.NO_PARITY)
          1).2 5).2.stopBitMask = 2 ^ 8 ∧
    (UART.set_stop_bit_width UART.constructed 2).2.stopBitMask
      = (2 ^ 2 - 1) * 2 ^ (UART.constructed.dataWidth +
          UART.parity_bits UART.constructed.parity) :=
  ⟨(C39_stop_bit_mask_stale UART.constructed).2.2.2.2.2.2.2.2.1,
    ((C39_stop_bit_mask_stale UART.constructed).1 2 (by decide) (by decide) (by decide)
      (by decide)).2.1⟩

end PropWare
/-! # `SPI::puts` -/

namespace PropWare

namespace SPI

/-- The loop of `puts` over the characters of a string standing in memory from
a non-null address on: as long as the fuel lasts it sends them one by one and
goes on. -/
theorem puts_loop_string (memory : Nat → Char) (s : List Char) :
    ∀ (fuel a : Nat) (spi : SPI), 0 < a → a + s.length < 4294967296 →
      (∀ i, i < s.length → memory (a + i) = s.getD i NULL_TERMINATOR) →
      puts_loop memory (fuel + s.length) a spi =
        puts_loop memory fuel (a + s.length) { sent := spi.sent ++ s } := by
  induction s with
  | nil =>
    intro fuel a spi _ _ _
    simp
  | cons c rest ih =>
    intro fuel a spi ha hfit hmem
    simp only [List.length_cons] at hfit ⊢
    rw [show fuel + (rest.length + 1) = (fuel + rest.length) + 1 by omega, puts_loop,
      if_pos (by omega), show (a + 1) % 4294967296 = a + 1 by omega]
    have h0 : memory a = c := by
      have := hmem 0 (by simp)
      simpa using this
    rw [ih fuel (a + 1) _ (by omega) (by omega) (fun i hi => by
      have := hmem (i + 1) (by simp only [List.length_cons]; omega)
      rw [show a + 1 + i = a + (i + 1) by omega, this]
      simp)]
    rw [h0, show a + 1 + rest.length = a + (rest.length + 1) by omega]
    simp [put_char]

theorem puts_loop_none_le (memory : Nat → Char) (fuel fuel2 : Nat) (a : Nat) (spi : SPI)
    (h : puts_loop memory fuel2 a spi = none) (hle : fuel ≤ fuel2) :
    puts_loop memory fuel a spi = none := by
  induction fuel generalizing fuel2 a spi with
  | zero => rfl
  | succ n ih =>
    obtain ⟨m, rfl⟩ : ∃ m, fuel2 = m + 1 := ⟨fuel2 - 1, by omega⟩
    rw [puts_loop] at h ⊢
    split_ifs at h ⊢
    · exact ih m _ _ h (by omega)

/-- Whatever the loop of `puts` returns with, it has sent what it had sent
before and then what it has read. -/
theorem puts_loop_sent (memory : Nat → Char) (fuel : Nat) (a : Nat) (spi r : SPI)
    (h : puts_loop memory fuel a spi = some r) : ∃ more, r.sent = spi.sent ++ more := by
  induction fuel generalizing a spi with
  | zero => cases h
  | succ n ih =>
    rw [puts_loop] at h
    split_ifs at h
    · obtain ⟨more, hm⟩ := ih _ _ h
      exact ⟨memory a :: more, by rw [hm]; simp [put_char]⟩
    · cases h
      exact ⟨[], by simp⟩

end SPI

/-- C40, for a string `s` of fewer than `2^32 - 1` characters standing in
memory from a non-null address on, its terminator after it.  `puts` tests the
pointer, `while (sPtr)`, not the character it points to: after the characters
of `s` the loop goes on, sends the terminator and reads on beyond the string.
Within `n + 1` rounds (`n` the length of `s`) it has not returned, and
whenever it returns it has called `put_char` for each character of `s`, then
for the terminator, then for whatever follows: more than `n` times. -/
theorem C40_puts_runs_past_terminator (memory : Nat → Char) (s : List Char) (a : Nat)
    (spi : SPI) (ha : 0 < a) (hfit : a + s.length + 1 < 4294967296)
    (hmem : ∀ i, i < s.length → memory (a + i) = s.getD i NULL_TERMINATOR)
    (hend : memory (a + s.length) = NULL_TERMINATOR) :
    (∀ fuel, fuel ≤ s.length + 1 → SPI.puts memory fuel a spi = none) ∧
    (∀ fuel r, SPI.puts memory fuel a spi = some r →
      ∃ more, r.sent = spi.sent ++ s ++ [NULL_TERMINATOR] ++ more ∧
        spi.sent.length + s.length < r.sent.length) := by
  have hstep : ∀ fuel, SPI.puts_loop memory (fuel + 1 + s.length) a spi =
      SPI.puts_loop memory fuel (a + s.length + 1)
        { sent := spi.sent ++ s ++ [NULL_TERMINATOR] } := by
    intro fuel
    rw [SPI.puts_loop_string memory s (fuel + 1) a spi ha (by omega) hmem, SPI.puts_loop,
      if_pos (by omega), show (a + s.length + 1) % 4294967296 = a + s.length + 1 by omega, hend]
    rfl
  constructor
  · intro fuel hle
    unfold SPI.puts
    refine SPI.puts_loop_none_le memory fuel (0 + 1 + s.length) a spi ?_ (by omega)
    rw [hstep 0]
    rfl
  · intro fuel r hr
    unfold SPI.puts at hr
    by_cases hf : fuel ≤ s.length + 1
    · rw [SPI.puts_loop_none_le memory fuel (0 + 1 + s.length) a spi
        (by rw [hstep 0]; rfl) (by omega)] at hr
      cases hr
    · obtain ⟨k, rfl⟩ : ∃ k, fuel = k + 1 + s.length := ⟨fuel - 1 - s.length, by omega⟩
      rw [hstep k] at hr
      obtain ⟨more, hm⟩ := SPI.puts_loop_sent memory k _ _ r hr
      refine ⟨more, hm, ?_⟩
      rw [hm]
      simp only [List.length_append, List.length_singleton]
      omega

theorem C40_puts_runs_past_terminator_witness :
    SPI.puts (SPI.holding 100 ['h', 'i', NULL_TERMINATOR] 'z') 3 100 { sent := [] } = none ∧
    (SPI.puts (SPI.holding 100 ['h', 'i', NULL_TERMINATOR] 'z') 5 100 { sent := [] }).map
      (fun r => r.sent) = none :=
  ⟨(C40_puts_runs_past_terminator (SPI.holding 100 ['h', 'i', NULL_TERMINATOR] 'z') ['h', 'i']
      100 { sent := [] } (by decide) (by decide)
      (fun i hi => by
        have hi2 : i < 2 := hi
        interval_cases i <;> rfl) rfl).1 3 (by decide),
    by decide⟩

end PropWare
/-! # The LCD: `put_char` -/

namespace PropWare

namespace HD44780

/-- What the `default` case of `put_char` does to the tracked column. -/
theorem put_printable_curPosCol (lcd : HD44780) (c : Char) :
    (put_printable lcd c).curPosCol =
      if lcd.memMap.charColumns = (lcd.curPosCol + 1) % 256 then 0
      else (lcd.curPosCol + 1) % 256 := by
  unfold put_printable
  dsimp only [write_character]
  split_ifs <;> rfl

/-- The loop of `tab` is left within four rounds. -/
theorem tab_loop_returns (fuel : Nat) (lcd : HD44780)
    (h : 4 - lcd.curPosCol % 4 ≤ fuel) : ∃ r, tab_loop fuel lcd = some r := by
  induction fuel generalizing lcd with
  | zero => omega
  | succ fuel ih =>
    rw [tab_loop]
    by_cases hc : (put_printable lcd ' ').curPosCol % TAB_WIDTH ≠ 0
    · rw [if_pos hc]
      apply ih
      have hp := put_printable_curPosCol lcd ' '
      unfold TAB_WIDTH at hc
      split_ifs at hp with h1
      · rw [hp] at hc
        omega
      · rw [hp] at hc ⊢
        omega
    · rw [if_neg hc]
      exact ⟨_, rfl⟩

theorem tab_returns (lcd : HD44780) : ∃ r, tab lcd = some r :=
  tab_loop_returns TAB_WIDTH lcd (by unfold TAB_WIDTH; omega)

end HD44780

/-- C38 at a BACKSPACE received in the cleared state, for every dimension
setting: `put_char` returns, and the tracked cursor is then at the row
`charRows` and the column `charColumns`, neither of which is on the display.
`backspace()` at column 0 takes `nextColumn = charColumns` and, at row 0,
`nextRow = charRows`, one more than the last column and the last row. -/
theorem C38_backspace_leaves_display (dimensions : HD44780.Dimensions) (showCursor : Bool) :
    BACKSPACE ≠ ESCAPE ∧
    ∃ lcd, HD44780.put_char (HD44780.construct dimensions showCursor) BACKSPACE = some lcd ∧
      lcd.memMap = (HD44780.construct dimensions showCursor).memMap ∧
      lcd.curPosRow = lcd.memMap.charRows ∧ lcd.curPosCol = lcd.memMap.charColumns ∧
      ¬ (lcd.curPosRow < lcd.memMap.charRows) ∧ ¬ (lcd.curPosCol < lcd.memMap.charColumns) := by
  refine ⟨by decide, HD44780.backspace (HD44780.construct dimensions showCursor), ?_, rfl, rfl,
    rfl, ?_, ?_⟩
  · cases dimensions <;> cases showCursor <;> rfl
  · exact Nat.lt_irrefl _
  · exact Nat.lt_irrefl _

end PropWare
/-! # The cursor sequence read back by the LCD -/

namespace PropWare

namespace HD44780

theorem digitChar_digit (d : Nat) (h : d < 10) :
    48 ≤ (Nat.digitChar d).toNat ∧ (Nat.digitChar d).toNat ≤ 57 := by
  interval_cases d <;> decide

theorem toDigitsCore_digit (fuel n : Nat) (acc : List Char)
    (h : ∀ c ∈ acc, 48 ≤ c.toNat ∧ c.toNat ≤ 57) :
    ∀ c ∈ Nat.toDigitsCore 10 fuel n acc, 48 ≤ c.toNat ∧ c.toNat ≤ 57 := by
  induction fuel generalizing n acc with
  | zero => simpa [Nat.toDigitsCore] using h
  | succ fuel ih =>
    rw [Nat.toDigitsCore]
    have hd : ∀ c ∈ Nat.digitChar (n % 10) :: acc, 48 ≤ c.toNat ∧ c.toNat ≤ 57 := by
      intro c hm
      rcases List.mem_cons.mp hm with e | e
      · rw [e]
        exact digitChar_digit _ (Nat.mod_lt _ (by decide))
      · exact h c e
    split_ifs
    · exact hd
    · exact ih _ _ hd

/-- The characters `Printer` writes for an unsigned number are digits. -/
theorem toDigits_digit (n : Nat) : ∀ c ∈ Nat.toDigits 10 n, 48 ≤ c.toNat ∧ c.toNat ≤ 57 :=
  toDigitsCore_digit _ _ _ (fun _ h => absurd h (List.not_mem_nil _))

/-- For a number up to 255 they are at least one and at most three, and the
digits of the number. -/
theorem toDigits_small (n : Nat) (h : n ≤ 255) :
    Nat.toDigits 10 n ≠ [] ∧ (Nat.toDigits 10 n).length ≤ 3 ∧
      atoi_digits (Nat.toDigits 10 n) 0 = n := by
  interval_cases n <;> decide

theorem atoi_digits_append (ds : List Char) (t : Char) (rest : List Char) (value : Nat)
    (hd : ∀ c ∈ ds, 48 ≤ c.toNat ∧ c.toNat ≤ 57) (ht : ¬ (48 ≤ t.toNat ∧ t.toNat ≤ 57)) :
    atoi_digits (ds ++ t :: rest) value = atoi_digits ds value := by
  induction ds generalizing value with
  | nil =>
    rw [List.nil_append, atoi_digits, atoi_digits]
    rw [if_neg (by simpa using ht)]
  | cons d ds ih =>
    rw [List.cons_append, atoi_digits, atoi_digits]
    have h1 := hd d (List.mem_cons_self _ _)
    rw [if_pos (by simpa using h1), if_pos (by simpa using h1)]
    exact ih _ (fun c hc => hd c (List.mem_cons_of_mem _ hc))

/-- `atoi` on digits followed by a character that is none. -/
theorem atoi_digits_then (ds : List Char) (t : Char) (rest : List Char) (hne : ds ≠ [])
    (hd : ∀ c ∈ ds, 48 ≤ c.toNat ∧ c.toNat ≤ 57) (ht : ¬ (48 ≤ t.toNat ∧ t.toNat ≤ 57)) :
    atoi (ds ++ t :: rest) = (atoi_digits ds 0 : Int) := by
  obtain ⟨d, ds1, rfl⟩ := List.exists_cons_of_ne_nil hne
  have h1 := hd d (List.mem_cons_self _ _)
  have hsp : ¬ (d = ' ' ∨ (9 ≤ d.toNat ∧ d.toNat ≤ 13)) := by
    rintro (e | e)
    · rw [e] at h1
      exact absurd h1.1 (by decide)
    · omega
  have hm : d ≠ '-' := by
    intro e
    rw [e] at h1
    exact absurd h1.1 (by decide)
  have hp : d ≠ '+' := by
    intro e
    rw [e] at h1
    exact absurd h1.1 (by decide)
  unfold atoi
  rw [List.cons_append, List.dropWhile_cons_of_neg (by simpa using hsp)]
  simp only [List.head?_cons, Option.some.injEq, hm, hp, if_false]
  rw [← List.cons_append, atoi_digits_append _ _ _ _ hd ht]

theorem after_semicolon_digits (ds : List Char) (rest : List Char)
    (hd : ∀ c ∈ ds, 48 ≤ c.toNat ∧ c.toNat ≤ 57) :
    after_semicolon (ds ++ ';' :: rest) = some rest := by
  induction ds with
  | nil =>
    rw [List.nil_append, after_semicolon, if_neg (by simp)]
  | cons d ds ih =>
    have h1 := hd d (List.mem_cons_self _ _)
    have hne : d ≠ ';' := by
      intro e
      rw [e] at h1
      exact absurd h1.2 (by decide)
    rw [List.cons_append, after_semicolon, if_pos hne]
    exact ih (fun c hc => hd c (List.mem_cons_of_mem _ hc))

end HD44780

end PropWare

namespace PropWare

namespace HD44780

/-- Inside an escape sequence a character that does not end it is stored. -/
theorem put_char_stores (lcd : HD44780) (c : Char) (hin : lcd.inEscapeSequence = true)
    (hlen : lcd.escapeSequence.length < 31) (hc : final_escape_sequence_character c = false)
    (hnul : c ≠ NULL_TERMINATOR) :
    put_char lcd c = some { lcd with escapeSequence := lcd.escapeSequence ++ [c] } := by
  unfold put_char
  rw [if_pos hin]
  unfold handle_escape_sequence_character
  dsimp only []
  rw [if_pos (by unfold ESCAPE_SEQUENCE_BUFFER_LENGTH; omega), if_neg hnul,
    if_neg (by rw [hc]; simp)]

/-- Inside an escape sequence `puts` stores every character of a run of
characters none of which ends the sequence. -/
theorem puts_stores (ds more : List Char) (lcd : HD44780) (hin : lcd.inEscapeSequence = true)
    (hlen : lcd.escapeSequence.length + ds.length ≤ 31)
    (hd : ∀ c ∈ ds, final_escape_sequence_character c = false ∧ c ≠ NULL_TERMINATOR) :
    puts (ds ++ more) lcd =
      puts more { lcd with escapeSequence := lcd.escapeSequence ++ ds } := by
  induction ds generalizing lcd with
  | nil => simp
  | cons d ds ih =>
    obtain ⟨h1, h2⟩ := hd d (List.mem_cons_self _ _)
    simp only [List.length_cons] at hlen
    rw [List.cons_append, puts, if_pos h2, put_char_stores lcd d hin (by omega) h1 h2,
      Option.some_bind]
    have hi := ih { lcd with escapeSequence := lcd.escapeSequence ++ [d] } hin
      (by simp only [List.length_append, List.length_singleton]; omega)
      (fun c hc => hd c (List.mem_cons_of_mem _ hc))
    rw [hi]
    simp only [List.append_assoc, List.singleton_append]

/-- Inside an escape sequence a character that ends it, received when the
string holds more than the escape character, is stored and the command
performed. -/
theorem put_char_final (lcd : HD44780) (c : Char) (hin : lcd.inEscapeSequence = true)
    (hlen : lcd.escapeSequence.length < 31) (hne1 : 1 ≠ lcd.escapeSequence.length)
    (hc : final_escape_sequence_character c = true) (hnul : c ≠ NULL_TERMINATOR) :
    put_char lcd c =
      perform_escape_sequence_command
        { lcd with escapeSequence := lcd.escapeSequence ++ [c], inEscapeSequence := false }
        (lcd.escapeSequence.length + 1) := by
  unfold put_char
  rw [if_pos hin]
  unfold handle_escape_sequence_character
  dsimp only []
  rw [if_pos (by unfold ESCAPE_SEQUENCE_BUFFER_LENGTH; omega), if_neg hnul,
    if_pos ⟨hne1, hc⟩]

theorem digit_stored (c : Char) (h : 48 ≤ c.toNat ∧ c.toNat ≤ 57) :
    final_escape_sequence_character c = false ∧ c ≠ NULL_TERMINATOR := by
  constructor
  · unfold final_escape_sequence_character
    rw [decide_eq_false_iff_not]
    intro hf
    have : '@'.toNat = 64 := by decide
    omega
  · intro e
    rw [e] at h
    exact absurd h.1 (by decide)

/-- The LCD after the characters of `ESC [ row ; column H`, row and column
decimal numbers from 1 to 255, received outside an escape sequence. -/
theorem puts_cursor_sequence (lcd : HD44780) (r c : Nat) (hin : lcd.inEscapeSequence = false)
    (hr1 : 1 ≤ r) (hr : r ≤ 255) (hc1 : 1 ≤ c) (hc : c ≤ 255) :
    puts (PWEdit.cursor_sequence r c) lcd =
      some { move { lcd with inEscapeSequence := false,
                             escapeSequence := PWEdit.cursor_sequence r c } (r - 1) (c - 1) with
        inEscapeSequence := false } := by
  obtain ⟨rne, rlen, rval⟩ := toDigits_small r hr
  obtain ⟨cne, clen, cval⟩ := toDigits_small c hc
  have rdig := toDigits_digit r
  have cdig := toDigits_digit c
  unfold PWEdit.cursor_sequence
  -- ESC
  rw [puts, if_pos (by decide)]
  have e1 : put_char lcd ESCAPE = some (start_escape_sequence lcd) := by
    unfold put_char
    rw [if_neg (by rw [hin]; decide), if_pos rfl]
  rw [e1, Option.some_bind]
  -- '['
  rw [puts, if_pos (by decide)]
  have e2 : put_char (start_escape_sequence lcd) '[' =
      some { lcd with inEscapeSequence := true, escapeSequence := [ESCAPE, '['] } := by
    rfl
  rw [e2, Option.some_bind]
  -- the row, the semicolon, the column
  have e3 : Nat.toDigits 10 r ++ ';' :: (Nat.toDigits 10 c ++ ['H']) =
      (Nat.toDigits 10 r ++ ';' :: Nat.toDigits 10 c) ++ ['H'] := by simp
  rw [e3, puts_stores _ _ _ rfl (by
      simp only [List.length_append, List.length_cons, List.length_nil]
      omega) (by
      intro x hx
      rcases List.mem_append.mp hx with h | h
      · exact digit_stored x (rdig x h)
      · rcases List.mem_cons.mp h with h | h
        · rw [h]; exact ⟨by decide, by decide⟩
        · exact digit_stored x (cdig x h))]
  -- 'H'
  rw [puts, if_pos (by decide)]
  rw [put_char_final _ 'H' rfl (by
      simp only [List.length_append, List.length_cons, List.length_nil]
      omega) (by
      simp only [List.length_append, List.length_cons, List.length_nil]
      omega) (by decide) (by decide)]
  unfold perform_escape_sequence_command
  dsimp only []
  have e4 : ([ESCAPE, '['] ++ (Nat.toDigits 10 r ++ ';' :: Nat.toDigits 10 c) ++ ['H']).getD
      (([ESCAPE, '['] ++ (Nat.toDigits 10 r ++ ';' :: Nat.toDigits 10 c)).length + 1 - 1)
      NULL_TERMINATOR = 'H' := by
    rw [Nat.add_sub_cancel, List.getD_eq_getElem?_getD, List.getElem?_append_right (le_refl _)]
    simp
  rw [e4, if_pos rfl]
  unfold move_via_command_sequence
  dsimp only []
  have e5 : List.drop 2 ([ESCAPE, '['] ++ (Nat.toDigits 10 r ++ ';' :: Nat.toDigits 10 c)
      ++ ['H']) = Nat.toDigits 10 r ++ ';' :: (Nat.toDigits 10 c ++ ['H']) := by
    simp
  obtain ⟨d, ds, hds⟩ := List.exists_cons_of_ne_nil rne
  have e6 : List.drop 3 ([ESCAPE, '['] ++ (Nat.toDigits 10 r ++ ';' :: Nat.toDigits 10 c)
      ++ ['H']) = ds ++ ';' :: (Nat.toDigits 10 c ++ ['H']) := by
    rw [hds]
    simp
  rw [e5, e6, atoi_digits_then _ ';' _ rne rdig (by decide), rval,
    after_semicolon_digits ds _ (fun x hx => rdig x (by rw [hds]; exact List.mem_cons_of_mem _ hx)),
    Option.map_some', atoi_digits_then _ 'H' _ cne cdig (by decide), cval, Option.map_some']
  have e7 : (((r : Int) - 1) % 256).toNat = r - 1 := by omega
  have e8 : (((c : Int) - 1) % 256).toNat = c - 1 := by omega
  rw [e7, e8]
  simp [PWEdit.cursor_sequence, puts]

end HD44780

end PropWare

namespace PropWare

/-- C32: for a row and a column from 1 to 255, `PWEdit::move_cursor` writes
ESC, `[`, the decimal digits of the row, `;`, the decimal digits of the
column, `H`; and an LCD that is not inside an escape sequence, given these
characters one after the other through `put_char`, writes no character byte,
is outside an escape sequence afterwards, and has its cursor at row `r - 1`,
column `c - 1`. -/
theorem C32_cursor_sequence_round_trip (s : PWEdit) (lcd : HD44780) (r c : Nat)
    (hin : lcd.inEscapeSequence = false)
    (hr1 : 1 ≤ r) (hr : r ≤ 255) (hc1 : 1 ≤ c) (hc : c ≤ 255) :
    (PWEdit.move_cursor s r c).printer =
      s.printer ++ (ESCAPE :: '[' :: (Nat.toDigits 10 r ++ ';' :: (Nat.toDigits 10 c ++ ['H'])))
      ∧
    ((∀ ch ∈ Nat.toDigits 10 r, 48 ≤ ch.toNat ∧ ch.toNat ≤ 57) ∧
      HD44780.atoi_digits (Nat.toDigits 10 r) 0 = r) ∧
    ((∀ ch ∈ Nat.toDigits 10 c, 48 ≤ ch.toNat ∧ ch.toNat ≤ 57) ∧
      HD44780.atoi_digits (Nat.toDigits 10 c) 0 = c) ∧
    ∃ lcd1, HD44780.puts (PWEdit.cursor_sequence r c) lcd = some lcd1 ∧
      lcd1.characters = lcd.characters ∧ lcd1.inEscapeSequence = false ∧
      lcd1.curPosRow = r - 1 ∧ lcd1.curPosCol = c - 1 :=
  ⟨rfl, ⟨HD44780.toDigits_digit r, (HD44780.toDigits_small r hr).2.2⟩,
    ⟨HD44780.toDigits_digit c, (HD44780.toDigits_small c hc).2.2⟩,
    _, HD44780.puts_cursor_sequence lcd r c hin hr1 hr hc1 hc, rfl, rfl, rfl, rfl⟩

theorem C32_cursor_sequence_round_trip_witness :
    (PWEdit.move_cursor PWEdit.twoLines 2 13).printer =
      PWEdit.twoLines.printer ++ [ESCAPE, '[', '2', ';', '1', '3', 'H'] ∧
    ∃ lcd1, HD44780.puts (PWEdit.cursor_sequence 2 13)
        (HD44780.construct HD44780.Dimensions.DIM_16x2 false) = some lcd1 ∧
      lcd1.characters = [] ∧ lcd1.inEscapeSequence = false ∧
      lcd1.curPosRow = 1 ∧ lcd1.curPosCol = 12 :=
  ⟨(C32_cursor_sequence_round_trip PWEdit.twoLines
      (HD44780.construct HD44780.Dimensions.DIM_16x2 false) 2 13 rfl (by decide) (by decide)
      (by decide) (by decide)).1,
    (C32_cursor_sequence_round_trip PWEdit.twoLines
      (HD44780.construct HD44780.Dimensions.DIM_16x2 false) 2 13 rfl (by decide) (by decide)
      (by decide) (by decide)).2.2.2⟩

end PropWare
/-! # What save-then-quit writes -/

namespace PropWare

namespace PWEdit

/-- `print_line_at_row` writes the cursor sequence and the text of the row,
and changes nothing else. -/
theorem print_line_at_row_row_text (s : PWEdit) (c : Nat) (it : Int) (row : Nat) :
    print_line_at_row s c it row = puts s (cursor_sequence row 1 ++ row_text s c it) := by
  unfold print_line_at_row row_text
  simp only [move_cursor, puts_puts, List.append_assoc]

theorem row_text_congr (s t : PWEdit) (c : Nat) (it : Int) (hl : t.lines = s.lines)
    (hs : t.stray = s.stray) (hc : t.columns = s.columns) :
    row_text t c it = row_text s c it := by
  unfold row_text
  rw [deref_congr s t it hl hs, hc]

/-- What the loop of `save` has written when it returns without an error. -/
theorem save_lines_printer (ls : List (List Char)) (n : Nat) (s : PWEdit)
    (h : (save_lines ls n s).1 = 0) :
    (save_lines ls n s).2.printer = s.printer ++ save_progress s.rows ls n := by
  induction ls generalizing n s with
  | nil => simp [save_lines, save_progress]
  | cons l ls ih =>
    rw [save_lines] at h ⊢
    rw [save_progress]
    split_ifs at h ⊢ with hr
    · exact absurd h hr
    · rw [ih _ _ h]
      simp [move_cursor, put_uint_eq_puts]

/-- What `save` has written on a modified document when it returns without an
error: the trimming message, the saving message and the line numbers, each
after its cursor sequence. -/
theorem save_printer (s : PWEdit) (hm : s.modified = true) (h : (save s).1 = 0) :
    (save s).2.printer = s.printer ++ (cursor_sequence s.rows 1 ++ trimmingMessage ++
      cursor_sequence s.rows 1 ++ savingMessage ++ save_progress s.rows s.lines 1) := by
  unfold save at h ⊢
  rw [if_pos hm] at h ⊢
  dsimp only [] at h ⊢
  split_ifs at h ⊢ with h1 h2 h3 h4
  · exact absurd h h1
  · exact absurd h h2
  · exact absurd h h3
  · exact absurd h h4
  · have e := save_lines_printer _ 1 _ (of_not_not h3)
    rw [e]
    simp [move_cursor]

end PWEdit

end PropWare

namespace PropWare

namespace PWEdit

/-- What `rewrite_last_line` and the cursor sequence after it write at the end
of `command`. -/
theorem command_tail_printer (y s : PWEdit)
    (hd : document_and_cursor y = document_and_cursor s) :
    (move_cursor (rewrite_last_line y) (rewrite_last_line y).termRow
      (rewrite_last_line y).termColumn).printer =
      y.printer ++ (cursor_sequence s.rows 1 ++ row_text s s.firstColumnDisplayed
        (s.selectedLine + ((usub (uadd s.firstLineDisplayed s.rows) 1 - s.selectedLineNumber
          : Nat) : Int))) ++ cursor_sequence s.termRow s.termColumn := by
  obtain ⟨d1, d2, d3, d4, d5, d6, d7, d8, _, _, d11, d12⟩ := document_and_cursor_fields s y hd
  unfold rewrite_last_line
  dsimp only []
  rw [print_line_at_row_row_text, row_text_congr s y _ _ d1 d2 d3, d4, d7, d8, d11, d12]
  simp only [move_cursor, puts_printer, puts_termRow, puts_termColumn, d5, d6]

/-- The command `wq` on a modified document whose writer accepts every call,
as a whole: prompt and echo, the save, the bottom row and the cursor. -/
theorem command_save_quit_printer (s : PWEdit) (t : Char) (rest : List Char)
    (hm : s.modified = true) (hok : ∀ h, s.outFile.respond h = NO_ERROR)
    (hs : s.scanner = SAVE_CHAR :: EXIT_CHAR :: t :: rest)
    (ht : not_enter_key t = false) (s2 : PWEdit)
    (hc : command s false = some (NO_ERROR, true, s2)) :
    s2.printer = s.printer ++
      (cursor_sequence s.rows 1 ++ List.replicate (s.columns + 1) ' ' ++
        cursor_sequence s.rows 1 ++ [COMMAND_START, SAVE_CHAR, EXIT_CHAR]) ++
      (cursor_sequence s.rows 1 ++ trimmingMessage ++ cursor_sequence s.rows 1 ++
        savingMessage ++ save_progress s.rows s.lines 1) ++
      (cursor_sequence s.rows 1 ++ row_text s s.firstColumnDisplayed
        (s.selectedLine + ((usub (uadd s.firstLineDisplayed s.rows) 1 - s.selectedLineNumber
          : Nat) : Int))) ++
      cursor_sequence s.termRow s.termColumn := by
  have hcmd2 : ∀ c ∈ [SAVE_CHAR, EXIT_CHAR], not_enter_key c = true := by decide
  rw [command_eq s _ false [SAVE_CHAR, EXIT_CHAR] t rest (by simpa using hs) hcmd2 ht rfl] at hc
  generalize hx : puts (set_scanner s rest) (cursor_sequence s.rows 1 ++
      List.replicate (s.columns + 1) ' ' ++ cursor_sequence s.rows 1 ++ [COMMAND_START] ++
      [SAVE_CHAR, EXIT_CHAR]) = x at hc
  have hxm : x.modified = true := by rw [← hx]; simpa using hm
  have hxo : x.outFile = s.outFile := by rw [← hx]; simp
  have hxl : x.lines = s.lines := by rw [← hx]; simp
  have hxr : x.rows = s.rows := by rw [← hx]; simp
  have hxp : x.printer = s.printer ++ (cursor_sequence s.rows 1 ++
      List.replicate (s.columns + 1) ' ' ++ cursor_sequence s.rows 1 ++
      [COMMAND_START, SAVE_CHAR, EXIT_CHAR]) := by
    rw [← hx]
    simp
  have hxd : document_and_cursor x = document_and_cursor s := by rw [← hx]; simp
  obtain ⟨r1, _, r3⟩ := save_run x hxm
  rw [hxo, hxl, FileWriter.run_willing _ _ hok] at r1 r3
  simp only [] at r1 r3
  have r3b : (save x).2.modified = false := by simpa [NO_ERROR] using r3
  have hyd : document_and_cursor (save x).2 = document_and_cursor s :=
    (document_and_cursor_save x).trans hxd
  have hyp := save_printer x hxm r1
  rw [hxp, hxr, hxl] at hyp
  rw [if_pos (show ([SAVE_CHAR, EXIT_CHAR] ++ [t]).getD 0 NULL_TERMINATOR = SAVE_CHAR from rfl),
    if_neg (by rw [r1]; simp [NO_ERROR]),
    command_exit_unmodified _ 1 false (save x).2 r3b] at hc
  have e := (Prod.mk.inj (Prod.mk.inj (Option.some.inj hc)).2).2
  rw [← e, command_tail_printer (save x).2 s hyd, hyp]

end PWEdit

/-- C2, as the code has it.  On a modified document whose writer accepts
every call, the command `wq` followed by a terminator saves the document in
full, which clears the modified flag, and then sets the exit flag and returns
`NO_ERROR`; no keystroke after the terminator is awaited.  All that is
written is the prompt with the echo of `wq`, the messages and line numbers of
the save, the bottom row of the window and the cursor sequence: the warning of
unsaved changes is not. -/
theorem C2_save_then_quit (s : PWEdit) (t : Char) (rest : List Char)
    (hm : s.modified = true) (hok : ∀ h, s.outFile.respond h = NO_ERROR)
    (hs : s.scanner = SAVE_CHAR :: EXIT_CHAR :: t :: rest)
    (ht : PWEdit.not_enter_key t = false) :
    ∃ s2, PWEdit.command s false = some (NO_ERROR, true, s2) ∧
      s2.outFile.calls = s.outFile.calls ++ save_calls s.lines ∧
      s2.modified = false ∧ s2.lines = s.lines ∧ s2.scanner = rest ∧
      s2.printer = s.printer ++
        (PWEdit.cursor_sequence s.rows 1 ++ List.replicate (s.columns + 1) ' ' ++
          PWEdit.cursor_sequence s.rows 1 ++ [COMMAND_START, SAVE_CHAR, EXIT_CHAR]) ++
        (PWEdit.cursor_sequence s.rows 1 ++ PWEdit.trimmingMessage ++
          PWEdit.cursor_sequence s.rows 1 ++ PWEdit.savingMessage ++
          PWEdit.save_progress s.rows s.lines 1) ++
        (PWEdit.cursor_sequence s.rows 1 ++ PWEdit.row_text s s.firstColumnDisplayed
          (s.selectedLine + ((usub (uadd s.firstLineDisplayed s.rows) 1 -
            s.selectedLineNumber : Nat) : Int))) ++
        PWEdit.cursor_sequence s.termRow s.termColumn :=
  let ⟨s2, h1, h2, h3, h4, h5⟩ :=
    PWEdit.command_save_quit s [] t rest false hm hok hs (by simp) ht
  ⟨s2, h1, h2, h3, h4, h5, PWEdit.command_save_quit_printer s t rest hm hok hs ht s2 h1⟩

set_option maxRecDepth 100000 in
theorem C2_save_then_quit_witness :
    ∃ s2, PWEdit.command (PWEdit.unsaved [SAVE_CHAR, EXIT_CHAR, CARRIAGE_RETURN]) false
        = some (NO_ERROR, true, s2) ∧
      s2.outFile.calls = [] ++ save_calls [['a', 'b'],
        ['a', 'b', 'c', 'd', 'e', 'f', 'g', 'h', 'i', 'j']] ∧
      s2.modified = false ∧
      s2.lines = [['a', 'b'], ['a', 'b', 'c', 'd', 'e', 'f', 'g', 'h', 'i', 'j']] ∧
      s2.scanner = [] ∧
      s2.printer =
        (PWEdit.cursor_sequence 2 1 ++ List.replicate 11 ' ' ++ PWEdit.cursor_sequence 2 1 ++
          [':', 'w', 'q']) ++
        (PWEdit.cursor_sequence 2 1 ++ "Trimming...".toList ++ PWEdit.cursor_sequence 2 1 ++
          "Saving...  ".toList ++ (PWEdit.cursor_sequence 2 4 ++ ['1'] ++
            (PWEdit.cursor_sequence 2 4 ++ ['2']))) ++
        (PWEdit.cursor_sequence 2 1 ++ ['a', 'b', 'c', 'd', 'e', 'f', 'g', 'h', 'i', 'j']) ++
        PWEdit.cursor_sequence 2 10 ∧
      ¬ (PWEdit.unsavedChangesMessage <:+: s2.printer) :=
  let ⟨s2, h1, h2, h3, h4, h5, h6⟩ :=
    C2_save_then_quit (PWEdit.unsaved [SAVE_CHAR, EXIT_CHAR, CARRIAGE_RETURN]) CARRIAGE_RETURN
      [] rfl (fun _ => rfl) rfl (by decide)
  have h7 : s2.printer =
      (PWEdit.cursor_sequence 2 1 ++ List.replicate 11 ' ' ++ PWEdit.cursor_sequence 2 1 ++
        [':', 'w', 'q']) ++
      (PWEdit.cursor_sequence 2 1 ++ "Trimming...".toList ++ PWEdit.cursor_sequence 2 1 ++
        "Saving...  ".toList ++ (PWEdit.cursor_sequence 2 4 ++ ['1'] ++
          (PWEdit.cursor_sequence 2 4 ++ ['2']))) ++
      (PWEdit.cursor_sequence 2 1 ++ ['a', 'b', 'c', 'd', 'e', 'f', 'g', 'h', 'i', 'j']) ++
      PWEdit.cursor_sequence 2 10 := h6.trans (by decide)
  ⟨s2, h1, h2, h3, h4, h5, h7, by rw [h7]; decide⟩

set_option maxRecDepth 100000 in
/-- C2 fails as stated: with unsaved changes and the keystrokes `w`, `q`,
carriage return, `command` returns `NO_ERROR` with the exit flag set, and the
text of the warning is no part of what it wrote. -/
theorem C2_counterexample :
    (PWEdit.unsaved [SAVE_CHAR, EXIT_CHAR, CARRIAGE_RETURN]).modified = true ∧
    (PWEdit.command (PWEdit.unsaved [SAVE_CHAR, EXIT_CHAR, CARRIAGE_RETURN]) false).map
      (fun r => (r.1, r.2.1, decide (PWEdit.unsavedChangesMessage <:+: r.2.2.printer)))
        = some (NO_ERROR, true, false) := by
  decide

end PropWare
